import Mathlib

/-!
# Pulsar Server Framework: wire framing, response construction and message storing

A shallow embedding of the MAI framing code of the Pulsar Server Framework
(`RequestParser.cpp`, `RequestResponse.cpp`, `RequestProcessor_ForwardedResponses.cpp`,
`RequestProcessor.cpp`) and theorems about it.

Conventions of the embedding

* A byte is a `Fin 256`; memory reached through a `char*` is the list of bytes that
  starts at the address, so `&p[k]` is `p.drop k`.
* `USHORT`, `UINT`/`ULONG` and `UINT64` values are natural numbers; where the C code
  truncates, the embedding reduces modulo `2^16`, `2^32` or `2^64`. A C `int` is an
  integer, and its conversion to `unsigned int` is explicit.
* The host is little-endian (the framework is built for Windows, x86/x64), so a
  multi-byte load or `memcpy_s` of an integer sees its least significant byte first,
  and `htons`/`htonl`/`ntohs`/`ntohl` swap bytes. `size_t` is 64 bits wide (LLP64).
* A function that throws `ResponseCreationException` returns an `Option`. Logging,
  profiling, locks and `std::bad_alloc` are not part of the embedding, and an `ASSERT`
  is read as a statement about the states the code runs in, not as a branch.
* A `std::set` or `std::map` is the list of its elements in iteration order.
-/

set_option autoImplicit false

namespace Pulsar

/-! ## Bytes, loads and stores -/

/-- One `char` of a buffer. -/
abbrev Byte := Fin 256

/-- The byte holding the low eight bits of `x`. -/
def byteOf (x : Nat) : Byte := ⟨x % 256, Nat.mod_lt x (by decide)⟩

/-- Reading `mem[i]` as an unsigned value. -/
def loadByte (mem : List Byte) (i : Nat) : Nat := (mem.getD i 0).val

/-- The load `*((USHORT*) &mem[i])` on the little-endian host. -/
def loadUSHORT (mem : List Byte) (i : Nat) : Nat :=
  loadByte mem i + 256 * loadByte mem (i + 1)

/-- The load `*((unsigned int*) &mem[i])` on the little-endian host. -/
def loadUINT (mem : List Byte) (i : Nat) : Nat :=
  loadByte mem i + 256 * loadByte mem (i + 1) + 65536 * loadByte mem (i + 2)
    + 16777216 * loadByte mem (i + 3)

/-- The load `*((UINT64*) &mem[i])` on the little-endian host. -/
def loadUINT64 (mem : List Byte) (i : Nat) : Nat :=
  loadUINT mem i + 4294967296 * loadUINT mem (i + 4)

/-- The two bytes that `memcpy_s (dst, _, &x, sizeof(USHORT))` copies. -/
def bytesOfUSHORT (x : Nat) : List Byte := [byteOf x, byteOf (x / 256)]

/-- The four bytes that `memcpy_s (dst, _, &x, sizeof(UINT))` copies. -/
def bytesOfUINT (x : Nat) : List Byte :=
  [byteOf x, byteOf (x / 256), byteOf (x / 65536), byteOf (x / 16777216)]

/-- The eight bytes that `memcpy_s (dst, _, &x, sizeof(UINT64))` copies. -/
def bytesOfUINT64 (x : Nat) : List Byte :=
  bytesOfUINT (x % 4294967296) ++ bytesOfUINT (x / 4294967296)

/-- Byte swap of a 16-bit value: `htons` on the little-endian host. -/
def htons (x : Nat) : Nat := (x % 256) * 256 + (x / 256) % 256

/-- Byte swap of a 16-bit value: `ntohs` on the little-endian host. -/
def ntohs (x : Nat) : Nat := htons x

/-- Byte swap of a 32-bit value: `htonl` on the little-endian host (the argument is a
32-bit `u_long`, so a wider value is truncated first). -/
def htonl (x : Nat) : Nat :=
  (x % 256) * 16777216 + (x / 256 % 256) * 65536 + (x / 65536 % 256) * 256
    + (x / 16777216) % 256

/-- Byte swap of a 32-bit value: `ntohl` on the little-endian host. -/
def ntohl (x : Nat) : Nat := htonl x

/-- The macro `htonll(x)` of `Pulsar.h`:
`(1==htonl(1)) ? (x) : ((uint64_t)htonl((x) & 0xFFFFFFFF) << 32) | htonl((x) >> 32)`. -/
def htonll (x : Nat) : Nat :=
  if 1 = htonl 1 then x
  else ((htonl (x &&& 0xFFFFFFFF) <<< 32) % 18446744073709551616) ||| htonl (x >>> 32)

/-- The macro `ntohll(x)` of `Pulsar.h`:
`(1==ntohl(1)) ? (x) : ((uint64_t)ntohl((x) & 0xFFFFFFFF) << 32) | ntohl((x) >> 32)`. -/
def ntohll (x : Nat) : Nat :=
  if 1 = ntohl 1 then x
  else ((ntohl (x &&& 0xFFFFFFFF) <<< 32) % 18446744073709551616) ||| ntohl (x >>> 32)

/-! ## Constants of `Pulsar.h` and `RequestProcessor.h` -/

/-- The preamble `"MAI"`. -/
def MSG_PREAMBLE : List Byte := [0x4D, 0x41, 0x49]

/-- The length of the preamble, `sizeof(MSG_PREAMBLE)-1`. -/
abbrev PREAMBLE_BYTES : Nat := 3

/-- The length of the version field, `sizeof(USHORT)`. -/
abbrev VERSION_BYTES : Nat := 2

/-- The length of the size field, `sizeof(unsigned int)`. -/
abbrev SIZE_BYTES : Nat := 4

/-- The length of the header, `PREAMBLE_BYTES+VERSION_BYTES+SIZE_BYTES`. -/
abbrev HEADER_SIZE : Nat := PREAMBLE_BYTES + VERSION_BYTES + SIZE_BYTES

/-- The length of the handle count of a forwarded response, `sizeof(unsigned int)`. -/
abbrev HANDLE_BYTES : Nat := 4

/-- The reserved version of framework messages. -/
abbrev SPECIAL_COMMUNICATION : Nat := 0xFFFF

/-- The version of a session that has not sent a valid header yet. -/
abbrev UNINITIALIZED_VERSION : Nat := 0

/-- The version argument that stands for the version of the processor itself. -/
abbrev DEFAULT_VERSION : Nat := UNINITIALIZED_VERSION

/-- Return code of the parser: a complete request is in the buffer. -/
abbrev REQUEST_FOUND : Nat := 0

/-- Return code of the parser: the preamble is not `"MAI"`. -/
abbrev INVALID_HEADER : Nat := 1

/-- Return code of the parser: the version is not acceptable. -/
abbrev INVALID_VERSION : Nat := 2

/-- Return code of the parser: the declared size is not acceptable. -/
abbrev INVALID_SIZE : Nat := 3

/-- Return code of the parser: more bytes are needed. -/
abbrev WAIT_FOR_MORE_BYTES : Nat := 7

/-- Response code of a keep-alive. -/
abbrev RESPONSE_KEEP_ALIVE : Nat := 0

/-- Response code of an error. -/
abbrev RESPONSE_ERROR : Nat := 1

/-- Response code of the acknowledgement of a forwarded response. -/
abbrev RESPONSE_ACKNOWLEDGEMENT_OF_FORWARDED_RESP : Nat := 2

/-- Response code of a fatal error. -/
abbrev RESPONSE_FATAL_ERROR : Nat := 3

/-- Response type of every response whose version is not `SPECIAL_COMMUNICATION`. -/
abbrev RESPONSE_ORDINARY : Nat := 0xFF

/-- The most handles of one forwarded response,
`(1024*128)/sizeof(m_ClientRegistrationNumber)`. -/
abbrev MAX_HANDLES_IN_FORWARDED_RESPONSE : Nat := (1024 * 128) / 8

/-- The bound on the sizes an application may configure, `(1024*1024)`. -/
abbrev MAX_POSSIBLE_REQUEST_RESPONSE_SIZE : Nat := 1024 * 1024

/-! ## Data types of `TypeDefinitions.h` -/

/-- The `uv_buf_t` of libuv: `base` is `none` for `NULL`, and otherwise the memory that
starts at the address. -/
structure Buffer where
  base : Option (List Byte)
  len : Nat
deriving DecidableEq, Repr

/-- The bytes a buffer designates: `len` bytes from `base` on. -/
def Buffer.bytes (b : Buffer) : List Byte :=
  match b.base with
  | none => []
  | some mem => mem.take b.len

/-- The struct `stVersionParameters`; both fields are C `int`s. -/
structure VersionParameters where
  m_MaxRequestSize : Int
  m_MaxResponseSize : Int
deriving DecidableEq, Repr

/-- The struct `stClientHandle`. -/
structure ClientHandle where
  m_ClientRegistrationNumber : Nat
  m_ServerIPv4Address : Nat
deriving DecidableEq, Repr

/-- The `operator <` of `stClientHandle`, which orders a `std::set<ClientHandle>`. -/
def ClientHandle.lt (a ch : ClientHandle) : Bool :=
  if a.m_ServerIPv4Address < ch.m_ServerIPv4Address then true
  else if a.m_ServerIPv4Address > ch.m_ServerIPv4Address then false
  else decide (a.m_ClientRegistrationNumber < ch.m_ClientRegistrationNumber)

/-- The type `ClientHandles`, a `std::set<ClientHandle>`, as the list of its elements in
iteration order. -/
abbrev ClientHandles := List ClientHandle

/-- The call `clienthandles.insert(clienthandle)` on a `std::set<ClientHandle>`: the
element goes to its place in the order, and an equivalent element already in the set
keeps the new one out. -/
def insertClientHandle (clienthandle : ClientHandle) : ClientHandles → ClientHandles
  | [] => [clienthandle]
  | x :: rest =>
    if clienthandle.lt x then clienthandle :: x :: rest
    else if x.lt clienthandle then x :: insertClientHandle clienthandle rest
    else x :: rest

/-- The conversion of an `int` to `unsigned int` (as in `UINT MaxResponseSize =
pVersionParams->m_MaxResponseSize`). -/
def UINT_of_int (x : Int) : Nat := (x % 4294967296).toNat

/-- The values of the C type `int`. -/
def IsInt (x : Int) : Prop := -2147483648 ≤ x ∧ x < 2147483648

instance (x : Int) : Decidable (IsInt x) := by
  unfold IsInt; infer_instance

/-- The parameters of a version whose processor serves requests: the fields are C `int`s,
and `LocalClientsManager::InitiateRequestProcessorsAndValidateParameters` refuses to
start the server (`UV_EINVAL`) when `m_MaxRequestSize <= 0` or `m_MaxResponseSize <= 0`. -/
def ValidVersionParameters (p : VersionParameters) : Prop :=
  0 < p.m_MaxRequestSize ∧ p.m_MaxRequestSize < 2147483648
    ∧ 0 < p.m_MaxResponseSize ∧ p.m_MaxResponseSize < 2147483648

instance (p : VersionParameters) : Decidable (ValidVersionParameters p) := by
  unfold ValidVersionParameters; infer_instance

/-! ## `RequestParser.cpp` -/

/-- What `ValidateProtocolAndExtractRequest` leaves behind: the return code and the two
reference parameters. -/
structure ParseResult where
  code : Nat
  ExistingVersion : Nat
  request_out : Buffer
deriving DecidableEq, Repr

/-- The preamble loop of the parser: some `input_buffer[i]` differs from
`MSG_PREAMBLE[i]` for an `i < PREAMBLE_BYTES`. -/
def preambleMismatch (input_buffer : List Byte) : Bool :=
  (List.range PREAMBLE_BYTES).any
    (fun i => input_buffer.getD i 0 != MSG_PREAMBLE.getD i 0)

/-- The function `RequestParser::ValidateProtocolAndExtractRequest`. The first argument
is the processor table behind `GetVersionParameters`. -/
def ValidateProtocolAndExtractRequest (GetVersionParameters : Nat → Option VersionParameters)
    (input_buffer : List Byte) (buffer_length : Nat) (ExistingVersion : Nat)
    (request_out : Buffer) : ParseResult :=
  if buffer_length < HEADER_SIZE + 1 then
    ⟨WAIT_FOR_MORE_BYTES, ExistingVersion, request_out⟩
  else if preambleMismatch input_buffer then
    ⟨INVALID_HEADER, ExistingVersion, request_out⟩
  else
    let Version_n := loadUSHORT input_buffer PREAMBLE_BYTES
    let Version := ntohs Version_n
    if Version > 0xFFFF ∨ Version = UNINITIALIZED_VERSION
        ∨ (ExistingVersion ≠ UNINITIALIZED_VERSION ∧ ExistingVersion ≠ Version) then
      ⟨INVALID_VERSION, ExistingVersion, request_out⟩
    else
      let ExistingVersion := Version
      let ReqSize_n := loadUINT input_buffer (PREAMBLE_BYTES + VERSION_BYTES)
      let ReqSize := ntohl ReqSize_n
      if ReqSize = 0 then
        ⟨INVALID_SIZE, ExistingVersion, request_out⟩
      else
        match GetVersionParameters ExistingVersion with
        | none => ⟨INVALID_VERSION, ExistingVersion, request_out⟩
        | some pVersionParameters =>
          let MaxRequestSize := UINT_of_int pVersionParameters.m_MaxRequestSize
          if ReqSize > MaxRequestSize then
            ⟨INVALID_SIZE, ExistingVersion, request_out⟩
          else
            let request_out : Buffer := { request_out with len := ReqSize }
            if (ReqSize + HEADER_SIZE) % 18446744073709551616 > buffer_length then
              ⟨WAIT_FOR_MORE_BYTES, ExistingVersion, request_out⟩
            else
              ⟨REQUEST_FOUND, ExistingVersion,
                { request_out with base := some (input_buffer.drop HEADER_SIZE) }⟩

/-! ## `RequestResponse.cpp` -/

/-- The difference `a - b` of two `size_t` values. -/
def subSizeT (a b : Nat) : Nat :=
  (a % 18446744073709551616 + 18446744073709551616 - b % 18446744073709551616)
    % 18446744073709551616

/-- The array that `new char [n]` returns; C++ leaves its contents unspecified, here it
holds zeros. -/
def newArray (n : Nat) : List Byte := List.replicate n 0

/-- The call `memcpy_s (&mem[offset], destsz, src, count)`: `count` bytes of `src` replace
the bytes of `mem` from `offset` on. When `count` exceeds `destsz` the C runtime copies
nothing and reports an invalid parameter; `mem` is returned as it was. -/
def memcpy_s (mem : List Byte) (offset destsz : Nat) (src : List Byte) (count : Nat) :
    List Byte :=
  if count ≤ destsz then mem.take offset ++ src.take count ++ mem.drop (offset + count)
  else mem

/-- The function `Response::ConstructResponseForLocalClients`; `none` stands for the
`ResponseCreationException`, and the result is `m_Response`. `NumberOfClients` occurs in
an `ASSERT` only. -/
def ConstructResponseForLocalClients (GetVersionParameters : Nat → Option VersionParameters)
    (response : Buffer) (_NumberOfClients : Nat) (version : Nat) : Option Buffer :=
  let m_Response_len := (response.len + HEADER_SIZE) % 4294967296
  match GetVersionParameters version with
  | none => none
  | some pVersionParams =>
    let MaxResponseSize := UINT_of_int pVersionParams.m_MaxResponseSize
    if subSizeT m_Response_len HEADER_SIZE > MaxResponseSize then none
    else
      let base := newArray m_Response_len
      let version_n := htons version
      let len_n := htonl response.len
      let base := memcpy_s base 0 m_Response_len MSG_PREAMBLE PREAMBLE_BYTES
      let base := memcpy_s base PREAMBLE_BYTES (subSizeT m_Response_len PREAMBLE_BYTES)
        (bytesOfUSHORT version_n) VERSION_BYTES
      let base := memcpy_s base (PREAMBLE_BYTES + VERSION_BYTES)
        (subSizeT m_Response_len (PREAMBLE_BYTES + VERSION_BYTES)) (bytesOfUINT len_n) SIZE_BYTES
      let base := memcpy_s base HEADER_SIZE (subSizeT m_Response_len HEADER_SIZE)
        (response.base.getD []) response.len
      some ⟨some base, m_Response_len⟩

/-- The loop of `ConstructResponseForRemoteClients` that stores the registration numbers
of the handle range in the array `Handles`; the state is the array and the index `j`. -/
def fillHandles (HandlesArraySize : Nat) :
    List ClientHandle → List Byte × Nat → List Byte × Nat
  | [], state => state
  | It :: rest, (Handles, j) =>
    let ClientRegistrationNumber := It.m_ClientRegistrationNumber
    let ClientRegistrationNumber_n := htonll ClientRegistrationNumber
    fillHandles HandlesArraySize rest
      (memcpy_s Handles j ((HandlesArraySize + 4294967296 - j) % 4294967296)
          (bytesOfUINT64 ClientRegistrationNumber_n) 8,
        (j + 8) % 4294967296)

/-- The function `Response::ConstructResponseForRemoteClients`; `none` stands for the
`ResponseCreationException`, and the result is `m_Response`. The handle range
`m_StartIt .. m_EndIt` is the list of its handles in iteration order, and
`m_NumberOfHandles` is the member the constructor has set. -/
def ConstructResponseForRemoteClients (GetVersionParameters : Nat → Option VersionParameters)
    (handleRange : List ClientHandle) (m_NumberOfHandles : Nat)
    (response : Buffer) (version : Nat) : Option Buffer :=
  let HandlesArraySize := (m_NumberOfHandles * 8) % 4294967296
  let Handles := (fillHandles HandlesArraySize handleRange (newArray HandlesArraySize, 0)).1
  let AdditionalFieldsSize := (VERSION_BYTES + HANDLE_BYTES + HandlesArraySize) % 4294967296
  let ResponseLengthWithAdditionalFields := (response.len + AdditionalFieldsSize) % 4294967296
  let m_Response_len := (response.len + HEADER_SIZE + AdditionalFieldsSize) % 4294967296
  match GetVersionParameters SPECIAL_COMMUNICATION with
  | none => none
  | some pVersionParams =>
    let MaxResponseSize := UINT_of_int pVersionParams.m_MaxResponseSize
    if subSizeT m_Response_len HEADER_SIZE > MaxResponseSize then none
    else
      let base := newArray m_Response_len
      let ForwardResponseVersion_n := htons SPECIAL_COMMUNICATION
      let ResponseLengthWithAdditionalFields_n := htonl ResponseLengthWithAdditionalFields
      let version_n := htons version
      let NumberOfHandles_n := htonl m_NumberOfHandles
      let base := memcpy_s base 0 m_Response_len MSG_PREAMBLE PREAMBLE_BYTES
      let base := memcpy_s base PREAMBLE_BYTES (subSizeT m_Response_len PREAMBLE_BYTES)
        (bytesOfUSHORT ForwardResponseVersion_n) VERSION_BYTES
      let base := memcpy_s base (PREAMBLE_BYTES + VERSION_BYTES)
        (subSizeT m_Response_len (PREAMBLE_BYTES + VERSION_BYTES))
        (bytesOfUINT ResponseLengthWithAdditionalFields_n) SIZE_BYTES
      let base := memcpy_s base (PREAMBLE_BYTES + VERSION_BYTES + SIZE_BYTES)
        (subSizeT m_Response_len (PREAMBLE_BYTES + VERSION_BYTES + SIZE_BYTES))
        (bytesOfUSHORT version_n) VERSION_BYTES
      let base := memcpy_s base (PREAMBLE_BYTES + VERSION_BYTES + SIZE_BYTES + VERSION_BYTES)
        (subSizeT m_Response_len (PREAMBLE_BYTES + VERSION_BYTES + SIZE_BYTES + VERSION_BYTES))
        (bytesOfUINT NumberOfHandles_n) HANDLE_BYTES
      let base := memcpy_s base
        (PREAMBLE_BYTES + VERSION_BYTES + SIZE_BYTES + VERSION_BYTES + HANDLE_BYTES)
        (subSizeT m_Response_len
          (PREAMBLE_BYTES + VERSION_BYTES + SIZE_BYTES + VERSION_BYTES + HANDLE_BYTES))
        Handles HandlesArraySize
      let base := memcpy_s base
        (PREAMBLE_BYTES + VERSION_BYTES + SIZE_BYTES + VERSION_BYTES + HANDLE_BYTES
          + HandlesArraySize)
        (subSizeT m_Response_len
          (PREAMBLE_BYTES + VERSION_BYTES + SIZE_BYTES + VERSION_BYTES + HANDLE_BYTES
            + HandlesArraySize))
        (response.base.getD []) response.len
      some ⟨some base, m_Response_len⟩

/-- The members of `class Response` that its constructor computes. -/
structure Response where
  m_Response : Buffer
  m_ServerIPv4Address : Nat
  m_NumberOfHandles : Nat
  m_bIsForward : Bool
  m_bIsMulticast : Bool
  m_bIsUpdate : Bool
  m_ResponseType : Int
deriving DecidableEq, Repr

/-- The value of a `char` as an `int`; `char` is signed. -/
def intOfChar (b : Byte) : Int := if b.val < 128 then (b.val : Int) else (b.val : Int) - 256

/-- The constructor `Response::Response`; `none` stands for the
`ResponseCreationException`. The handle range `StartIt .. EndIt` is the list of its
handles in iteration order. The two `ASSERT`s of the constructor, that the range is not
empty and that its handles name one server, hold at the call in
`CreateResponseAndAddToQueues`. -/
def newResponse (GetVersionParameters : Nat → Option VersionParameters)
    (GetIPAddressOfLocalServer : Nat) (response : Buffer) (handleRange : List ClientHandle)
    (version : Nat) (bIsUpdate : Bool) : Option Response :=
  let m_ServerIPv4Address :=
    match handleRange with
    | [] => 0
    | StartIt :: _ => StartIt.m_ServerIPv4Address
  let m_NumberOfHandles := handleRange.length % 4294967296
  let m_bIsMulticast := if m_NumberOfHandles = 1 then false else true
  let m_ResponseType : Int :=
    if version = SPECIAL_COMMUNICATION then intOfChar ((response.base.getD []).getD 0 0)
    else RESPONSE_ORDINARY
  if response.base = none ∨ response.len = 0 then none
  else if GetIPAddressOfLocalServer = m_ServerIPv4Address then
    match ConstructResponseForLocalClients GetVersionParameters response m_NumberOfHandles
        version with
    | none => none
    | some m_Response =>
      some { m_Response := m_Response, m_ServerIPv4Address := m_ServerIPv4Address,
             m_NumberOfHandles := m_NumberOfHandles, m_bIsForward := false,
             m_bIsMulticast := m_bIsMulticast, m_bIsUpdate := bIsUpdate,
             m_ResponseType := m_ResponseType }
  else if m_NumberOfHandles > MAX_HANDLES_IN_FORWARDED_RESPONSE then none
  else
    match ConstructResponseForRemoteClients GetVersionParameters handleRange m_NumberOfHandles
        response version with
    | none => none
    | some m_Response =>
      some { m_Response := m_Response, m_ServerIPv4Address := m_ServerIPv4Address,
             m_NumberOfHandles := m_NumberOfHandles, m_bIsForward := true,
             m_bIsMulticast := m_bIsMulticast, m_bIsUpdate := bIsUpdate,
             m_ResponseType := m_ResponseType }

/-! ## `RequestProcessor.cpp` -/

/-- What a request processor works on when it stores a message: its three counters, the
`Response` objects that `new Response` has constructed (oldest first), the count of
`RESPONSE_CREATION_EXCEPTION`, the number of `uv_async_send` calls, and, in `queues`, the
state behind `AddResponseToQueues`: the response queues of the local clients and of the
peer servers. -/
structure ProcessorState (σ : Type) where
  m_ResponseObjectsQueued : Int
  m_TotalResponseObjectsQueued : Int
  m_ResponseObjectsSent : Int
  created : List Response
  ResponseCreationExceptionCount : Nat
  asyncSends : Nat
  queues : σ

/-- The type `ClientHandlesPtrs`, a `std::set<ClientHandle*>`, as the list of the handles
it points to, in iteration order (the order of their addresses). -/
abbrev ClientHandlesPtrs := List ClientHandle

/-- The function `RequestProcessor::CreateResponseAndAddToQueues`. The argument
`AddResponseToQueues` is the member function behind `m_pAddResponseToQueuesFunction`; it
receives the response and the handles still in `Clienthandle_ptrs`. -/
def CreateResponseAndAddToQueues {σ : Type}
    (GetVersionParameters : Nat → Option VersionParameters) (GetIPAddressOfLocalServer : Nat)
    (AddResponseToQueues : Response → ClientHandlesPtrs → ProcessorState σ → ProcessorState σ)
    (response : Buffer) (version : Nat) (bIsUpdate : Bool) :
    ClientHandlesPtrs → ProcessorState σ → ProcessorState σ
  | [], st => st
  | StartIt :: rest, st =>
    let handles := if GetIPAddressOfLocalServer ≠ StartIt.m_ServerIPv4Address
        ∧ (StartIt :: rest).length > MAX_HANDLES_IN_FORWARDED_RESPONSE
      then MAX_HANDLES_IN_FORWARDED_RESPONSE else (StartIt :: rest).length
    match newResponse GetVersionParameters GetIPAddressOfLocalServer response
        ((StartIt :: rest).take handles) version bIsUpdate with
    | none => { st with ResponseCreationExceptionCount := st.ResponseCreationExceptionCount + 1 }
    | some pResponse =>
      let st := { st with created := st.created ++ [pResponse] }
      let st := AddResponseToQueues pResponse (StartIt :: rest) st
      CreateResponseAndAddToQueues GetVersionParameters GetIPAddressOfLocalServer
        AddResponseToQueues response version bIsUpdate ((StartIt :: rest).drop handles) st
termination_by Clienthandle_ptrs => Clienthandle_ptrs.length
decreasing_by
  simp only [List.length_drop, List.length_cons, MAX_HANDLES_IN_FORWARDED_RESPONSE,
    Nat.reduceMul, Nat.reduceDiv]
  split <;> omega

/-- The call `pClientHandlesPtrs->insert(pClientHandle)` on a `std::set<ClientHandle*>`;
`addressOf` gives the address of a handle in the set of the caller. -/
def insertPtr (addressOf : ClientHandle → Nat) (pClientHandle : ClientHandle) :
    ClientHandlesPtrs → ClientHandlesPtrs
  | [] => [pClientHandle]
  | x :: rest =>
    if addressOf pClientHandle < addressOf x then pClientHandle :: x :: rest
    else if addressOf x < addressOf pClientHandle then
      x :: insertPtr addressOf pClientHandle rest
    else x :: rest

/-- The statement `ServersAndHandles[ServerIPAddress].insert(pClientHandle)` on the
`std::map<IPv4Address, ClientHandlesPtrs>`, kept as the list of its entries in iteration
order. -/
def insertServerHandle (addressOf : ClientHandle → Nat) (pClientHandle : ClientHandle) :
    List (Nat × ClientHandlesPtrs) → List (Nat × ClientHandlesPtrs)
  | [] => [(pClientHandle.m_ServerIPv4Address, [pClientHandle])]
  | (ServerIPAddress, ptrs) :: rest =>
    if pClientHandle.m_ServerIPv4Address < ServerIPAddress then
      (pClientHandle.m_ServerIPv4Address, [pClientHandle]) :: (ServerIPAddress, ptrs) :: rest
    else if ServerIPAddress < pClientHandle.m_ServerIPv4Address then
      (ServerIPAddress, ptrs) :: insertServerHandle addressOf pClientHandle rest
    else (ServerIPAddress, insertPtr addressOf pClientHandle ptrs) :: rest

/-- The function `RequestProcessor::StoreMessage`. The test `pVersionParams == NULL`,
the first operand of the guard, is the `match`; the other operands follow in order. -/
def StoreMessage {σ : Type}
    (GetVersionParameters : Nat → Option VersionParameters) (GetIPAddressOfLocalServer : Nat)
    (AddResponseToQueues : Response → ClientHandlesPtrs → ProcessorState σ → ProcessorState σ)
    (addressOf : ClientHandle → Nat)
    (clienthandles : ClientHandles) (response : Buffer) (version : Nat) (bIsUpdate : Bool)
    (st : ProcessorState σ) : ProcessorState σ :=
  let st := { st with m_ResponseObjectsQueued := 0, m_TotalResponseObjectsQueued := 0,
                      m_ResponseObjectsSent := 0 }
  match GetVersionParameters version with
  | none => st
  | some pVersionParams =>
    let MaxResponseSize := UINT_of_int pVersionParams.m_MaxResponseSize
    if clienthandles.length = 0 ∨ response.base = none ∨ response.len = 0
        ∨ response.len > MaxResponseSize then
      st
    else
      let ServersAndHandles :=
        clienthandles.foldl (fun m it => insertServerHandle addressOf it m) []
      let st := ServersAndHandles.foldl
        (fun st entry =>
          CreateResponseAndAddToQueues GetVersionParameters GetIPAddressOfLocalServer
            AddResponseToQueues response version bIsUpdate entry.2 st) st
      if bIsUpdate then { st with asyncSends := st.asyncSends + 1 } else st

/-! ## `RequestProcessor_ForwardedResponses.cpp` -/

/-- The function `RequestProcessor_ForwardedResponses::CalculateVersionParameters`: the
parameters of the version `SPECIAL_COMMUNICATION`. -/
def CalculateVersionParameters : VersionParameters :=
  let MaxResponseSizeOfAllVersions : Int := MAX_POSSIBLE_REQUEST_RESPONSE_SIZE
  let MaxNumberOfHandles : Int := MAX_HANDLES_IN_FORWARDED_RESPONSE
  let m_MaxRequestSize := 2 + 4 + (MaxNumberOfHandles * 8) + MaxResponseSizeOfAllVersions
  { m_MaxRequestSize := m_MaxRequestSize, m_MaxResponseSize := m_MaxRequestSize }

/-- One call `SendResponse (&clienthandles, &response, version)` of a processor. -/
structure SendResponseCall where
  clienthandles : ClientHandles
  response : Buffer
  version : Nat
deriving DecidableEq, Repr

/-- What a call of `ProcessRequest` does: the value it returns, whether it has switched
the streaming mode of the sending client on, and its calls of `SendResponse` in order. -/
structure ProcessRequestResult where
  returned : Bool
  streaming : Bool
  sent : List SendResponseCall
deriving DecidableEq, Repr

/-- The loop of `ProcessRequest` that collects the handles, for the remaining
`NumberOfHandles - handle_count` rounds; the state is the set and `index`, and `none`
stands for `return FALSE`. -/
def collectHandles (forwarded_response : Buffer) (ServerIPv4Address : Nat) :
    Nat → ClientHandles × Nat → Option (ClientHandles × Nat)
  | 0, state => some state
  | rounds + 1, (clienthandles, index) =>
    if (index + 8) % 18446744073709551616 ≥ forwarded_response.len then none
    else
      let ClientRegistrationNumber := loadUINT64 (forwarded_response.base.getD []) index
      let index := (index + 8) % 4294967296
      let clienthandle : ClientHandle :=
        { m_ClientRegistrationNumber := ntohll ClientRegistrationNumber
          m_ServerIPv4Address := ServerIPv4Address }
      collectHandles forwarded_response ServerIPv4Address rounds
        (insertClientHandle clienthandle clienthandles, index)

/-- The function `RequestProcessor_ForwardedResponses::ProcessRequest` on the request
`forwarded_response`; `sender` is `GetRequestSendingClientsHandle()`. -/
def ProcessRequest (forwarded_response : Buffer) (sender : ClientHandle) :
    ProcessRequestResult :=
  if forwarded_response.len < 2 + 4 then ⟨false, true, []⟩
  else
    let Version_n := loadUSHORT (forwarded_response.base.getD []) 0
    let Version := ntohs Version_n
    let NumberOfHandles_n := loadUINT (forwarded_response.base.getD []) 2
    let NumberOfHandles := ntohl NumberOfHandles_n
    let MinimumLength := (VERSION_BYTES + HANDLE_BYTES + NumberOfHandles * 8 + 1) % 4294967296
    if forwarded_response.len < MinimumLength then ⟨false, true, []⟩
    else
      match collectHandles forwarded_response sender.m_ServerIPv4Address NumberOfHandles
          ([], 2 + 4) with
      | none => ⟨false, true, []⟩
      | some (clienthandles, index) =>
        let response : Buffer :=
          { base := some ((forwarded_response.base.getD []).drop index)
            len := (forwarded_response.len + 4294967296 - index) % 4294967296 }
        let acknowledgement : Buffer :=
          { base := some [byteOf RESPONSE_ACKNOWLEDGEMENT_OF_FORWARDED_RESP], len := 1 }
        ⟨true, true,
          [⟨clienthandles, response, Version⟩,
            ⟨insertClientHandle sender [], acknowledgement, SPECIAL_COMMUNICATION⟩]⟩

/-! ## The wire format in the words of the protocol description -/

/-- The `w` bytes of `x` in network byte order, most significant byte first. -/
def bigEndian : Nat → Nat → List Byte
  | 0, _ => []
  | w + 1, x => byteOf (x / 256 ^ w) :: bigEndian w x

/-- The master protocol header: `"MAI"`, the version in two bytes, the size of the body in
four bytes, both in network byte order. -/
def frameHeader (version size : Nat) : List Byte :=
  MSG_PREAMBLE ++ bigEndian 2 version ++ bigEndian 4 size

/-- A complete frame: the header that declares the length of the payload, then the
payload. -/
def frame (version : Nat) (payload : List Byte) : List Byte :=
  frameHeader version payload.length ++ payload

/-- The registration numbers of a forwarded response on the wire: eight bytes each, in
network byte order, one after the other. -/
def registrationNumbersBE : List Nat → List Byte
  | [] => []
  | r :: rest => bigEndian 8 r ++ registrationNumbersBE rest

/-- The body of a forwarded response: the version of the sender in two bytes, the number
of handles in four bytes, the registration numbers, the payload. -/
def forwardedBody (senderVersion : Nat) (registrationNumbers : List Nat)
    (payload : List Byte) : List Byte :=
  bigEndian 2 senderVersion ++ bigEndian 4 registrationNumbers.length
    ++ registrationNumbersBE registrationNumbers ++ payload

/-- The `std::set<ClientHandle>` that results from inserting, into `clienthandles`, the
handles of the server `ServerIPv4Address` with the given registration numbers, in the
order of the list. -/
def insertAll (ServerIPv4Address : Nat) (registrationNumbers : List Nat)
    (clienthandles : ClientHandles) : ClientHandles :=
  registrationNumbers.foldl
    (fun s r => insertClientHandle ⟨r, ServerIPv4Address⟩ s) clienthandles

/-- The order of a `std::set<ClientHandle>`: every element is less than the elements
after it. -/
def SortedHandles (s : ClientHandles) : Prop :=
  s.Pairwise (fun a b => a.lt b = true)

/-- The version of a session after a sequence of calls of the parser, each with its own
buffer, length and `request_out`; `ExtractRequestOffTheBuffer` passes `pClient->m_Version`
by reference. -/
def sessionVersionAfter (params : Nat → Option VersionParameters)
    (calls : List (List Byte × Nat × Buffer)) (version : Nat) : Nat :=
  calls.foldl (fun ver c =>
    (ValidateProtocolAndExtractRequest params c.1 c.2.1 ver c.2.2).ExistingVersion) version

/-! ## Sessions, response objects and the state of the server -/

/-- The constant `REQUESTCOUNT` of `Pulsar.h`. -/
abbrev REQUESTCOUNT : Nat := 1

/-- The constant `RESPONSECOUNT` of `Pulsar.h`. -/
abbrev RESPONSECOUNT : Nat := 2

/-- The struct `LockRequestsResponses` of `TypeDefinitions.h` without its lock. The two
counts are `int`s; `++` and `--` on them are the integer successor and predecessor, an
overflow being undefined in C++. -/
structure LockRequestsResponses where
  Requests : Int
  Responses : Int
  LastActivityTime : Int
deriving DecidableEq, Repr

/-- The members of `struct stClient` (`LocalClientsManager.h`) for the inbound side, with
the values the constructor gives them. `allocated` is the array from `new char [...]`
that `m_Request.base` points to, and `none` while `m_Request.base == m_Header`;
`m_Request_len` is `m_Request.len`. `parsed` records, for every call of the parser in
`ExtractRequestOffTheBuffer`, the return code with the values of `m_Request_Index` and
`m_Request.len` at the call. -/
structure RequestSide where
  m_Header : List Byte := List.replicate 10 0
  allocated : Option (List Byte) := none
  m_Request_len : Nat := 10
  m_Request_Index : Nat := 0
  m_RequestSizeFound : Int := 0
  m_bStreaming : Bool := false
  m_bRequestMemoryAllocatedForStreaming : Bool := false
  m_bRejectedPreviousRequestBytes : Bool := false
  parsed : List (Nat × Nat × Nat) := []

/-- The members of `struct stClient` (`LocalClientsManager.h`) that the pool, the response
queues and the disconnection use. A `Response*` is the address of the response object, a
`std::deque` is the list of its elements from front to back, and
`m_pResponsesBuffersBeingSent` is the array of `MaxPendingResponses` buffers. -/
structure stClient where
  m_bIsAccepted : Bool
  m_bIsReadStarted : Bool
  m_bIsAddedToPool : Bool
  m_ClientHandle : ClientHandle
  m_bDeleted : Bool
  m_Version : Nat
  m_bRequestIsBeingProcessed : Bool
  m_bRequestProcessingFinished : Bool
  m_LockRequestsResponses : LockRequestsResponses
  m_ResponsesQueue1 : List Nat
  m_ResponsesQueue2 : List Nat
  m_bResponseQueueFull : Bool
  m_pResponsesBuffersBeingSent : List Buffer
  m_pResponsesBeingSent : List Nat
  m_bDisconnectInitiated : Bool
  m_bToBeDisconnected : Bool
  request : RequestSide := {}

/-- An object of `class Response`: the members its constructor computes, the members
that change while it is queued and sent, and whether `DEL` has deleted it. -/
structure ResponseObject where
  members : Response
  m_ReferenceCount : Int
  ResponseSentCount : Int
  bAddedToStat : Bool
  deleted : Bool
  ForwardError : Int := 0

/-- The counters of `struct ServerStat` (`TypeDefinitions.h`) that the functions below
change; `ServerStat staticServerStat={}` starts all of them at 0. -/
structure ServerStat where
  ClientsConnectedCount : Int := 0
  ClientsDisconnectedCount : Int := 0
  DisconnectionsByServer : Int := 0
  DisconnectionsByClients : Int := 0
  ResponsesBeingSent : Int := 0
  ResponsesInPeerServersQueues : Int := 0
  ResponsesInLocalClientsQueues : Int := 0
  MemoryConsumptionByResponsesInQueue : Int := 0
  ResponsesKeepAlives : Int := 0
  ResponsesErrors : Int := 0
  ResponsesAcknowledgementsOfForwardedResponses : Int := 0
  ResponsesFatalErrors : Int := 0
  ResponsesOrdinary : Int := 0
  ResponsesForwarded : Int := 0
  ResponsesMulticasts : Int := 0
  ResponsesUpdates : Int := 0
  ResponsesSent : Int := 0
  ResponsesFailedToQueue : Int := 0
  ResponsesFailedToSend : Int := 0
  TotalResponseBytesSent : Int := 0
  ResponsesFailedToForward : Int := 0
  ForwardErrorWritingServer : Nat := 0
  ForwardErrorConnectingTimedout : Nat := 0
  ForwardErrorOverflowed : Nat := 0
  ForwardErrorDisconnecting : Nat := 0
  ForwardErrorDisconnected : Nat := 0
deriving DecidableEq

/-- The conversion of an `INT64` to `UINT64`. -/
def UINT64_of_INT64 (x : Int) : Nat := (x % 18446744073709551616).toNat

/-- The constructor `stClient::stClient`. The two arguments `lockInit` are the values of
its two `uv_rwlock_init` calls; `none` stands for the `ClientCreationException`, thrown
before the count of connected clients is increased. `MaxPendingResponses` is the common
parameter of that name and `now` the value of `time(NULL)`. -/
def new_stClient (lockInit1 lockInit2 : Int) (MaxPendingResponses : Int) (now : Int)
    (stServerStat : ServerStat) (ServerIPv4Address : Nat) : Option stClient × ServerStat :=
  if lockInit1 < 0 then (none, stServerStat)
  else if lockInit2 < 0 then (none, stServerStat)
  else
    let stServerStat :=
      { stServerStat with ClientsConnectedCount := stServerStat.ClientsConnectedCount + 1 }
    (some
      { m_bIsAccepted := false, m_bIsReadStarted := false, m_bIsAddedToPool := false,
        m_ClientHandle :=
          { m_ClientRegistrationNumber := UINT64_of_INT64 stServerStat.ClientsConnectedCount,
            m_ServerIPv4Address := ServerIPv4Address },
        m_bDeleted := false,
        m_Version := UNINITIALIZED_VERSION,
        m_bRequestIsBeingProcessed := false,
        m_bRequestProcessingFinished := true,
        m_LockRequestsResponses := { Requests := 0, Responses := 0, LastActivityTime := now },
        m_ResponsesQueue1 := [], m_ResponsesQueue2 := [],
        m_bResponseQueueFull := false,
        m_pResponsesBuffersBeingSent := List.replicate MaxPendingResponses.toNat ⟨none, 0⟩,
        m_pResponsesBeingSent := [],
        m_bDisconnectInitiated := false,
        m_bToBeDisconnected := false },
      stServerStat)

/-- The destructor `stClient::~stClient`. -/
def delete_stClient (pClient : stClient) (stServerStat : ServerStat) : stClient × ServerStat :=
  ({ pClient with m_bDeleted := true },
   { stServerStat with ClientsDisconnectedCount := stServerStat.ClientsDisconnectedCount + 1 })


/-- The constant `CONNECTION_CONNECTING` of `Pulsar.h`. -/
abbrev CONNECTION_CONNECTING : Int := 1

/-- The constant `CONNECTION_CONNECTED` of `Pulsar.h`. -/
abbrev CONNECTION_CONNECTED : Int := 2

/-- The constant `CONNECTION_DISCONNECTING` of `Pulsar.h`. -/
abbrev CONNECTION_DISCONNECTING : Int := 3

/-- The constant `CONNECTION_UNINITIATED` of `Pulsar.h`. -/
abbrev CONNECTION_UNINITIATED : Int := 4

/-- The constant `CONNECTION_DISCONNECTED` of `Pulsar.h`. -/
abbrev CONNECTION_DISCONNECTED : Int := 5

/-- The constant `CONNECTION_CONNECTING_TIMED_OUT` of `Pulsar.h`. -/
abbrev CONNECTION_CONNECTING_TIMED_OUT : Int := 6

/-- The constant `CONNECTION_OVERFLOWED` of `Pulsar.h`. -/
abbrev CONNECTION_OVERFLOWED : Int := 7

/-- The constant `RETRY_CONNECTION_AFTER` of `Pulsar.h`, in seconds. -/
abbrev RETRY_CONNECTION_AFTER : Int := 30

/-- The constant `MAX_OVERFLOWED_TIME` of `Pulsar.h`, in seconds. -/
abbrev MAX_OVERFLOWED_TIME : Int := 90

/-- The constant `WAIT_FOR_CONNECTION` of `Pulsar.h`, in seconds. -/
abbrev WAIT_FOR_CONNECTION : Int := 150

/-- The members of `struct stPeerServer` (`PeerServersManager.h`) that the connection
state and the response queues use. `m_connection` is `none` for `NULL`.
`m_response_buffer` holds the first `m_ResponseBufferIndex` bytes of the array of that
name, the bytes received and not yet extracted; the bytes of the array behind them are
never read. -/
structure stPeerServer where
  m_ServerIPv4Address : Nat
  m_Version : Nat
  m_connection : Option Nat
  Status : Int
  ResponsesForwarded : Int
  m_ResponseBufferIndex : Nat
  m_ResponsesQueue1 : List Nat
  m_ResponsesQueue2 : List Nat
  m_pResponsesBeingSent : List Nat
  OverflowedTime : Int
  DisconnectedTime : Int
  ConnectingTime : Int
  m_bResponseForwardingSucceededLastTime : Bool
  m_pResponsesBuffersBeingForwarded : List Buffer := []
  m_response_buffer : List Byte := []
deriving DecidableEq, Repr

/-- The function `stPeerServer::Construct`, which the constructor calls. -/
def new_stPeerServer (oServerIPv4Address : Nat) : stPeerServer :=
  { m_ServerIPv4Address := oServerIPv4Address,
    m_Version := DEFAULT_VERSION,
    m_connection := none,
    Status := CONNECTION_UNINITIATED,
    ResponsesForwarded := 0,
    m_ResponseBufferIndex := 0,
    m_ResponsesQueue1 := [], m_ResponsesQueue2 := [],
    m_pResponsesBeingSent := [],
    OverflowedTime := 0, DisconnectedTime := 0, ConnectingTime := 0,
    m_bResponseForwardingSucceededLastTime := true }

/-- A pointer to a `stNode` (`CommonComponents.h`): the address of a session, whose
`IsServer()` is false, or of a peer server, whose `IsServer()` is true. -/
inductive Node where
  | client (pClient : Nat)
  | server (pPeerServer : Nat)
deriving DecidableEq, Repr

/-- One call of `uv_write`: the session or peer, the first `NumberOfBuffers` buffers of its
array of buffers, and the responses of `m_pResponsesBeingSent` that these buffers belong
to. -/
structure uv_write_call where
  pNode : Node
  bufs : List Buffer
  responses : List Nat
deriving DecidableEq, Repr

/-- The state of the server that the functions of `ClientsPool`, `LocalClientsManager`,
`PeerServersManager` and `ConnectionsManager` below work on. The objects of `stClient`,
`Response` and `stPeerServer` are found by their addresses; a `std::map` is the list of
its entries and a `std::set` the list of its elements, both in iteration order. `errors`
counts the `LOG (ERROR, ...)` lines, `writes` lists the calls of `uv_write`,
`disconnections` the sessions given to `uv_queue_work` for the disconnection
processing, `connectionsInitiated` the peers given to `uv_getaddrinfo`, `closes` the
peers whose connection is given to `uv_close`, and `stores` the session and index of
every assignment to an element of `m_pResponsesBuffersBeingSent` by the drain loop,
oldest first.
Locks, profiling and the other log levels and statistics are left out, and no
`std::bad_alloc` is thrown. -/
structure Server where
  clients : Nat → stClient
  responses : Nat → ResponseObject
  peers : Nat → stPeerServer
  m_ClientsMap : List (Nat × Nat)
  m_bIsServerShuttingDown : Bool
  m_bResponseDirectionFlag : Bool
  after_send_response_called_by_send_response : Bool
  m_RecevingClientsSet1 : List Nat
  m_RecevingClientsSet2 : List Nat
  m_ServersInfo : List (Nat × Nat)
  m_RecevingServersSet1 : List Nat
  m_RecevingServersSet2 : List Nat
  QueuedDisconnections : Int
  m_stServerStat : ServerStat
  errors : Nat
  writes : List uv_write_call
  disconnections : List Nat
  connectionsInitiated : List Nat
  m_ServersConnected : Int := 0
  m_ServersConnecting : Int := 0
  m_ServersClosing : Int := 0
  closes : List Nat := []
  stores : List (Nat × Nat) := []

/-- The assignment `*pClient = c` to the `stClient` object at the address `pClient`. -/
def Server.setClient (s : Server) (pClient : Nat) (c : stClient) : Server :=
  { s with clients := Function.update s.clients pClient c }

/-- The lookup `m.find(key)` in a `std::map`; `none` stands for `m.end()`. -/
def mapFind (m : List (Nat × Nat)) (key : Nat) : Option Nat := m.lookup key

/-- The call `m.erase(key)` on a `std::map`. -/
def mapErase (m : List (Nat × Nat)) (key : Nat) : List (Nat × Nat) :=
  m.filter (fun e => e.1 ≠ key)

/-- The assignment `m[key] = value` on a `std::map`. -/
def mapAssign (key value : Nat) : List (Nat × Nat) → List (Nat × Nat)
  | [] => [(key, value)]
  | (k, v) :: rest =>
    if key < k then (key, value) :: (k, v) :: rest
    else if k < key then (k, v) :: mapAssign key value rest
    else (key, value) :: rest

/-! ## `ClientsPool.cpp` -/

/-- The function `ClientsPool::AddClient`. -/
def AddClient (pClient : Nat) (s : Server) : Bool × Server :=
  let ClientRegistrationNumber := (s.clients pClient).m_ClientHandle.m_ClientRegistrationNumber
  if s.m_bIsServerShuttingDown then (false, s)
  else (true, { s with m_ClientsMap := mapAssign ClientRegistrationNumber pClient s.m_ClientsMap })

/-- The function `ClientsPool::RemoveClient`. Its `ASSERT` says that the map holds
`pClient` under the registration number of `pClient`. -/
def RemoveClient (pClient : Nat) (s : Server) : Bool × Server :=
  let ClientRegistrationNumber := (s.clients pClient).m_ClientHandle.m_ClientRegistrationNumber
  if (mapFind s.m_ClientsMap ClientRegistrationNumber).isSome then
    if (s.clients pClient).m_LockRequestsResponses.Requests = 0
        ∧ (s.clients pClient).m_LockRequestsResponses.Responses = 0 then
      (true, { s with m_ClientsMap := mapErase s.m_ClientsMap ClientRegistrationNumber })
    else (false, s)
  else (false, s)

/-- The function `ClientsPool::IncreaseCountForClient`. The handle pointer is `none` for
`NULL`; the result is the return value, the value of the reference argument `pClient`
on return, and the state. `now` is the value of `time(NULL)`. -/
def IncreaseCountForClient (clienthandle : Option ClientHandle) (pClient : Option Nat)
    (RequestORResponse : Nat) (now : Int) (s : Server) : Bool × Option Nat × Server :=
  match clienthandle with
  | none => (false, pClient, { s with errors := s.errors + 1 })
  | some h =>
    match mapFind s.m_ClientsMap h.m_ClientRegistrationNumber with
    | none => (false, pClient, s)
    | some p =>
      let c := s.clients p
      if c.m_ClientHandle.m_ClientRegistrationNumber = h.m_ClientRegistrationNumber
          ∧ c.m_bToBeDisconnected = false then
        let counts := c.m_LockRequestsResponses
        let counts :=
          if RequestORResponse = REQUESTCOUNT then { counts with Requests := counts.Requests + 1 }
          else { counts with Responses := counts.Responses + 1 }
        let counts := { counts with LastActivityTime := now }
        (true, some p, s.setClient p { c with m_LockRequestsResponses := counts })
      else (false, some p, s)

/-- The function `ClientsPool::DecreaseCountForClient`. -/
def DecreaseCountForClient (pClient : Nat) (RequestORResponse : Nat) (now : Int)
    (s : Server) : Bool × Server :=
  let c := s.clients pClient
  let counts := c.m_LockRequestsResponses
  let counts :=
    if RequestORResponse = REQUESTCOUNT then { counts with Requests := counts.Requests - 1 }
    else { counts with Responses := counts.Responses - 1 }
  let counts := { counts with LastActivityTime := now }
  (true, s.setClient pClient { c with m_LockRequestsResponses := counts })

/-- The methods `stClient::MarkToDisconnect` of the session at `pClient`. -/
def MarkToDisconnect (pClient : Nat) (bIsByServer : Bool) (s : Server) : Server :=
  let c := s.clients pClient
  if c.m_bToBeDisconnected then s
  else
    let stat := s.m_stServerStat
    let stat :=
      if bIsByServer then { stat with DisconnectionsByServer := stat.DisconnectionsByServer + 1 }
      else { stat with DisconnectionsByClients := stat.DisconnectionsByClients + 1 }
    { (s.setClient pClient { c with m_bToBeDisconnected := true }) with m_stServerStat := stat }

/-- The method `stClient::IsMarkedToDisconnect` of the session at `pClient`. -/
def IsMarkedToDisconnect (pClient : Nat) (s : Server) : Bool :=
  (s.clients pClient).m_bToBeDisconnected

/-- A pool as `AddClient` builds it: every entry of the map leads to the session whose
registration number is the key of the entry. -/
def PoolConsistent (s : Server) : Prop :=
  ∀ key p, mapFind s.m_ClientsMap key = some p →
    (s.clients p).m_ClientHandle.m_ClientRegistrationNumber = key

/-- One step in the life of the sessions of a server: a call of the constructor
`stClient::stClient`, with the values of its two `uv_rwlock_init` calls and of
`time(NULL)`, or the destruction of the session constructed as number `index`
(counting from 0). -/
inductive SessionEvent where
  | construct (lockInit1 lockInit2 : Int) (now : Int)
  | destruct (index : Nat)
deriving DecidableEq, Repr

/-- The statistics of the server and the sessions constructed so far, oldest first, after
a sequence of constructions and destructions. All sessions share the `ServerStat` of the
server, as in `on_new_client`. -/
def runSessionEvents (MaxPendingResponses : Int) (ServerIPv4Address : Nat) :
    List SessionEvent → ServerStat × List stClient → ServerStat × List stClient
  | [], st => st
  | SessionEvent.construct lockInit1 lockInit2 now :: rest, (stat, sessions) =>
    match new_stClient lockInit1 lockInit2 MaxPendingResponses now stat ServerIPv4Address with
    | (none, stat) =>
      runSessionEvents MaxPendingResponses ServerIPv4Address rest (stat, sessions)
    | (some pClient, stat) =>
      runSessionEvents MaxPendingResponses ServerIPv4Address rest (stat, sessions ++ [pClient])
  | SessionEvent.destruct index :: rest, (stat, sessions) =>
    match sessions[index]? with
    | none => runSessionEvents MaxPendingResponses ServerIPv4Address rest (stat, sessions)
    | some pClient =>
      runSessionEvents MaxPendingResponses ServerIPv4Address rest
        ((delete_stClient pClient stat).2, sessions.set index (delete_stClient pClient stat).1)

/-- What a `SendResponse` call passes on: the handles, the `len` bytes of the response
and the version. -/
def SendResponseCall.content (c : SendResponseCall) : ClientHandles × List Byte × Nat :=
  (c.clienthandles, c.response.bytes, c.version)

/-! ## Queueing responses: `LocalClientsManager.cpp`, `PeerServersManager.cpp`,
`ConnectionsManager.cpp` -/

/-- The call `pSet->insert(p)` on a `std::set` of addresses. -/
def insertAddress (p : Nat) : List Nat → List Nat
  | [] => [p]
  | x :: rest =>
    if p < x then p :: x :: rest
    else if x < p then x :: insertAddress p rest
    else x :: rest

/-- The assignment `*pPeerServer = peer` to the `stPeerServer` object at an address. -/
def Server.setPeer (s : Server) (pPeerServer : Nat) (peer : stPeerServer) : Server :=
  { s with peers := Function.update s.peers pPeerServer peer }

/-- The assignment `*pResponse = r` to the `Response` object at an address. -/
def Server.setResponse (s : Server) (pResponse : Nat) (r : ResponseObject) : Server :=
  { s with responses := Function.update s.responses pResponse r }

/-- The function `LocalClientsManager::AddToClientSet` on the set that `pClientsSet`
points to; the result is the return value and the set. It returns FALSE on
`std::bad_alloc` only. -/
def AddToClientSet (pClientsSet : List Nat) (pClient : Nat) : Bool × List Nat :=
  let bIsClientInSet := decide (pClient ∈ pClientsSet)
  if bIsClientInSet then (true, pClientsSet)
  else (true, insertAddress pClient pClientsSet)

/-- The function `PeerServersManager::AddToServerSet` on the set that `pServersSet`
points to; the result is the return value and the set. It returns FALSE on
`std::bad_alloc` only. -/
def AddToServerSet (pServersSet : List Nat) (pPeerServer : Nat) : Bool × List Nat :=
  let bIsServerInSet := decide (pPeerServer ∈ pServersSet)
  if bIsServerInSet then (true, pServersSet)
  else (true, insertAddress pPeerServer pServersSet)

/-- The function `LocalClientsManager::AddResponseToQueue`. `MaxPendingResponses` is the
common parameter, an `int`; the direction flag selects the queue of the session and the
set of receiving sessions. -/
def LocalClientsManager.AddResponseToQueue (MaxPendingResponses : Int)
    (pResponse pClient : Nat) (s : Server) : Bool × Server :=
  let c := s.clients pClient
  let pResponsesQueue :=
    if s.m_bResponseDirectionFlag then c.m_ResponsesQueue1 else c.m_ResponsesQueue2
  let pClientsSet :=
    if s.m_bResponseDirectionFlag then s.m_RecevingClientsSet1 else s.m_RecevingClientsSet2
  let ResponseQueueSize := pResponsesQueue.length % 4294967296
  if ResponseQueueSize < UINT_of_int (Int.tdiv MaxPendingResponses 2) then
    let pResponsesQueue := pResponse :: pResponsesQueue
    let added := AddToClientSet pClientsSet pClient
    let pResponsesQueue := if added.1 = false then pResponsesQueue.tail else pResponsesQueue
    let bAdded := if added.1 = false then false else true
    let c :=
      if s.m_bResponseDirectionFlag then { c with m_ResponsesQueue1 := pResponsesQueue }
      else { c with m_ResponsesQueue2 := pResponsesQueue }
    let c := { c with m_bResponseQueueFull := false }
    let s :=
      if s.m_bResponseDirectionFlag then { s with m_RecevingClientsSet1 := added.2 }
      else { s with m_RecevingClientsSet2 := added.2 }
    (bAdded, s.setClient pClient c)
  else
    let s := if c.m_bResponseQueueFull = false then { s with errors := s.errors + 1 } else s
    (false, s.setClient pClient { c with m_bResponseQueueFull := true })

/-- The function `LocalClientsManager::AddResponseToClientsQueues`: the loop over the
handles, with `ResponseReferenceCount` and the state of the server. A pool that returns
TRUE also returns the session in `pClient`. -/
def AddResponseToClientsQueues (MaxPendingResponses : Int) (pResponse : Nat) (now : Int) :
    ClientHandlesPtrs → Int × Server → Int × Server
  | [], state => state
  | it :: rest, (ResponseReferenceCount, s) =>
    match IncreaseCountForClient (some it) none RESPONSECOUNT now s with
    | (true, some pClient, s) =>
      match LocalClientsManager.AddResponseToQueue MaxPendingResponses pResponse pClient s with
      | (true, s) =>
        AddResponseToClientsQueues MaxPendingResponses pResponse now rest
          (ResponseReferenceCount + 1, s)
      | (false, s) =>
        AddResponseToClientsQueues MaxPendingResponses pResponse now rest
          (ResponseReferenceCount, (DecreaseCountForClient pClient RESPONSECOUNT now s).2)
    | (_, _, s) =>
      AddResponseToClientsQueues MaxPendingResponses pResponse now rest
        (ResponseReferenceCount, s)

/-- The function `PeerServersManager::AddResponseToQueue`. `newPeer` is the address
that `new stPeerServer` returns when the server of the response has no entry in
`m_ServersInfo` yet. -/
def PeerServersManager.AddResponseToQueue (MaxPendingResponses : Int) (newPeer : Nat)
    (pResponse : Nat) (s : Server) : Bool × Server :=
  let ServerIPv4Address := (s.responses pResponse).members.m_ServerIPv4Address
  let found := mapFind s.m_ServersInfo ServerIPv4Address
  let s :=
    match found with
    | some _ => s
    | none =>
      { (s.setPeer newPeer (new_stPeerServer ServerIPv4Address)) with
        m_ServersInfo := mapAssign ServerIPv4Address newPeer s.m_ServersInfo }
  let pPeerServer := found.getD newPeer
  let peer := s.peers pPeerServer
  let pResponsesQueue :=
    if s.m_bResponseDirectionFlag then peer.m_ResponsesQueue1 else peer.m_ResponsesQueue2
  let pServersSet :=
    if s.m_bResponseDirectionFlag then s.m_RecevingServersSet1 else s.m_RecevingServersSet2
  if MaxPendingResponses ≠ 0 then
    let pResponsesQueue := pResponse :: pResponsesQueue
    let added := AddToServerSet pServersSet pPeerServer
    let pResponsesQueue := if added.1 = false then pResponsesQueue.tail else pResponsesQueue
    let bAdded := if added.1 = false then false else true
    let peer :=
      if s.m_bResponseDirectionFlag then { peer with m_ResponsesQueue1 := pResponsesQueue }
      else { peer with m_ResponsesQueue2 := pResponsesQueue }
    let s :=
      if s.m_bResponseDirectionFlag then { s with m_RecevingServersSet1 := added.2 }
      else { s with m_RecevingServersSet2 := added.2 }
    (bAdded, s.setPeer pPeerServer peer)
  else
    (false, { s with errors := s.errors + 1 })

/-- The function `ConnectionsManager::AddResponseDetailsToServerStat`;
`sizeofResponse` is `sizeof (Response)`. After `DEL (pResponse)` the pointer is `NULL`
and the count is 0, and only the `else` branch runs. -/
def AddResponseDetailsToServerStat (sizeofResponse : Nat) (pResponse : Nat)
    (ResponseReferenceCount : Int) (s : Server) : Server :=
  let stat := s.m_stServerStat
  if ResponseReferenceCount ≠ 0 then
    let r := s.responses pResponse
    let stat :=
      if r.members.m_bIsForward then
        { stat with ResponsesInPeerServersQueues := stat.ResponsesInPeerServersQueues + 1 }
      else
        { stat with ResponsesInLocalClientsQueues := stat.ResponsesInLocalClientsQueues + 1 }
    let stat :=
      { stat with MemoryConsumptionByResponsesInQueue :=
          stat.MemoryConsumptionByResponsesInQueue
            + ((r.members.m_Response.len + sizeofResponse : Nat) : Int) }
    { (s.setResponse pResponse { r with bAddedToStat := true }) with m_stServerStat := stat }
  else
    { s with m_stServerStat :=
        { stat with ResponsesFailedToQueue := stat.ResponsesFailedToQueue + 1 } }

/-- The function `ConnectionsManager::AddResponseToQueues` for the response object at the
address `pResponse`; the result is the reference count it returns and the state. The call
`IncreaseResponseObjectsQueuedCounter` on the processor of the response, made when the
count is not 0, is made by `AddResponseToQueuesOfProcessor`. -/
def ConnectionsManager.AddResponseToQueues (MaxPendingResponses : Int) (sizeofResponse : Nat)
    (newPeer : Nat) (now : Int) (pResponse : Nat) (pClientHandlePtrs : ClientHandlesPtrs)
    (s : Server) : Int × Server :=
  let counted : Int × Server :=
    if (s.responses pResponse).members.m_bIsForward then
      let added := PeerServersManager.AddResponseToQueue MaxPendingResponses newPeer pResponse s
      ((if added.1 then 1 else 0), added.2)
    else
      AddResponseToClientsQueues MaxPendingResponses pResponse now pClientHandlePtrs (0, s)
  let ResponseReferenceCount := counted.1
  let s := counted.2
  let s := s.setResponse pResponse
    { s.responses pResponse with m_ReferenceCount := ResponseReferenceCount }
  let s :=
    if ResponseReferenceCount = 0 then
      s.setResponse pResponse { s.responses pResponse with deleted := true }
    else s
  (ResponseReferenceCount,
    AddResponseDetailsToServerStat sizeofResponse pResponse ResponseReferenceCount s)

/-- The member function behind `m_pAddResponseToQueuesFunction` of a request processor,
`ConnectionsManager::AddResponseToQueues`, on the state of the processor: the response that
`new Response` has constructed is the object at the address `pResponse`. -/
def AddResponseToQueuesOfProcessor (MaxPendingResponses : Int) (sizeofResponse : Nat)
    (newPeer : Nat) (now : Int) (pResponse : Nat)
    (response : Response) (pClientHandlePtrs : ClientHandlesPtrs)
    (st : ProcessorState Server) : ProcessorState Server :=
  let s := st.queues.setResponse pResponse
    { members := response, m_ReferenceCount := 0, ResponseSentCount := 0,
      bAddedToStat := false, deleted := false }
  let added := ConnectionsManager.AddResponseToQueues MaxPendingResponses sizeofResponse
    newPeer now pResponse pClientHandlePtrs s
  let st := { st with queues := added.2 }
  if added.1 = 0 then st
  else { st with m_ResponseObjectsQueued := st.m_ResponseObjectsQueued + 1 }

/-- The queue of a session that `AddResponseToQueue` selects under the present direction
flag. -/
def activeQueue (s : Server) (pClient : Nat) : List Nat :=
  if s.m_bResponseDirectionFlag then (s.clients pClient).m_ResponsesQueue1
  else (s.clients pClient).m_ResponsesQueue2

/-- A sequence of `LocalClientsManager::AddResponseToQueue` calls on one session, with no
send cycle in between: the return values in order and the state at the end. -/
def enqueueAll (MaxPendingResponses : Int) (pClient : Nat) :
    List Nat → Server → List Bool × Server
  | [], s => ([], s)
  | pResponse :: rest, s =>
    let added := LocalClientsManager.AddResponseToQueue MaxPendingResponses pResponse pClient s
    let others := enqueueAll MaxPendingResponses pClient rest added.2
    (added.1 :: others.1, others.2)

/-- The queue of a session that `AddResponseToQueue` does not select under the present
direction flag. -/
def inactiveQueue (s : Server) (pClient : Nat) : List Nat :=
  if s.m_bResponseDirectionFlag then (s.clients pClient).m_ResponsesQueue2
  else (s.clients pClient).m_ResponsesQueue1

/-- Whether both steps of `AddResponseToClientsQueues` succeed for a handle in the state
`s`: the increase of the response count in the pool and the enqueue. -/
def recipientAccepts (MaxPendingResponses : Int) (pResponse : Nat) (now : Int) (s : Server)
    (it : ClientHandle) : Bool :=
  match IncreaseCountForClient (some it) none RESPONSECOUNT now s with
  | (true, some pClient, s) =>
    (LocalClientsManager.AddResponseToQueue MaxPendingResponses pResponse pClient s).1
  | _ => false

/-- The sessions that hold the response after `AddResponseToClientsQueues`: those that the
map of the pool gives for the handles accepted in the state `s`, in the order of the
handles. -/
def recipients (MaxPendingResponses : Int) (pResponse : Nat) (now : Int) (s : Server)
    (handles : ClientHandlesPtrs) : List Nat :=
  (handles.filter (recipientAccepts MaxPendingResponses pResponse now s)).filterMap
    (fun h => mapFind s.m_ClientsMap h.m_ClientRegistrationNumber)

/-! ## The send cycle and the write completions -/

/-- The constant `WRITE_OK` of `Pulsar.h`. -/
abbrev WRITE_OK : Int := 0

/-- The error code `UV_ECONNABORTED` of libuv on Windows; the code tests its sign only. -/
abbrev UV_ECONNABORTED : Int := -4079

/-- The error code `UV_ECONNRESET` of libuv on Windows; the code tests its sign only. -/
abbrev UV_ECONNRESET : Int := -4077

/-- The conversion of an `ULONG` or `size_t` value to `int`. -/
def int_of_ULONG (x : Nat) : Int :=
  if x % 4294967296 < 2147483648 then ((x % 4294967296 : Nat) : Int)
  else ((x % 4294967296 : Nat) : Int) - 4294967296

/-- The function `Response::IsFatalErrorForLocallyConnectedClient`. -/
def IsFatalErrorForLocallyConnectedClient (r : Response) : Bool :=
  if r.m_bIsForward = false ∧ r.m_ResponseType = RESPONSE_FATAL_ERROR then true else false

/-- The function `LocalClientsManager::StopReading`. -/
def StopReading (pClient : Nat) (s : Server) : Server :=
  let c := s.clients pClient
  if c.m_bIsReadStarted = true then s.setClient pClient { c with m_bIsReadStarted := false }
  else s

/-- The function `LocalClientsManager::DisconnectAndDelete`. The call of `uv_queue_work`
for the disconnection processing is recorded in `disconnections`. -/
def DisconnectAndDelete (pClient : Nat) (bIsByServer : Bool) (s : Server) : Bool × Server :=
  if (s.clients pClient).m_bDisconnectInitiated then (false, s)
  else
    let s := MarkToDisconnect pClient bIsByServer s
    let s := StopReading pClient s
    if (s.clients pClient).m_bRequestIsBeingProcessed = true
        ∨ (s.clients pClient).m_bRequestProcessingFinished ≠ true then (false, s)
    else
      let removed : Bool × Server :=
        if (s.clients pClient).m_bIsAddedToPool = false then (true, s)
        else RemoveClient pClient s
      let s := removed.2
      if removed.1 = true then
        if (s.clients pClient).m_bIsAccepted ≠ true then
          (false, { s with errors := s.errors + 1 })
        else
          let s := s.setClient pClient { s.clients pClient with m_bIsAddedToPool := false }
          let s := { s with disconnections := s.disconnections ++ [pClient],
                            QueuedDisconnections := s.QueuedDisconnections + 1 }
          let s := s.setClient pClient { s.clients pClient with m_bDisconnectInitiated := true }
          (true, s)
      else (false, s)

/-- The statistics of `AfterSendingLocalClientsResponses` for a write that succeeded. -/
def countSentResponse (r : Response) (stat : ServerStat) : ServerStat :=
  let stat :=
    if r.m_ResponseType = RESPONSE_KEEP_ALIVE then
      { stat with ResponsesKeepAlives := stat.ResponsesKeepAlives + 1 }
    else if r.m_ResponseType = RESPONSE_ERROR then
      { stat with ResponsesErrors := stat.ResponsesErrors + 1 }
    else if r.m_ResponseType = RESPONSE_ACKNOWLEDGEMENT_OF_FORWARDED_RESP then
      { stat with ResponsesAcknowledgementsOfForwardedResponses :=
          stat.ResponsesAcknowledgementsOfForwardedResponses + 1 }
    else if r.m_ResponseType = RESPONSE_FATAL_ERROR then
      { stat with ResponsesFatalErrors := stat.ResponsesFatalErrors + 1 }
    else if r.m_ResponseType = RESPONSE_ORDINARY then
      { stat with ResponsesOrdinary := stat.ResponsesOrdinary + 1 }
    else stat
  let stat :=
    if r.m_bIsForward then { stat with ResponsesForwarded := stat.ResponsesForwarded + 1 }
    else stat
  let stat :=
    if r.m_bIsMulticast then { stat with ResponsesMulticasts := stat.ResponsesMulticasts + 1 }
    else stat
  let stat :=
    if r.m_bIsUpdate then { stat with ResponsesUpdates := stat.ResponsesUpdates + 1 }
    else stat
  { stat with ResponsesSent := stat.ResponsesSent + 1,
              TotalResponseBytesSent :=
                stat.TotalResponseBytesSent + int_of_ULONG r.m_Response.len }

/-- The function `LocalClientsManager::AfterSendingLocalClientsResponses`; `now` is the
value of `time(NULL)` in `DecreaseCountForClient`. The locked queue and set are those that
the direction flag gives to `AddResponseToQueue`, the unlocked ones the others. -/
def AfterSendingLocalClientsResponses (pClient pResponse : Nat) (status : Int) (now : Int)
    (s : Server) : Server :=
  let r := (s.responses pResponse).members
  let s :=
    if status = WRITE_OK then
      { s with m_stServerStat := countSentResponse r s.m_stServerStat }
    else
      let s := { s with m_stServerStat :=
        { s.m_stServerStat with
          ResponsesFailedToSend := s.m_stServerStat.ResponsesFailedToSend + 1 } }
      if (s.clients pClient).m_bToBeDisconnected = false then
        MarkToDisconnect pClient true { s with errors := s.errors + 1 }
      else s
  let s := (DecreaseCountForClient pClient RESPONSECOUNT now s).2
  let pResponseQueueLocked : List Nat :=
    if s.m_bResponseDirectionFlag then (s.clients pClient).m_ResponsesQueue1
    else (s.clients pClient).m_ResponsesQueue2
  let pResponseQueueUnlocked : List Nat :=
    if s.m_bResponseDirectionFlag then (s.clients pClient).m_ResponsesQueue2
    else (s.clients pClient).m_ResponsesQueue1
  let UnlockedQueueSize := int_of_ULONG pResponseQueueUnlocked.length
  let s :=
    if UnlockedQueueSize ≠ 0 then
      if s.m_bResponseDirectionFlag then
        { s with m_RecevingClientsSet2 := (AddToClientSet s.m_RecevingClientsSet2 pClient).2 }
      else
        { s with m_RecevingClientsSet1 := (AddToClientSet s.m_RecevingClientsSet1 pClient).2 }
    else s
  let LockedQueueSize := int_of_ULONG pResponseQueueLocked.length
  let s :=
    if LockedQueueSize ≠ 0 then
      if s.m_bResponseDirectionFlag then
        { s with m_RecevingClientsSet1 := (AddToClientSet s.m_RecevingClientsSet1 pClient).2 }
      else
        { s with m_RecevingClientsSet2 := (AddToClientSet s.m_RecevingClientsSet2 pClient).2 }
    else s
  if (s.clients pClient).m_bToBeDisconnected = true then
    if UnlockedQueueSize + LockedQueueSize = 0 then (DisconnectAndDelete pClient true s).2
    else s
  else s

/-- The function `PeerServersManager::DisconnectServer`; the call of `uv_close` is
recorded in `closes`. -/
def DisconnectServer (PeerSvr : Nat) (bReduceConnectedServersCount : Bool) (s : Server) :
    Server :=
  let peer := s.peers PeerSvr
  if peer.m_connection = none then s
  else if peer.Status ≠ CONNECTION_CONNECTED ∧ peer.Status ≠ CONNECTION_OVERFLOWED
      ∧ peer.Status ≠ CONNECTION_CONNECTING
      ∧ peer.Status ≠ CONNECTION_CONNECTING_TIMED_OUT then s
  else
    let s :=
      if bReduceConnectedServersCount then
        { s with m_ServersConnected := s.m_ServersConnected - 1 }
      else s
    let s := s.setPeer PeerSvr { peer with Status := CONNECTION_DISCONNECTING }
    { s with m_ServersClosing := s.m_ServersClosing + 1, closes := s.closes ++ [PeerSvr] }

/-- The function `PeerServersManager::InitiateConnection`: `now` is the value of `time`
and `uv_getaddrinfo` the return value of the call of that name for the peer, which is
recorded in `connectionsInitiated`. -/
def InitiateConnection (uv_getaddrinfo : Nat → Int) (now : Int) (pPeerSvr : Nat)
    (s : Server) : Server :=
  let s := s.setPeer pPeerSvr
    { s.peers pPeerSvr with Status := CONNECTION_CONNECTING, ConnectingTime := now }
  let s := { s with connectionsInitiated := s.connectionsInitiated ++ [pPeerSvr] }
  if uv_getaddrinfo pPeerSvr = -1 then
    s.setPeer pPeerSvr { s.peers pPeerSvr with Status := CONNECTION_DISCONNECTED }
  else s

/-- The function `PeerServersManager::on_server_closed`, the callback of `uv_close`, with
the function `DoPeriodicActivities` that it calls at its end. -/
def on_server_closed (DoPeriodicActivities : Server → Server) (now : Int) (PeerSvr : Nat)
    (s : Server) : Server :=
  let s := s.setPeer PeerSvr
    { s.peers PeerSvr with
      Status := CONNECTION_DISCONNECTED, DisconnectedTime := now, ResponsesForwarded := 0,
      m_ResponseBufferIndex := 0, m_response_buffer := [], m_connection := none }
  DoPeriodicActivities { s with m_ServersClosing := s.m_ServersClosing - 1 }

/-- The function `PeerServersManager::GetServerConnection`; the result is the status it
returns and the state. A status that is none of the seven constants fails the `ASSERT` of
the `default` branch and returns `CONNECTION_UNINITIATED`. -/
def GetServerConnection (uv_getaddrinfo : Nat → Int) (now : Int) (pPeerServer : Nat)
    (s : Server) : Int × Server :=
  let peer := s.peers pPeerServer
  if peer.Status = CONNECTION_UNINITIATED then
    let s := InitiateConnection uv_getaddrinfo now pPeerServer s
    ((s.peers pPeerServer).Status, s)
  else if peer.Status = CONNECTION_CONNECTING then
    if now - peer.ConnectingTime > WAIT_FOR_CONNECTION then (CONNECTION_CONNECTING_TIMED_OUT, s)
    else (CONNECTION_CONNECTING, s)
  else if peer.Status = CONNECTION_CONNECTED then (CONNECTION_CONNECTED, s)
  else if peer.Status = CONNECTION_OVERFLOWED then
    if now - peer.OverflowedTime > MAX_OVERFLOWED_TIME then
      let s := DisconnectServer pPeerServer true s
      ((s.peers pPeerServer).Status, s)
    else (CONNECTION_OVERFLOWED, s)
  else if peer.Status = CONNECTION_DISCONNECTING then (CONNECTION_DISCONNECTING, s)
  else if peer.Status = CONNECTION_DISCONNECTED then
    if now - peer.DisconnectedTime > RETRY_CONNECTION_AFTER then
      let s := InitiateConnection uv_getaddrinfo now pPeerServer s
      ((s.peers pPeerServer).Status, s)
    else (CONNECTION_DISCONNECTED, s)
  else (CONNECTION_UNINITIATED, s)

/-- The function `PeerServersManager::IncreaseForwardedResponsesCount`. -/
def IncreaseForwardedResponsesCount (now : Int) (pPeerServerInfo : Nat) (s : Server) :
    Server :=
  let peer := s.peers pPeerServerInfo
  if peer.Status ≠ CONNECTION_CONNECTED then s
  else
    let peer := { peer with ResponsesForwarded := peer.ResponsesForwarded + 1 }
    let peer :=
      if peer.ResponsesForwarded ≥ 1 then { peer with OverflowedTime := now } else peer
    s.setPeer pPeerServerInfo peer

/-- The function `PeerServersManager::AfterSendingPeerServersResponses`. -/
def AfterSendingPeerServersResponses (pPeerServer pResponse : Nat) (status : Int) (now : Int)
    (s : Server) : Server :=
  let r := s.responses pResponse
  let s :=
    if status = WRITE_OK then
      let s := IncreaseForwardedResponsesCount now pPeerServer s
      { s with m_stServerStat :=
        { s.m_stServerStat with
          ResponsesForwarded := s.m_stServerStat.ResponsesForwarded + 1,
          ResponsesSent := s.m_stServerStat.ResponsesSent + 1,
          TotalResponseBytesSent :=
            s.m_stServerStat.TotalResponseBytesSent + int_of_ULONG r.members.m_Response.len } }
    else
      let s := { s with m_stServerStat :=
        { s.m_stServerStat with
          ResponsesFailedToForward := s.m_stServerStat.ResponsesFailedToForward + 1 } }
      let s := DisconnectServer pPeerServer true s
      let stat := s.m_stServerStat
      let stat :=
        if r.ForwardError = CONNECTION_CONNECTING_TIMED_OUT then
          { stat with ForwardErrorConnectingTimedout :=
              (stat.ForwardErrorConnectingTimedout + 1) % 18446744073709551616 }
        else if r.ForwardError = CONNECTION_OVERFLOWED then
          { stat with ForwardErrorOverflowed :=
              (stat.ForwardErrorOverflowed + 1) % 18446744073709551616 }
        else if r.ForwardError = CONNECTION_DISCONNECTING then
          { stat with ForwardErrorDisconnecting :=
              (stat.ForwardErrorDisconnecting + 1) % 18446744073709551616 }
        else if r.ForwardError = CONNECTION_DISCONNECTED then
          { stat with ForwardErrorDisconnected :=
              (stat.ForwardErrorDisconnected + 1) % 18446744073709551616 }
        else
          { stat with ForwardErrorWritingServer :=
              (stat.ForwardErrorWritingServer + 1) % 18446744073709551616 }
      { s with m_stServerStat := stat, errors := s.errors + 1 }
  let peer := s.peers pPeerServer
  let pResponseQueueLocked : List Nat :=
    if s.m_bResponseDirectionFlag then peer.m_ResponsesQueue1 else peer.m_ResponsesQueue2
  let pResponseQueueUnlocked : List Nat :=
    if s.m_bResponseDirectionFlag then peer.m_ResponsesQueue2 else peer.m_ResponsesQueue1
  let s :=
    if pResponseQueueUnlocked.length ≠ 0 then
      if s.m_bResponseDirectionFlag then
        { s with m_RecevingServersSet2 := (AddToServerSet s.m_RecevingServersSet2 pPeerServer).2 }
      else
        { s with m_RecevingServersSet1 := (AddToServerSet s.m_RecevingServersSet1 pPeerServer).2 }
    else s
  if pResponseQueueLocked.length ≠ 0 then
    if s.m_bResponseDirectionFlag then
      { s with m_RecevingServersSet1 := (AddToServerSet s.m_RecevingServersSet1 pPeerServer).2 }
    else
      { s with m_RecevingServersSet2 := (AddToServerSet s.m_RecevingServersSet2 pPeerServer).2 }
  else s

/-- The function `ConnectionsManager::AfterSendingResponse`; `sizeofResponse` is
`sizeof (Response)`. The statistics of the time in the queue are left out. -/
def AfterSendingResponse (sizeofResponse : Nat) (pResponse : Nat) (pNode : Node)
    (status : Int) (now : Int) (s : Server) : Server :=
  let ResponseLength := int_of_ULONG (s.responses pResponse).members.m_Response.len
  let s :=
    match pNode with
    | Node.client pClient => AfterSendingLocalClientsResponses pClient pResponse status now s
    | Node.server pPeerServerInfo =>
      AfterSendingPeerServersResponses pPeerServerInfo pResponse status now s
  let r := s.responses pResponse
  let r := { r with ResponseSentCount := r.ResponseSentCount + 1 }
  let s := s.setResponse pResponse r
  let referencecount := r.m_ReferenceCount
  if r.ResponseSentCount = referencecount then
    let stat := s.m_stServerStat
    let stat :=
      if r.members.m_bIsForward = true then
        { stat with ResponsesInPeerServersQueues := stat.ResponsesInPeerServersQueues - 1 }
      else
        { stat with ResponsesInLocalClientsQueues := stat.ResponsesInLocalClientsQueues - 1 }
    let stat :=
      { stat with MemoryConsumptionByResponsesInQueue :=
          stat.MemoryConsumptionByResponsesInQueue - (ResponseLength + (sizeofResponse : Int)) }
    { s with m_stServerStat := stat }.setResponse pResponse { r with deleted := true }
  else s

/-- The function `ConnectionsManager::after_send_responses` for the write request of the
node `pNode`, with the function `DoPeriodicActivities` that it calls when it is the
callback of libuv. -/
def after_send_responses (DoPeriodicActivities : Server → Server) (sizeofResponse : Nat)
    (pNode : Node) (status : Int) (now : Int) (s : Server) : Server :=
  let pResponsesSent :=
    match pNode with
    | Node.client pClient => (s.clients pClient).m_pResponsesBeingSent
    | Node.server pPeerServer => (s.peers pPeerServer).m_pResponsesBeingSent
  let ResponsesSentCount := int_of_ULONG pResponsesSent.length
  let s := pResponsesSent.foldl
    (fun s pResponse => AfterSendingResponse sizeofResponse pResponse pNode status now s) s
  let s :=
    match pNode with
    | Node.server pPeerServer =>
      s.setPeer pPeerServer
        { s.peers pPeerServer with
          m_pResponsesBuffersBeingForwarded := [], m_pResponsesBeingSent := [] }
    | Node.client pClient =>
      s.setClient pClient { s.clients pClient with m_pResponsesBeingSent := [] }
  if s.after_send_response_called_by_send_response = false then
    DoPeriodicActivities
      { s with m_stServerStat :=
        { s.m_stServerStat with
          ResponsesBeingSent := s.m_stServerStat.ResponsesBeingSent - ResponsesSentCount } }
  else s

/-- The loop of `SendLocalClientsResponses` that sets to `NULL` the buffers of the last
write: from the first element on, while the index is below `MaxPendingResponses` and the
element has a `base`. -/
def clearBuffers : Nat → List Buffer → List Buffer
  | 0, bufs => bufs
  | _ + 1, [] => []
  | n + 1, b :: rest =>
    if b.base.isSome then ⟨none, 0⟩ :: clearBuffers n rest else b :: rest

/-- The drain loop of `SendLocalClientsResponses`, `for (int i=0; pResponsesQueue->size();
i++)`, from the value `i` on. The queue is given from its back to its front, so that its
head is `pResponsesQueue->back()`; the result is what is left of the queue, in the same
order, and the state. -/
def drainResponsesQueue (pClient : Nat) : Nat → List Nat → Server → List Nat × Server
  | _, [], s => ([], s)
  | i, pResponse :: rest, s =>
    let fatal := IsFatalErrorForLocallyConnectedClient (s.responses pResponse).members
    let s :=
      if fatal = true ∧ i = 0 then
        MarkToDisconnect pClient true { s with errors := s.errors + 1 }
      else s
    if fatal = true ∧ i ≠ 0 ∧ (s.clients pClient).m_bToBeDisconnected = false then
      (pResponse :: rest, s)
    else
      let c := s.clients pClient
      let c :=
        { c with
          m_pResponsesBeingSent := c.m_pResponsesBeingSent ++ [pResponse],
          m_pResponsesBuffersBeingSent :=
            c.m_pResponsesBuffersBeingSent.set i (s.responses pResponse).members.m_Response }
      drainResponsesQueue pClient (i + 1) rest
        { (s.setClient pClient c) with stores := s.stores ++ [(pClient, i)] }

/-- The body of the loop of `SendLocalClientsResponses` over the set of receiving
sessions, for the session `pClient`. `bSet2` tells that `pClientsSet` is
`m_RecevingClientsSet2`; `uv_write` gives the return value of the call of that name, which
is recorded in `writes`. -/
def SendLocalClientResponses (MaxPendingResponses : Int) (uv_write : uv_write_call → Int)
    (DoPeriodicActivities : Server → Server) (sizeofResponse : Nat) (now : Int)
    ( bSet2 : Bool) (pClient : Nat) (s : Server) : Server :=
  let eraseCurrent := fun (s : Server) =>
    if bSet2 then { s with m_RecevingClientsSet2 := s.m_RecevingClientsSet2.erase pClient }
    else { s with m_RecevingClientsSet1 := s.m_RecevingClientsSet1.erase pClient }
  if (s.clients pClient).m_pResponsesBeingSent.length ≠ 0 then eraseCurrent s
  else
    let c := s.clients pClient
    let s := s.setClient pClient
      { c with m_pResponsesBuffersBeingSent :=
          clearBuffers MaxPendingResponses.toNat c.m_pResponsesBuffersBeingSent }
    let bQueue2 := s.m_bResponseDirectionFlag
    let pResponsesQueue :=
      if bQueue2 then (s.clients pClient).m_ResponsesQueue2
      else (s.clients pClient).m_ResponsesQueue1
    let drained := drainResponsesQueue pClient 0 pResponsesQueue.reverse s
    let s := drained.2
    let s := s.setClient pClient
      (if bQueue2 then { s.clients pClient with m_ResponsesQueue2 := drained.1.reverse }
       else { s.clients pClient with m_ResponsesQueue1 := drained.1.reverse })
    let NumberOfBuffers := (s.clients pClient).m_pResponsesBeingSent.length
    let call : uv_write_call :=
      { pNode := Node.client pClient,
        bufs := (s.clients pClient).m_pResponsesBuffersBeingSent.take NumberOfBuffers,
        responses := (s.clients pClient).m_pResponsesBeingSent }
    let written : Int × Server :=
      if (s.clients pClient).m_bToBeDisconnected = false then
        (uv_write call, { s with writes := s.writes ++ [call] })
      else (UV_ECONNABORTED, s)
    let RetVal_uv_write := written.1
    let s := written.2
    let s :=
      if RetVal_uv_write ≥ 0 then
        { s with m_stServerStat :=
          { s.m_stServerStat with
            ResponsesBeingSent :=
              s.m_stServerStat.ResponsesBeingSent + int_of_ULONG NumberOfBuffers } }
      else
        let s := { s with after_send_response_called_by_send_response := true }
        let s := after_send_responses DoPeriodicActivities sizeofResponse (Node.client pClient)
          RetVal_uv_write now s
        { s with after_send_response_called_by_send_response := false }
    eraseCurrent s

/-- The function `LocalClientsManager::SendLocalClientsResponses`. The loop visits the
sessions that the set holds at the start: the only element that the body inserts or erases
is the one it is visiting. -/
def SendLocalClientsResponses (MaxPendingResponses : Int) (uv_write : uv_write_call → Int)
    (DoPeriodicActivities : Server → Server) (sizeofResponse : Nat) (now : Int)
    (s : Server) : Server :=
  let bSet2 := s.m_bResponseDirectionFlag
  let pClientsSet := if bSet2 then s.m_RecevingClientsSet2 else s.m_RecevingClientsSet1
  pClientsSet.foldl
    (fun s pClient =>
      SendLocalClientResponses MaxPendingResponses uv_write DoPeriodicActivities
        sizeofResponse now bSet2 pClient s) s

/-- The body of the loop of `SendPeerServersResponses` over the set of receiving peers,
for the peer `pPeerServer`. -/
def SendPeerServerResponses (uv_write : uv_write_call → Int) (uv_getaddrinfo : Nat → Int)
    (DoPeriodicActivities : Server → Server) (sizeofResponse : Nat) (now : Int)
    ( bSet2 : Bool) (pPeerServer : Nat) (s : Server) : Server :=
  let eraseCurrent := fun (s : Server) =>
    if bSet2 then { s with m_RecevingServersSet2 := s.m_RecevingServersSet2.erase pPeerServer }
    else { s with m_RecevingServersSet1 := s.m_RecevingServersSet1.erase pPeerServer }
  let connection := GetServerConnection uv_getaddrinfo now pPeerServer s
  let ConnStatus := connection.1
  let s := connection.2
  if ConnStatus = CONNECTION_CONNECTING ∨ ConnStatus = CONNECTION_OVERFLOWED then s
  else if (s.peers pPeerServer).m_pResponsesBeingSent.length ≠ 0 then eraseCurrent s
  else
    let bQueue2 := s.m_bResponseDirectionFlag
    let pResponsesQueue :=
      if bQueue2 then (s.peers pPeerServer).m_ResponsesQueue2
      else (s.peers pPeerServer).m_ResponsesQueue1
    let s := pResponsesQueue.reverse.foldl
      (fun s pResponse =>
        let s :=
          if ConnStatus ≠ CONNECTION_CONNECTED then
            s.setResponse pResponse { s.responses pResponse with ForwardError := ConnStatus }
          else s
        let peer := s.peers pPeerServer
        s.setPeer pPeerServer
          { peer with
            m_pResponsesBeingSent := peer.m_pResponsesBeingSent ++ [pResponse],
            m_pResponsesBuffersBeingForwarded :=
              peer.m_pResponsesBuffersBeingForwarded
                ++ [(s.responses pResponse).members.m_Response] }) s
    let s := s.setPeer pPeerServer
      (if bQueue2 then { s.peers pPeerServer with m_ResponsesQueue2 := [] }
       else { s.peers pPeerServer with m_ResponsesQueue1 := [] })
    let NumberOfBuffers := (s.peers pPeerServer).m_pResponsesBuffersBeingForwarded.length
    let call : uv_write_call :=
      { pNode := Node.server pPeerServer,
        bufs := (s.peers pPeerServer).m_pResponsesBuffersBeingForwarded,
        responses := (s.peers pPeerServer).m_pResponsesBeingSent }
    let written : Int × Server :=
      if ConnStatus = CONNECTION_CONNECTED then
        (uv_write call, { s with writes := s.writes ++ [call] })
      else (UV_ECONNRESET, s)
    let RetVal_uv_write := written.1
    let s := written.2
    let s :=
      if RetVal_uv_write ≥ 0 then
        { s with m_stServerStat :=
          { s.m_stServerStat with
            ResponsesBeingSent :=
              s.m_stServerStat.ResponsesBeingSent + int_of_ULONG NumberOfBuffers } }
      else
        let s := { s with after_send_response_called_by_send_response := true }
        let s := after_send_responses DoPeriodicActivities sizeofResponse
          (Node.server pPeerServer) RetVal_uv_write now s
        { s with after_send_response_called_by_send_response := false }
    eraseCurrent s

/-- The function `PeerServersManager::SendPeerServersResponses`. The loop visits the peers
that the set holds at the start: the only element that the body inserts or erases is the
one it is visiting. -/
def SendPeerServersResponses (uv_write : uv_write_call → Int) (uv_getaddrinfo : Nat → Int)
    (DoPeriodicActivities : Server → Server) (sizeofResponse : Nat) (now : Int)
    (s : Server) : Server :=
  let bSet2 := s.m_bResponseDirectionFlag
  let pServersSet := if bSet2 then s.m_RecevingServersSet2 else s.m_RecevingServersSet1
  pServersSet.foldl
    (fun s pPeerServer =>
      SendPeerServerResponses uv_write uv_getaddrinfo DoPeriodicActivities sizeofResponse now
        bSet2 pPeerServer s) s

/-- The function `ConnectionsManager::SendResponses`. -/
def SendResponses (MaxPendingResponses : Int) (uv_write : uv_write_call → Int)
    (uv_getaddrinfo : Nat → Int) (DoPeriodicActivities : Server → Server)
    (sizeofResponse : Nat) (now : Int) (s : Server) : Server :=
  let s :=
    { s with m_bResponseDirectionFlag := if s.m_bResponseDirectionFlag then false else true }
  let s := SendLocalClientsResponses MaxPendingResponses uv_write DoPeriodicActivities
    sizeofResponse now s
  SendPeerServersResponses uv_write uv_getaddrinfo DoPeriodicActivities sizeofResponse now s

/-- The function `ConnectionsManager::GetResponsesInQueue`. -/
def GetResponsesInQueue (s : Server) : Int :=
  s.m_stServerStat.ResponsesInPeerServersQueues + s.m_stServerStat.ResponsesInLocalClientsQueues

/-- The first statement of `ConnectionsManager::DoPeriodicActivities`, `if
(GetResponsesInQueue()) SendResponses();`, at a time when neither the statistics nor the
keep-alive are due and the server is not shutting down. The function calls itself through
`SendResponses` and `after_send_responses`; `depth` bounds the nesting of these calls. -/
def DoPeriodicActivities (MaxPendingResponses : Int) (uv_write : uv_write_call → Int)
    (uv_getaddrinfo : Nat → Int) (sizeofResponse : Nat) (now : Int) : Nat → Server → Server
  | 0, s => s
  | depth + 1, s =>
    if GetResponsesInQueue s ≠ 0 then
      SendResponses MaxPendingResponses uv_write uv_getaddrinfo
        (DoPeriodicActivities MaxPendingResponses uv_write uv_getaddrinfo sizeofResponse now
          depth)
        sizeofResponse now s
    else s

/-- What the functions that work on one session or one peer leave as it is: the record of
the writes and stores, the direction flag, the flag of the nested completion, the response
objects, the counters of the queued responses, and of every session the two queues, the
array of buffers and the batch being sent, and of every peer the two queues and the batch
being sent; a session marked to disconnect stays marked. -/
def NodeFrame (s t : Server) : Prop :=
  t.writes = s.writes ∧ t.stores = s.stores
  ∧ t.m_bResponseDirectionFlag = s.m_bResponseDirectionFlag
  ∧ t.after_send_response_called_by_send_response
      = s.after_send_response_called_by_send_response
  ∧ t.responses = s.responses
  ∧ t.m_stServerStat.ResponsesInPeerServersQueues
      = s.m_stServerStat.ResponsesInPeerServersQueues
  ∧ t.m_stServerStat.ResponsesInLocalClientsQueues
      = s.m_stServerStat.ResponsesInLocalClientsQueues
  ∧ t.m_stServerStat.MemoryConsumptionByResponsesInQueue
      = s.m_stServerStat.MemoryConsumptionByResponsesInQueue
  ∧ (∀ p, (t.clients p).m_ResponsesQueue1 = (s.clients p).m_ResponsesQueue1
      ∧ (t.clients p).m_ResponsesQueue2 = (s.clients p).m_ResponsesQueue2
      ∧ (t.clients p).m_pResponsesBuffersBeingSent = (s.clients p).m_pResponsesBuffersBeingSent
      ∧ (t.clients p).m_pResponsesBeingSent = (s.clients p).m_pResponsesBeingSent
      ∧ ((s.clients p).m_bToBeDisconnected = true → (t.clients p).m_bToBeDisconnected = true))
  ∧ (∀ p, (t.peers p).m_ResponsesQueue1 = (s.peers p).m_ResponsesQueue1
      ∧ (t.peers p).m_ResponsesQueue2 = (s.peers p).m_ResponsesQueue2
      ∧ (t.peers p).m_pResponsesBeingSent = (s.peers p).m_pResponsesBeingSent
      ∧ (t.peers p).m_pResponsesBuffersBeingForwarded
          = (s.peers p).m_pResponsesBuffersBeingForwarded)

/-- What a write completion leaves as it is: the record of the writes and stores, the
direction flag, the flag of the nested completion, the members of every response that its
constructor computes, and of every session and peer the two queues and the array of
buffers; a session marked to disconnect stays marked. -/
def CompletionFrame (s t : Server) : Prop :=
  t.writes = s.writes ∧ t.stores = s.stores
  ∧ t.m_bResponseDirectionFlag = s.m_bResponseDirectionFlag
  ∧ t.after_send_response_called_by_send_response
      = s.after_send_response_called_by_send_response
  ∧ (∀ r, (t.responses r).members = (s.responses r).members)
  ∧ (∀ p, (t.clients p).m_ResponsesQueue1 = (s.clients p).m_ResponsesQueue1
      ∧ (t.clients p).m_ResponsesQueue2 = (s.clients p).m_ResponsesQueue2
      ∧ (t.clients p).m_pResponsesBuffersBeingSent = (s.clients p).m_pResponsesBuffersBeingSent
      ∧ ((s.clients p).m_bToBeDisconnected = true → (t.clients p).m_bToBeDisconnected = true))
  ∧ (∀ p, (t.peers p).m_ResponsesQueue1 = (s.peers p).m_ResponsesQueue1
      ∧ (t.peers p).m_ResponsesQueue2 = (s.peers p).m_ResponsesQueue2)

/-- A sequence of completions of one response, each the call of
`ConnectionsManager::AfterSendingResponse` that `after_send_responses` makes for the node
of a recipient, with the status of the write and the value of `time(NULL)`. -/
def afterCompletions (sizeofResponse : Nat) (pResponse : Nat) :
    List (Node × Int × Int) → Server → Server
  | [], s => s
  | (pNode, status, now) :: rest, s =>
    afterCompletions sizeofResponse pResponse rest
      (AfterSendingResponse sizeofResponse pResponse pNode status now s)

/-- The queue of a peer that `PeerServersManager::AddResponseToQueue` selects under the
present direction flag. -/
def activePeerQueue (s : Server) (pPeerServer : Nat) : List Nat :=
  if s.m_bResponseDirectionFlag then (s.peers pPeerServer).m_ResponsesQueue1
  else (s.peers pPeerServer).m_ResponsesQueue2

/-- The queue of a peer that `PeerServersManager::AddResponseToQueue` does not select
under the present direction flag. -/
def inactivePeerQueue (s : Server) (pPeerServer : Nat) : List Nat :=
  if s.m_bResponseDirectionFlag then (s.peers pPeerServer).m_ResponsesQueue2
  else (s.peers pPeerServer).m_ResponsesQueue1

/-- What the send cycle keeps, from a state `s` to a later state `t` of the same cycle:
the direction flag; the flag of the nested completion when it is clear; the members of
the responses; of every session and peer the queue that the enqueue selects, while the
other queue only loses responses at its back; the length of the array of buffers and the
mark of every session; the batch of a session, which is as long as before or not longer
than the drained queue was; every new call of `uv_write` is for responses of the drained
queue of its session or peer, none of them a fatal error for a session; and every new
store into an array of buffers has an index below the length that the drained queue of
the session had. -/
def SendFrame (s t : Server) : Prop :=
  t.m_bResponseDirectionFlag = s.m_bResponseDirectionFlag
  ∧ (s.after_send_response_called_by_send_response = false →
      t.after_send_response_called_by_send_response = false)
  ∧ (∀ r, (t.responses r).members = (s.responses r).members)
  ∧ (∀ c, activeQueue t c = activeQueue s c
      ∧ inactiveQueue t c <+: inactiveQueue s c
      ∧ (t.clients c).m_pResponsesBuffersBeingSent.length
          = (s.clients c).m_pResponsesBuffersBeingSent.length
      ∧ ((s.clients c).m_bToBeDisconnected = true → (t.clients c).m_bToBeDisconnected = true)
      ∧ ((t.clients c).m_pResponsesBeingSent.length ≤ (s.clients c).m_pResponsesBeingSent.length
          ∨ (t.clients c).m_pResponsesBeingSent.length ≤ (inactiveQueue s c).length))
  ∧ (∀ c, activePeerQueue t c = activePeerQueue s c
      ∧ inactivePeerQueue t c <+: inactivePeerQueue s c)
  ∧ (∃ calls, t.writes = s.writes ++ calls
      ∧ ∀ call ∈ calls,
          (∀ c, call.pNode = Node.client c →
            ∀ r ∈ call.responses, r ∈ inactiveQueue s c
              ∧ IsFatalErrorForLocallyConnectedClient (s.responses r).members = false)
          ∧ (∀ c, call.pNode = Node.server c →
            ∀ r ∈ call.responses, r ∈ inactivePeerQueue s c))
  ∧ (∃ indices, t.stores = s.stores ++ indices
      ∧ ∀ x ∈ indices, x.2 < (inactiveQueue s x.1).length)

/-- One step of the response pipeline of the event loop and its workers: a call of
`LocalClientsManager::AddResponseToQueue` for a response and a session, a send cycle
`ConnectionsManager::SendResponses`, or a write completion
`ConnectionsManager::after_send_responses` that libuv delivers for a node. A send cycle
and a completion come with the return values of `uv_write` and `uv_getaddrinfo` and the
value of `time`. -/
inductive CycleEvent where
  | enqueue (pResponse pClient : Nat)
  | sendCycle (uv_write : uv_write_call → Int) (uv_getaddrinfo : Nat → Int) (now : Int)
  | completion (uv_write : uv_write_call → Int) (uv_getaddrinfo : Nat → Int) (pNode : Node)
      (status now : Int)

/-- A run of steps of the response pipeline. `depth` bounds the nesting of
`DoPeriodicActivities`. -/
def runCycleEvents (MaxPendingResponses : Int) (sizeofResponse : Nat) (depth : Nat) :
    List CycleEvent → Server → Server
  | [], s => s
  | CycleEvent.enqueue pResponse pClient :: rest, s =>
    runCycleEvents MaxPendingResponses sizeofResponse depth rest
      (LocalClientsManager.AddResponseToQueue MaxPendingResponses pResponse pClient s).2
  | CycleEvent.sendCycle uv_write uv_getaddrinfo now :: rest, s =>
    runCycleEvents MaxPendingResponses sizeofResponse depth rest
      (SendResponses MaxPendingResponses uv_write uv_getaddrinfo
        (DoPeriodicActivities MaxPendingResponses uv_write uv_getaddrinfo sizeofResponse now
          depth)
        sizeofResponse now s)
  | CycleEvent.completion uv_write uv_getaddrinfo pNode status now :: rest, s =>
    runCycleEvents MaxPendingResponses sizeofResponse depth rest
      (after_send_responses
        (DoPeriodicActivities MaxPendingResponses uv_write uv_getaddrinfo sizeofResponse now
          depth)
        sizeofResponse pNode status now s)

/-- The state of the queues between the steps of the pipeline: no completion is nested in
a send cycle, and neither queue nor the batch of any session is longer than half of
`MaxPendingResponses`. -/
def QueuesWithinHalf (MaxPendingResponses : Int) (s : Server) : Prop :=
  s.after_send_response_called_by_send_response = false
  ∧ ∀ c, (s.clients c).m_ResponsesQueue1.length ≤ (Int.tdiv MaxPendingResponses 2).toNat
      ∧ (s.clients c).m_ResponsesQueue2.length ≤ (Int.tdiv MaxPendingResponses 2).toNat
      ∧ (s.clients c).m_pResponsesBeingSent.length
          ≤ (Int.tdiv MaxPendingResponses 2).toNat

/-- What a run of the pipeline keeps and adds: the state of the queues, the length of
every array of buffers, and stores with indices below half of `MaxPendingResponses`. -/
def WithinCapacity (MaxPendingResponses : Int) (s t : Server) : Prop :=
  QueuesWithinHalf MaxPendingResponses t
  ∧ (∀ c, (t.clients c).m_pResponsesBuffersBeingSent.length
      = (s.clients c).m_pResponsesBuffersBeingSent.length)
  ∧ ∃ indices, t.stores = s.stores ++ indices
      ∧ ∀ x ∈ indices, x.2 < (Int.tdiv MaxPendingResponses 2).toNat

/-- The set of receiving sessions that `LocalClientsManager::AddResponseToQueue` selects
under the present direction flag. -/
def activeClientsSet (s : Server) : List Nat :=
  if s.m_bResponseDirectionFlag then s.m_RecevingClientsSet1 else s.m_RecevingClientsSet2

/-- The set of receiving sessions that `LocalClientsManager::AddResponseToQueue` does not
select under the present direction flag. -/
def inactiveClientsSet (s : Server) : List Nat :=
  if s.m_bResponseDirectionFlag then s.m_RecevingClientsSet2 else s.m_RecevingClientsSet1

/-- The set of receiving peers that `PeerServersManager::AddResponseToQueue` selects under
the present direction flag. -/
def activeServersSet (s : Server) : List Nat :=
  if s.m_bResponseDirectionFlag then s.m_RecevingServersSet1 else s.m_RecevingServersSet2

/-- The set of receiving peers that `PeerServersManager::AddResponseToQueue` does not
select under the present direction flag. -/
def inactiveServersSet (s : Server) : List Nat :=
  if s.m_bResponseDirectionFlag then s.m_RecevingServersSet2 else s.m_RecevingServersSet1

/-- The peer that `PeerServersManager::AddResponseToQueue` queues the response for: the
entry of `m_ServersInfo` for the server of the response, or the new object. -/
def targetPeer (newPeer : Nat) (pResponse : Nat) (s : Server) : Nat :=
  (mapFind s.m_ServersInfo (s.responses pResponse).members.m_ServerIPv4Address).getD newPeer

/-! ## `PeerServersManager.cpp`: the inbound side of a peer connection -/

/-- The size of the array `stPeerServer::m_response_buffer`, `1024*(HEADER_SIZE+1)`;
`Construct` stores it in `m_ResponseBuffer.len`, and nothing changes it afterwards. -/
abbrev RESPONSE_BUFFER_SIZE : Nat := 1024 * (HEADER_SIZE + 1)

/-- The difference `a - b` of two `unsigned int` values. -/
def subUINT (a b : Nat) : Nat :=
  (a % 4294967296 + 4294967296 - b % 4294967296) % 4294967296

/-- The function `PeerServersManager::alloc_buffer`: the number of bytes it offers to
libuv, from `m_ResponseBufferIndex` on, or `none` when one of its two assertions on the
free space fails. -/
def PeerServersManager.alloc_buffer (PeerSvr : stPeerServer) : Option Nat :=
  if ¬ (PeerSvr.m_ResponseBufferIndex < RESPONSE_BUFFER_SIZE) then none
  else
    let SizeAvailable := RESPONSE_BUFFER_SIZE - PeerSvr.m_ResponseBufferIndex
    if SizeAvailable = 0 then none else some SizeAvailable

/-- The function `PeerServersManager::ProcessResponse`; the `LOG (ERROR, ...)` lines are
counted in `errors`. -/
def PeerServersManager.ProcessResponse (DoPeriodicActivities : Server → Server)
    (response : Buffer) (pPeerSvr : Nat) (s : Server) : Server :=
  let type := ((response.base.getD []).getD 0 0).val
  if type = RESPONSE_KEEP_ALIVE then s
  else if type = RESPONSE_ERROR then { s with errors := s.errors + 1 }
  else if type = RESPONSE_ACKNOWLEDGEMENT_OF_FORWARDED_RESP then
    let peer := s.peers pPeerSvr
    let peer := { peer with ResponsesForwarded := peer.ResponsesForwarded - 1 }
    let s := s.setPeer pPeerSvr peer
    if peer.ResponsesForwarded < 1 then
      DoPeriodicActivities (s.setPeer pPeerSvr { peer with Status := CONNECTION_CONNECTED })
    else s
  else { s with errors := s.errors + 1 }

/-- The loop `while(1)` of `PeerServersManager::on_read`, which takes the frames off the
front of the buffer. `fuel` bounds the number of iterations; `none` says that it was used
up. -/
def extractResponses (GetVersionParameters : Nat → Option VersionParameters)
    (DoPeriodicActivities : Server → Server) (PeerSvr : Nat) : Nat → Server → Option Server
  | 0, _ => none
  | fuel + 1, s =>
    let peer := s.peers PeerSvr
    let result := ValidateProtocolAndExtractRequest GetVersionParameters
      peer.m_response_buffer peer.m_ResponseBufferIndex peer.m_Version ⟨none, 0⟩
    let response := result.request_out
    let s := s.setPeer PeerSvr { peer with m_Version := result.ExistingVersion }
    if result.code = REQUEST_FOUND ∧ response.base ≠ none then
      let s := PeerServersManager.ProcessResponse DoPeriodicActivities response PeerSvr s
      let peer := s.peers PeerSvr
      let s := s.setPeer PeerSvr
        { peer with
          m_response_buffer :=
            peer.m_response_buffer.drop ((response.len + HEADER_SIZE) % 4294967296),
          m_ResponseBufferIndex :=
            subUINT peer.m_ResponseBufferIndex (response.len + HEADER_SIZE) }
      extractResponses GetVersionParameters DoPeriodicActivities PeerSvr fuel s
    else if result.code = INVALID_HEADER ∨ result.code = INVALID_VERSION
        ∨ result.code = INVALID_SIZE then
      let s := s.setPeer PeerSvr
        { s.peers PeerSvr with m_ResponseBufferIndex := 0, m_response_buffer := [] }
      extractResponses GetVersionParameters DoPeriodicActivities PeerSvr fuel
        { s with errors := s.errors + 1 }
    else if result.code = WAIT_FOR_MORE_BYTES then some s
    else
      extractResponses GetVersionParameters DoPeriodicActivities PeerSvr fuel
        { s with errors := s.errors + 1 }

/-- The function `PeerServersManager::on_read` for the connection of the peer `PeerSvr`:
libuv has stored `nread` bytes, the first `nread` of `read_bytes`, from
`m_ResponseBufferIndex` on. -/
def PeerServersManager.on_read (GetVersionParameters : Nat → Option VersionParameters)
    (DoPeriodicActivities : Server → Server) (PeerSvr : Nat) (nread : Int)
    (read_bytes : List Byte) (fuel : Nat) (s : Server) : Option Server :=
  if nread < 0 then
    some (DisconnectServer PeerSvr true { s with errors := s.errors + 1 })
  else
    let peer := s.peers PeerSvr
    let s := s.setPeer PeerSvr
      { peer with
        m_response_buffer := peer.m_response_buffer ++ read_bytes.take nread.toNat,
        m_ResponseBufferIndex := (peer.m_ResponseBufferIndex + UINT_of_int nread) % 4294967296 }
    extractResponses GetVersionParameters DoPeriodicActivities PeerSvr fuel s

/-- The condition of the closing `ASSERT` of `PeerServersManager::on_read`. -/
def on_read_assertion (PeerSvr : stPeerServer) : Bool :=
  decide (PeerSvr.m_ResponseBufferIndex < RESPONSE_BUFFER_SIZE)

/-! ## `ConnectionsManager.cpp`: the shutdown part of `DoPeriodicActivities` -/

/-- What the shutdown part of one call of `ConnectionsManager::DoPeriodicActivities`
reads: the values that the calls named by the fields return during that call.
`AreClientsClosing` returns the count `m_ClientsClosing`; `LoggerStop` and
`WriteToFileStop` are the results of `m_pLogger->Stop()` and `m_pWriteToFile->Stop()`. -/
structure ShutdownGates where
  HasAllClientsDisconnectedForShutdown : Bool
  GetResponsesInQueue : Int
  IsServerStopped : Bool
  AreClientsClosing : Int
  GetActiveProcessors : Int
  AreServersClosing : Int
  AreServersConnecting : Int
  LoggerStop : Bool
  WriteToFileStop : Bool
deriving DecidableEq

/-- The calls that the shutdown part of `DoPeriodicActivities` makes. -/
inductive ShutdownAction
  | DeleteRequestProcessors
  | DisconnectAndCloseAllConnections
  | LoggerStop
  | WriteToFileStop
  | uv_close_tty
deriving DecidableEq, Repr

/-- The three function-level `static` flags of `DoPeriodicActivities`, all `false` at the
start of the program. -/
structure ShutdownFlags where
  bRequestProcessorsDeleted : Bool := false
  bConnectionsDisconnectedAndClosed : Bool := false
  b_stdin_close_initiated : Bool := false
deriving DecidableEq, Repr

/-- The last statement of `ConnectionsManager::DoPeriodicActivities`, from
`if (HasAllClientsDisconnectedForShutdown() == TRUE)` on: the flags after the call and the
calls made, in order. `m_pLogger->Stop() && m_pWriteToFile->Stop()` calls the second only
when the first returns true. -/
def shutdownStep (g : ShutdownGates) (st : ShutdownFlags) :
    ShutdownFlags × List ShutdownAction :=
  if g.HasAllClientsDisconnectedForShutdown = true then
    let ResponsesInQueue := g.GetResponsesInQueue
    if ResponsesInQueue = 0 then
      if g.IsServerStopped = true ∧ g.AreClientsClosing = 0 then
        if st.bRequestProcessorsDeleted = false then
          ({ st with bRequestProcessorsDeleted := true },
            [ShutdownAction.DeleteRequestProcessors])
        else if g.GetActiveProcessors = 0 then
          if st.bConnectionsDisconnectedAndClosed = false then
            ({ st with bConnectionsDisconnectedAndClosed := true },
              [ShutdownAction.DisconnectAndCloseAllConnections])
          else if g.AreServersClosing = 0 ∧ g.AreServersConnecting = 0 then
            if g.LoggerStop = true then
              if g.WriteToFileStop = true then
                if st.b_stdin_close_initiated = false then
                  ({ st with b_stdin_close_initiated := true },
                    [ShutdownAction.LoggerStop, ShutdownAction.WriteToFileStop,
                      ShutdownAction.uv_close_tty])
                else (st, [ShutdownAction.LoggerStop, ShutdownAction.WriteToFileStop])
              else (st, [ShutdownAction.LoggerStop, ShutdownAction.WriteToFileStop])
            else (st, [ShutdownAction.LoggerStop])
          else (st, [])
        else (st, [])
      else (st, [])
    else (st, [])
  else (st, [])

/-- A sequence of calls of `DoPeriodicActivities`, one per element of the list: the calls
that the shutdown part makes in each of them. -/
def shutdownTicks : List ShutdownGates → ShutdownFlags → List (List ShutdownAction)
  | [], _ => []
  | g :: gs, st => (shutdownStep g st).2 :: shutdownTicks gs (shutdownStep g st).1

/-! ## `LocalClientsManager.cpp`: the inbound side of a session -/

/-- The libuv error code `UV_ENOBUFS`, which `on_read` gets when `alloc_buffer` has
offered no bytes. -/
abbrev UV_ENOBUFS : Int := -4060

/-- The array that `m_Request.base` points to: `m_Header`, or the allocated array. -/
def RequestSide.base (r : RequestSide) : List Byte := r.allocated.getD r.m_Header

/-- The bytes of `mem` once libuv has stored `bytes` from the position `index` on. -/
def storeBytes (mem : List Byte) (index : Nat) (bytes : List Byte) : List Byte :=
  mem.take index ++ bytes ++ mem.drop (index + bytes.length)

/-- The read of libuv into the buffer that `alloc_buffer` has returned,
`&m_Request.base[m_Request_Index]`. -/
def RequestSide.store (r : RequestSide) (bytes : List Byte) : RequestSide :=
  match r.allocated with
  | none => { r with m_Header := storeBytes r.m_Header r.m_Request_Index bytes }
  | some mem => { r with allocated := some (storeBytes mem r.m_Request_Index bytes) }

/-- The function `LocalClientsManager::GetRequestBuffer`: the length of the buffer it
returns, and the session afterwards. `ULONG` is an unsigned type of 32 bits. The
statistics and the `std::bad_alloc` branch are left out; where the code dereferences
`GetVersionParameters(m_Version)` and no processor is registered, 0 stands for the
maximum request size. -/
def GetRequestBuffer (GetVersionParameters : Nat → Option VersionParameters)
    (c : stClient) : Nat × stClient :=
  let r := c.request
  let SizeAvailable := subUINT r.m_Request_len r.m_Request_Index
  if SizeAvailable = 0 ∧ r.m_RequestSizeFound > 0 then
    let r : RequestSide :=
      if r.allocated = none then
        let MemoryToAllocate : Int :=
          if r.m_bStreaming then
            ((GetVersionParameters c.m_Version).map (fun p => p.m_MaxRequestSize)).getD 0
              + HEADER_SIZE
          else r.m_RequestSizeFound + HEADER_SIZE
        let len := UINT_of_int (r.m_RequestSizeFound + HEADER_SIZE)
        { r with
          allocated := some (memcpy_s (newArray MemoryToAllocate.toNat) 0 len r.m_Header 10),
          m_Request_len := len,
          m_bRequestMemoryAllocatedForStreaming := r.m_bStreaming,
          m_RequestSizeFound := 0 }
      else
        { r with
          m_Request_len := UINT_of_int (r.m_RequestSizeFound + HEADER_SIZE),
          m_RequestSizeFound := 0 }
    (subUINT r.m_Request_len r.m_Request_Index, { c with request := r })
  else (SizeAvailable, c)

/-- The function `LocalClientsManager::alloc_buffer`: `none` when its assertion fails,
that no buffer is offered while a request of the session is being processed. -/
def LocalClientsManager.alloc_buffer (GetVersionParameters : Nat → Option VersionParameters)
    (pClient : Nat) (s : Server) : Option (Nat × Server) :=
  let buffer := GetRequestBuffer GetVersionParameters (s.clients pClient)
  let s := s.setClient pClient buffer.2
  if buffer.1 ≠ 0 ∧ (s.clients pClient).m_bRequestIsBeingProcessed = true then none
  else some (buffer.1, s)

/-- The function `LocalClientsManager::ResetRequestBuffer`, without the statistics. -/
def ResetRequestBuffer (c : stClient) : stClient :=
  let r := c.request
  let r : RequestSide :=
    if r.allocated ≠ none
        ∧ (r.m_bStreaming = false ∨ r.m_bRequestMemoryAllocatedForStreaming = false) then
      { r with allocated := none, m_bRequestMemoryAllocatedForStreaming := false }
    else r
  { c with request := { r with m_Request_len := 10, m_Request_Index := 0 } }

/-- The function `LocalClientsManager::CreateRequestAndQueue`: `none` when the assertion
`m_bRequestIsBeingProcessed == FALSE` fails, and otherwise whether the request it returns
is not `NULL`, with the state. The constructor of `Request` calls
`IncreaseCountForClient` with the handle of the session and throws the
`RequestCreationException` when that returns FALSE. -/
def CreateRequestAndQueue (DoPeriodicActivities : Server → Server) (now : Int)
    (pClient : Nat) (s : Server) : Option (Bool × Server) :=
  let created := IncreaseCountForClient (some (s.clients pClient).m_ClientHandle) none
    REQUESTCOUNT now s
  if created.1 = false then some (false, DoPeriodicActivities created.2.2)
  else
    let s := created.2.2
    if (s.clients pClient).m_bRequestIsBeingProcessed ≠ false then none
    else
      let s := s.setClient pClient
        { s.clients pClient with
          m_bRequestIsBeingProcessed := true, m_bRequestProcessingFinished := false }
      some (true, DoPeriodicActivities s)

/-- The function `LocalClientsManager::ProcessHeaderError`, without the statistics. -/
def ProcessHeaderError (pClient : Nat) (s : Server) : Server :=
  (DisconnectAndDelete pClient true { s with errors := s.errors + 1 }).2

/-- The function `LocalClientsManager::ExtractRequestOffTheBuffer`; `none` when the
assertion of `CreateRequestAndQueue` fails. -/
def ExtractRequestOffTheBuffer (GetVersionParameters : Nat → Option VersionParameters)
    (DoPeriodicActivities : Server → Server) (now : Int) (pClient : Nat) (nread : Int)
    (s : Server) : Option Server :=
  let c := s.clients pClient
  let r := c.request
  let index := (r.m_Request_Index + UINT_of_int nread) % 4294967296
  let result := ValidateProtocolAndExtractRequest GetVersionParameters r.base index
    c.m_Version ⟨none, 0⟩
  let request := result.request_out
  let r : RequestSide :=
    { r with
      m_Request_Index := index,
      parsed := r.parsed ++ [(result.code, index, r.m_Request_len)] }
  let c : stClient := { c with m_Version := result.ExistingVersion, request := r }
  if result.code = REQUEST_FOUND then
    let s := s.setClient pClient
      { c with request := { r with m_bRejectedPreviousRequestBytes := false } }
    match CreateRequestAndQueue DoPeriodicActivities now pClient s with
    | none => none
    | some (pRequest, s) =>
      if pRequest = false then
        some (s.setClient pClient
          { s.clients pClient with
            request := { (s.clients pClient).request with m_Request_Index := 0 } })
      else some s
  else if result.code = INVALID_HEADER ∨ result.code = INVALID_VERSION
      ∨ result.code = INVALID_SIZE then
    let s := s.setClient pClient { c with request := { r with m_Request_Index := 0 } }
    if r.m_bRejectedPreviousRequestBytes ≠ true then some (ProcessHeaderError pClient s)
    else some s
  else if result.code = WAIT_FOR_MORE_BYTES then
    if index = 10 then
      some (s.setClient pClient
        { c with request := { r with m_RequestSizeFound := int_of_ULONG request.len } })
    else some (s.setClient pClient c)
  else
    some { (s.setClient pClient { c with request := { r with m_Request_Index := 0 } }) with
      errors := s.errors + 1 }

/-- The function `LocalClientsManager::on_read`, called once libuv has stored the bytes
read; `m_Request.base` is not `NULL` while the session is open. -/
def LocalClientsManager.on_read (GetVersionParameters : Nat → Option VersionParameters)
    (DoPeriodicActivities : Server → Server) (now : Int) (pClient : Nat) (nread : Int)
    (s : Server) : Option Server :=
  if nread ≤ 0 then
    if nread ≠ UV_ENOBUFS ∧ nread ≠ 0 then some (DisconnectAndDelete pClient false s).2
    else some s
  else if s.m_bIsServerShuttingDown = true ∨ (s.clients pClient).m_bToBeDisconnected = true then
    some (s.setClient pClient
      { s.clients pClient with
        request :=
          { (s.clients pClient).request with
            m_Request_Index := 0, m_bRejectedPreviousRequestBytes := true } })
  else
    ExtractRequestOffTheBuffer GetVersionParameters DoPeriodicActivities now pClient nread s

/-- The function `LocalClientsManager::after_request_processing_thread` for a request of
the session `pClient`; the two flags are those of the request,
`GetMemoryAllocationExceptionFlag()` and `IsDeferred()`. -/
def after_request_processing_thread (DoPeriodicActivities : Server → Server) (now : Int)
    (pClient : Nat) (status : Int) (bMemoryAllocationException bDeferred : Bool)
    (s : Server) : Server :=
  if status < 0 then { s with errors := s.errors + 1 }
  else
    let s :=
      if bMemoryAllocationException = true
          ∧ (s.clients pClient).m_Version ≠ SPECIAL_COMMUNICATION then
        MarkToDisconnect pClient true s
      else s
    let s :=
      if bDeferred = false then
        let s := s.setClient pClient (ResetRequestBuffer (s.clients pClient))
        let s := s.setClient pClient
          { s.clients pClient with
            m_bRequestIsBeingProcessed := false, m_bRequestProcessingFinished := true }
        let s := (DecreaseCountForClient pClient REQUESTCOUNT now s).2
        if (s.clients pClient).m_bToBeDisconnected = true then
          (DisconnectAndDelete pClient true s).2
        else s
      else s
    DoPeriodicActivities s

/-- What happens to a session: `data` is waiting on its socket; libuv reports the error
`code` for a read; the work item of its request has ended with `status`; a worker calls
`stClient::SetStreamingMode`. -/
inductive InboundEvent
  | bytes (now : Int) (data : List Byte)
  | readError (now : Int) (code : Int)
  | completed (now : Int) (status : Int) (bMemoryAllocationException bDeferred : Bool)
  | SetStreamingMode (bMode : Bool)

/-- One event of the session `pClient`, as libuv drives the callbacks. While the session
is reading, a read calls `alloc_buffer`, stores as many of the waiting bytes as the buffer
offered takes and calls `on_read` with their number, or with `UV_ENOBUFS` when no byte was
offered. The callback of a work item comes only while `m_bRequestIsBeingProcessed` is set,
which `CreateRequestAndQueue` does when it queues the work item. `none` says that an
assertion has failed. -/
def inboundStep (GetVersionParameters : Nat → Option VersionParameters)
    (DoPeriodicActivities : Server → Server) (pClient : Nat) (e : InboundEvent)
    (s : Server) : Option Server :=
  match e with
  | InboundEvent.bytes now data =>
    if (s.clients pClient).m_bIsReadStarted = true then
      match LocalClientsManager.alloc_buffer GetVersionParameters pClient s with
      | none => none
      | some (len, s) =>
        if len = 0 then
          LocalClientsManager.on_read GetVersionParameters DoPeriodicActivities now pClient
            UV_ENOBUFS s
        else
          let c := s.clients pClient
          let s := s.setClient pClient { c with request := c.request.store (data.take len) }
          LocalClientsManager.on_read GetVersionParameters DoPeriodicActivities now pClient
            ((data.take len).length : Int) s
    else some s
  | InboundEvent.readError now code =>
    if (s.clients pClient).m_bIsReadStarted = true ∧ code < 0 then
      match LocalClientsManager.alloc_buffer GetVersionParameters pClient s with
      | none => none
      | some (_, s) =>
        LocalClientsManager.on_read GetVersionParameters DoPeriodicActivities now pClient
          code s
    else some s
  | InboundEvent.completed now status bMemoryAllocationException bDeferred =>
    if (s.clients pClient).m_bRequestIsBeingProcessed = true then
      some (after_request_processing_thread DoPeriodicActivities now pClient status
        bMemoryAllocationException bDeferred s)
    else some s
  | InboundEvent.SetStreamingMode bMode =>
    some (s.setClient pClient
      { s.clients pClient with
        request := { (s.clients pClient).request with m_bStreaming := bMode } })

/-- A sequence of events of the session `pClient`. -/
def runInbound (GetVersionParameters : Nat → Option VersionParameters)
    (DoPeriodicActivities : Server → Server) (pClient : Nat) :
    List InboundEvent → Server → Option Server
  | [], s => some s
  | e :: rest, s =>
    match inboundStep GetVersionParameters DoPeriodicActivities pClient e s with
    | none => none
    | some t => runInbound GetVersionParameters DoPeriodicActivities pClient rest t

/-- The size field of the header at the start of `mem`, as the parser reads it. -/
def sizeField (mem : List Byte) : Nat := ntohl (loadUINT mem (PREAMBLE_BYTES + VERSION_BYTES))

/-- Facts about the inbound members of a session that hold in every state: `m_Header`
holds its ten bytes, every call of the parser that returned `REQUEST_FOUND` was made with
`m_Request_Index == m_Request.len`, and while a request is being processed the index is
at the end of the buffer and no size is waiting in `m_RequestSizeFound`. -/
def BufferInv (r : RequestSide) (bRequestIsBeingProcessed : Bool) : Prop :=
  10 ≤ r.m_Header.length
  ∧ (∀ x ∈ r.parsed, x.1 = REQUEST_FOUND → x.2.1 = x.2.2)
  ∧ (bRequestIsBeingProcessed = true →
      r.m_Request_Index = r.m_Request_len ∧ r.m_RequestSizeFound ≤ 0)

/-- Facts about the inbound members of a session that is read from: the index is within
the length, the length is that of `m_Header` or that of the frame whose header is in the
buffer, and a size waiting in `m_RequestSizeFound` is that of the header just read. -/
def CoreInv (r : RequestSide) : Prop :=
  r.m_bRejectedPreviousRequestBytes = false
  ∧ (∀ mem, r.allocated = some mem → 10 ≤ mem.length)
  ∧ r.m_Request_Index ≤ r.m_Request_len ∧ r.m_Request_len < 4294967296
  ∧ (r.m_Request_len = 10 ∨ (10 ≤ r.m_Request_Index ∧ r.m_Request_len = 9 + sizeField r.base))
  ∧ (r.m_RequestSizeFound > 0 →
      r.m_Request_Index = 10 ∧ r.m_Request_len = 10
        ∧ r.m_RequestSizeFound = (sizeField r.base : Int)
        ∧ r.m_RequestSizeFound < 2147483648)

/-- The session `p` is in the pool under its registration number. -/
def InPool (s : Server) (p : Nat) : Prop :=
  mapFind s.m_ClientsMap (s.clients p).m_ClientHandle.m_ClientRegistrationNumber = some p

/-- The invariant of the inbound side of the session `p`. -/
def InboundInv (s : Server) (p : Nat) : Prop :=
  BufferInv (s.clients p).request (s.clients p).m_bRequestIsBeingProcessed
  ∧ ((s.clients p).m_bToBeDisconnected = true ∨ s.m_bIsServerShuttingDown = true
    ∨ (InPool s p ∧ (s.clients p).m_bDisconnectInitiated = false
      ∧ CoreInv (s.clients p).request))

/-- What a step that is not of the inbound side keeps of the session `p`: its inbound
members and `m_bRequestIsBeingProcessed`; the shutdown of the server and the mark to
disconnect are not taken back; and as long as the session is not marked, its handle, its
entry in the pool and `m_bDisconnectInitiated`. -/
def SessionKept (p : Nat) (x y : Server) : Prop :=
  (y.clients p).request = (x.clients p).request
  ∧ (y.clients p).m_bRequestIsBeingProcessed = (x.clients p).m_bRequestIsBeingProcessed
  ∧ (x.m_bIsServerShuttingDown = true → y.m_bIsServerShuttingDown = true)
  ∧ ((x.clients p).m_bToBeDisconnected = true → (y.clients p).m_bToBeDisconnected = true)
  ∧ ((y.clients p).m_bToBeDisconnected = false →
      (y.clients p).m_ClientHandle = (x.clients p).m_ClientHandle
      ∧ mapFind y.m_ClientsMap (x.clients p).m_ClientHandle.m_ClientRegistrationNumber
          = mapFind x.m_ClientsMap (x.clients p).m_ClientHandle.m_ClientRegistrationNumber
      ∧ (y.clients p).m_bDisconnectInitiated = (x.clients p).m_bDisconnectInitiated)

/-- What the steps of a disconnection after the marking keep of the session `p`. -/
def SessionSame (p : Nat) (x y : Server) : Prop :=
  (y.clients p).request = (x.clients p).request
  ∧ (y.clients p).m_bRequestIsBeingProcessed = (x.clients p).m_bRequestIsBeingProcessed
  ∧ y.m_bIsServerShuttingDown = x.m_bIsServerShuttingDown
  ∧ (y.clients p).m_bToBeDisconnected = (x.clients p).m_bToBeDisconnected

/-- A session as the constructor and `on_new_connection` leave it: the inbound members
have the values of the constructor, no request is being processed, the session is in the
pool, and it is neither marked to disconnect nor being disconnected. -/
def FreshSession (s : Server) (p : Nat) : Prop :=
  (s.clients p).request = {}
  ∧ (s.clients p).m_bRequestIsBeingProcessed = false
  ∧ (s.clients p).m_bToBeDisconnected = false
  ∧ (s.clients p).m_bDisconnectInitiated = false
  ∧ InPool s p

/-! ## Sample data for the concrete instances -/

/-- A processor table with one application version, 1, that allows five bytes each way,
and the framework version `SPECIAL_COMMUNICATION` with its computed sizes, 1179654 bytes
each way. -/
def sampleParams : Nat → Option VersionParameters := fun v =>
  if v = 1 then some ⟨5, 5⟩
  else if v = SPECIAL_COMMUNICATION then some CalculateVersionParameters
  else none

/-- The payload `"hello"`. -/
def helloPayload : List Byte := [104, 101, 108, 108, 111]

/-- An empty `uv_buf_t`, as `ExtractRequestOffTheBuffer` passes it to the parser. -/
def emptyBuffer : Buffer := ⟨none, 0⟩

/-- A processor table whose version 1 allows requests of five bytes and responses of
eight bytes. -/
def asymmetricParams : Nat → Option VersionParameters := fun v =>
  if v = 1 then some ⟨5, 8⟩ else none

/-- A payload of eight bytes. -/
def eightBytes : List Byte := [1, 2, 3, 4, 5, 6, 7, 8]

/-- Two handles of the server 7, the handle with the larger registration number first in
the iteration order of the `std::set<ClientHandle*>` that holds their addresses. -/
def sampleHandles : List ClientHandle := [⟨2, 7⟩, ⟨1, 7⟩]

/-- The handle of a peer that is connected to the server 7 as its client 99. -/
def samplePeer : ClientHandle := ⟨99, 7⟩

/-- A stand-in for `AddResponseToQueues` that changes the queue state, here a counter, on
every call. -/
def countingQueues : Response → ClientHandlesPtrs → ProcessorState Nat → ProcessorState Nat :=
  fun _ _ st => { st with queues := st.queues + 1 }

/-- A processor state with nothing created and nothing queued. -/
def idleProcessor : ProcessorState Nat := ⟨0, 0, 0, [], 0, 0, 0⟩

/-- The content of memory where no session has been constructed. -/
def blankClient : stClient :=
  { m_bIsAccepted := false, m_bIsReadStarted := false, m_bIsAddedToPool := false,
    m_ClientHandle := ⟨0, 0⟩, m_bDeleted := false, m_Version := 0,
    m_bRequestIsBeingProcessed := false, m_bRequestProcessingFinished := false,
    m_LockRequestsResponses := ⟨0, 0, 0⟩,
    m_ResponsesQueue1 := [], m_ResponsesQueue2 := [], m_bResponseQueueFull := false,
    m_pResponsesBuffersBeingSent := [], m_pResponsesBeingSent := [],
    m_bDisconnectInitiated := false, m_bToBeDisconnected := false }

/-- The content of memory where no response has been constructed. -/
def blankResponse : ResponseObject :=
  { members := ⟨⟨none, 0⟩, 0, 0, false, false, false, 0⟩,
    m_ReferenceCount := 0, ResponseSentCount := 0, bAddedToStat := false, deleted := false }

/-- The server as its constructors leave it: no session, no peer, the direction flag
FALSE and the statistics at zero. -/
def initialServer : Server :=
  { clients := fun _ => blankClient, responses := fun _ => blankResponse,
    peers := fun _ => new_stPeerServer 0,
    m_ClientsMap := [], m_bIsServerShuttingDown := false,
    m_bResponseDirectionFlag := false,
    after_send_response_called_by_send_response := false,
    m_RecevingClientsSet1 := [], m_RecevingClientsSet2 := [],
    m_ServersInfo := [], m_RecevingServersSet1 := [], m_RecevingServersSet2 := [],
    QueuedDisconnections := 0, m_stServerStat := {}, errors := 0, writes := [],
    disconnections := [], connectionsInitiated := [] }

/-- A session of the server 7 as `on_new_client` leaves it: constructed with
`MaxPendingResponses` = 16, accepted, reading and added to the pool. -/
def liveSession (ClientRegistrationNumber : Nat) : stClient :=
  { m_bIsAccepted := true, m_bIsReadStarted := true, m_bIsAddedToPool := true,
    m_ClientHandle := ⟨ClientRegistrationNumber, 7⟩, m_bDeleted := false,
    m_Version := UNINITIALIZED_VERSION,
    m_bRequestIsBeingProcessed := false, m_bRequestProcessingFinished := true,
    m_LockRequestsResponses := ⟨0, 0, 0⟩,
    m_ResponsesQueue1 := [], m_ResponsesQueue2 := [], m_bResponseQueueFull := false,
    m_pResponsesBuffersBeingSent := List.replicate 16 ⟨none, 0⟩, m_pResponsesBeingSent := [],
    m_bDisconnectInitiated := false, m_bToBeDisconnected := false }

/-- A server with two sessions, A with the registration number 1 at the address 100 and B
with the registration number 2 at the address 200, both added to the pool by
`AddClient`. -/
def twoSessions : Server :=
  (AddClient 200 (AddClient 100
    { initialServer with
      clients := fun p =>
        if p = 100 then liveSession 1 else if p = 200 then liveSession 2 else blankClient,
      m_stServerStat := { ClientsConnectedCount := 2 } }).2).2

/-- A forwarded request of seven bytes that declares 2^29 handles: the version 1, the
count `0x20000000` and one more byte. -/
def hugeCountRequest : List Byte := [0, 1, 0x20, 0, 0, 0, 0xAA]

/-- A local response of three bytes, of the type `RESPONSE_ORDINARY`, as `new Response`
leaves it. -/
def ordinaryResponse : ResponseObject :=
  { members := ⟨⟨some [1, 2, 3], 3⟩, 7, 1, false, false, false, RESPONSE_ORDINARY⟩,
    m_ReferenceCount := 0, ResponseSentCount := 0, bAddedToStat := false, deleted := false }

/-- The two sessions A and B after the response at the address 5000 has been queued for
both. -/
def queuedForBoth : Server :=
  (ConnectionsManager.AddResponseToQueues 16 64 900 50 5000 [⟨1, 7⟩, ⟨2, 7⟩]
    (twoSessions.setResponse 5000 ordinaryResponse)).2

/-- A local response of the type `RESPONSE_FATAL_ERROR`, as `new Response` leaves it for a
buffer of the version `SPECIAL_COMMUNICATION` whose first byte is 3. -/
def fatalResponse : ResponseObject :=
  { members := ⟨⟨some [3], 1⟩, 7, 1, false, false, false, RESPONSE_FATAL_ERROR⟩,
    m_ReferenceCount := 1, ResponseSentCount := 0, bAddedToStat := true, deleted := false }

/-- The two sessions with three responses at the addresses 5001, of the type
`RESPONSE_FATAL_ERROR`, and 5002 and 5003, of the type `RESPONSE_ORDINARY`. -/
def withFatalResponse : Server :=
  ((twoSessions.setResponse 5001 fatalResponse).setResponse 5002
    { ordinaryResponse with m_ReferenceCount := 1 }).setResponse 5003
    { ordinaryResponse with m_ReferenceCount := 1 }

/-- The session A with the fatal response 5001 at the back of its first queue and the
ordinary response 5002 behind it, and the direction flag FALSE, under which the send cycle
drains the first queues. -/
def fatalAtHead : Server :=
  { (withFatalResponse.setClient 100
      { withFatalResponse.clients 100 with m_ResponsesQueue1 := [5002, 5001] }) with
    m_RecevingClientsSet1 := [100] }

/-- A run on the two sessions: three responses are queued for the session A, a send cycle
hands them to `uv_write`, two more are queued, a second cycle finds the write in flight,
the write completes, and two more cycles follow. -/
def sampleCycleEvents : List CycleEvent :=
  [CycleEvent.enqueue 5001 100, CycleEvent.enqueue 5002 100, CycleEvent.enqueue 5003 100,
   CycleEvent.sendCycle (fun _ => 0) (fun _ => 0) 50,
   CycleEvent.enqueue 5004 100, CycleEvent.enqueue 5005 100,
   CycleEvent.sendCycle (fun _ => 0) (fun _ => 0) 51,
   CycleEvent.completion (fun _ => 0) (fun _ => 0) (Node.client 100) WRITE_OK 52,
   CycleEvent.sendCycle (fun _ => 0) (fun _ => 0) 53,
   CycleEvent.sendCycle (fun _ => 0) (fun _ => 0) 54]

/-- The worker's call of `ConnectionsManager::AddResponseToQueues` for a new ordinary
response at the address `pResponse` and the session A. -/
def enqueueForA (pResponse : Nat) (s : Server) : Server :=
  (ConnectionsManager.AddResponseToQueues 16 64 900 50 pResponse [⟨1, 7⟩]
    (s.setResponse pResponse ordinaryResponse)).2

/-- A tick of the timer, `ConnectionsManager::DoPeriodicActivities`, with writes that
succeed. -/
def timerTick (s : Server) : Server :=
  DoPeriodicActivities 16 (fun _ => 0) (fun _ => 0) 64 50 2 s

/-- The callback `after_send_responses` of libuv for the write of the session A, with the
status `WRITE_OK`. -/
def writeCompletedForA (s : Server) : Server :=
  after_send_responses (DoPeriodicActivities 16 (fun _ => 0) (fun _ => 0) 64 50 2) 64
    (Node.client 100) WRITE_OK 50 s

/-- The run in which a send cycle finds the write of the first response still in flight:
the responses 5001, 5002 and 5003 are queued for the session A in this order, with a
timer tick after the first and after the second, and then the first write completes. -/
def skippedCycleRun : Server :=
  writeCompletedForA (enqueueForA 5003 (timerTick (enqueueForA 5002
    (timerTick (enqueueForA 5001 twoSessions)))))

/-- A first call of `GetServerConnection` for the peer at address 300 at the time 1000,
when `uv_getaddrinfo` reports a failure at once (it returns -1). -/
def synchronousFailure : Int × Server :=
  GetServerConnection (fun _ => -1) 1000 300 initialServer

/-- A server with a connected peer at the address 300 whose inbound buffer is empty. -/
def connectedPeer : Server :=
  initialServer.setPeer 300
    { new_stPeerServer 9 with m_connection := some 1, Status := CONNECTION_CONNECTED }

/-- The 10240 bytes of a read that fills the whole inbound buffer: the header of a frame
of the version `SPECIAL_COMMUNICATION` that declares a payload of 20000 bytes, and the
first 10231 bytes of the payload. -/
def oversizedFrameStart : List Byte :=
  frameHeader SPECIAL_COMMUNICATION 20000 ++ List.replicate 10231 0

/-- Ten bytes that do not start with the preamble. -/
def malformedBytes : List Byte := [1, 2, 3, 4, 5, 6, 7, 8, 9, 10]

/-- The connected peer once libuv has stored the ten malformed bytes in its buffer. -/
def malformedBuffered : Server :=
  connectedPeer.setPeer 300
    { connectedPeer.peers 300 with
      m_response_buffer := malformedBytes, m_ResponseBufferIndex := 10 }

/-- A tick on which every gate is open. -/
def openGates : ShutdownGates := ⟨true, 0, true, 0, 0, 0, 0, true, true⟩

/-- A shutdown in eight ticks: a client still closing, then the deletion of the
processors, a tick with a processor still active, the disconnection of the peers, a tick
with a peer still closing, and three ticks with all gates open. -/
def sampleShutdown : List ShutdownGates :=
  [{ openGates with AreClientsClosing := 1 }, openGates,
   { openGates with GetActiveProcessors := 2 }, openGates,
   { openGates with AreServersClosing := 1 }, openGates, openGates, openGates]

/-- Events of the session A: a frame of the version 1 with the payload `"hello"` that
arrives in three pieces, a second frame that arrives while the first request is being
processed, and the end of the work item of the first request. -/
def sampleInboundEvents : List InboundEvent :=
  [InboundEvent.bytes 50 ((frame 1 helloPayload).take 4),
   InboundEvent.bytes 51 ((frame 1 helloPayload).drop 4),
   InboundEvent.bytes 52 ((frame 1 helloPayload).drop 10),
   InboundEvent.bytes 53 (frame 1 helloPayload),
   InboundEvent.completed 54 0 false false,
   InboundEvent.bytes 55 (frame 1 helloPayload)]

/-! ## Lemmas on loads, stores and the header -/

theorem byteOf_val (x : Nat) : (byteOf x).val = x % 256 := rfl

theorem htons_bytes (a b : Nat) (ha : a < 256) (hb : b < 256) :
    htons (a + 256 * b) = a * 256 + b := by
  unfold htons; omega

theorem htonl_bytes (a b c d : Nat) (ha : a < 256) (hb : b < 256) (hc : c < 256)
    (hd : d < 256) :
    htonl (a + 256 * b + 65536 * c + 16777216 * d)
      = a * 16777216 + b * 65536 + c * 256 + d := by
  unfold htonl; omega

theorem frameHeader_append (v n : Nat) (rest : List Byte) :
    frameHeader v n ++ rest =
      (0x4D : Byte) :: 0x41 :: 0x49 :: byteOf (v / 256) :: byteOf v
        :: byteOf (n / 16777216) :: byteOf (n / 65536) :: byteOf (n / 256) :: byteOf n
        :: rest := by
  simp [frameHeader, bigEndian, MSG_PREAMBLE]

theorem length_frameHeader (v n : Nat) : (frameHeader v n).length = 9 := by
  simp [frameHeader, bigEndian, MSG_PREAMBLE]

theorem drop_frameHeader (v n : Nat) (rest : List Byte) :
    (frameHeader v n ++ rest).drop HEADER_SIZE = rest := by
  rw [frameHeader_append]; rfl

theorem preambleMismatch_frameHeader (v n : Nat) (rest : List Byte) :
    preambleMismatch (frameHeader v n ++ rest) = false := by
  rw [frameHeader_append]
  simp [preambleMismatch, MSG_PREAMBLE, List.range, List.range.loop, List.getD]

theorem version_frameHeader (v n : Nat) (rest : List Byte) :
    ntohs (loadUSHORT (frameHeader v n ++ rest) PREAMBLE_BYTES) = v % 65536 := by
  rw [frameHeader_append]
  simp only [ntohs, loadUSHORT, loadByte, PREAMBLE_BYTES, List.getD_cons_succ,
    List.getD_cons_zero, byteOf_val]
  rw [htons_bytes _ _ (Nat.mod_lt _ (by decide)) (Nat.mod_lt _ (by decide))]
  omega

theorem size_frameHeader (v n : Nat) (rest : List Byte) :
    ntohl (loadUINT (frameHeader v n ++ rest) (PREAMBLE_BYTES + VERSION_BYTES))
      = n % 4294967296 := by
  rw [frameHeader_append]
  simp only [ntohl, loadUINT, loadByte, PREAMBLE_BYTES, VERSION_BYTES, Nat.reduceAdd,
    List.getD_cons_succ, List.getD_cons_zero, byteOf_val]
  rw [htonl_bytes _ _ _ _ (Nat.mod_lt _ (by decide)) (Nat.mod_lt _ (by decide))
    (Nat.mod_lt _ (by decide)) (Nat.mod_lt _ (by decide))]
  omega

/-- The parameters of `SPECIAL_COMMUNICATION` are valid and allow 1179654 bytes each
way. -/
theorem CalculateVersionParameters_valid :
    CalculateVersionParameters = ⟨1179654, 1179654⟩
    ∧ ValidVersionParameters CalculateVersionParameters := by
  decide

theorem UINT_of_int_lt (x : Int) : UINT_of_int x < 4294967296 := by
  unfold UINT_of_int; omega

theorem UINT_of_int_of_nonneg (x : Int) (h0 : 0 ≤ x) (h1 : x < 4294967296) :
    (UINT_of_int x : Int) = x := by
  unfold UINT_of_int; omega

/-- Every buffer that holds nine bytes and starts with `"MAI"` is a header followed by
the remaining bytes. -/
theorem exists_frameHeader (buf : List Byte) (hlen : 9 ≤ buf.length)
    (hpre : buf.take 3 = MSG_PREAMBLE) :
    ∃ v n rest, v < 65536 ∧ n < 4294967296 ∧ buf = frameHeader v n ++ rest := by
  match buf, hlen, hpre with
  | b0 :: b1 :: b2 :: b3 :: b4 :: b5 :: b6 :: b7 :: b8 :: rest, _, hpre =>
    refine ⟨b3.val * 256 + b4.val,
      b5.val * 16777216 + b6.val * 65536 + b7.val * 256 + b8.val, rest, ?_, ?_, ?_⟩
    · omega
    · omega
    · rw [frameHeader_append]
      simp only [List.take, MSG_PREAMBLE, List.cons.injEq, and_true] at hpre
      obtain ⟨h0, h1, h2⟩ := hpre
      subst h0 h1 h2
      have e3 : byteOf ((b3.val * 256 + b4.val) / 256) = b3 := by
        apply Fin.ext; rw [byteOf_val]; omega
      have e4 : byteOf (b3.val * 256 + b4.val) = b4 := by
        apply Fin.ext; rw [byteOf_val]; omega
      have e5 : byteOf ((b5.val * 16777216 + b6.val * 65536 + b7.val * 256 + b8.val)
          / 16777216) = b5 := by
        apply Fin.ext; rw [byteOf_val]; omega
      have e6 : byteOf ((b5.val * 16777216 + b6.val * 65536 + b7.val * 256 + b8.val)
          / 65536) = b6 := by
        apply Fin.ext; rw [byteOf_val]; omega
      have e7 : byteOf ((b5.val * 16777216 + b6.val * 65536 + b7.val * 256 + b8.val)
          / 256) = b7 := by
        apply Fin.ext; rw [byteOf_val]; omega
      have e8 : byteOf (b5.val * 16777216 + b6.val * 65536 + b7.val * 256 + b8.val)
          = b8 := by
        apply Fin.ext; rw [byteOf_val]; omega
      rw [e3, e4, e5, e6, e7, e8]

/-- The parser on a buffer that starts with a header, branch by branch. -/
theorem parse_frameHeader (params : Nat → Option VersionParameters)
    (v n : Nat) (rest : List Byte) (buffer_length e : Nat) (out0 : Buffer)
    (hv : v < 65536) (hn : n < 4294967296) :
    ValidateProtocolAndExtractRequest params (frameHeader v n ++ rest) buffer_length e out0 =
      if buffer_length < 10 then ⟨WAIT_FOR_MORE_BYTES, e, out0⟩
      else if v = 0 ∨ (e ≠ 0 ∧ e ≠ v) then ⟨INVALID_VERSION, e, out0⟩
      else if n = 0 then ⟨INVALID_SIZE, v, out0⟩
      else match params v with
        | none => ⟨INVALID_VERSION, v, out0⟩
        | some vp =>
          if UINT_of_int vp.m_MaxRequestSize < n then ⟨INVALID_SIZE, v, out0⟩
          else if buffer_length < n + 9 then ⟨WAIT_FOR_MORE_BYTES, v, { out0 with len := n }⟩
          else ⟨REQUEST_FOUND, v, { base := some rest, len := n }⟩ := by
  unfold ValidateProtocolAndExtractRequest
  simp only [preambleMismatch_frameHeader, version_frameHeader, size_frameHeader,
    drop_frameHeader, Nat.mod_eq_of_lt hv, Nat.mod_eq_of_lt hn]
  have h64 : (n + HEADER_SIZE) % 18446744073709551616 = n + 9 := by
    simp only [HEADER_SIZE, PREAMBLE_BYTES, VERSION_BYTES, SIZE_BYTES]; omega
  simp only [h64, show HEADER_SIZE + 1 = 10 from rfl]
  by_cases h1 : buffer_length < 10
  · simp only [h1, if_true]
  · have hv' : ¬ v > 65535 := by omega
    simp only [h1, if_false, hv', false_or, Bool.false_eq_true, gt_iff_lt,
      UNINITIALIZED_VERSION]

theorem bytes_mk (rest : List Byte) (n : Nat) :
    Buffer.bytes { base := some rest, len := n } = rest.take n := rfl

/-- The parser on a buffer that starts with a valid header. -/
theorem parse_valid_header (params : Nat → Option VersionParameters) (vp : VersionParameters)
    (v n e buffer_length : Nat) (rest : List Byte) (out0 : Buffer)
    (hv0 : v ≠ UNINITIALIZED_VERSION) (hv : v < 65536)
    (he : e = UNINITIALIZED_VERSION ∨ e = v)
    (hp : params v = some vp) (hint : IsInt vp.m_MaxRequestSize)
    (hn1 : 1 ≤ n) (hn2 : (n : Int) ≤ vp.m_MaxRequestSize) :
    ValidateProtocolAndExtractRequest params (frameHeader v n ++ rest) buffer_length e out0 =
      if buffer_length < 10 then ⟨WAIT_FOR_MORE_BYTES, e, out0⟩
      else if buffer_length < n + 9 then ⟨WAIT_FOR_MORE_BYTES, v, { out0 with len := n }⟩
      else ⟨REQUEST_FOUND, v, { base := some rest, len := n }⟩ := by
  obtain ⟨-, h2⟩ := hint
  have hU := UINT_of_int_of_nonneg vp.m_MaxRequestSize (by omega) (by omega)
  have hn : n < 4294967296 := by omega
  rw [parse_frameHeader params v n rest buffer_length e out0 hv hn]
  have hc : ¬ (v = 0 ∨ (e ≠ 0 ∧ e ≠ v)) := by
    simp only [UNINITIALIZED_VERSION] at hv0 he
    rcases he with he | he <;> simp [he, hv0]
  have hn0 : ¬ n = 0 := by omega
  have hmax : ¬ UINT_of_int vp.m_MaxRequestSize < n := by omega
  simp only [hc, hn0, if_false, hp, hmax]

/-! ## Lemmas on byte order and on the construction of responses -/

theorem byteOf_congr (a b : Nat) (h : a % 256 = b % 256) : byteOf a = byteOf b := by
  apply Fin.ext; simp only [byteOf_val]; exact h

theorem swap2_bytes (a b : Nat) (ha : a < 256) (hb : b < 256) :
    (a * 256 + b) % 256 = b ∧ (a * 256 + b) / 256 % 256 = a := by
  refine ⟨?_, ?_⟩ <;> omega

theorem swap4_bytes (a b c d : Nat) (ha : a < 256) (hb : b < 256) (hc : c < 256)
    (hd : d < 256) :
    (a * 16777216 + b * 65536 + c * 256 + d) % 256 = d
    ∧ (a * 16777216 + b * 65536 + c * 256 + d) / 256 % 256 = c
    ∧ (a * 16777216 + b * 65536 + c * 256 + d) / 65536 % 256 = b
    ∧ (a * 16777216 + b * 65536 + c * 256 + d) / 16777216 % 256 = a := by
  refine ⟨?_, ?_, ?_, ?_⟩ <;> omega

theorem bytesOfUSHORT_htons (v : Nat) : bytesOfUSHORT (htons v) = bigEndian 2 v := by
  simp only [bytesOfUSHORT, bigEndian, htons, pow_one, pow_zero, Nat.div_one]
  obtain ⟨h1, h2⟩ := swap2_bytes (v % 256) (v / 256 % 256) (Nat.mod_lt _ (by decide))
    (Nat.mod_lt _ (by decide))
  have e1 : byteOf (v % 256 * 256 + v / 256 % 256) = byteOf (v / 256) :=
    byteOf_congr _ _ h1
  have e2 : byteOf ((v % 256 * 256 + v / 256 % 256) / 256) = byteOf v :=
    byteOf_congr _ _ h2
  rw [e1, e2]

theorem bytesOfUINT_htonl (n : Nat) : bytesOfUINT (htonl n) = bigEndian 4 n := by
  simp only [bytesOfUINT, bigEndian, htonl, pow_one, pow_zero, Nat.div_one]
  obtain ⟨h1, h2, h3, h4⟩ := swap4_bytes (n % 256) (n / 256 % 256) (n / 65536 % 256)
    (n / 16777216 % 256) (Nat.mod_lt _ (by decide)) (Nat.mod_lt _ (by decide))
    (Nat.mod_lt _ (by decide)) (Nat.mod_lt _ (by decide))
  have e1 : byteOf (n % 256 * 16777216 + n / 256 % 256 * 65536 + n / 65536 % 256 * 256
      + n / 16777216 % 256) = byteOf (n / 256 ^ 3) := byteOf_congr _ _ h1
  have e2 : byteOf ((n % 256 * 16777216 + n / 256 % 256 * 65536 + n / 65536 % 256 * 256
      + n / 16777216 % 256) / 256) = byteOf (n / 256 ^ 2) := byteOf_congr _ _ h2
  have e3 : byteOf ((n % 256 * 16777216 + n / 256 % 256 * 65536 + n / 65536 % 256 * 256
      + n / 16777216 % 256) / 65536) = byteOf (n / 256) := byteOf_congr _ _ h3
  have e4 : byteOf ((n % 256 * 16777216 + n / 256 % 256 * 65536 + n / 65536 % 256 * 256
      + n / 16777216 % 256) / 16777216) = byteOf n := byteOf_congr _ _ h4
  rw [e1, e2, e3, e4]

theorem htonl_lt (x : Nat) : htonl x < 4294967296 := by
  unfold htonl; omega

theorem htonll_eq (x : Nat) :
    htonll x = htonl (x % 4294967296) * 4294967296 + htonl (x / 4294967296) := by
  unfold htonll
  have h1 : ¬ (1 = htonl 1) := by decide
  rw [if_neg h1]
  have e1 : x &&& 0xFFFFFFFF = x % 4294967296 := Nat.and_pow_two_sub_one_eq_mod x 32
  have e2 : x >>> 32 = x / 4294967296 := Nat.shiftRight_eq_div_pow x 32
  rw [e1, e2, Nat.shiftLeft_eq]
  have hl := htonl_lt (x % 4294967296)
  have hr := htonl_lt (x / 4294967296)
  have e3 : (htonl (x % 4294967296) * 2 ^ 32) % 18446744073709551616
      = 2 ^ 32 * htonl (x % 4294967296) := by
    norm_num; omega
  rw [e3, ← Nat.mul_add_lt_is_or (by norm_num; exact hr)]
  norm_num; omega

theorem bytesOfUINT64_htonll (x : Nat) :
    bytesOfUINT64 (htonll x) = bigEndian 8 x := by
  rw [htonll_eq x]
  have hl := htonl_lt (x % 4294967296)
  have hr := htonl_lt (x / 4294967296)
  have e1 : (htonl (x % 4294967296) * 4294967296 + htonl (x / 4294967296)) % 4294967296
      = htonl (x / 4294967296) := by omega
  have e2 : (htonl (x % 4294967296) * 4294967296 + htonl (x / 4294967296)) / 4294967296
      = htonl (x % 4294967296) := by omega
  unfold bytesOfUINT64
  rw [e1, e2, bytesOfUINT_htonl, bytesOfUINT_htonl]
  simp only [bigEndian, pow_one, pow_zero, Nat.div_one, List.cons_append, List.nil_append]
  have f (a b : Nat) (h : a % 256 = b % 256) : byteOf a = byteOf b := by
    apply Fin.ext; simp only [byteOf_val]; exact h
  have g1 := f (x / 4294967296 / 256 ^ 3) (x / 256 ^ 7) (by norm_num; omega)
  have g2 := f (x / 4294967296 / 256 ^ 2) (x / 256 ^ 6) (by norm_num; omega)
  have g3 := f (x / 4294967296 / 256) (x / 256 ^ 5) (by norm_num; omega)
  have g4 := f (x / 4294967296) (x / 256 ^ 4) (by norm_num)
  have g5 := f (x % 4294967296 / 256 ^ 3) (x / 256 ^ 3) (by norm_num; omega)
  have g6 := f (x % 4294967296 / 256 ^ 2) (x / 256 ^ 2) (by norm_num; omega)
  have g7 := f (x % 4294967296 / 256) (x / 256) (by omega)
  have g8 := f (x % 4294967296) (x) (by omega)
  rw [g1, g2, g3, g4, g5, g6, g7, g8]

theorem memcpy_s_extend (pre src : List Byte) (k offset destsz count : Nat)
    (hoff : offset = pre.length) (hcount : count ≤ destsz) :
    memcpy_s (pre ++ newArray k) offset destsz src count
      = (pre ++ src.take count) ++ newArray (k - count) := by
  subst hoff
  unfold memcpy_s newArray
  rw [if_pos hcount, List.take_left, List.drop_append, List.drop_replicate]


theorem subSizeT_eq (a b : Nat) (hb : b ≤ a) (ha : a < 18446744073709551616) :
    subSizeT a b = a - b := by
  unfold subSizeT; omega

/-- The local response that the constructor builds for an acceptable payload. -/
theorem ConstructResponseForLocalClients_eq (params : Nat → Option VersionParameters)
    (vp : VersionParameters) (v n k : Nat) (mem : List Byte)
    (hp : params v = some vp) (hint : IsInt vp.m_MaxResponseSize)
    (hn2 : (n : Int) ≤ vp.m_MaxResponseSize) :
    ConstructResponseForLocalClients params ⟨some mem, n⟩ k v
      = some ⟨some (frameHeader v n ++ mem.take n), 9 + n⟩ := by
  obtain ⟨-, h4⟩ := hint
  have hU := UINT_of_int_of_nonneg vp.m_MaxResponseSize (by omega) (by omega)
  have hlen : (n + HEADER_SIZE) % 4294967296 = n + 9 := by
    simp only [HEADER_SIZE, PREAMBLE_BYTES, VERSION_BYTES, SIZE_BYTES]; omega
  unfold ConstructResponseForLocalClients
  simp only [hp, hlen, Option.getD_some]
  have s9 : subSizeT (n + 9) HEADER_SIZE = n := by
    rw [subSizeT_eq _ _
      (by simp only [HEADER_SIZE, PREAMBLE_BYTES, VERSION_BYTES, SIZE_BYTES]; omega) (by omega)]
    simp only [HEADER_SIZE, PREAMBLE_BYTES, VERSION_BYTES, SIZE_BYTES]; omega
  have s3 : subSizeT (n + 9) PREAMBLE_BYTES = n + 6 := by
    rw [subSizeT_eq _ _ (by simp only [PREAMBLE_BYTES]; omega) (by omega)]
    simp only [PREAMBLE_BYTES]; omega
  have s5 : subSizeT (n + 9) (PREAMBLE_BYTES + VERSION_BYTES) = n + 4 := by
    rw [subSizeT_eq _ _ (by simp only [PREAMBLE_BYTES, VERSION_BYTES]; omega) (by omega)]
    simp only [PREAMBLE_BYTES, VERSION_BYTES]; omega
  have hmax : ¬ n > UINT_of_int vp.m_MaxResponseSize := by omega
  simp only [s9, s3, s5, hmax, if_false]
  have b1 : memcpy_s (newArray (n + 9)) 0 (n + 9) MSG_PREAMBLE PREAMBLE_BYTES
      = MSG_PREAMBLE ++ newArray (n + 6) := by
    have := memcpy_s_extend [] MSG_PREAMBLE (n + 9) 0 (n + 9) PREAMBLE_BYTES rfl
      (by simp only [PREAMBLE_BYTES]; omega)
    simpa [MSG_PREAMBLE] using this
  have b2 : memcpy_s (MSG_PREAMBLE ++ newArray (n + 6)) PREAMBLE_BYTES (n + 6)
      (bytesOfUSHORT (htons v)) VERSION_BYTES
      = (MSG_PREAMBLE ++ bigEndian 2 v) ++ newArray (n + 4) := by
    rw [memcpy_s_extend MSG_PREAMBLE (bytesOfUSHORT (htons v)) (n + 6) PREAMBLE_BYTES (n + 6)
      VERSION_BYTES rfl (by simp only [VERSION_BYTES]; omega), bytesOfUSHORT_htons]
    rfl
  have b3 : memcpy_s ((MSG_PREAMBLE ++ bigEndian 2 v) ++ newArray (n + 4))
      (PREAMBLE_BYTES + VERSION_BYTES) (n + 4) (bytesOfUINT (htonl n)) SIZE_BYTES
      = frameHeader v n ++ newArray n := by
    rw [memcpy_s_extend (MSG_PREAMBLE ++ bigEndian 2 v) (bytesOfUINT (htonl n)) (n + 4)
      (PREAMBLE_BYTES + VERSION_BYTES) (n + 4) SIZE_BYTES rfl
      (by simp only [SIZE_BYTES]; omega), bytesOfUINT_htonl]
    rfl
  have b4 : memcpy_s (frameHeader v n ++ newArray n) HEADER_SIZE n mem n
      = frameHeader v n ++ mem.take n := by
    rw [memcpy_s_extend (frameHeader v n) mem n HEADER_SIZE n n
      (length_frameHeader v n).symm (Nat.le_refl n)]
    simp [newArray]
  rw [b1, b2, b3, b4, Nat.add_comm n 9]



theorem length_bigEndian (w x : Nat) : (bigEndian w x).length = w := by
  induction w with
  | zero => rfl
  | succ w ih => simp [bigEndian, ih]

theorem length_registrationNumbersBE (rs : List Nat) :
    (registrationNumbersBE rs).length = 8 * rs.length := by
  induction rs with
  | nil => rfl
  | cons r rs ih =>
    simp only [registrationNumbersBE, List.length_append, length_bigEndian, ih, List.length_cons]
    omega

theorem fillHandles_eq (S : Nat) (hs : List ClientHandle) (pre : List Byte) (k : Nat)
    (hS : pre.length + k = S) (hS32 : S < 4294967296) (hk : 8 * hs.length ≤ k) :
    fillHandles S hs (pre ++ newArray k, pre.length)
      = (pre ++ registrationNumbersBE (hs.map (fun h => h.m_ClientRegistrationNumber))
          ++ newArray (k - 8 * hs.length), pre.length + 8 * hs.length) := by
  induction hs generalizing pre k with
  | nil => simp [fillHandles, registrationNumbersBE]
  | cons h t ih =>
    simp only [List.length_cons] at hk
    have hd : (S + 4294967296 - pre.length) % 4294967296 = k := by omega
    have hj : (pre.length + 8) % 4294967296 = pre.length + 8 := by omega
    have hlen8 : (bigEndian 8 h.m_ClientRegistrationNumber).length = 8 := length_bigEndian _ _
    simp only [fillHandles, hd, hj]
    rw [memcpy_s_extend pre _ k pre.length k 8 rfl (by omega), bytesOfUINT64_htonll,
      List.take_of_length_le (by rw [hlen8])]
    have hpl : (pre ++ bigEndian 8 h.m_ClientRegistrationNumber).length = pre.length + 8 := by
      rw [List.length_append, hlen8]
    have := ih (pre ++ bigEndian 8 h.m_ClientRegistrationNumber) (k - 8)
      (by rw [hpl]; omega) (by omega)
    rw [hpl] at this
    rw [this]
    simp only [List.map_cons, registrationNumbersBE, List.append_assoc, List.length_cons,
      Prod.mk.injEq]
    have hk' : k - 8 - 8 * t.length = k - 8 * (t.length + 1) := by omega
    rw [hk']
    exact ⟨rfl, by omega⟩


/-- The forwarded response that the constructor builds when it fits the limit of
`SPECIAL_COMMUNICATION`. -/
theorem ConstructResponseForRemoteClients_eq (params : Nat → Option VersionParameters)
    (vp : VersionParameters) (hs : List ClientHandle) (v n : Nat) (mem : List Byte)
    (hp : params SPECIAL_COMMUNICATION = some vp) (hint : IsInt vp.m_MaxResponseSize)
    (hfit : ((2 + 4 + 8 * hs.length + n : Nat) : Int) ≤ vp.m_MaxResponseSize) :
    ConstructResponseForRemoteClients params hs hs.length ⟨some mem, n⟩ v
      = some ⟨some (frameHeader SPECIAL_COMMUNICATION (2 + 4 + 8 * hs.length + n)
            ++ (bigEndian 2 v ++ bigEndian 4 hs.length
              ++ registrationNumbersBE (hs.map (fun h => h.m_ClientRegistrationNumber))
              ++ mem.take n)),
          9 + 2 + 4 + 8 * hs.length + n⟩ := by
  obtain ⟨-, h4⟩ := hint
  have hU := UINT_of_int_of_nonneg vp.m_MaxResponseSize (by omega) (by omega)
  unfold ConstructResponseForRemoteClients
  simp only [HEADER_SIZE, PREAMBLE_BYTES, VERSION_BYTES, SIZE_BYTES, HANDLE_BYTES,
    Nat.reduceAdd, hp, Option.getD_some]
  have hA : hs.length * 8 % 4294967296 = 8 * hs.length := by omega
  have hB : (6 + 8 * hs.length) % 4294967296 = 6 + 8 * hs.length := by omega
  have hC : (n + (6 + 8 * hs.length)) % 4294967296 = 6 + 8 * hs.length + n := by omega
  have hD : (n + 9 + (6 + 8 * hs.length)) % 4294967296 = 15 + 8 * hs.length + n := by omega
  simp only [hA, hB, hC, hD]
  have s9 : subSizeT (15 + 8 * hs.length + n) 9 = 6 + 8 * hs.length + n := by
    rw [subSizeT_eq _ _ (by omega) (by omega)]; omega
  have s3 : subSizeT (15 + 8 * hs.length + n) 3 = 12 + 8 * hs.length + n := by
    rw [subSizeT_eq _ _ (by omega) (by omega)]; omega
  have s5 : subSizeT (15 + 8 * hs.length + n) 5 = 10 + 8 * hs.length + n := by
    rw [subSizeT_eq _ _ (by omega) (by omega)]; omega
  have s11 : subSizeT (15 + 8 * hs.length + n) 11 = 4 + 8 * hs.length + n := by
    rw [subSizeT_eq _ _ (by omega) (by omega)]; omega
  have s15 : subSizeT (15 + 8 * hs.length + n) 15 = 8 * hs.length + n := by
    rw [subSizeT_eq _ _ (by omega) (by omega)]; omega
  have s15' : subSizeT (15 + 8 * hs.length + n) (15 + 8 * hs.length) = n := by
    rw [subSizeT_eq _ _ (by omega) (by omega)]; omega
  have hmax : ¬ 6 + 8 * hs.length + n > UINT_of_int vp.m_MaxResponseSize := by omega
  simp only [s9, s3, s5, s11, s15, s15', hmax, if_false]
  have hH : (fillHandles (8 * hs.length) hs (newArray (8 * hs.length), 0)).1
      = registrationNumbersBE (hs.map (fun h => h.m_ClientRegistrationNumber)) := by
    have := fillHandles_eq (8 * hs.length) hs [] (8 * hs.length) (by simp) (by omega)
      (Nat.le_refl _)
    simp only [List.nil_append, List.length_nil] at this
    rw [this]
    simp [newArray]
  rw [hH]
  have b1 : memcpy_s (newArray (15 + 8 * hs.length + n)) 0 (15 + 8 * hs.length + n)
      MSG_PREAMBLE 3 = MSG_PREAMBLE ++ newArray (12 + 8 * hs.length + n) := by
    have := memcpy_s_extend [] MSG_PREAMBLE (15 + 8 * hs.length + n) 0
      (15 + 8 * hs.length + n) 3 rfl (by omega)
    have e : 15 + 8 * hs.length + n - 3 = 12 + 8 * hs.length + n := by omega
    simpa [MSG_PREAMBLE, e] using this
  have b2 : memcpy_s (MSG_PREAMBLE ++ newArray (12 + 8 * hs.length + n)) 3
      (12 + 8 * hs.length + n) (bytesOfUSHORT (htons SPECIAL_COMMUNICATION)) 2
      = (MSG_PREAMBLE ++ bigEndian 2 SPECIAL_COMMUNICATION)
        ++ newArray (10 + 8 * hs.length + n) := by
    rw [memcpy_s_extend MSG_PREAMBLE _ _ 3 _ 2 rfl (by omega), bytesOfUSHORT_htons]
    have e : 12 + 8 * hs.length + n - 2 = 10 + 8 * hs.length + n := by omega
    rw [e]; rfl
  have b3 : memcpy_s ((MSG_PREAMBLE ++ bigEndian 2 SPECIAL_COMMUNICATION)
        ++ newArray (10 + 8 * hs.length + n)) 5 (10 + 8 * hs.length + n)
      (bytesOfUINT (htonl (6 + 8 * hs.length + n))) 4
      = frameHeader SPECIAL_COMMUNICATION (6 + 8 * hs.length + n)
        ++ newArray (6 + 8 * hs.length + n) := by
    rw [memcpy_s_extend (MSG_PREAMBLE ++ bigEndian 2 SPECIAL_COMMUNICATION) _ _ 5 _ 4 rfl
      (by omega), bytesOfUINT_htonl]
    have e : 10 + 8 * hs.length + n - 4 = 6 + 8 * hs.length + n := by omega
    rw [e]; rfl
  have b4 : memcpy_s (frameHeader SPECIAL_COMMUNICATION (6 + 8 * hs.length + n)
        ++ newArray (6 + 8 * hs.length + n)) 9 (6 + 8 * hs.length + n)
      (bytesOfUSHORT (htons v)) 2
      = (frameHeader SPECIAL_COMMUNICATION (6 + 8 * hs.length + n) ++ bigEndian 2 v)
        ++ newArray (4 + 8 * hs.length + n) := by
    rw [memcpy_s_extend (frameHeader SPECIAL_COMMUNICATION (6 + 8 * hs.length + n)) _ _ 9 _ 2
      (length_frameHeader _ _).symm (by omega), bytesOfUSHORT_htons]
    have e : 6 + 8 * hs.length + n - 2 = 4 + 8 * hs.length + n := by omega
    rw [e]; rfl
  have b5 : memcpy_s ((frameHeader SPECIAL_COMMUNICATION (6 + 8 * hs.length + n)
        ++ bigEndian 2 v) ++ newArray (4 + 8 * hs.length + n)) 11 (4 + 8 * hs.length + n)
      (bytesOfUINT (htonl hs.length)) 4
      = (frameHeader SPECIAL_COMMUNICATION (6 + 8 * hs.length + n) ++ bigEndian 2 v
          ++ bigEndian 4 hs.length) ++ newArray (8 * hs.length + n) := by
    rw [memcpy_s_extend (frameHeader SPECIAL_COMMUNICATION (6 + 8 * hs.length + n)
      ++ bigEndian 2 v) _ _ 11 _ 4
      (by rw [List.length_append, length_frameHeader, length_bigEndian]) (by omega),
      bytesOfUINT_htonl]
    have e : 4 + 8 * hs.length + n - 4 = 8 * hs.length + n := by omega
    rw [e]; rfl
  have b6 : memcpy_s ((frameHeader SPECIAL_COMMUNICATION (6 + 8 * hs.length + n)
        ++ bigEndian 2 v ++ bigEndian 4 hs.length) ++ newArray (8 * hs.length + n)) 15
      (8 * hs.length + n)
      (registrationNumbersBE (hs.map (fun h => h.m_ClientRegistrationNumber)))
      (8 * hs.length)
      = (frameHeader SPECIAL_COMMUNICATION (6 + 8 * hs.length + n) ++ bigEndian 2 v
          ++ bigEndian 4 hs.length
          ++ registrationNumbersBE (hs.map (fun h => h.m_ClientRegistrationNumber)))
        ++ newArray n := by
    rw [memcpy_s_extend (frameHeader SPECIAL_COMMUNICATION (6 + 8 * hs.length + n)
      ++ bigEndian 2 v ++ bigEndian 4 hs.length) _ _ 15 _ (8 * hs.length)
      (by simp only [List.length_append, length_frameHeader, length_bigEndian]) (by omega),
      List.take_of_length_le (by rw [length_registrationNumbersBE, List.length_map])]
    have e : 8 * hs.length + n - 8 * hs.length = n := by omega
    rw [e]
  have b7 : memcpy_s ((frameHeader SPECIAL_COMMUNICATION (6 + 8 * hs.length + n)
        ++ bigEndian 2 v ++ bigEndian 4 hs.length
        ++ registrationNumbersBE (hs.map (fun h => h.m_ClientRegistrationNumber)))
        ++ newArray n) (15 + 8 * hs.length) n mem n
      = (frameHeader SPECIAL_COMMUNICATION (6 + 8 * hs.length + n) ++ bigEndian 2 v
          ++ bigEndian 4 hs.length
          ++ registrationNumbersBE (hs.map (fun h => h.m_ClientRegistrationNumber)))
        ++ mem.take n := by
    rw [memcpy_s_extend (frameHeader SPECIAL_COMMUNICATION (6 + 8 * hs.length + n)
      ++ bigEndian 2 v ++ bigEndian 4 hs.length
      ++ registrationNumbersBE (hs.map (fun h => h.m_ClientRegistrationNumber))) _ _
      (15 + 8 * hs.length) _ n
      (by simp only [List.length_append, length_frameHeader, length_bigEndian,
        length_registrationNumbersBE, List.length_map]) (Nat.le_refl n)]
    simp [newArray]
  rw [b1, b2, b3, b4, b5, b6, b7]
  have e1 : 2 + 4 + 8 * hs.length + n = 6 + 8 * hs.length + n := by omega
  have e2 : 9 + 2 + 4 + 8 * hs.length + n = 15 + 8 * hs.length + n := by omega
  rw [e1, e2]
  simp only [List.append_assoc]



theorem loadByte_append_right (pre l : List Byte) (i : Nat) :
    loadByte (pre ++ l) (pre.length + i) = loadByte l i := by
  unfold loadByte
  rw [List.getD_eq_getElem?_getD, List.getD_eq_getElem?_getD,
    List.getElem?_append_right (by omega)]
  have e : pre.length + i - pre.length = i := by omega
  rw [e]

theorem ntohl_lt (x : Nat) : ntohl x < 4294967296 := htonl_lt x

theorem ntohll_eq (x : Nat) :
    ntohll x = ntohl (x % 4294967296) * 4294967296 + ntohl (x / 4294967296) := by
  unfold ntohll
  have h1 : ¬ (1 = ntohl 1) := by decide
  rw [if_neg h1]
  have e1 : x &&& 0xFFFFFFFF = x % 4294967296 := Nat.and_pow_two_sub_one_eq_mod x 32
  have e2 : x >>> 32 = x / 4294967296 := Nat.shiftRight_eq_div_pow x 32
  rw [e1, e2, Nat.shiftLeft_eq]
  have hl := ntohl_lt (x % 4294967296)
  have hr := ntohl_lt (x / 4294967296)
  have e3 : (ntohl (x % 4294967296) * 2 ^ 32) % 18446744073709551616
      = 2 ^ 32 * ntohl (x % 4294967296) := by
    norm_num; omega
  rw [e3, ← Nat.mul_add_lt_is_or (by norm_num; exact hr)]
  norm_num; omega

theorem ntohll_loadUINT64_cons (b0 b1 b2 b3 b4 b5 b6 b7 : Byte) (rest : List Byte) :
    ntohll (loadUINT64 (b0 :: b1 :: b2 :: b3 :: b4 :: b5 :: b6 :: b7 :: rest) 0)
      = (b0.val * 16777216 + b1.val * 65536 + b2.val * 256 + b3.val) * 4294967296
        + (b4.val * 16777216 + b5.val * 65536 + b6.val * 256 + b7.val) := by
  rw [ntohll_eq]
  simp only [loadUINT64, loadUINT, loadByte, List.getD_cons_succ, List.getD_cons_zero,
    Nat.zero_add]
  have h0 := b0.isLt
  have h1 := b1.isLt
  have h2 := b2.isLt
  have h3 := b3.isLt
  have h4 := b4.isLt
  have h5 := b5.isLt
  have h6 := b6.isLt
  have h7 := b7.isLt
  have elo : (b0.val + 256 * b1.val + 65536 * b2.val + 16777216 * b3.val
      + 4294967296 * (b4.val + 256 * b5.val + 65536 * b6.val + 16777216 * b7.val))
        % 4294967296 = b0.val + 256 * b1.val + 65536 * b2.val + 16777216 * b3.val := by
    omega
  have ehi : (b0.val + 256 * b1.val + 65536 * b2.val + 16777216 * b3.val
      + 4294967296 * (b4.val + 256 * b5.val + 65536 * b6.val + 16777216 * b7.val))
        / 4294967296 = b4.val + 256 * b5.val + 65536 * b6.val + 16777216 * b7.val := by
    omega
  rw [elo, ehi]
  unfold ntohl
  rw [htonl_bytes _ _ _ _ h0 h1 h2 h3, htonl_bytes _ _ _ _ h4 h5 h6 h7]

theorem loadUINT64_bigEndian8 (r : Nat) (rest : List Byte) (hr : r < 18446744073709551616) :
    ntohll (loadUINT64 (bigEndian 8 r ++ rest) 0) = r := by
  simp only [bigEndian, List.cons_append, List.nil_append]
  rw [ntohll_loadUINT64_cons]
  simp only [byteOf_val]
  norm_num
  omega



theorem loadUINT64_append_right (pre l : List Byte) :
    loadUINT64 (pre ++ l) pre.length = loadUINT64 l 0 := by
  simp only [loadUINT64, loadUINT, Nat.add_assoc, Nat.reduceAdd, Nat.zero_add]
  rw [loadByte_append_right, loadByte_append_right, loadByte_append_right,
    loadByte_append_right, loadByte_append_right, loadByte_append_right,
    loadByte_append_right]
  have := loadByte_append_right pre l 0
  rw [Nat.add_zero] at this
  rw [this]

theorem loadUINT_bigEndian4 (x : Nat) (rest : List Byte) :
    ntohl (loadUINT (bigEndian 4 x ++ rest) 0) = x % 4294967296 := by
  simp only [bigEndian, pow_zero, Nat.div_one, pow_one, List.cons_append, List.nil_append,
    ntohl, loadUINT, loadByte, List.getD_cons_succ, List.getD_cons_zero, byteOf_val]
  rw [htonl_bytes _ _ _ _ (Nat.mod_lt _ (by decide)) (Nat.mod_lt _ (by decide))
    (Nat.mod_lt _ (by decide)) (Nat.mod_lt _ (by decide))]
  norm_num
  omega

theorem collectHandles_eq (ip len : Nat) (rs : List Nat) (pre rest : List Byte)
    (acc : ClientHandles) (hrs : ∀ r ∈ rs, r < 18446744073709551616)
    (hlen : pre.length + 8 * rs.length < len) (hlen32 : len < 4294967296) :
    collectHandles ⟨some (pre ++ (registrationNumbersBE rs ++ rest)), len⟩ ip rs.length
        (acc, pre.length)
      = some (insertAll ip rs acc, pre.length + 8 * rs.length) := by
  induction rs generalizing pre acc with
  | nil => simp [collectHandles, insertAll]
  | cons r t ih =>
    simp only [List.length_cons] at hlen
    have hc : ¬ (pre.length + 8) % 18446744073709551616 ≥ len := by omega
    have hj : (pre.length + 8) % 4294967296 = pre.length + 8 := by omega
    simp only [List.length_cons, collectHandles, hc, if_false, hj, Option.getD_some,
      registrationNumbersBE, List.append_assoc]
    rw [loadUINT64_append_right, loadUINT64_bigEndian8 r _ (hrs r (List.mem_cons_self r t))]
    have hpl : (pre ++ bigEndian 8 r).length = pre.length + 8 := by
      rw [List.length_append, length_bigEndian]
    have := ih (pre ++ bigEndian 8 r) (insertClientHandle ⟨r, ip⟩ acc)
      (fun x hx => hrs x (List.mem_cons_of_mem r hx)) (by rw [hpl]; omega)
    rw [hpl, List.append_assoc] at this
    rw [this]
    simp only [insertAll, List.foldl_cons, Option.some.injEq, Prod.mk.injEq, true_and]
    omega

/-- The decoder on the body of a forwarded response. -/
theorem ProcessRequest_forwardedBody (v : Nat) (rs : List Nat) (p tail : List Byte)
    (sender : ClientHandle) (hv : v < 65536)
    (hrs : ∀ r ∈ rs, r < 18446744073709551616) (hp1 : 1 ≤ p.length)
    (hlen : 2 + 4 + 8 * rs.length + p.length < 4294967296) :
    ProcessRequest ⟨some (forwardedBody v rs p ++ tail), 2 + 4 + 8 * rs.length + p.length⟩
        sender
      = ⟨true, true,
          [⟨insertAll sender.m_ServerIPv4Address rs [], ⟨some (p ++ tail), p.length⟩, v⟩,
            ⟨[sender], ⟨some [byteOf RESPONSE_ACKNOWLEDGEMENT_OF_FORWARDED_RESP], 1⟩,
              SPECIAL_COMMUNICATION⟩]⟩ := by
  have hmem : forwardedBody v rs p ++ tail
      = (bigEndian 2 v ++ bigEndian 4 rs.length)
        ++ (registrationNumbersBE rs ++ (p ++ tail)) := by
    simp only [forwardedBody, List.append_assoc]
  have hV : ntohs (loadUSHORT (forwardedBody v rs p ++ tail) 0) = v := by
    simp only [forwardedBody, bigEndian, pow_zero, Nat.div_one, pow_one, List.cons_append,
      List.nil_append, ntohs, loadUSHORT, loadByte, List.getD_cons_succ, List.getD_cons_zero,
      byteOf_val]
    rw [htons_bytes _ _ (Nat.mod_lt _ (by decide)) (Nat.mod_lt _ (by decide))]
    omega
  have hN : ntohl (loadUINT (forwardedBody v rs p ++ tail) 2) = rs.length := by
    have h2 : forwardedBody v rs p ++ tail
        = bigEndian 2 v ++ (bigEndian 4 rs.length
          ++ (registrationNumbersBE rs ++ (p ++ tail))) := by
      simp only [forwardedBody, List.append_assoc]
    have e : loadUINT (forwardedBody v rs p ++ tail) 2
        = loadUINT (bigEndian 4 rs.length ++ (registrationNumbersBE rs ++ (p ++ tail))) 0 := by
      rw [h2]
      simp only [loadUINT, Nat.zero_add]
      have hl : (bigEndian 2 v).length = 2 := length_bigEndian 2 v
      have a0 := loadByte_append_right (bigEndian 2 v)
        (bigEndian 4 rs.length ++ (registrationNumbersBE rs ++ (p ++ tail))) 0
      have a1 := loadByte_append_right (bigEndian 2 v)
        (bigEndian 4 rs.length ++ (registrationNumbersBE rs ++ (p ++ tail))) 1
      have a2 := loadByte_append_right (bigEndian 2 v)
        (bigEndian 4 rs.length ++ (registrationNumbersBE rs ++ (p ++ tail))) 2
      have a3 := loadByte_append_right (bigEndian 2 v)
        (bigEndian 4 rs.length ++ (registrationNumbersBE rs ++ (p ++ tail))) 3
      rw [hl] at a0 a1 a2 a3
      rw [a0, a1, a2, a3]
    rw [e, loadUINT_bigEndian4]
    omega
  unfold ProcessRequest
  have h6 : ¬ 2 + 4 + 8 * rs.length + p.length < 2 + 4 := by omega
  simp only [h6, if_false, Option.getD_some, hV, hN, VERSION_BYTES, HANDLE_BYTES]
  have hmin : ¬ 2 + 4 + 8 * rs.length + p.length
      < (2 + 4 + rs.length * 8 + 1) % 4294967296 := by omega
  simp only [hmin, if_false]
  have hcol := collectHandles_eq sender.m_ServerIPv4Address (2 + 4 + 8 * rs.length + p.length)
    rs (bigEndian 2 v ++ bigEndian 4 rs.length) (p ++ tail) [] hrs
    (by simp only [List.length_append, length_bigEndian]; omega) hlen
  simp only [List.length_append, length_bigEndian] at hcol
  rw [hmem, hcol]
  simp only
  have hdrop : List.drop (2 + 4 + 8 * rs.length)
      (bigEndian 2 v ++ bigEndian 4 rs.length ++ (registrationNumbersBE rs ++ (p ++ tail)))
      = p ++ tail := by
    rw [← List.append_assoc]
    exact List.drop_left' (by
      simp only [List.length_append, length_bigEndian, length_registrationNumbersBE])
  have hl : (2 + 4 + 8 * rs.length + p.length + 4294967296 - (2 + 4 + 8 * rs.length))
      % 4294967296 = p.length := by omega
  rw [hdrop, hl]
  rfl


/-! ## Lemmas on sets of client handles -/


theorem mem_insertClientHandle (c x : ClientHandle) (s : ClientHandles) :
    x ∈ insertClientHandle c s ↔ x = c ∨ x ∈ s := by
  induction s with
  | nil => simp [insertClientHandle]
  | cons y ys ih =>
    unfold insertClientHandle
    by_cases h1 : c.lt y = true
    · simp [h1]
    · by_cases h2 : y.lt c = true
      · simp only [h1, h2, if_true, if_false, List.mem_cons, ih, Bool.false_eq_true]
        tauto
      · have hc : c = y := by
          cases c with
          | mk cr ci =>
            cases y with
            | mk yr yi =>
              simp only [ClientHandle.lt] at h1 h2
              have hi : ci = yi := by
                by_contra hne
                rcases Nat.lt_or_gt_of_ne hne with h | h
                · simp [h] at h1
                · have h' : ¬ ci < yi := by omega
                  simp [h] at h2
              subst hi
              simp at h1 h2
              have : cr = yr := by omega
              subst this
              rfl
        subst hc
        simp only [h1, if_false, List.mem_cons, Bool.false_eq_true]
        tauto

theorem mem_insertAll (ip : Nat) (rs : List Nat) (acc : ClientHandles) (x : ClientHandle) :
    x ∈ insertAll ip rs acc ↔ (∃ r ∈ rs, x = ⟨r, ip⟩) ∨ x ∈ acc := by
  induction rs generalizing acc with
  | nil => simp [insertAll]
  | cons r t ih =>
    have : insertAll ip (r :: t) acc = insertAll ip t (insertClientHandle ⟨r, ip⟩ acc) := rfl
    rw [this, ih, mem_insertClientHandle]
    constructor
    · rintro (⟨r', hr', rfl⟩ | rfl | h)
      · left; exact ⟨r', List.mem_cons_of_mem _ hr', rfl⟩
      · left; exact ⟨r, List.mem_cons_self _ _, rfl⟩
      · right; exact h
    · rintro (⟨r', hr', rfl⟩ | h)
      · rcases List.mem_cons.mp hr' with rfl | h'
        · right; left; rfl
        · left; exact ⟨r', h', rfl⟩
      · right; right; exact h

/-- The order of client handles: by server address, then by registration number. -/
theorem lt_iff (a b : ClientHandle) :
    a.lt b = true ↔ a.m_ServerIPv4Address < b.m_ServerIPv4Address
      ∨ (a.m_ServerIPv4Address = b.m_ServerIPv4Address
        ∧ a.m_ClientRegistrationNumber < b.m_ClientRegistrationNumber) := by
  unfold ClientHandle.lt
  by_cases h1 : a.m_ServerIPv4Address < b.m_ServerIPv4Address
  · simp [h1]
  · by_cases h2 : a.m_ServerIPv4Address > b.m_ServerIPv4Address
    · simp only [h1, h2, if_true, if_false, Bool.false_eq_true, false_or, false_iff, not_and]
      intro h; omega
    · have e : a.m_ServerIPv4Address = b.m_ServerIPv4Address := by omega
      simp only [h1, h2, if_false, decide_eq_true_eq, false_or]
      constructor
      · intro h; exact ⟨e, h⟩
      · intro h; exact h.2

theorem lt_trans_handle (a b c : ClientHandle) (h1 : a.lt b = true) (h2 : b.lt c = true) :
    a.lt c = true := by
  rw [lt_iff] at h1 h2 ⊢
  omega

theorem lt_asymm_handle (a b : ClientHandle) (h : a.lt b = true) : b.lt a = false := by
  rw [← Bool.not_eq_true, lt_iff]
  rw [lt_iff] at h
  omega

theorem sorted_insertClientHandle (c : ClientHandle) (s : ClientHandles)
    (hs : SortedHandles s) : SortedHandles (insertClientHandle c s) := by
  induction s with
  | nil => simp [insertClientHandle, SortedHandles]
  | cons y ys ih =>
    unfold SortedHandles at hs ⊢
    rw [List.pairwise_cons] at hs
    unfold insertClientHandle
    by_cases h1 : c.lt y = true
    · simp only [h1, if_true]
      rw [List.pairwise_cons, List.pairwise_cons]
      refine ⟨?_, hs⟩
      intro a ha
      rcases List.mem_cons.mp ha with rfl | ha
      · exact h1
      · exact lt_trans_handle _ _ _ h1 (hs.1 a ha)
    · by_cases h2 : y.lt c = true
      · simp only [h1, h2, if_true, if_false, Bool.false_eq_true]
        rw [List.pairwise_cons]
        refine ⟨?_, ih hs.2⟩
        intro a ha
        rcases (mem_insertClientHandle c a ys).mp ha with rfl | ha
        · exact h2
        · exact hs.1 a ha
      · simp only [h1, h2, if_false, Bool.false_eq_true]
        rw [List.pairwise_cons]
        exact hs

theorem sorted_insertAll (ip : Nat) (rs : List Nat) (acc : ClientHandles)
    (hs : SortedHandles acc) : SortedHandles (insertAll ip rs acc) := by
  induction rs generalizing acc with
  | nil => exact hs
  | cons r t ih => exact ih _ (sorted_insertClientHandle _ _ hs)



theorem insertClientHandle_append (c : ClientHandle) (s : ClientHandles)
    (h : ∀ y ∈ s, y.lt c = true) : insertClientHandle c s = s ++ [c] := by
  induction s with
  | nil => rfl
  | cons y ys ih =>
    have hy := h y (List.mem_cons_self y ys)
    have hc := lt_asymm_handle y c hy
    unfold insertClientHandle
    simp only [hc, hy, if_true, if_false, Bool.false_eq_true, List.cons_append]
    rw [ih (fun z hz => h z (List.mem_cons_of_mem y hz))]

theorem insertAll_ascending (ip : Nat) (rs : List Nat) (acc : ClientHandles)
    (hacc : ∀ y ∈ acc, ∀ r ∈ rs, y.lt ⟨r, ip⟩ = true) (hrs : rs.Pairwise (· < ·)) :
    insertAll ip rs acc = acc ++ rs.map (fun r => (⟨r, ip⟩ : ClientHandle)) := by
  induction rs generalizing acc with
  | nil => simp [insertAll]
  | cons r t ih =>
    have e : insertAll ip (r :: t) acc = insertAll ip t (insertClientHandle ⟨r, ip⟩ acc) := rfl
    rw [List.pairwise_cons] at hrs
    rw [e, insertClientHandle_append _ _ (fun y hy => hacc y hy r (List.mem_cons_self r t)),
      ih _ ?_ hrs.2]
    · simp
    · intro y hy x hx
      rcases List.mem_append.mp hy with hy | hy
      · exact hacc y hy x (List.mem_cons_of_mem r hx)
      · rw [List.mem_singleton] at hy
        subst hy
        have := hrs.1 x hx
        simp only [ClientHandle.lt, Nat.lt_irrefl, if_false]
        exact decide_eq_true this

/-- The registration numbers of the set that results from inserting handles of one
server: the numbers inserted, each once, in ascending order. -/
theorem registrationNumbers_insertAll (ip : Nat) (rs : List Nat) :
    (∀ r, r ∈ (insertAll ip rs []).map (fun h => h.m_ClientRegistrationNumber) ↔ r ∈ rs)
    ∧ ((insertAll ip rs []).map (fun h => h.m_ClientRegistrationNumber)).Pairwise (· < ·)
    ∧ (∀ h ∈ insertAll ip rs [], h.m_ServerIPv4Address = ip)
    ∧ (rs.Pairwise (· < ·) →
        (insertAll ip rs []).map (fun h => h.m_ClientRegistrationNumber) = rs)
    ∧ (rs.Nodup →
        ((insertAll ip rs []).map (fun h => h.m_ClientRegistrationNumber)).Perm rs) := by
  have hmem : ∀ r, r ∈ (insertAll ip rs []).map (fun h => h.m_ClientRegistrationNumber)
      ↔ r ∈ rs := by
    intro r
    rw [List.mem_map]
    constructor
    · rintro ⟨h, hh, rfl⟩
      rcases (mem_insertAll ip rs [] h).mp hh with ⟨r', hr', rfl⟩ | hn
      · exact hr'
      · exact absurd hn (List.not_mem_nil _)
    · intro hr
      exact ⟨⟨r, ip⟩, (mem_insertAll ip rs [] _).mpr (Or.inl ⟨r, hr, rfl⟩), rfl⟩
  have hip : ∀ h ∈ insertAll ip rs [], h.m_ServerIPv4Address = ip := by
    intro h hh
    rcases (mem_insertAll ip rs [] h).mp hh with ⟨r', _, rfl⟩ | hn
    · rfl
    · exact absurd hn (List.not_mem_nil _)
  have hsorted : ((insertAll ip rs []).map
      (fun h => h.m_ClientRegistrationNumber)).Pairwise (· < ·) := by
    rw [List.pairwise_map]
    have hs : SortedHandles (insertAll ip rs []) :=
      sorted_insertAll ip rs [] List.Pairwise.nil
    refine List.Pairwise.imp_of_mem ?_ hs
    intro a b ha hb hab
    have ea := hip a ha
    have eb := hip b hb
    cases a; cases b
    simp only at ea eb
    subst ea eb
    simp only [ClientHandle.lt, Nat.lt_irrefl, if_false] at hab
    exact of_decide_eq_true hab
  refine ⟨hmem, hsorted, hip, ?_, ?_⟩
  · intro hasc
    rw [insertAll_ascending ip rs [] (fun y hy => absurd hy (List.not_mem_nil _)) hasc]
    simp [List.map_map, Function.comp_def]
  · intro hnd
    refine (List.perm_ext_iff_of_nodup ?_ hnd).mpr hmem
    exact hsorted.imp (fun h => Nat.ne_of_lt h)


/-! ## The frame parser -/

/-- Claim C1. On a buffer whose header is valid (preamble `"MAI"`, a non-zero version `v`
that the session accepts and whose processor is registered, declared size `n` with
`1 ≤ n ≤ MaxRequestSize`), the parser returns `REQUEST_FOUND` exactly when
`buffer_length ≥ HEADER_SIZE + n` and `WAIT_FOR_MORE_BYTES` otherwise; on
`REQUEST_FOUND` the payload is the `n` bytes at offsets `9 .. 9+n-1` and
`request_out.len = n`; the result is the same for every buffer with the same first
`9+n` bytes; and parsing `frame1 ++ frame2` yields the payload of `frame1`, parsing what
remains after dropping `9+n` bytes yields the payload of `frame2`, as parsing each
frame alone does. -/
theorem C1_request_found_iff_frame_complete
    (params : Nat → Option VersionParameters) (vp : VersionParameters)
    (v n e buffer_length : Nat) (rest : List Byte) (out0 : Buffer)
    (hv0 : v ≠ UNINITIALIZED_VERSION) (hv : v < 65536)
    (he : e = UNINITIALIZED_VERSION ∨ e = v)
    (hp : params v = some vp) (hint : IsInt vp.m_MaxRequestSize)
    (hn1 : 1 ≤ n) (hn2 : (n : Int) ≤ vp.m_MaxRequestSize)
    (hlen : buffer_length ≤ (frameHeader v n ++ rest).length) :
    let buf := frameHeader v n ++ rest
    let r := ValidateProtocolAndExtractRequest params buf buffer_length e out0
    (r.code = REQUEST_FOUND ↔ HEADER_SIZE + n ≤ buffer_length)
    ∧ (¬ HEADER_SIZE + n ≤ buffer_length → r.code = WAIT_FOR_MORE_BYTES)
    ∧ (HEADER_SIZE + n ≤ buffer_length →
        r.ExistingVersion = v ∧ r.request_out.len = n
          ∧ r.request_out.bytes = (buf.drop 9).take n ∧ r.request_out.bytes.length = n)
    ∧ (∀ (buf' : List Byte) (len' : Nat), HEADER_SIZE + n ≤ buffer_length →
        HEADER_SIZE + n ≤ len' → len' ≤ buf'.length →
        buf'.take (HEADER_SIZE + n) = buf.take (HEADER_SIZE + n) →
        let r' := ValidateProtocolAndExtractRequest params buf' len' e out0
        r'.code = r.code ∧ r'.ExistingVersion = r.ExistingVersion
          ∧ r'.request_out.len = r.request_out.len
          ∧ r'.request_out.bytes = r.request_out.bytes)
    ∧ (∀ (p1 p2 : List Byte), p1.length = n → 1 ≤ p2.length →
        (p2.length : Int) ≤ vp.m_MaxRequestSize →
        let both := frame v p1 ++ frame v p2
        let r1 := ValidateProtocolAndExtractRequest params (frame v p1) (frame v p1).length e out0
        let r2 := ValidateProtocolAndExtractRequest params (frame v p2) (frame v p2).length
          r1.ExistingVersion out0
        let r12 := ValidateProtocolAndExtractRequest params both both.length e out0
        let rrem := ValidateProtocolAndExtractRequest params (both.drop (HEADER_SIZE + n))
          (both.drop (HEADER_SIZE + n)).length r12.ExistingVersion out0
        r12.code = REQUEST_FOUND ∧ r12.request_out.bytes = p1
          ∧ rrem.code = REQUEST_FOUND ∧ rrem.request_out.bytes = p2
          ∧ r12.code = r1.code ∧ r12.request_out.bytes = r1.request_out.bytes
          ∧ r12.ExistingVersion = r1.ExistingVersion
          ∧ rrem.code = r2.code ∧ rrem.request_out.bytes = r2.request_out.bytes
          ∧ rrem.ExistingVersion = r2.ExistingVersion) := by
  intro buf r
  have hr : r = _ := parse_valid_header params vp v n e buffer_length rest out0 hv0 hv he hp
    hint hn1 hn2
  have hH : HEADER_SIZE = 9 := rfl
  have hbl : buf.length = 9 + rest.length := by
    simp only [buf, List.length_append, length_frameHeader]
  have hlen' : buffer_length ≤ 9 + rest.length := hbl ▸ hlen
  have hdrop : buf.drop 9 = rest := drop_frameHeader v n rest
  refine ⟨?_, ?_, ?_, ?_, ?_⟩
  · rw [hr, hH]
    by_cases h1 : buffer_length < 10
    · simp only [h1, if_true]; constructor
      · intro h; exact absurd h (by decide)
      · intro h; omega
    · by_cases h2 : buffer_length < n + 9
      · simp only [h1, h2, if_true, if_false]; constructor
        · intro h; exact absurd h (by decide)
        · intro h; omega
      · simp only [h1, h2, if_false, true_iff]; omega
  · intro h
    rw [hr]
    rw [hH] at h
    by_cases h1 : buffer_length < 10
    · simp only [h1, if_true]
    · have h2 : buffer_length < n + 9 := by omega
      simp only [h1, h2, if_true, if_false]
  · intro h
    rw [hH] at h
    have h1 : ¬ buffer_length < 10 := by omega
    have h2 : ¬ buffer_length < n + 9 := by omega
    rw [hr, hdrop]
    simp only [h1, h2, if_false, bytes_mk, List.length_take, true_and]
    omega
  · intro buf' len' h hl1 hl2 htake r'
    rw [hH] at h hl1 htake
    have hb' : buf' = frameHeader v n ++ (rest.take n ++ buf'.drop (9 + n)) := by
      have h3 : buf.take (9 + n) = frameHeader v n ++ rest.take n := by
        simp only [buf]
        rw [List.take_append_eq_append_take, length_frameHeader,
          List.take_of_length_le (by rw [length_frameHeader]; omega)]
        congr 2; omega
      rw [← List.append_assoc, ← h3, ← htake, List.take_append_drop]
    have hr' : r' = ValidateProtocolAndExtractRequest params
        (frameHeader v n ++ (rest.take n ++ buf'.drop (9 + n))) len' e out0 :=
      congrArg (fun b => ValidateProtocolAndExtractRequest params b len' e out0) hb'
    rw [parse_valid_header params vp v n e len' _ out0 hv0 hv he hp hint hn1 hn2] at hr'
    have h1 : ¬ buffer_length < 10 := by omega
    have h2 : ¬ buffer_length < n + 9 := by omega
    have h1' : ¬ len' < 10 := by omega
    have h2' : ¬ len' < n + 9 := by omega
    rw [hr', hr]
    simp only [h1, h2, h1', h2', if_false, bytes_mk, true_and]
    rw [List.take_append_of_le_length (by rw [List.length_take]; omega), List.take_take,
      Nat.min_self]
  · intro p1 p2 hp1 hp2 hp2' both r1 r2 r12 rrem
    subst hp1
    have hf1 : frame v p1 = frameHeader v p1.length ++ p1 := rfl
    have hf2 : frame v p2 = frameHeader v p2.length ++ p2 := rfl
    have hl1 : (frame v p1).length = 9 + p1.length := by
      rw [hf1, List.length_append, length_frameHeader]
    have hl2 : (frame v p2).length = 9 + p2.length := by
      rw [hf2, List.length_append, length_frameHeader]
    have hboth : both = frameHeader v p1.length ++ (p1 ++ frame v p2) := by
      simp only [both, hf1, List.append_assoc]
    have hbl : both.length = 9 + p1.length + (9 + p2.length) := by
      simp only [both, List.length_append, hl1, hl2]
    have hrem : both.drop (HEADER_SIZE + p1.length) = frame v p2 := by
      simp only [both]
      rw [List.drop_append_of_le_length (by rw [hl1, hH]), List.drop_of_length_le
        (by rw [hl1, hH]), List.nil_append]
    have e1 : r1 = _ := parse_valid_header params vp v p1.length e (frame v p1).length p1 out0
      hv0 hv he hp hint hn1 hn2
    have e12 : r12 = ValidateProtocolAndExtractRequest params
        (frameHeader v p1.length ++ (p1 ++ frame v p2)) both.length e out0 :=
      congrArg (fun b => ValidateProtocolAndExtractRequest params b both.length e out0) hboth
    rw [parse_valid_header params vp v p1.length e both.length _ out0 hv0 hv he hp hint hn1
      hn2] at e12
    have a1 : ¬ (frame v p1).length < 10 := by omega
    have a2 : ¬ (frame v p1).length < p1.length + 9 := by omega
    have b1 : ¬ both.length < 10 := by omega
    have b2 : ¬ both.length < p1.length + 9 := by omega
    simp only [a1, a2, if_false] at e1
    simp only [b1, b2, if_false] at e12
    have ev1 : r1.ExistingVersion = v := by rw [e1]
    have ev12 : r12.ExistingVersion = v := by rw [e12]
    have e2 : r2 = ValidateProtocolAndExtractRequest params (frame v p2) (frame v p2).length
        v out0 := by simp only [r2, ev1]
    have erem : rrem = ValidateProtocolAndExtractRequest params (frame v p2)
        (frame v p2).length v out0 := by simp only [rrem, ev12, hrem]
    rw [← e2] at erem
    rw [hf2, parse_valid_header params vp v p2.length v (frameHeader v p2.length ++ p2).length
      p2 out0 hv0 hv (Or.inr rfl) hp hint hp2 hp2'] at e2
    have c1 : ¬ (frameHeader v p2.length ++ p2).length < 10 := by rw [← hf2]; omega
    have c2 : ¬ (frameHeader v p2.length ++ p2).length < p2.length + 9 := by
      rw [← hf2]; omega
    simp only [c1, c2, if_false] at e2
    rw [erem, e2, e12, e1]
    simp only [bytes_mk, List.take_left', List.take_length, true_and, and_self]

/-- Instance of C1: the five-byte request `"hello"` of version 1 in a buffer of 14 bytes. -/
theorem C1_request_found_iff_frame_complete_witness :
    ((1 : Nat) ≠ UNINITIALIZED_VERSION ∧ sampleParams 1 = some ⟨5, 5⟩
      ∧ IsInt (⟨5, 5⟩ : VersionParameters).m_MaxRequestSize ∧ ((5 : Nat) : Int) ≤ (⟨5, 5⟩ : VersionParameters).m_MaxRequestSize
      ∧ 14 ≤ (frameHeader 1 5 ++ helloPayload).length)
    ∧ ((ValidateProtocolAndExtractRequest sampleParams (frameHeader 1 5 ++ helloPayload) 14 0
          emptyBuffer).code = REQUEST_FOUND ↔ HEADER_SIZE + 5 ≤ 14) :=
  ⟨⟨by decide, rfl, by decide, by decide, by decide⟩,
    (C1_request_found_iff_frame_complete sampleParams ⟨5, 5⟩ 1 5 0 14 helloPayload emptyBuffer
      (by decide) (by decide) (Or.inl rfl) rfl (by decide) (by decide) (by decide)
      (by decide)).1⟩

/-- Claim C2. On a buffer of at least `HEADER_SIZE+1` bytes with preamble `"MAI"` and an
acceptable version whose processor is registered, the parser returns `INVALID_SIZE`
exactly when the declared size (big-endian on the wire) is 0 or greater than the
`MaxRequestSize` of the version: the `unsigned int` that the parser compares with, which
for valid parameters is the configured `m_MaxRequestSize`. A declared size equal to
`MaxRequestSize` is not rejected as `INVALID_SIZE`. -/
theorem C2_invalid_size_iff_zero_or_above_max
    (params : Nat → Option VersionParameters) (vp : VersionParameters)
    (v n e buffer_length : Nat) (rest : List Byte) (out0 : Buffer)
    (hlen : HEADER_SIZE + 1 ≤ buffer_length)
    (hv0 : v ≠ UNINITIALIZED_VERSION) (hv : v < 65536)
    (he : e = UNINITIALIZED_VERSION ∨ e = v)
    (hp : params v = some vp) (hn : n < 4294967296) :
    ((ValidateProtocolAndExtractRequest params (frameHeader v n ++ rest) buffer_length e
        out0).code = INVALID_SIZE ↔ (n = 0 ∨ UINT_of_int vp.m_MaxRequestSize < n))
    ∧ (ValidVersionParameters vp →
        ((ValidateProtocolAndExtractRequest params (frameHeader v n ++ rest) buffer_length e
            out0).code = INVALID_SIZE ↔ (n = 0 ∨ vp.m_MaxRequestSize < (n : Int)))
        ∧ ((n : Int) = vp.m_MaxRequestSize →
            (ValidateProtocolAndExtractRequest params (frameHeader v n ++ rest) buffer_length e
              out0).code ≠ INVALID_SIZE)) := by
  rw [parse_frameHeader params v n rest buffer_length e out0 hv hn]
  have hc : ¬ (v = 0 ∨ (e ≠ 0 ∧ e ≠ v)) := by
    simp only [UNINITIALIZED_VERSION] at hv0 he
    rcases he with he | he <;> simp [he, hv0]
  have hl : ¬ buffer_length < 10 := by
    have : HEADER_SIZE = 9 := rfl
    omega
  simp only [hl, hc, if_false, hp]
  have key : (if n = 0 then (⟨INVALID_SIZE, v, out0⟩ : ParseResult)
      else if UINT_of_int vp.m_MaxRequestSize < n then ⟨INVALID_SIZE, v, out0⟩
      else if buffer_length < n + 9 then ⟨WAIT_FOR_MORE_BYTES, v, { out0 with len := n }⟩
      else ⟨REQUEST_FOUND, v, { base := some rest, len := n }⟩).code = INVALID_SIZE
      ↔ (n = 0 ∨ UINT_of_int vp.m_MaxRequestSize < n) := by
    by_cases hn0 : n = 0
    · simp [hn0]
    · by_cases hm : UINT_of_int vp.m_MaxRequestSize < n
      · simp only [hn0, hm, if_true, if_false, or_true]
      · simp only [hn0, hm, if_false, or_self, iff_false]
        split <;> simp
  refine ⟨key, fun hvp => ?_⟩
  obtain ⟨h1, h2, -, -⟩ := hvp
  have hU := UINT_of_int_of_nonneg vp.m_MaxRequestSize (by omega) (by omega)
  have hiff : (n = 0 ∨ UINT_of_int vp.m_MaxRequestSize < n)
      ↔ (n = 0 ∨ vp.m_MaxRequestSize < (n : Int)) := by
    constructor <;> (intro h; omega)
  refine ⟨key.trans hiff, fun heq hcode => ?_⟩
  have := key.mp hcode
  omega

/-- Instance of C2: a declared size of 5 with `MaxRequestSize = 5` is not `INVALID_SIZE`. -/
theorem C2_invalid_size_iff_zero_or_above_max_witness :
    (HEADER_SIZE + 1 ≤ 14 ∧ sampleParams 1 = some ⟨5, 5⟩ ∧ ValidVersionParameters ⟨5, 5⟩)
    ∧ (ValidateProtocolAndExtractRequest sampleParams (frameHeader 1 5 ++ helloPayload) 14 0
        emptyBuffer).code ≠ INVALID_SIZE :=
  ⟨⟨by decide, rfl, by decide⟩,
    ((C2_invalid_size_iff_zero_or_above_max sampleParams ⟨5, 5⟩ 1 5 0 14 helloPayload
      emptyBuffer (by decide) (by decide) (by decide) (Or.inl rfl) rfl (by decide)).2
        (by decide)).2 rfl⟩

/-- Claim C3. On a buffer of at least `HEADER_SIZE+1` bytes with preamble `"MAI"`, for
every header version `v` (with a registered processor when `v` is non-zero) and every
session version `e`, the parser returns `INVALID_VERSION` exactly when `v = 0`, or `e` is
non-zero and differs from `v`; a non-zero `v`, `0xFFFF` included, is accepted when `e`
is `UNINITIALIZED_VERSION` or `e = v`. -/
theorem C3_invalid_version_iff
    (params : Nat → Option VersionParameters)
    (v n e buffer_length : Nat) (rest : List Byte) (out0 : Buffer)
    (hlen : HEADER_SIZE + 1 ≤ buffer_length)
    (hv : v < 65536) (hn : n < 4294967296)
    (hp : v ≠ UNINITIALIZED_VERSION → (params v).isSome = true) :
    ((ValidateProtocolAndExtractRequest params (frameHeader v n ++ rest) buffer_length e
        out0).code = INVALID_VERSION
      ↔ (v = 0 ∨ (e ≠ 0 ∧ e ≠ v)))
    ∧ (v ≠ 0 → (e = UNINITIALIZED_VERSION ∨ e = v) →
        (ValidateProtocolAndExtractRequest params (frameHeader v n ++ rest) buffer_length e
          out0).code ≠ INVALID_VERSION) := by
  rw [parse_frameHeader params v n rest buffer_length e out0 hv hn]
  have hl : ¬ buffer_length < 10 := by
    have : HEADER_SIZE = 9 := rfl
    omega
  simp only [hl, if_false]
  have key : (if v = 0 ∨ (e ≠ 0 ∧ e ≠ v) then (⟨INVALID_VERSION, e, out0⟩ : ParseResult)
      else if n = 0 then ⟨INVALID_SIZE, v, out0⟩
      else match params v with
        | none => ⟨INVALID_VERSION, v, out0⟩
        | some vp =>
          if UINT_of_int vp.m_MaxRequestSize < n then ⟨INVALID_SIZE, v, out0⟩
          else if buffer_length < n + 9 then ⟨WAIT_FOR_MORE_BYTES, v, { out0 with len := n }⟩
          else ⟨REQUEST_FOUND, v, { base := some rest, len := n }⟩).code = INVALID_VERSION
      ↔ (v = 0 ∨ (e ≠ 0 ∧ e ≠ v)) := by
    by_cases hc : v = 0 ∨ (e ≠ 0 ∧ e ≠ v)
    · simp only [hc, if_true]
    · have hv0 : v ≠ UNINITIALIZED_VERSION := fun h => hc (Or.inl h)
      obtain ⟨vp, hvp⟩ := Option.isSome_iff_exists.mp (hp hv0)
      simp only [hc, if_false, hvp, iff_false]
      split
      · simp
      · split
        · simp
        · split <;> simp
  refine ⟨key, fun hv0 he hcode => ?_⟩
  have hk := key.mp hcode
  simp only [UNINITIALIZED_VERSION] at he
  rcases he with he | he <;> simp [he, hv0] at hk

/-- Instance of C3: version `0xFFFF` on a fresh session is not `INVALID_VERSION`. -/
theorem C3_invalid_version_iff_witness :
    (HEADER_SIZE + 1 ≤ 10 ∧ (65535 ≠ UNINITIALIZED_VERSION → (sampleParams 65535).isSome = true))
    ∧ (ValidateProtocolAndExtractRequest sampleParams (frameHeader 65535 1 ++ [0]) 10 0
        emptyBuffer).code ≠ INVALID_VERSION :=
  ⟨⟨by decide, fun _ => rfl⟩,
    (C3_invalid_version_iff sampleParams 65535 1 0 10 [0] emptyBuffer (by decide) (by decide)
      (by decide) (fun _ => rfl)).2 (by decide) (Or.inl rfl)⟩

/-- Counterexample to C4 as stated: the nine bytes of the valid header of version 1 that
declares five bytes; the parser returns `WAIT_FOR_MORE_BYTES` before it reads the header
and `request_out.len` stays 0. -/
theorem C4_counterexample :
    ((frameHeader 1 5).length = HEADER_SIZE ∧ (1 : Nat) ≠ UNINITIALIZED_VERSION
      ∧ sampleParams 1 = some ⟨5, 5⟩ ∧ (1 : Int) ≤ 5
      ∧ (5 : Int) ≤ (⟨5, 5⟩ : VersionParameters).m_MaxRequestSize)
    ∧ ¬ ((ValidateProtocolAndExtractRequest sampleParams (frameHeader 1 5) HEADER_SIZE
            UNINITIALIZED_VERSION emptyBuffer).code = WAIT_FOR_MORE_BYTES
          ∧ (ValidateProtocolAndExtractRequest sampleParams (frameHeader 1 5) HEADER_SIZE
            UNINITIALIZED_VERSION emptyBuffer).request_out.len = 5) := by
  decide

/-- Claim C4, amended. With exactly `HEADER_SIZE` (9) bytes the parser returns
`WAIT_FOR_MORE_BYTES` and leaves the session version and `request_out` as they were,
whatever the buffer holds. With exactly `HEADER_SIZE+1` (10) bytes that start with a
valid header declaring `n` bytes, `request_out.len = n`, and the return code is
`WAIT_FOR_MORE_BYTES` when `n ≥ 2` and `REQUEST_FOUND` when `n = 1`. -/
theorem C4_declared_size_reported_from_ten_bytes
    (params : Nat → Option VersionParameters) (vp : VersionParameters)
    (v n e : Nat) (rest input_buffer : List Byte) (out0 : Buffer)
    (hv0 : v ≠ UNINITIALIZED_VERSION) (hv : v < 65536)
    (he : e = UNINITIALIZED_VERSION ∨ e = v)
    (hp : params v = some vp) (hint : IsInt vp.m_MaxRequestSize)
    (hn1 : 1 ≤ n) (hn2 : (n : Int) ≤ vp.m_MaxRequestSize) :
    ValidateProtocolAndExtractRequest params input_buffer HEADER_SIZE e out0
        = ⟨WAIT_FOR_MORE_BYTES, e, out0⟩
    ∧ (ValidateProtocolAndExtractRequest params (frameHeader v n ++ rest) (HEADER_SIZE + 1) e
        out0).request_out.len = n
    ∧ (2 ≤ n → (ValidateProtocolAndExtractRequest params (frameHeader v n ++ rest)
        (HEADER_SIZE + 1) e out0).code = WAIT_FOR_MORE_BYTES)
    ∧ (n = 1 → (ValidateProtocolAndExtractRequest params (frameHeader v n ++ rest)
        (HEADER_SIZE + 1) e out0).code = REQUEST_FOUND) := by
  refine ⟨?_, ?_⟩
  · unfold ValidateProtocolAndExtractRequest
    simp
  · rw [parse_valid_header params vp v n e (HEADER_SIZE + 1) rest out0 hv0 hv he hp hint hn1 hn2]
    have h10 : ¬ HEADER_SIZE + 1 < 10 := by decide
    simp only [h10, if_false]
    have hH : HEADER_SIZE + 1 = 10 := rfl
    refine ⟨?_, ?_, ?_⟩
    · split <;> rfl
    · intro h2
      have : HEADER_SIZE + 1 < n + 9 := by omega
      simp only [this, if_true]
    · intro h1
      have : ¬ HEADER_SIZE + 1 < n + 9 := by omega
      simp only [this, if_false]

/-- Instance of the amended C4: ten bytes of a request that declares five bytes. -/
theorem C4_declared_size_reported_from_ten_bytes_witness :
    ((1 : Nat) ≠ UNINITIALIZED_VERSION ∧ sampleParams 1 = some ⟨5, 5⟩
      ∧ IsInt (⟨5, 5⟩ : VersionParameters).m_MaxRequestSize)
    ∧ (ValidateProtocolAndExtractRequest sampleParams (frameHeader 1 5 ++ [104])
        (HEADER_SIZE + 1) 0 emptyBuffer).request_out.len = 5 :=
  ⟨⟨by decide, rfl, by decide⟩,
    (C4_declared_size_reported_from_ten_bytes sampleParams ⟨5, 5⟩ 1 5 0 [104] [] emptyBuffer
      (by decide) (by decide) (Or.inl rfl) rfl (by decide) (by decide) (by decide)).2.1⟩

/-- A call of the parser with a non-zero session version leaves the version as it was. -/
theorem parse_keeps_nonzero_version
    (params : Nat → Option VersionParameters) (input_buffer : List Byte)
    (buffer_length ExistingVersion : Nat) (request_out : Buffer)
    (h : ExistingVersion ≠ UNINITIALIZED_VERSION) :
    (ValidateProtocolAndExtractRequest params input_buffer buffer_length ExistingVersion
      request_out).ExistingVersion = ExistingVersion := by
  unfold ValidateProtocolAndExtractRequest
  simp only
  split
  · rfl
  · split
    · rfl
    · split
      · rfl
      · rename_i hc
        have hE : ExistingVersion = ntohs (loadUSHORT input_buffer PREAMBLE_BYTES) := by
          by_contra hne
          exact hc (Or.inr (Or.inr ⟨h, hne⟩))
        split
        · exact hE.symm
        · split
          · exact hE.symm
          · split
            · exact hE.symm
            · split <;> exact hE.symm

/-- A non-zero session version survives every sequence of calls of the parser. -/
theorem sessionVersionAfter_eq (params : Nat → Option VersionParameters)
    (calls : List (List Byte × Nat × Buffer)) (version : Nat)
    (h : version ≠ UNINITIALIZED_VERSION) :
    sessionVersionAfter params calls version = version := by
  induction calls with
  | nil => rfl
  | cons c cs ih =>
    show sessionVersionAfter params cs
      (ValidateProtocolAndExtractRequest params c.1 c.2.1 version c.2.2).ExistingVersion = version
    rw [parse_keeps_nonzero_version params c.1 c.2.1 version c.2.2 h]
    exact ih

/-- Claim C9. A call of the parser with a non-zero session version on entry returns with
the same session version, for every buffer and every return code; hence no sequence of
calls changes a session version that is non-zero. -/
theorem C9_nonzero_session_version_unchanged
    (params : Nat → Option VersionParameters) (input_buffer : List Byte)
    (buffer_length ExistingVersion : Nat) (request_out : Buffer)
    (h : ExistingVersion ≠ UNINITIALIZED_VERSION) :
    (ValidateProtocolAndExtractRequest params input_buffer buffer_length ExistingVersion
      request_out).ExistingVersion = ExistingVersion
    ∧ ∀ calls : List (List Byte × Nat × Buffer),
        sessionVersionAfter params calls ExistingVersion = ExistingVersion :=
  ⟨parse_keeps_nonzero_version params input_buffer buffer_length ExistingVersion request_out h,
    fun calls => sessionVersionAfter_eq params calls ExistingVersion h⟩

/-- Instance of C9: a session of version 1 parsing a request of version 1. -/
theorem C9_nonzero_session_version_unchanged_witness :
    (1 : Nat) ≠ UNINITIALIZED_VERSION
    ∧ (ValidateProtocolAndExtractRequest sampleParams (frameHeader 1 5 ++ helloPayload) 14 1
        emptyBuffer).ExistingVersion = 1 :=
  ⟨by decide, (C9_nonzero_session_version_unchanged sampleParams (frameHeader 1 5 ++ helloPayload)
    14 1 emptyBuffer (by decide)).1⟩



/-! ## Construction of responses and the round trips -/

/-- Claim C5. For a version `v` with a registered processor and a payload `p` of at most
`MaxResponseSize(v)` bytes, `ConstructResponseForLocalClients` produces a buffer of
exactly `9 + |p|` bytes: `"MAI"`, `v` in two big-endian bytes, `|p|` in four big-endian
bytes, `p`. For the keep-alive (`v = 0xFFFF`, `p = [0x00]`) the buffer is the ten bytes
`4D 41 49 FF FF 00 00 00 01 00`. -/
theorem C5_local_response_wire_form
    (params : Nat → Option VersionParameters) (vp : VersionParameters) (v k : Nat)
    (p tail junk : List Byte)
    (hp : params v = some vp) (hint : IsInt vp.m_MaxResponseSize)
    (hn : (p.length : Int) ≤ vp.m_MaxResponseSize) :
    ConstructResponseForLocalClients params ⟨some (p ++ tail), p.length⟩ k v
      = some ⟨some (MSG_PREAMBLE ++ bigEndian 2 v ++ bigEndian 4 p.length ++ p),
          9 + p.length⟩
    ∧ (MSG_PREAMBLE ++ bigEndian 2 v ++ bigEndian 4 p.length ++ p).length = 9 + p.length
    ∧ (∀ vpS : VersionParameters, params SPECIAL_COMMUNICATION = some vpS →
        ValidVersionParameters vpS →
        ConstructResponseForLocalClients params ⟨some (byteOf RESPONSE_KEEP_ALIVE :: junk), 1⟩
            k SPECIAL_COMMUNICATION
          = some ⟨some [0x4D, 0x41, 0x49, 0xFF, 0xFF, 0x00, 0x00, 0x00, 0x01, 0x00], 10⟩) := by
  refine ⟨?_, ?_, ?_⟩
  · rw [ConstructResponseForLocalClients_eq params vp v p.length k (p ++ tail) hp hint hn,
      List.take_left]
    rfl
  · simp only [List.length_append, length_bigEndian]
    rfl
  · intro vpS hpS hvpS
    have h1 : ((1 : Nat) : Int) ≤ vpS.m_MaxResponseSize := by
      have := hvpS.2.2.1
      omega
    rw [ConstructResponseForLocalClients_eq params vpS SPECIAL_COMMUNICATION 1 k _ hpS
      ⟨by have := hvpS.2.2.1; omega, hvpS.2.2.2⟩ h1]
    rfl

/-- Instance of C5: the response `"hello"` of version 1. -/
theorem C5_local_response_wire_form_witness :
    (sampleParams 1 = some ⟨5, 5⟩ ∧ IsInt (⟨5, 5⟩ : VersionParameters).m_MaxResponseSize
      ∧ (helloPayload.length : Int) ≤ (⟨5, 5⟩ : VersionParameters).m_MaxResponseSize)
    ∧ ConstructResponseForLocalClients sampleParams ⟨some (helloPayload ++ []), 5⟩ 1 1
      = some ⟨some [0x4D, 0x41, 0x49, 0, 1, 0, 0, 0, 5, 104, 101, 108, 108, 111], 14⟩ :=
  ⟨⟨rfl, by decide, by decide⟩,
    (C5_local_response_wire_form sampleParams ⟨5, 5⟩ 1 1 helloPayload [] [] rfl (by decide)
      (by decide)).1⟩

/-- Claim C6. For a sender version `v`, a payload `p` and a range of `N` handles that
fits the size limit of `SPECIAL_COMMUNICATION`, `ConstructResponseForRemoteClients`
produces a buffer of exactly `9 + 2 + 4 + 8N + |p|` bytes: `"MAI"`, `0xFFFF`,
`2+4+8N+|p|` in four big-endian bytes, `v` in two big-endian bytes, `N` in four
big-endian bytes, the `N` registration numbers in eight big-endian bytes each, in the
iteration order of the handle range, and `p`. -/
theorem C6_forwarded_response_wire_form
    (params : Nat → Option VersionParameters) (vp : VersionParameters)
    (handles : List ClientHandle) (v : Nat) (p tail : List Byte)
    (hp : params SPECIAL_COMMUNICATION = some vp) (hint : IsInt vp.m_MaxResponseSize)
    (hfit : ((2 + 4 + 8 * handles.length + p.length : Nat) : Int) ≤ vp.m_MaxResponseSize) :
    ConstructResponseForRemoteClients params handles handles.length
        ⟨some (p ++ tail), p.length⟩ v
      = some ⟨some (MSG_PREAMBLE ++ bigEndian 2 0xFFFF
            ++ bigEndian 4 (2 + 4 + 8 * handles.length + p.length)
            ++ bigEndian 2 v ++ bigEndian 4 handles.length
            ++ registrationNumbersBE (handles.map (fun h => h.m_ClientRegistrationNumber))
            ++ p),
          9 + 2 + 4 + 8 * handles.length + p.length⟩
    ∧ (MSG_PREAMBLE ++ bigEndian 2 0xFFFF
            ++ bigEndian 4 (2 + 4 + 8 * handles.length + p.length)
            ++ bigEndian 2 v ++ bigEndian 4 handles.length
            ++ registrationNumbersBE (handles.map (fun h => h.m_ClientRegistrationNumber))
            ++ p).length = 9 + 2 + 4 + 8 * handles.length + p.length := by
  refine ⟨?_, ?_⟩
  · rw [ConstructResponseForRemoteClients_eq params vp handles v p.length (p ++ tail) hp hint
      hfit, List.take_left]
    simp only [frameHeader, SPECIAL_COMMUNICATION, List.append_assoc]
  · simp only [List.length_append, length_bigEndian, length_registrationNumbersBE,
      List.length_map]
    have : MSG_PREAMBLE.length = 3 := rfl
    omega

/-- Instance of C6: a one-byte payload forwarded for the registration numbers 2 and 1. -/
theorem C6_forwarded_response_wire_form_witness :
    (sampleParams SPECIAL_COMMUNICATION = some ⟨1179654, 1179654⟩
      ∧ IsInt (⟨1179654, 1179654⟩ : VersionParameters).m_MaxResponseSize)
    ∧ ConstructResponseForRemoteClients sampleParams sampleHandles sampleHandles.length
        ⟨some ([65] ++ []), 1⟩ 1
      = some ⟨some [0x4D, 0x41, 0x49, 0xFF, 0xFF, 0, 0, 0, 23, 0, 1, 0, 0, 0, 2,
          0, 0, 0, 0, 0, 0, 0, 2, 0, 0, 0, 0, 0, 0, 0, 1, 65], 32⟩ :=
  ⟨⟨rfl, by decide⟩,
    (C6_forwarded_response_wire_form sampleParams ⟨1179654, 1179654⟩ sampleHandles 1 [65] []
      rfl (by decide) (by decide)).1⟩


/-- Counterexample to C7 as stated: version 1 allows responses of eight bytes and requests
of five; the constructor accepts a payload of eight bytes, and the parser answers the
encoded buffer with `INVALID_SIZE`. -/
theorem C7_counterexample :
    (asymmetricParams 1 = some ⟨5, 8⟩ ∧ ValidVersionParameters ⟨5, 8⟩
      ∧ 1 ≤ eightBytes.length
      ∧ (eightBytes.length : Int) ≤ (⟨5, 8⟩ : VersionParameters).m_MaxResponseSize)
    ∧ ConstructResponseForLocalClients asymmetricParams ⟨some eightBytes, 8⟩ 1 1
        = some ⟨some (frame 1 eightBytes), 17⟩
    ∧ (ValidateProtocolAndExtractRequest asymmetricParams (frame 1 eightBytes) 17
        UNINITIALIZED_VERSION emptyBuffer).code = INVALID_SIZE
    ∧ (ValidateProtocolAndExtractRequest asymmetricParams (frame 1 eightBytes) 17
        UNINITIALIZED_VERSION emptyBuffer).code ≠ REQUEST_FOUND := by
  decide

/-- Claim C7, amended. For a version `v` with a registered processor and a payload `p`
with `1 ≤ |p| ≤ MaxResponseSize(v)`, the constructor encodes the frame of `v` and `p`;
the parser, fed this buffer with an `UNINITIALIZED` session version, returns
`REQUEST_FOUND` with session version `v`, declared size `|p|` and payload `p` when
`|p| ≤ MaxRequestSize(v)`, and `INVALID_SIZE` when `|p| > MaxRequestSize(v)`. -/
theorem C7_local_roundtrip_within_request_limit
    (params : Nat → Option VersionParameters) (vp : VersionParameters) (v k : Nat)
    (p tail : List Byte) (out0 : Buffer)
    (hv0 : v ≠ UNINITIALIZED_VERSION) (hv : v < 65536)
    (hp : params v = some vp) (hvp : ValidVersionParameters vp)
    (hn1 : 1 ≤ p.length) (hn2 : (p.length : Int) ≤ vp.m_MaxResponseSize) :
    ConstructResponseForLocalClients params ⟨some (p ++ tail), p.length⟩ k v
      = some ⟨some (frame v p), 9 + p.length⟩
    ∧ ((p.length : Int) ≤ vp.m_MaxRequestSize →
        (ValidateProtocolAndExtractRequest params (frame v p) (9 + p.length)
            UNINITIALIZED_VERSION out0).code = REQUEST_FOUND
        ∧ (ValidateProtocolAndExtractRequest params (frame v p) (9 + p.length)
            UNINITIALIZED_VERSION out0).ExistingVersion = v
        ∧ (ValidateProtocolAndExtractRequest params (frame v p) (9 + p.length)
            UNINITIALIZED_VERSION out0).request_out.len = p.length
        ∧ (ValidateProtocolAndExtractRequest params (frame v p) (9 + p.length)
            UNINITIALIZED_VERSION out0).request_out.bytes = p)
    ∧ (vp.m_MaxRequestSize < (p.length : Int) →
        (ValidateProtocolAndExtractRequest params (frame v p) (9 + p.length)
            UNINITIALIZED_VERSION out0).code = INVALID_SIZE) := by
  refine ⟨?_, ?_, ?_⟩
  · rw [ConstructResponseForLocalClients_eq params vp v p.length k (p ++ tail) hp
      ⟨by have := hvp.2.2.1; omega, hvp.2.2.2⟩ hn2,
      List.take_left]
    rfl
  · intro hreq
    have h := parse_valid_header params vp v p.length UNINITIALIZED_VERSION (9 + p.length) p
      out0 hv0 hv (Or.inl rfl) hp ⟨by have := hvp.1; omega, hvp.2.1⟩ hn1 hreq
    have a1 : ¬ 9 + p.length < 10 := by omega
    have a2 : ¬ 9 + p.length < p.length + 9 := by omega
    simp only [a1, a2, if_false] at h
    have hf : frame v p = frameHeader v p.length ++ p := rfl
    rw [hf, h]
    simp only [bytes_mk, List.take_length, and_self]
  · intro hbig
    have hf : frame v p = frameHeader v p.length ++ p := rfl
    have hsz : p.length < 4294967296 := by
      have := hvp.2.2.2
      omega
    rw [hf, parse_frameHeader params v p.length p (9 + p.length) UNINITIALIZED_VERSION out0 hv
      hsz]
    have a1 : ¬ 9 + p.length < 10 := by omega
    have a2 : ¬ (v = 0 ∨ (UNINITIALIZED_VERSION ≠ 0 ∧ UNINITIALIZED_VERSION ≠ v)) := by
      simp only [UNINITIALIZED_VERSION] at hv0
      simp [hv0]
    have a3 : ¬ p.length = 0 := by omega
    have hU := UINT_of_int_of_nonneg vp.m_MaxRequestSize (by have := hvp.1; omega)
      (by have := hvp.2.1; omega)
    have a4 : UINT_of_int vp.m_MaxRequestSize < p.length := by omega
    simp only [a1, a2, a3, a4, if_true, if_false, hp]

/-- Instance of the amended C7: `"hello"` of version 1, with both limits at five bytes. -/
theorem C7_local_roundtrip_within_request_limit_witness :
    ((1 : Nat) ≠ UNINITIALIZED_VERSION ∧ sampleParams 1 = some ⟨5, 5⟩
      ∧ ValidVersionParameters ⟨5, 5⟩ ∧ 1 ≤ helloPayload.length
      ∧ (helloPayload.length : Int) ≤ (⟨5, 5⟩ : VersionParameters).m_MaxResponseSize)
    ∧ ConstructResponseForLocalClients sampleParams ⟨some (helloPayload ++ []), 5⟩ 1 1
        = some ⟨some (frame 1 helloPayload), 14⟩
    ∧ (ValidateProtocolAndExtractRequest sampleParams (frame 1 helloPayload) 14
        UNINITIALIZED_VERSION emptyBuffer).request_out.bytes = helloPayload :=
  ⟨⟨by decide, rfl, by decide, by decide, by decide⟩,
    (C7_local_roundtrip_within_request_limit sampleParams ⟨5, 5⟩ 1 1 helloPayload []
      emptyBuffer (by decide) (by decide) rfl (by decide) (by decide) (by decide)).1,
    ((C7_local_roundtrip_within_request_limit sampleParams ⟨5, 5⟩ 1 1 helloPayload []
      emptyBuffer (by decide) (by decide) rfl (by decide) (by decide) (by decide)).2.1
        (by decide)).2.2.2⟩

/-- Counterexample to C8 as stated: the handle range iterates the registration numbers
2, 1; they are encoded in this order, and the decoder, which collects them in a
`std::set<ClientHandle>`, passes them on in the order 1, 2. -/
theorem C8_counterexample :
    (sampleParams SPECIAL_COMMUNICATION = some ⟨1179654, 1179654⟩
      ∧ sampleHandles.map (fun h => h.m_ClientRegistrationNumber) = [2, 1])
    ∧ ConstructResponseForRemoteClients sampleParams sampleHandles 2 ⟨some [65], 1⟩ 1
        = some ⟨some (frameHeader SPECIAL_COMMUNICATION 23 ++ forwardedBody 1 [2, 1] [65]), 32⟩
    ∧ (ProcessRequest ⟨some (forwardedBody 1 [2, 1] [65]), 23⟩ samplePeer).sent.map
        (fun c => c.clienthandles.map (fun h => h.m_ClientRegistrationNumber))
        = [[1, 2], [99]]
    ∧ (ProcessRequest ⟨some (forwardedBody 1 [2, 1] [65]), 23⟩ samplePeer).sent.head?.map
        (fun c => c.clienthandles.map (fun h => h.m_ClientRegistrationNumber))
        ≠ some (sampleHandles.map (fun h => h.m_ClientRegistrationNumber)) := by
  decide

/-- Claim C8, amended. For a payload `p` of at least one byte and a range of handles for
one remote server that fits the limit of `SPECIAL_COMMUNICATION`, the body of the buffer
that `ConstructResponseForRemoteClients` encodes is decoded by `ProcessRequest` into the
sender version, a payload equal to `p`, and the set of the encoded registration numbers:
the same numbers, each once, in ascending order, for the server of the receiving side.
The order is the order of encoding when that order is ascending, and there are `N`
handles when the encoded numbers are distinct. The body is what the parser of the
receiving side extracts from the buffer when the body fits its request limit. -/
theorem C8_forwarded_roundtrip_as_set
    (params : Nat → Option VersionParameters) (vp : VersionParameters)
    (handles : List ClientHandle) (v : Nat) (p tail : List Byte) (sender : ClientHandle)
    (hp : params SPECIAL_COMMUNICATION = some vp) (hint : IsInt vp.m_MaxResponseSize)
    (hfit : ((2 + 4 + 8 * handles.length + p.length : Nat) : Int) ≤ vp.m_MaxResponseSize)
    (hv : v < 65536) (hp1 : 1 ≤ p.length)
    (hregs : ∀ h ∈ handles, h.m_ClientRegistrationNumber < 18446744073709551616) :
    ∃ (enc : List Byte) (decoded : ClientHandles),
      ConstructResponseForRemoteClients params handles handles.length
          ⟨some (p ++ tail), p.length⟩ v
        = some ⟨some enc, 9 + (2 + 4 + 8 * handles.length + p.length)⟩
      ∧ ProcessRequest ⟨some (enc.drop HEADER_SIZE), 2 + 4 + 8 * handles.length + p.length⟩
          sender
        = ⟨true, true,
            [⟨decoded, ⟨some p, p.length⟩, v⟩,
              ⟨[sender], ⟨some [byteOf RESPONSE_ACKNOWLEDGEMENT_OF_FORWARDED_RESP], 1⟩,
                SPECIAL_COMMUNICATION⟩]⟩
      ∧ (∀ r, r ∈ decoded.map (fun h => h.m_ClientRegistrationNumber)
          ↔ r ∈ handles.map (fun h => h.m_ClientRegistrationNumber))
      ∧ (decoded.map (fun h => h.m_ClientRegistrationNumber)).Pairwise (· < ·)
      ∧ (∀ h ∈ decoded, h.m_ServerIPv4Address = sender.m_ServerIPv4Address)
      ∧ ((handles.map (fun h => h.m_ClientRegistrationNumber)).Pairwise (· < ·) →
          decoded.map (fun h => h.m_ClientRegistrationNumber)
            = handles.map (fun h => h.m_ClientRegistrationNumber))
      ∧ ((handles.map (fun h => h.m_ClientRegistrationNumber)).Nodup →
          (decoded.map (fun h => h.m_ClientRegistrationNumber)).Perm
            (handles.map (fun h => h.m_ClientRegistrationNumber))
          ∧ decoded.length = handles.length)
      ∧ (IsInt vp.m_MaxRequestSize →
          ((2 + 4 + 8 * handles.length + p.length : Nat) : Int) ≤ vp.m_MaxRequestSize →
          ValidateProtocolAndExtractRequest params enc
              (9 + (2 + 4 + 8 * handles.length + p.length)) UNINITIALIZED_VERSION emptyBuffer
            = ⟨REQUEST_FOUND, SPECIAL_COMMUNICATION,
                ⟨some (enc.drop HEADER_SIZE), 2 + 4 + 8 * handles.length + p.length⟩⟩) := by
  have hsz : 2 + 4 + 8 * handles.length + p.length < 4294967296 := by
    have := hint.2
    omega
  have hrs : ∀ r ∈ handles.map (fun h => h.m_ClientRegistrationNumber),
      r < 18446744073709551616 := by
    intro r hr
    obtain ⟨h, hh, rfl⟩ := List.mem_map.mp hr
    exact hregs h hh
  obtain ⟨hmem, hsorted, hip, hasc, hperm⟩ := registrationNumbers_insertAll
    sender.m_ServerIPv4Address (handles.map (fun h => h.m_ClientRegistrationNumber))
  refine ⟨frameHeader SPECIAL_COMMUNICATION (2 + 4 + 8 * handles.length + p.length)
      ++ (bigEndian 2 v ++ bigEndian 4 handles.length
        ++ registrationNumbersBE (handles.map (fun h => h.m_ClientRegistrationNumber)) ++ p),
    insertAll sender.m_ServerIPv4Address
    (handles.map (fun h => h.m_ClientRegistrationNumber)) [], ?_, ?_, hmem, hsorted, hip, hasc,
    ?_, ?_⟩
  · rw [ConstructResponseForRemoteClients_eq params vp handles v p.length (p ++ tail) hp hint
      hfit, List.take_left]
    have e : 9 + 2 + 4 + 8 * handles.length + p.length
        = 9 + (2 + 4 + 8 * handles.length + p.length) := by omega
    rw [e]
  · rw [drop_frameHeader]
    have hb : bigEndian 2 v ++ bigEndian 4 handles.length
        ++ registrationNumbersBE (handles.map (fun h => h.m_ClientRegistrationNumber)) ++ p
        = forwardedBody v (handles.map (fun h => h.m_ClientRegistrationNumber)) p ++ [] := by
      simp only [forwardedBody, List.length_map, List.append_nil]
    have := ProcessRequest_forwardedBody v
      (handles.map (fun h => h.m_ClientRegistrationNumber)) p [] sender hv hrs hp1
      (by rw [List.length_map]; exact hsz)
    simp only [List.length_map, List.append_nil] at this
    rw [hb, List.append_nil, this]
  · intro hnd
    have hpm := hperm hnd
    refine ⟨hpm, ?_⟩
    have := hpm.length_eq
    simpa using this
  · intro hintq hq
    have h := parse_valid_header params vp SPECIAL_COMMUNICATION
      (2 + 4 + 8 * handles.length + p.length) UNINITIALIZED_VERSION
      (9 + (2 + 4 + 8 * handles.length + p.length))
      (bigEndian 2 v ++ bigEndian 4 handles.length
        ++ registrationNumbersBE (handles.map (fun h => h.m_ClientRegistrationNumber)) ++ p)
      emptyBuffer (by decide) (by decide) (Or.inl rfl) hp hintq (by omega) hq
    have a1 : ¬ 9 + (2 + 4 + 8 * handles.length + p.length) < 10 := by omega
    have a2 : ¬ 9 + (2 + 4 + 8 * handles.length + p.length)
        < 2 + 4 + 8 * handles.length + p.length + 9 := by omega
    simp only [a1, a2, if_false] at h
    rw [h, drop_frameHeader]

/-- Instance of the amended C8: a one-byte payload forwarded for the numbers 2 and 1. -/
theorem C8_forwarded_roundtrip_as_set_witness :
    (sampleParams SPECIAL_COMMUNICATION = some ⟨1179654, 1179654⟩
      ∧ IsInt (⟨1179654, 1179654⟩ : VersionParameters).m_MaxResponseSize)
    ∧ ∃ (enc : List Byte) (decoded : ClientHandles),
      ConstructResponseForRemoteClients sampleParams sampleHandles sampleHandles.length
          ⟨some ([65] ++ []), 1⟩ 1 = some ⟨some enc, 9 + (2 + 4 + 8 * 2 + 1)⟩
      ∧ ProcessRequest ⟨some (enc.drop HEADER_SIZE), 2 + 4 + 8 * 2 + 1⟩ samplePeer
        = ⟨true, true,
            [⟨decoded, ⟨some [65], 1⟩, 1⟩,
              ⟨[samplePeer], ⟨some [byteOf RESPONSE_ACKNOWLEDGEMENT_OF_FORWARDED_RESP], 1⟩,
                SPECIAL_COMMUNICATION⟩]⟩ :=
  ⟨⟨rfl, by decide⟩,
    (C8_forwarded_roundtrip_as_set sampleParams ⟨1179654, 1179654⟩ sampleHandles 1 [65] []
      samplePeer rfl (by decide) (by decide) (by decide) (by decide) (by decide)).imp
      (fun _ h => h.imp (fun _ h' => ⟨h'.1, h'.2.1⟩))⟩


/-! ## Storing a message -/

/-- An accepted message, for comparison: one local response is constructed and handed to
`AddResponseToQueues`. -/
theorem StoreMessage_accepted_sample :
    (StoreMessage sampleParams 7 countingQueues (fun h => h.m_ClientRegistrationNumber)
        sampleHandles ⟨some helloPayload, 5⟩ 1 true idleProcessor).queues = 1
    ∧ (StoreMessage sampleParams 7 countingQueues (fun h => h.m_ClientRegistrationNumber)
        sampleHandles ⟨some helloPayload, 5⟩ 1 true idleProcessor).created.map
          (fun r => r.m_Response.bytes)
        = [frame 1 helloPayload] := by
  simp [StoreMessage, sampleParams, sampleHandles, helloPayload, idleProcessor, countingQueues,
    insertServerHandle, insertPtr, CreateResponseAndAddToQueues, newResponse, UINT_of_int]
  decide

/-- Claim C10. A call of `StoreMessage` whose payload length is 0 or greater than the
`MaxResponseSize` of the given version (the configured value of valid parameters, or the
`unsigned int` that the guard compares with), or whose version has no processor, or whose
handle set is empty, or whose payload pointer is `NULL`, constructs no `Response` object
and leaves the queue state as it was: `AddResponseToQueues`, whatever it does when called, is not called. The count of
creation exceptions and the number of `uv_async_send` calls stay as they were, too. -/
theorem C10_rejected_message_changes_nothing {σ : Type}
    (GetVersionParameters : Nat → Option VersionParameters) (GetIPAddressOfLocalServer : Nat)
    (AddResponseToQueues : Response → ClientHandlesPtrs → ProcessorState σ → ProcessorState σ)
    (addressOf : ClientHandle → Nat)
    (clienthandles : ClientHandles) (response : Buffer) (version : Nat) (bIsUpdate : Bool)
    (st : ProcessorState σ)
    (h : response.len = 0
      ∨ (∃ vp, GetVersionParameters version = some vp ∧ ValidVersionParameters vp
          ∧ vp.m_MaxResponseSize < (response.len : Int))
      ∨ (∃ vp, GetVersionParameters version = some vp
          ∧ UINT_of_int vp.m_MaxResponseSize < response.len)
      ∨ GetVersionParameters version = none
      ∨ clienthandles = []
      ∨ response.base = none) :
    (StoreMessage GetVersionParameters GetIPAddressOfLocalServer AddResponseToQueues addressOf
        clienthandles response version bIsUpdate st).created = st.created
    ∧ (StoreMessage GetVersionParameters GetIPAddressOfLocalServer AddResponseToQueues
        addressOf clienthandles response version bIsUpdate st).queues = st.queues
    ∧ (StoreMessage GetVersionParameters GetIPAddressOfLocalServer AddResponseToQueues
        addressOf clienthandles response version bIsUpdate st).ResponseCreationExceptionCount
        = st.ResponseCreationExceptionCount
    ∧ (StoreMessage GetVersionParameters GetIPAddressOfLocalServer AddResponseToQueues
        addressOf clienthandles response version bIsUpdate st).asyncSends = st.asyncSends := by
  unfold StoreMessage
  cases hvp : GetVersionParameters version with
  | none => simp
  | some vp =>
    have hguard : clienthandles.length = 0 ∨ response.base = none ∨ response.len = 0
        ∨ response.len > UINT_of_int vp.m_MaxResponseSize := by
      rcases h with h | ⟨vp', hvp', hvalid, hlt⟩ | ⟨vp', hvp', hlt⟩ | h | h | h
      · exact Or.inr (Or.inr (Or.inl h))
      · rw [hvp] at hvp'
        cases hvp'
        have hU := UINT_of_int_of_nonneg vp.m_MaxResponseSize
          (by have := hvalid.2.2.1; omega) (by have := hvalid.2.2.2; omega)
        refine Or.inr (Or.inr (Or.inr ?_))
        omega
      · rw [hvp] at hvp'
        cases hvp'
        exact Or.inr (Or.inr (Or.inr hlt))
      · rw [hvp] at h
        cases h
      · exact Or.inl (by rw [h]; rfl)
      · exact Or.inr (Or.inl h)
    simp only [hguard, if_true, and_self]

/-- Instance of C10: an empty payload, with an `AddResponseToQueues` that counts its calls. -/
theorem C10_rejected_message_changes_nothing_witness :
    (emptyBuffer.len = 0
      ∨ (∃ vp, sampleParams 1 = some vp ∧ ValidVersionParameters vp
          ∧ vp.m_MaxResponseSize < (emptyBuffer.len : Int))
      ∨ (∃ vp, sampleParams 1 = some vp ∧ UINT_of_int vp.m_MaxResponseSize < emptyBuffer.len)
      ∨ sampleParams 1 = none
      ∨ sampleHandles = []
      ∨ emptyBuffer.base = none)
    ∧ (StoreMessage sampleParams 7 countingQueues (fun h => h.m_ClientRegistrationNumber)
        sampleHandles emptyBuffer 1 true idleProcessor).queues = idleProcessor.queues :=
  ⟨Or.inl rfl,
    (C10_rejected_message_changes_nothing sampleParams 7 countingQueues
      (fun h => h.m_ClientRegistrationNumber) sampleHandles emptyBuffer 1 true idleProcessor
      (Or.inl rfl)).2.1⟩

/-! ## Splitting a group of handles into responses -/

theorem CreateResponseAndAddToQueues_chunks {σ : Type}
    (params : Nat → Option VersionParameters) (ip : Nat)
    (add : Response → ClientHandlesPtrs → ProcessorState σ → ProcessorState σ)
    (response : Buffer) (version : Nat) (upd : Bool) (server : Nat)
    (hcreated : ∀ r hs st, (add r hs st).created = st.created)
    (hcount : ∀ r hs st, (add r hs st).ResponseCreationExceptionCount
      = st.ResponseCreationExceptionCount) :
    ∀ (n : Nat) (hs : ClientHandlesPtrs) (st : ProcessorState σ), hs.length = n →
      (∀ h ∈ hs, h.m_ServerIPv4Address = server) →
      (CreateResponseAndAddToQueues params ip add response version upd hs
          st).ResponseCreationExceptionCount = st.ResponseCreationExceptionCount →
      ∃ chunks : List (List ClientHandle), ∃ rs : List Response,
        chunks.flatten = hs
        ∧ List.Forall₂ (fun c r => newResponse params ip response c version upd = some r)
            chunks rs
        ∧ (CreateResponseAndAddToQueues params ip add response version upd hs st).created
            = st.created ++ rs
        ∧ (ip = server → chunks = if hs = [] then [] else [hs])
        ∧ (ip ≠ server →
            chunks.length = (n + MAX_HANDLES_IN_FORWARDED_RESPONSE - 1)
                / MAX_HANDLES_IN_FORWARDED_RESPONSE
            ∧ ∀ c ∈ chunks, c ≠ [] ∧ c.length ≤ MAX_HANDLES_IN_FORWARDED_RESPONSE) := by
  intro n
  induction n using Nat.strong_induction_on with
  | _ n ih =>
    intro hs st hlen hsrv hexc
    cases hs with
    | nil =>
      refine ⟨[], [], rfl, List.Forall₂.nil, ?_, ?_, ?_⟩
      · rw [CreateResponseAndAddToQueues]; simp
      · intro _; rfl
      · intro _
        subst hlen
        simp [MAX_HANDLES_IN_FORWARDED_RESPONSE]
    | cons a rest =>
      obtain ⟨final, hfinal⟩ : ∃ f, f = CreateResponseAndAddToQueues params ip add response
          version upd (a :: rest) st := ⟨_, rfl⟩
      rw [← hfinal] at hexc ⊢
      rw [CreateResponseAndAddToQueues] at hfinal
      simp only at hfinal
      have ha : a.m_ServerIPv4Address = server := hsrv a (List.mem_cons_self _ _)
      rw [ha] at hfinal
      split at hfinal
      · rw [hfinal] at hexc
        simp at hexc
      · rename_i r hnew
        by_cases hloc : ip = server
        · -- the local server: the whole group at once
          have hk : (if ip ≠ server ∧ (a :: rest).length > MAX_HANDLES_IN_FORWARDED_RESPONSE
              then MAX_HANDLES_IN_FORWARDED_RESPONSE else (a :: rest).length)
              = (a :: rest).length := if_neg (fun h => h.1 hloc)
          rw [hk] at hnew hfinal
          rw [List.take_length] at hnew
          rw [List.drop_length, CreateResponseAndAddToQueues] at hfinal
          refine ⟨[a :: rest], [r], by simp, ?_, ?_, ?_, ?_⟩
          · exact List.Forall₂.cons hnew List.Forall₂.nil
          · rw [hfinal, hcreated]
          · intro _; simp
          · intro h; exact absurd hloc h
        · have hM : MAX_HANDLES_IN_FORWARDED_RESPONSE = 16384 := rfl
          by_cases hbig : (a :: rest).length > MAX_HANDLES_IN_FORWARDED_RESPONSE
          · -- more handles than one forwarded response takes: a full chunk, then the rest
            have hk : (if ip ≠ server
                  ∧ (a :: rest).length > MAX_HANDLES_IN_FORWARDED_RESPONSE
                then MAX_HANDLES_IN_FORWARDED_RESPONSE else (a :: rest).length)
                = MAX_HANDLES_IN_FORWARDED_RESPONSE := if_pos ⟨hloc, hbig⟩
            rw [hk] at hnew hfinal
            have hdl : ((a :: rest).drop MAX_HANDLES_IN_FORWARDED_RESPONSE).length
                = n - MAX_HANDLES_IN_FORWARDED_RESPONSE := by
              rw [List.length_drop, hlen]
            have hlt : n - MAX_HANDLES_IN_FORWARDED_RESPONSE < n := by
              rw [hlen] at hbig; omega
            have hexc2 := hexc
            rw [hfinal] at hexc2
            obtain ⟨chunks, rs, hflat, hall, hcr, -, hrem⟩ :=
              ih _ hlt ((a :: rest).drop MAX_HANDLES_IN_FORWARDED_RESPONSE)
                (add r (a :: rest) { st with created := st.created ++ [r] }) hdl
                (fun h hh => hsrv h (List.mem_of_mem_drop hh))
                (hexc2.trans (hcount r (a :: rest) { st with created := st.created ++ [r] }).symm)
            obtain ⟨hcnt, hsz⟩ := hrem hloc
            refine ⟨(a :: rest).take MAX_HANDLES_IN_FORWARDED_RESPONSE :: chunks, r :: rs,
              ?_, List.Forall₂.cons hnew hall, ?_, ?_, ?_⟩
            · rw [List.flatten_cons, hflat, List.take_append_drop]
            · rw [hfinal, hcr, hcreated]; simp
            · intro h; exact absurd h hloc
            · intro _
              refine ⟨?_, ?_⟩
              · rw [List.length_cons, hcnt]
                rw [hlen] at hbig
                simp only [MAX_HANDLES_IN_FORWARDED_RESPONSE, Nat.reduceMul, Nat.reduceDiv]
                  at hbig ⊢
                omega
              · intro c hc
                rcases List.mem_cons.mp hc with rfl | hc
                · refine ⟨?_, ?_⟩
                  · simp [MAX_HANDLES_IN_FORWARDED_RESPONSE]
                  · rw [List.length_take]; exact Nat.min_le_left _ _
                · exact hsz c hc
          · -- at most one chunk of handles: one forwarded response
            have hk : (if ip ≠ server
                  ∧ (a :: rest).length > MAX_HANDLES_IN_FORWARDED_RESPONSE
                then MAX_HANDLES_IN_FORWARDED_RESPONSE else (a :: rest).length)
                = (a :: rest).length := if_neg (fun h => hbig h.2)
            rw [hk] at hnew hfinal
            rw [List.take_length] at hnew
            rw [List.drop_length, CreateResponseAndAddToQueues] at hfinal
            refine ⟨[a :: rest], [r], by simp, ?_, ?_, ?_, ?_⟩
            · exact List.Forall₂.cons hnew List.Forall₂.nil
            · rw [hfinal, hcreated]
            · intro _; simp
            · intro _
              refine ⟨?_, ?_⟩
              · rw [List.length_singleton]
                have h1 : 1 ≤ n := by rw [← hlen]; simp
                rw [hlen] at hbig
                simp only [MAX_HANDLES_IN_FORWARDED_RESPONSE, Nat.reduceMul, Nat.reduceDiv]
                  at hbig ⊢
                omega
              · intro c hc
                rw [List.mem_singleton] at hc
                subst hc
                exact ⟨by simp, by omega⟩


theorem newResponse_numberOfHandles (params : Nat → Option VersionParameters) (ip : Nat)
    (response : Buffer) (c : List ClientHandle) (version : Nat) (upd : Bool) (r : Response)
    (h : newResponse params ip response c version upd = some r) :
    r.m_NumberOfHandles = c.length % 4294967296 := by
  unfold newResponse at h
  simp only at h
  split at h
  · cases h
  · split at h
    · split at h
      · cases h
      · cases h; rfl
    · split at h
      · cases h
      · split at h
        · cases h
        · cases h; rfl

theorem numberOfHandles_of_chunks (params : Nat → Option VersionParameters) (ip : Nat)
    (response : Buffer) (version : Nat) (upd : Bool) :
    ∀ (chunks : List (List ClientHandle)) (rs : List Response),
      List.Forall₂ (fun c r => newResponse params ip response c version upd = some r)
        chunks rs →
      (∀ c ∈ chunks, c.length ≤ MAX_HANDLES_IN_FORWARDED_RESPONSE) →
      rs.map (fun r => r.m_NumberOfHandles) = chunks.map List.length := by
  intro chunks rs hall
  induction hall with
  | nil => intro _; rfl
  | @cons c r cs rs' hcr _ ih =>
    intro hsz
    have hc : c.length ≤ MAX_HANDLES_IN_FORWARDED_RESPONSE := hsz c (List.mem_cons_self _ _)
    have hr := newResponse_numberOfHandles params ip response c version upd r hcr
    simp only [MAX_HANDLES_IN_FORWARDED_RESPONSE, Nat.reduceMul, Nat.reduceDiv] at hc
    rw [List.map_cons, List.map_cons, ih (fun c' hc' => hsz c' (List.mem_cons_of_mem _ hc')),
      hr, Nat.mod_eq_of_lt (by omega)]

/-- Claim C11. For a group of `n ≥ 1` handles of one server, a run of
`CreateResponseAndAddToQueues` (a total function: the loop ends) in which no response
creation fails constructs the responses of consecutive chunks of the group, in order: the
chunks put together are the group, and each response is the one `new Response` builds from
its chunk, with the number of handles of the chunk as its `unsigned int` handle count. For
a remote server there are `ceil (n / MAX_HANDLES_IN_FORWARDED_RESPONSE)` responses, each
with at least 1 and at most `MAX_HANDLES_IN_FORWARDED_RESPONSE` = 16384 handles; for the
local server there is one response, built from the chunk of all `n` handles.
`AddResponseToQueues` is any function that constructs no responses and raises no creation
exception. -/
theorem C11_one_response_per_chunk_of_handles {σ : Type}
    (GetVersionParameters : Nat → Option VersionParameters) (GetIPAddressOfLocalServer : Nat)
    (AddResponseToQueues : Response → ClientHandlesPtrs → ProcessorState σ → ProcessorState σ)
    (response : Buffer) (version : Nat) (bIsUpdate : Bool) (server : Nat)
    (Clienthandle_ptrs : ClientHandlesPtrs) (st : ProcessorState σ)
    (hcreated : ∀ r hs s, (AddResponseToQueues r hs s).created = s.created)
    (hcount : ∀ r hs s, (AddResponseToQueues r hs s).ResponseCreationExceptionCount
      = s.ResponseCreationExceptionCount)
    (hn : 1 ≤ Clienthandle_ptrs.length)
    (hserver : ∀ h ∈ Clienthandle_ptrs, h.m_ServerIPv4Address = server)
    (hok : (CreateResponseAndAddToQueues GetVersionParameters GetIPAddressOfLocalServer
        AddResponseToQueues response version bIsUpdate Clienthandle_ptrs
        st).ResponseCreationExceptionCount = st.ResponseCreationExceptionCount) :
    ∃ chunks : List (List ClientHandle), ∃ responses : List Response,
      (CreateResponseAndAddToQueues GetVersionParameters GetIPAddressOfLocalServer
          AddResponseToQueues response version bIsUpdate Clienthandle_ptrs st).created
        = st.created ++ responses
      ∧ chunks.flatten = Clienthandle_ptrs
      ∧ List.Forall₂ (fun c r =>
          newResponse GetVersionParameters GetIPAddressOfLocalServer response c version
            bIsUpdate = some r ∧ r.m_NumberOfHandles = c.length % 4294967296)
          chunks responses
      ∧ (GetIPAddressOfLocalServer ≠ server →
          responses.length = (Clienthandle_ptrs.length + MAX_HANDLES_IN_FORWARDED_RESPONSE - 1)
              / MAX_HANDLES_IN_FORWARDED_RESPONSE
          ∧ responses.map (fun r => r.m_NumberOfHandles) = chunks.map List.length
          ∧ ∀ r ∈ responses,
              1 ≤ r.m_NumberOfHandles
              ∧ r.m_NumberOfHandles ≤ MAX_HANDLES_IN_FORWARDED_RESPONSE)
      ∧ (GetIPAddressOfLocalServer = server →
          chunks = [Clienthandle_ptrs] ∧ responses.length = 1) := by
  obtain ⟨chunks, rs, hflat, hall, hcr, hloc, hrem⟩ :=
    CreateResponseAndAddToQueues_chunks GetVersionParameters GetIPAddressOfLocalServer
      AddResponseToQueues response version bIsUpdate server hcreated hcount
      Clienthandle_ptrs.length Clienthandle_ptrs st rfl hserver hok
  refine ⟨chunks, rs, hcr, hflat, ?_, ?_, ?_⟩
  · exact hall.imp (fun c r h =>
      ⟨h, newResponse_numberOfHandles GetVersionParameters GetIPAddressOfLocalServer
        response c version bIsUpdate r h⟩)
  · intro hne
    obtain ⟨hcnt, hsz⟩ := hrem hne
    have hmap := numberOfHandles_of_chunks GetVersionParameters GetIPAddressOfLocalServer
      response version bIsUpdate chunks rs hall (fun c hc => (hsz c hc).2)
    refine ⟨by rw [← hall.length_eq, hcnt], hmap, ?_⟩
    intro r hr
    have hmem : r.m_NumberOfHandles ∈ chunks.map List.length := by
      rw [← hmap]; exact List.mem_map_of_mem _ hr
    obtain ⟨c, hc, hcl⟩ := List.mem_map.mp hmem
    have hc2 := hsz c hc
    have hpos : 1 ≤ c.length := by
      cases c with
      | nil => exact absurd rfl hc2.1
      | cons _ _ => simp
    rw [← hcl]
    exact ⟨hpos, hc2.2⟩
  · intro heq
    have hne : Clienthandle_ptrs ≠ [] := by
      intro h; rw [h] at hn; simp at hn
    have hch := hloc heq
    rw [if_neg hne] at hch
    subst hch
    exact ⟨rfl, by rw [← hall.length_eq]; rfl⟩

/-- Instance of C11: the two handles of the remote server 7 give one forwarded response
with two handles. -/
theorem C11_one_response_per_chunk_of_handles_witness :
    (1 ≤ sampleHandles.length
      ∧ (∀ h ∈ sampleHandles, h.m_ServerIPv4Address = 7)
      ∧ (CreateResponseAndAddToQueues sampleParams 1 countingQueues ⟨some helloPayload, 5⟩ 1
          false sampleHandles idleProcessor).ResponseCreationExceptionCount
          = idleProcessor.ResponseCreationExceptionCount)
    ∧ ∃ chunks : List (List ClientHandle), ∃ responses : List Response,
      (CreateResponseAndAddToQueues sampleParams 1 countingQueues ⟨some helloPayload, 5⟩ 1
          false sampleHandles idleProcessor).created = idleProcessor.created ++ responses
      ∧ chunks.flatten = sampleHandles
      ∧ List.Forall₂ (fun c r =>
          newResponse sampleParams 1 ⟨some helloPayload, 5⟩ c 1 false = some r
            ∧ r.m_NumberOfHandles = c.length % 4294967296) chunks responses
      ∧ (1 ≠ 7 →
          responses.length = (sampleHandles.length + MAX_HANDLES_IN_FORWARDED_RESPONSE - 1)
              / MAX_HANDLES_IN_FORWARDED_RESPONSE
          ∧ responses.map (fun r => r.m_NumberOfHandles) = chunks.map List.length
          ∧ ∀ r ∈ responses,
              1 ≤ r.m_NumberOfHandles
              ∧ r.m_NumberOfHandles ≤ MAX_HANDLES_IN_FORWARDED_RESPONSE)
      ∧ (1 = 7 → chunks = [sampleHandles] ∧ responses.length = 1) :=
  have hok : (CreateResponseAndAddToQueues sampleParams 1 countingQueues
      ⟨some helloPayload, 5⟩ 1 false sampleHandles idleProcessor).ResponseCreationExceptionCount
      = idleProcessor.ResponseCreationExceptionCount := by
    simp [sampleParams, sampleHandles, helloPayload, idleProcessor, countingQueues,
      CreateResponseAndAddToQueues, newResponse, MAX_HANDLES_IN_FORWARDED_RESPONSE]
    decide
  ⟨⟨by decide, by decide, hok⟩,
    C11_one_response_per_chunk_of_handles sampleParams 1 countingQueues
      ⟨some helloPayload, 5⟩ 1 false 7 sampleHandles idleProcessor (fun _ _ _ => rfl)
      (fun _ _ _ => rfl) (by decide) (by decide) hok⟩

/-! ## The pool of sessions -/

theorem mapFind_mapErase_self (m : List (Nat × Nat)) (key : Nat) :
    mapFind (mapErase m key) key = none := by
  induction m with
  | nil => rfl
  | cons e rest ih =>
    obtain ⟨k, v⟩ := e
    unfold mapErase mapFind at ih ⊢
    by_cases hk : k = key
    · rw [List.filter_cons_of_neg (by simpa using hk)]
      exact ih
    · rw [List.filter_cons_of_pos (by simpa using hk)]
      have hne : (key == k) = false := by
        simp only [beq_eq_false_iff_ne, ne_eq]; exact fun h => hk h.symm
      simp only [List.lookup, hne]
      exact ih

theorem mapFind_mapErase_other (m : List (Nat × Nat)) (key other : Nat) (h : other ≠ key) :
    mapFind (mapErase m key) other = mapFind m other := by
  induction m with
  | nil => rfl
  | cons e rest ih =>
    obtain ⟨k, v⟩ := e
    unfold mapErase mapFind at ih ⊢
    by_cases hk : k = key
    · rw [List.filter_cons_of_neg (by simpa using hk)]
      have hne : (other == k) = false := by
        simp only [beq_eq_false_iff_ne, ne_eq]; rw [hk]; exact h
      simp only [List.lookup, hne]
      exact ih
    · rw [List.filter_cons_of_pos (by simpa using hk)]
      cases hok : (other == k) with
      | true => simp only [List.lookup, hok]
      | false =>
        simp only [List.lookup, hok]
        exact ih

/-- Claim C12. `ClientsPool::RemoveClient` returns TRUE exactly when the registration
number of the session is a key of the map and the session has no request and no response
in flight. When it returns TRUE the map has no entry under that number any more and every
other key leads to what it led to before; when it returns FALSE the map is as it was. The
sessions themselves are not changed. -/
theorem C12_RemoveClient_iff_known_and_idle (pClient : Nat) (s : Server) :
    ((RemoveClient pClient s).1 = true ↔
        (mapFind s.m_ClientsMap
            (s.clients pClient).m_ClientHandle.m_ClientRegistrationNumber).isSome = true
        ∧ (s.clients pClient).m_LockRequestsResponses.Requests = 0
        ∧ (s.clients pClient).m_LockRequestsResponses.Responses = 0)
    ∧ ((RemoveClient pClient s).1 = true →
        mapFind (RemoveClient pClient s).2.m_ClientsMap
            (s.clients pClient).m_ClientHandle.m_ClientRegistrationNumber = none
        ∧ ∀ key, key ≠ (s.clients pClient).m_ClientHandle.m_ClientRegistrationNumber →
            mapFind (RemoveClient pClient s).2.m_ClientsMap key = mapFind s.m_ClientsMap key)
    ∧ ((RemoveClient pClient s).1 = false →
        (RemoveClient pClient s).2.m_ClientsMap = s.m_ClientsMap)
    ∧ (RemoveClient pClient s).2.clients = s.clients := by
  by_cases hfound : (mapFind s.m_ClientsMap
      (s.clients pClient).m_ClientHandle.m_ClientRegistrationNumber).isSome = true
  · by_cases hidle : (s.clients pClient).m_LockRequestsResponses.Requests = 0
        ∧ (s.clients pClient).m_LockRequestsResponses.Responses = 0
    · have hrun : RemoveClient pClient s
          = (true, { s with m_ClientsMap := (mapErase s.m_ClientsMap
              (s.clients pClient).m_ClientHandle.m_ClientRegistrationNumber) }) := by
        unfold RemoveClient
        simp only
        rw [if_pos hfound, if_pos hidle]
      rw [hrun]
      refine ⟨⟨fun _ => ⟨hfound, hidle⟩, fun _ => rfl⟩, ?_, ?_, rfl⟩
      · intro _
        exact ⟨mapFind_mapErase_self _ _, fun key hkey => mapFind_mapErase_other _ _ _ hkey⟩
      · intro h; cases h
    · have hrun : RemoveClient pClient s = (false, s) := by
        unfold RemoveClient
        simp only
        rw [if_pos hfound, if_neg hidle]
      rw [hrun]
      refine ⟨⟨fun h => (by cases h), fun h => absurd h.2 hidle⟩, ?_, ?_, rfl⟩
      · intro h; cases h
      · intro _; rfl
  · have hrun : RemoveClient pClient s = (false, s) := by
      unfold RemoveClient
      simp only
      rw [if_neg hfound]
    rw [hrun]
    refine ⟨⟨fun h => (by cases h), fun h => absurd h.1 hfound⟩, ?_, ?_, rfl⟩
    · intro h; cases h
    · intro _; rfl

theorem setClient_clients_self (s : Server) (p : Nat) (c : stClient) :
    (s.setClient p c).clients p = c := by
  simp [Server.setClient]

theorem setClient_clients_other (s : Server) (p q : Nat) (c : stClient) (h : q ≠ p) :
    (s.setClient p c).clients q = s.clients q := by
  simp [Server.setClient, Function.update, h]

/-- Claim C13. In a pool whose map leads every registration number to the session of that
number, `ClientsPool::IncreaseCountForClient` for the kind `REQUESTCOUNT` or
`RESPONSECOUNT` returns TRUE exactly when the handle pointer is not `NULL`, the
registration number of the handle is a key of the map and the session found there is not
marked to disconnect. When it returns TRUE, the session found is returned in `pClient`,
its counter of the given kind is one more than before, its other counter is as before, and
every other session is unchanged; when it returns FALSE no session is changed. -/
theorem C13_IncreaseCountForClient_iff_known_and_unmarked
    (clienthandle : Option ClientHandle) (pClient : Option Nat) (RequestORResponse : Nat)
    (now : Int) (s : Server)
    (hkind : RequestORResponse = REQUESTCOUNT ∨ RequestORResponse = RESPONSECOUNT)
    (hpool : PoolConsistent s) :
    ((IncreaseCountForClient clienthandle pClient RequestORResponse now s).1 = true ↔
        ∃ h p, clienthandle = some h
          ∧ mapFind s.m_ClientsMap h.m_ClientRegistrationNumber = some p
          ∧ (s.clients p).m_bToBeDisconnected = false)
    ∧ ((IncreaseCountForClient clienthandle pClient RequestORResponse now s).1 = true →
        ∃ h p, clienthandle = some h
          ∧ mapFind s.m_ClientsMap h.m_ClientRegistrationNumber = some p
          ∧ (IncreaseCountForClient clienthandle pClient RequestORResponse now s).2.1 = some p
          ∧ (RequestORResponse = REQUESTCOUNT →
              (((IncreaseCountForClient clienthandle pClient RequestORResponse now
                  s).2.2.clients p).m_LockRequestsResponses.Requests
                = (s.clients p).m_LockRequestsResponses.Requests + 1
              ∧ ((IncreaseCountForClient clienthandle pClient RequestORResponse now
                  s).2.2.clients p).m_LockRequestsResponses.Responses
                = (s.clients p).m_LockRequestsResponses.Responses))
          ∧ (RequestORResponse = RESPONSECOUNT →
              (((IncreaseCountForClient clienthandle pClient RequestORResponse now
                  s).2.2.clients p).m_LockRequestsResponses.Responses
                = (s.clients p).m_LockRequestsResponses.Responses + 1
              ∧ ((IncreaseCountForClient clienthandle pClient RequestORResponse now
                  s).2.2.clients p).m_LockRequestsResponses.Requests
                = (s.clients p).m_LockRequestsResponses.Requests))
          ∧ ∀ q, q ≠ p →
              (IncreaseCountForClient clienthandle pClient RequestORResponse now
                s).2.2.clients q = s.clients q)
    ∧ ((IncreaseCountForClient clienthandle pClient RequestORResponse now s).1 = false →
        (IncreaseCountForClient clienthandle pClient RequestORResponse now s).2.2.clients
          = s.clients) := by
  cases clienthandle with
  | none =>
    have hrun : IncreaseCountForClient none pClient RequestORResponse now s
        = (false, pClient, { s with errors := s.errors + 1 }) := rfl
    rw [hrun]
    refine ⟨⟨fun h => (by cases h), ?_⟩, fun h => (by cases h), fun _ => rfl⟩
    rintro ⟨h, p, hh, -⟩
    cases hh
  | some h =>
    cases hfind : mapFind s.m_ClientsMap h.m_ClientRegistrationNumber with
    | none =>
      have hrun : IncreaseCountForClient (some h) pClient RequestORResponse now s
          = (false, pClient, s) := by
        unfold IncreaseCountForClient
        simp only [hfind]
      rw [hrun]
      refine ⟨⟨fun h => (by cases h), ?_⟩, fun h => (by cases h), fun _ => rfl⟩
      rintro ⟨h', p, hh, hp, -⟩
      cases hh
      rw [hfind] at hp
      cases hp
    | some p =>
      have hreg := hpool _ _ hfind
      by_cases hmark : (s.clients p).m_bToBeDisconnected = false
      · have hcond : (s.clients p).m_ClientHandle.m_ClientRegistrationNumber
            = h.m_ClientRegistrationNumber
            ∧ (s.clients p).m_bToBeDisconnected = false := ⟨hreg, hmark⟩
        rcases hkind with hk | hk
        · have hrun : IncreaseCountForClient (some h) pClient RequestORResponse now s
              = (true, some p, s.setClient p { s.clients p with
                  m_LockRequestsResponses :=
                    { Requests := (s.clients p).m_LockRequestsResponses.Requests + 1,
                      Responses := (s.clients p).m_LockRequestsResponses.Responses,
                      LastActivityTime := now } }) := by
            unfold IncreaseCountForClient
            simp only [hfind]
            rw [if_pos hcond, if_pos hk]
          rw [hrun]
          refine ⟨⟨fun _ => ⟨h, p, rfl, hfind, hmark⟩, fun _ => rfl⟩, ?_, fun h => (by cases h)⟩
          intro _
          refine ⟨h, p, rfl, hfind, rfl, ?_, ?_, ?_⟩
          · intro _
            rw [setClient_clients_self]
            exact ⟨rfl, rfl⟩
          · intro h2
            rw [hk] at h2
            cases h2
          · intro q hq
            exact setClient_clients_other _ _ _ _ hq
        · have hk1 : ¬ RequestORResponse = REQUESTCOUNT := by rw [hk]; decide
          have hrun : IncreaseCountForClient (some h) pClient RequestORResponse now s
              = (true, some p, s.setClient p { s.clients p with
                  m_LockRequestsResponses :=
                    { Requests := (s.clients p).m_LockRequestsResponses.Requests,
                      Responses := (s.clients p).m_LockRequestsResponses.Responses + 1,
                      LastActivityTime := now } }) := by
            unfold IncreaseCountForClient
            simp only [hfind]
            rw [if_pos hcond, if_neg hk1]
          rw [hrun]
          refine ⟨⟨fun _ => ⟨h, p, rfl, hfind, hmark⟩, fun _ => rfl⟩, ?_, fun h => (by cases h)⟩
          intro _
          refine ⟨h, p, rfl, hfind, rfl, ?_, ?_, ?_⟩
          · intro h2
            exact absurd h2 hk1
          · intro _
            rw [setClient_clients_self]
            exact ⟨rfl, rfl⟩
          · intro q hq
            exact setClient_clients_other _ _ _ _ hq
      · have hcond : ¬ ((s.clients p).m_ClientHandle.m_ClientRegistrationNumber
            = h.m_ClientRegistrationNumber
            ∧ (s.clients p).m_bToBeDisconnected = false) := fun hc => hmark hc.2
        have hrun : IncreaseCountForClient (some h) pClient RequestORResponse now s
            = (false, some p, s) := by
          unfold IncreaseCountForClient
          simp only [hfind]
          rw [if_neg hcond]
        rw [hrun]
        refine ⟨⟨fun h => (by cases h), ?_⟩, fun h => (by cases h), fun _ => rfl⟩
        rintro ⟨h', p', hh, hp, hm⟩
        cases hh
        rw [hfind] at hp
        cases hp
        exact absurd hm hmark


theorem mapFind_mapAssign (key value : Nat) (m : List (Nat × Nat)) (other : Nat) :
    mapFind (mapAssign key value m) other
      = if other = key then some value else mapFind m other := by
  induction m with
  | nil =>
    unfold mapAssign mapFind
    by_cases h : other = key
    · simp [List.lookup, h]
    · have : (other == key) = false := by simpa using h
      simp [List.lookup, h, this]
  | cons e rest ih =>
    obtain ⟨k, v⟩ := e
    unfold mapAssign
    unfold mapFind at ih ⊢
    by_cases hlt : key < k
    · rw [if_pos hlt]
      by_cases h : other = key
      · simp [List.lookup, h]
      · have : (other == key) = false := by simpa using h
        simp only [List.lookup, this, if_neg h]
    · rw [if_neg hlt]
      by_cases hgt : k < key
      · rw [if_pos hgt]
        by_cases hk : other = k
        · have hne : other ≠ key := by omega
          have hkk : ¬ k = key := by omega
          simp [List.lookup, hk, hkk]
        · have : (other == k) = false := by simpa using hk
          simp only [List.lookup, this]
          exact ih
      · rw [if_neg hgt]
        have hkk : k = key := by omega
        by_cases h : other = key
        · simp [List.lookup, h]
        · have h1 : (other == key) = false := by simpa using h
          have h2 : (other == k) = false := by rw [hkk]; exact h1
          simp only [List.lookup, h1, h2, if_neg h]

theorem PoolConsistent_AddClient (pClient : Nat) (s : Server) (h : PoolConsistent s) :
    PoolConsistent (AddClient pClient s).2 := by
  unfold AddClient
  simp only
  by_cases hshut : s.m_bIsServerShuttingDown = true
  · rw [if_pos hshut]; exact h
  · rw [if_neg hshut]
    intro key p hfind
    simp only at hfind
    rw [mapFind_mapAssign] at hfind
    by_cases hk : key = (s.clients pClient).m_ClientHandle.m_ClientRegistrationNumber
    · rw [if_pos hk] at hfind
      cases hfind
      exact hk.symm
    · rw [if_neg hk] at hfind
      exact h key p hfind

theorem PoolConsistent_twoSessions : PoolConsistent twoSessions := by
  apply PoolConsistent_AddClient
  apply PoolConsistent_AddClient
  intro key p h
  cases h

/-- Instance of C13: the response count of the session B of two sessions is increased. -/
theorem C13_IncreaseCountForClient_iff_known_and_unmarked_witness :
    ((RESPONSECOUNT = REQUESTCOUNT ∨ RESPONSECOUNT = RESPONSECOUNT)
      ∧ PoolConsistent twoSessions)
    ∧ ((IncreaseCountForClient (some ⟨2, 7⟩) none RESPONSECOUNT 50 twoSessions).1 = true ↔
        ∃ h p, some (⟨2, 7⟩ : ClientHandle) = some h
          ∧ mapFind twoSessions.m_ClientsMap h.m_ClientRegistrationNumber = some p
          ∧ (twoSessions.clients p).m_bToBeDisconnected = false) :=
  ⟨⟨Or.inr rfl, PoolConsistent_twoSessions⟩,
    (C13_IncreaseCountForClient_iff_known_and_unmarked (some ⟨2, 7⟩) none RESPONSECOUNT 50
      twoSessions (Or.inr rfl) PoolConsistent_twoSessions).1⟩

theorem IncreaseCountForClient_sample :
    (IncreaseCountForClient (some ⟨2, 7⟩) none RESPONSECOUNT 50 twoSessions).1 = true
    ∧ (IncreaseCountForClient (some ⟨2, 7⟩) none RESPONSECOUNT 50 twoSessions).2.1 = some 200
    ∧ ((IncreaseCountForClient (some ⟨2, 7⟩) none RESPONSECOUNT 50
        twoSessions).2.2.clients 200).m_LockRequestsResponses = ⟨0, 1, 50⟩
    ∧ (IncreaseCountForClient (some ⟨3, 7⟩) none RESPONSECOUNT 50 twoSessions).1 = false := by
  decide

/-! ## Registration numbers -/

theorem UINT64_of_INT64_natCast (n : Nat) (h : n < 18446744073709551616) :
    UINT64_of_INT64 (n : Int) = n := by
  unfold UINT64_of_INT64
  have : ((n : Int) % 18446744073709551616) = (n : Int) := by omega
  rw [this]
  exact Int.toNat_natCast n

theorem map_set_same {α β : Type} (f : α → β) :
    ∀ (l : List α) (i : Nat) (a b : α), l[i]? = some a → f b = f a →
      (l.set i b).map f = l.map f := by
  intro l
  induction l with
  | nil => intro i a b _ _; rfl
  | cons x rest ih =>
    intro i a b hget hf
    cases i with
    | zero =>
      simp only [List.getElem?_cons_zero, Option.some.injEq] at hget
      rw [List.set_cons_zero, List.map_cons, List.map_cons, hf, hget]
    | succ j =>
      simp only [List.getElem?_cons_succ] at hget
      rw [List.set_cons_succ, List.map_cons, List.map_cons, ih j a b hget hf]

theorem runSessionEvents_registrationNumbers (M : Int) (ip : Nat) :
    ∀ (events : List SessionEvent) (stat : ServerStat) (sessions : List stClient),
      stat.ClientsConnectedCount = (sessions.length : Int) →
      sessions.length + events.length ≤ 9223372036854775807 →
      sessions.map (fun c => c.m_ClientHandle.m_ClientRegistrationNumber)
        = List.range' 1 sessions.length →
      ((runSessionEvents M ip events (stat, sessions)).2).map
          (fun c => c.m_ClientHandle.m_ClientRegistrationNumber)
        = List.range' 1 (runSessionEvents M ip events (stat, sessions)).2.length := by
  intro events
  induction events with
  | nil =>
    intro stat sessions _ _ hregs
    exact hregs
  | cons e rest ih =>
    intro stat sessions hcount hlen hregs
    rw [List.length_cons] at hlen
    cases e with
    | construct l1 l2 now =>
      unfold runSessionEvents
      unfold new_stClient
      by_cases h1 : l1 < 0
      · simp only [h1, if_true]
        exact ih stat sessions hcount (by omega) hregs
      · by_cases h2 : l2 < 0
        · simp only [h1, h2, if_true, if_false]
          exact ih stat sessions hcount (by omega) hregs
        · simp only [h1, h2, if_false]
          apply ih
          · simp only [List.length_append, List.length_singleton]
            rw [hcount]
            push_cast
            rfl
          · simp only [List.length_append, List.length_singleton]
            omega
          · rw [List.map_append, hregs, List.length_append, List.length_singleton,
              List.range'_concat, List.map_singleton, hcount]
            have hcast : ((sessions.length : Int) + 1) = ((sessions.length + 1 : Nat) : Int) := by
              push_cast; rfl
            rw [hcast, UINT64_of_INT64_natCast _ (by omega)]
            simp [Nat.add_comm]
    | destruct index =>
      unfold runSessionEvents
      cases hget : sessions[index]? with
      | none =>
        simp only
        exact ih stat sessions hcount (by omega) hregs
      | some c =>
        simp only
        have hsame : (sessions.set index (delete_stClient c stat).1).map
            (fun c => c.m_ClientHandle.m_ClientRegistrationNumber)
            = sessions.map (fun c => c.m_ClientHandle.m_ClientRegistrationNumber) :=
          map_set_same _ sessions index c _ hget rfl
        apply ih
        · rw [List.length_set]
          exact hcount
        · rw [List.length_set]
          omega
        · rw [hsame, List.length_set]
          exact hregs

/-- Claim C19. After any sequence of constructions and destructions of sessions on a
server that starts with its statistics at zero, the registration numbers of the sessions
constructed, in the order of construction, are 1, 2, 3, ...: each is strictly greater than
all earlier ones, the first is 1, and none occurs twice. The count of connected clients is
an `INT64`, so the sequence has at most 2^63 - 1 steps. -/
theorem C19_registration_numbers_strictly_increase (MaxPendingResponses : Int)
    (ServerIPv4Address : Nat) (events : List SessionEvent)
    (hlen : events.length ≤ 9223372036854775807) :
    (((runSessionEvents MaxPendingResponses ServerIPv4Address events ({}, [])).2).map
        (fun c => c.m_ClientHandle.m_ClientRegistrationNumber)).Pairwise (fun a b => a < b)
    ∧ (∀ r, (((runSessionEvents MaxPendingResponses ServerIPv4Address events ({}, [])).2).map
        (fun c => c.m_ClientHandle.m_ClientRegistrationNumber)).head? = some r → r = 1)
    ∧ (((runSessionEvents MaxPendingResponses ServerIPv4Address events ({}, [])).2).map
        (fun c => c.m_ClientHandle.m_ClientRegistrationNumber)).Nodup
    ∧ ((runSessionEvents MaxPendingResponses ServerIPv4Address events ({}, [])).2).map
        (fun c => c.m_ClientHandle.m_ClientRegistrationNumber)
      = List.range' 1
          (runSessionEvents MaxPendingResponses ServerIPv4Address events ({}, [])).2.length := by
  have h := runSessionEvents_registrationNumbers MaxPendingResponses ServerIPv4Address events
    {} [] rfl (by simpa using hlen) rfl
  rw [h]
  refine ⟨List.pairwise_lt_range' 1 _, ?_, List.nodup_range' 1 _, rfl⟩
  intro r hr
  cases hn : (runSessionEvents MaxPendingResponses ServerIPv4Address events ({}, [])).2.length with
  | zero => rw [hn] at hr; simp at hr
  | succ k =>
    rw [hn] at hr
    simp [List.range'_succ] at hr
    exact hr.symm

/-- Instance of C19: two constructions, the destruction of the first session, and a third
construction give the registration numbers 1, 2 and 3. -/
theorem C19_registration_numbers_strictly_increase_witness :
    [SessionEvent.construct 0 0 0, SessionEvent.construct 0 0 0, SessionEvent.destruct 0,
        SessionEvent.construct 0 0 0].length ≤ 9223372036854775807
    ∧ ((runSessionEvents 16 7
        [SessionEvent.construct 0 0 0, SessionEvent.construct 0 0 0, SessionEvent.destruct 0,
          SessionEvent.construct 0 0 0] ({}, [])).2).map
        (fun c => c.m_ClientHandle.m_ClientRegistrationNumber)
      = List.range' 1 (runSessionEvents 16 7
        [SessionEvent.construct 0 0 0, SessionEvent.construct 0 0 0, SessionEvent.destruct 0,
          SessionEvent.construct 0 0 0] ({}, [])).2.length :=
  ⟨by decide,
    (C19_registration_numbers_strictly_increase 16 7
      [SessionEvent.construct 0 0 0, SessionEvent.construct 0 0 0, SessionEvent.destruct 0,
        SessionEvent.construct 0 0 0] (by decide)).2.2.2⟩

theorem runSessionEvents_sample :
    ((runSessionEvents 16 7
        [SessionEvent.construct 0 0 0, SessionEvent.construct 0 0 0, SessionEvent.destruct 0,
          SessionEvent.construct 0 0 0] ({}, [])).2).map
        (fun c => (c.m_ClientHandle.m_ClientRegistrationNumber, c.m_bDeleted))
      = [(1, true), (2, false), (3, false)] := by
  decide

/-! ## The session version after a rejected frame -/

/-- Claim C26, the code at the failing inputs. A session whose version is
`UNINITIALIZED_VERSION` sends ten bytes with a valid preamble and the version 1, which
has a processor: the frame is rejected with `INVALID_SIZE` for its size 0, and for its
size 6 above the five bytes the processor allows, yet `ExistingVersion` has become 1. With
the version 2, which has no processor, the frame is rejected with `INVALID_VERSION` and
`ExistingVersion` has become 2. The assignment `ExistingVersion = Version` stands before
these checks. -/
theorem C26_rejected_frame_sets_uninitialized_version :
    (ValidateProtocolAndExtractRequest sampleParams (frameHeader 1 0 ++ [0]) 10
        UNINITIALIZED_VERSION emptyBuffer).code = INVALID_SIZE
    ∧ (ValidateProtocolAndExtractRequest sampleParams (frameHeader 1 0 ++ [0]) 10
        UNINITIALIZED_VERSION emptyBuffer).ExistingVersion = 1
    ∧ (ValidateProtocolAndExtractRequest sampleParams (frameHeader 1 6 ++ [0]) 10
        UNINITIALIZED_VERSION emptyBuffer).code = INVALID_SIZE
    ∧ (ValidateProtocolAndExtractRequest sampleParams (frameHeader 1 6 ++ [0]) 10
        UNINITIALIZED_VERSION emptyBuffer).ExistingVersion = 1
    ∧ (ValidateProtocolAndExtractRequest sampleParams (frameHeader 2 1 ++ [0]) 10
        UNINITIALIZED_VERSION emptyBuffer).code = INVALID_VERSION
    ∧ (ValidateProtocolAndExtractRequest sampleParams (frameHeader 2 1 ++ [0]) 10
        UNINITIALIZED_VERSION emptyBuffer).ExistingVersion = 2 := by
  decide

/-- The part of C26 that the code keeps: a frame rejected for its preamble, or for a version
that is 0 or differs from the version of the session, leaves `ExistingVersion` as it was,
and so does every rejected frame of a session whose version is already set. -/
theorem rejected_frame_keeps_version (params : Nat → Option VersionParameters)
    (input_buffer : List Byte) (buffer_length ExistingVersion : Nat) (request_out : Buffer)
    (hcode : (ValidateProtocolAndExtractRequest params input_buffer buffer_length
        ExistingVersion request_out).code = INVALID_HEADER
      ∨ ExistingVersion ≠ UNINITIALIZED_VERSION) :
    (ValidateProtocolAndExtractRequest params input_buffer buffer_length ExistingVersion
        request_out).ExistingVersion = ExistingVersion := by
  rcases hcode with hcode | hset
  · unfold ValidateProtocolAndExtractRequest at hcode ⊢
    by_cases h1 : buffer_length < HEADER_SIZE + 1
    · simp only [h1, if_true]
    · by_cases h2 : preambleMismatch input_buffer = true
      · simp only [h1, h2, if_true, if_false]
      · simp only [h1, h2, if_false] at hcode
        exfalso
        revert hcode
        simp only [Bool.false_eq_true, if_false]
        split
        · simp
        · split
          · simp
          · split
            · simp
            · split <;> try simp
              split <;> simp
  · exact parse_keeps_nonzero_version params input_buffer buffer_length ExistingVersion
      request_out hset

/-! ## The size of forwarded responses -/

/-- Claim C30. Let an application version, other than `SPECIAL_COMMUNICATION`, have a
processor whose parameters passed the constructor (`m_MaxResponseSize` below
`MAX_POSSIBLE_REQUEST_RESPONSE_SIZE`) and the validation at start. For every payload that
passes the guard of `StoreMessage` for this version and every chunk of `N` handles with
`1 ≤ N ≤ MAX_HANDLES_IN_FORWARDED_RESPONSE`, the forwarded body of `2 + 4 + 8 N + n`
bytes is not longer than the `m_MaxResponseSize` that `CalculateVersionParameters` gives
the version `SPECIAL_COMMUNICATION`; `ConstructResponseForRemoteClients` builds the
response, and the parser of a receiving server never answers `INVALID_SIZE` to its
frame, whatever follows the frame in the buffer. -/
theorem C30_forwarded_response_within_special_limit
    (params receiverParams : Nat → Option VersionParameters) (vp : VersionParameters)
    (version : Nat) (mem : List Byte) (n : Nat) (hs : List ClientHandle)
    (_hversion : version ≠ SPECIAL_COMMUNICATION)
    (_hp : params version = some vp)
    (hvalid : ValidVersionParameters vp)
    (hctor : vp.m_MaxResponseSize < MAX_POSSIBLE_REQUEST_RESPONSE_SIZE)
    (hspecial : params SPECIAL_COMMUNICATION = some CalculateVersionParameters)
    (hreceiver : receiverParams SPECIAL_COMMUNICATION = some CalculateVersionParameters)
    (haccept : ¬ (n = 0 ∨ n > UINT_of_int vp.m_MaxResponseSize))
    (hN : 1 ≤ hs.length ∧ hs.length ≤ MAX_HANDLES_IN_FORWARDED_RESPONSE) :
    ((2 + 4 + 8 * hs.length + n : Nat) : Int) ≤ CalculateVersionParameters.m_MaxResponseSize
    ∧ ∃ m_Response : Buffer,
        ConstructResponseForRemoteClients params hs hs.length ⟨some mem, n⟩ version
          = some m_Response
        ∧ ∀ (following : List Byte) (buffer_length ExistingVersion : Nat)
            (request_out : Buffer),
            (ValidateProtocolAndExtractRequest receiverParams
              (m_Response.base.getD [] ++ following) buffer_length ExistingVersion
              request_out).code ≠ INVALID_SIZE := by
  have hU := UINT_of_int_of_nonneg vp.m_MaxResponseSize
    (by have := hvalid.2.2.1; omega) (by have := hvalid.2.2.2; omega)
  have hM : MAX_HANDLES_IN_FORWARDED_RESPONSE = 16384 := rfl
  have hP : (MAX_POSSIBLE_REQUEST_RESPONSE_SIZE : Int) = 1048576 := rfl
  have hC : CalculateVersionParameters.m_MaxResponseSize = 1179654 := rfl
  have hCq : CalculateVersionParameters.m_MaxRequestSize = 1179654 := rfl
  have hn : n ≠ 0 ∧ (n : Int) < 1048576 := by
    constructor
    · intro h; exact haccept (Or.inl h)
    · have : ¬ n > UINT_of_int vp.m_MaxResponseSize := fun h => haccept (Or.inr h)
      omega
  have hfit : ((2 + 4 + 8 * hs.length + n : Nat) : Int)
      ≤ CalculateVersionParameters.m_MaxResponseSize := by
    rw [hC]; omega
  refine ⟨hfit, _, ConstructResponseForRemoteClients_eq params CalculateVersionParameters hs
    version n mem hspecial (by rw [IsInt, hC]; decide) hfit, ?_⟩
  intro following buffer_length e out0
  simp only [Option.getD_some, List.append_assoc]
  rw [parse_frameHeader receiverParams SPECIAL_COMMUNICATION _ _ buffer_length e out0
    (by decide) (by omega)]
  have hUq : UINT_of_int CalculateVersionParameters.m_MaxRequestSize = 1179654 := by decide
  simp only [hreceiver, hUq]
  have hne : ∀ c : Nat, c ≠ INVALID_SIZE → ∀ (v : Nat) (b : Buffer),
      (ParseResult.mk c v b).code ≠ INVALID_SIZE := fun c hc _ _ => hc
  split
  · exact hne _ (by decide) _ _
  · split
    · exact hne _ (by decide) _ _
    · split
      · omega
      · split
        · omega
        · split
          · exact hne _ (by decide) _ _
          · exact hne _ (by decide) _ _

/-- Instance of C30: the payload `"hello"` of the version 1 for the two sample handles. -/
theorem C30_forwarded_response_within_special_limit_witness :
    ((1 : Nat) ≠ SPECIAL_COMMUNICATION
      ∧ sampleParams 1 = some ⟨5, 5⟩
      ∧ ValidVersionParameters ⟨5, 5⟩
      ∧ (5 : Int) < MAX_POSSIBLE_REQUEST_RESPONSE_SIZE
      ∧ sampleParams SPECIAL_COMMUNICATION = some CalculateVersionParameters
      ∧ ¬ (5 = 0 ∨ 5 > UINT_of_int (5 : Int))
      ∧ (1 ≤ sampleHandles.length ∧ sampleHandles.length ≤ MAX_HANDLES_IN_FORWARDED_RESPONSE))
    ∧ ((2 + 4 + 8 * sampleHandles.length + 5 : Nat) : Int)
        ≤ CalculateVersionParameters.m_MaxResponseSize :=
  ⟨⟨by decide, rfl, by decide, by decide, rfl, by decide, by decide⟩,
    (C30_forwarded_response_within_special_limit sampleParams sampleParams ⟨5, 5⟩ 1
      helloPayload 5 sampleHandles (by decide) rfl (by decide) (by decide) rfl rfl
      (by decide) (by decide)).1⟩

/-! ## The decoder of forwarded responses on arbitrary buffers -/

theorem collectHandles_some (mem : List Byte) (len ip : Nat) (hlen : len < 4294967296) :
    ∀ (rounds : Nat) (acc : ClientHandles) (index : Nat), index + 8 * rounds < len →
      ∃ hs, collectHandles ⟨some mem, len⟩ ip rounds (acc, index)
        = some (hs, index + 8 * rounds) := by
  intro rounds
  induction rounds with
  | zero => intro acc index _; exact ⟨acc, rfl⟩
  | succ k ih =>
    intro acc index h
    have hc : ¬ (index + 8) % 18446744073709551616 ≥ len := by omega
    have hj : (index + 8) % 4294967296 = index + 8 := by omega
    obtain ⟨hs, hhs⟩ := ih (insertClientHandle
      ⟨ntohll (loadUINT64 mem index), ip⟩ acc) (index + 8) (by omega)
    refine ⟨hs, ?_⟩
    simp only [collectHandles, hc, if_false, hj, Option.getD_some]
    rw [hhs]
    congr 2
    omega

theorem collectHandles_none (mem : List Byte) (len ip : Nat) (hlen : len < 4294967296) :
    ∀ (rounds : Nat) (acc : ClientHandles) (index : Nat), 1 ≤ rounds →
      index < 4294967296 → len ≤ index + 8 * rounds →
      collectHandles ⟨some mem, len⟩ ip rounds (acc, index) = none := by
  intro rounds
  induction rounds with
  | zero => intro acc index h; omega
  | succ k ih =>
    intro acc index _ hindex h
    by_cases hc : (index + 8) % 18446744073709551616 ≥ len
    · simp only [collectHandles, hc, if_true]
    · have hj : (index + 8) % 4294967296 = index + 8 := by omega
      simp only [collectHandles, hc, if_false, hj, Option.getD_some]
      exact ih _ (index + 8) (by omega) (by omega) (by omega)

theorem loadByte_take (mem : List Byte) (len i : Nat) (h : i < len) :
    loadByte (mem.take len) i = loadByte mem i := by
  unfold loadByte
  rw [List.getD_eq_getElem?_getD, List.getD_eq_getElem?_getD, List.getElem?_take_of_lt h]

theorem loadByte_congr (mem mem2 : List Byte) (len i : Nat) (h : i < len)
    (hm : mem2.take len = mem.take len) : loadByte mem2 i = loadByte mem i := by
  rw [← loadByte_take mem2 len i h, hm, loadByte_take mem len i h]

theorem loadUINT64_congr (mem mem2 : List Byte) (len i : Nat) (h : i + 8 ≤ len)
    (hm : mem2.take len = mem.take len) : loadUINT64 mem2 i = loadUINT64 mem i := by
  simp only [loadUINT64, loadUINT]
  rw [loadByte_congr mem mem2 len i (by omega) hm,
    loadByte_congr mem mem2 len (i + 1) (by omega) hm,
    loadByte_congr mem mem2 len (i + 2) (by omega) hm,
    loadByte_congr mem mem2 len (i + 3) (by omega) hm,
    loadByte_congr mem mem2 len (i + 4) (by omega) hm,
    loadByte_congr mem mem2 len (i + 4 + 1) (by omega) hm,
    loadByte_congr mem mem2 len (i + 4 + 2) (by omega) hm,
    loadByte_congr mem mem2 len (i + 4 + 3) (by omega) hm]

theorem collectHandles_congr (mem mem2 : List Byte) (len ip : Nat)
    (hm : mem2.take len = mem.take len) :
    ∀ (rounds : Nat) (acc : ClientHandles) (index : Nat), index < 4294967296 →
      collectHandles ⟨some mem2, len⟩ ip rounds (acc, index)
        = collectHandles ⟨some mem, len⟩ ip rounds (acc, index) := by
  intro rounds
  induction rounds with
  | zero => intro acc index _; rfl
  | succ k ih =>
    intro acc index hindex
    by_cases hc : (index + 8) % 18446744073709551616 ≥ len
    · simp only [collectHandles, hc, if_true]
    · have hlt : index + 8 ≤ len := by omega
      simp only [collectHandles, hc, if_false, Option.getD_some]
      rw [loadUINT64_congr mem mem2 len index hlt hm]
      exact ih _ _ (Nat.mod_lt _ (by decide))

theorem ProcessRequest_short (mem : List Byte) (len : Nat) (sender : ClientHandle)
    (h : len < 2 + 4) : ProcessRequest ⟨some mem, len⟩ sender = ⟨false, true, []⟩ := by
  unfold ProcessRequest
  simp only [h, if_true]

theorem ProcessRequest_below_minimum (mem : List Byte) (len : Nat) (sender : ClientHandle)
    (h : ¬ len < 2 + 4)
    (hmin : len < (VERSION_BYTES + HANDLE_BYTES + ntohl (loadUINT mem 2) * 8 + 1) % 4294967296) :
    ProcessRequest ⟨some mem, len⟩ sender = ⟨false, true, []⟩ := by
  unfold ProcessRequest
  simp only [h, if_false, Option.getD_some, hmin, if_true]

theorem ProcessRequest_rejected_in_loop (mem : List Byte) (len : Nat) (sender : ClientHandle)
    (h : ¬ len < 2 + 4)
    (hmin : ¬ len < (VERSION_BYTES + HANDLE_BYTES + ntohl (loadUINT mem 2) * 8 + 1)
      % 4294967296)
    (hloop : collectHandles ⟨some mem, len⟩ sender.m_ServerIPv4Address
      (ntohl (loadUINT mem 2)) ([], 2 + 4) = none) :
    ProcessRequest ⟨some mem, len⟩ sender = ⟨false, true, []⟩ := by
  unfold ProcessRequest
  simp only [h, if_false, Option.getD_some, hmin, hloop]

theorem ProcessRequest_accepted (mem : List Byte) (len : Nat) (sender : ClientHandle)
    (clienthandles : ClientHandles) (index : Nat)
    (h : ¬ len < 2 + 4)
    (hmin : ¬ len < (VERSION_BYTES + HANDLE_BYTES + ntohl (loadUINT mem 2) * 8 + 1)
      % 4294967296)
    (hloop : collectHandles ⟨some mem, len⟩ sender.m_ServerIPv4Address
      (ntohl (loadUINT mem 2)) ([], 2 + 4) = some (clienthandles, index)) :
    ProcessRequest ⟨some mem, len⟩ sender
      = ⟨true, true,
          [⟨clienthandles, ⟨some (mem.drop index), (len + 4294967296 - index) % 4294967296⟩,
              ntohs (loadUSHORT mem 0)⟩,
            ⟨insertClientHandle sender [],
              ⟨some [byteOf RESPONSE_ACKNOWLEDGEMENT_OF_FORWARDED_RESP], 1⟩,
              SPECIAL_COMMUNICATION⟩]⟩ := by
  unfold ProcessRequest
  simp only [h, if_false, Option.getD_some, hmin, hloop]

/-- Claim C27, refuted as stated: the request of seven bytes that declares 2^29 handles
passes the minimum-length check, whose `ULONG MinimumLength` is 2 + 4 + 2^32 + 1 reduced
to 7, and is then rejected by the check inside the loop. -/
theorem C27_counterexample :
    ntohl (loadUINT hugeCountRequest 2) = 536870912
    ∧ ¬ ((7 : Nat) < (VERSION_BYTES + HANDLE_BYTES + ntohl (loadUINT hugeCountRequest 2) * 8 + 1)
        % 4294967296)
    ∧ collectHandles ⟨some hugeCountRequest, 7⟩ 7 (ntohl (loadUINT hugeCountRequest 2))
        ([], 2 + 4) = none
    ∧ ProcessRequest ⟨some hugeCountRequest, 7⟩ ⟨99, 7⟩ = ⟨false, true, []⟩ := by
  have hN : ntohl (loadUINT hugeCountRequest 2) = 536870912 := by decide
  have hmin : ¬ ((7 : Nat) < (VERSION_BYTES + HANDLE_BYTES
      + ntohl (loadUINT hugeCountRequest 2) * 8 + 1) % 4294967296) := by
    rw [hN]; decide
  have hloop : collectHandles ⟨some hugeCountRequest, 7⟩ 7
      (ntohl (loadUINT hugeCountRequest 2)) ([], 2 + 4) = none := by
    rw [hN]
    exact collectHandles_none hugeCountRequest 7 7 (by decide) 536870912 [] (2 + 4)
      (by decide) (by decide) (by decide)
  exact ⟨hN, hmin, hloop,
    ProcessRequest_rejected_in_loop hugeCountRequest 7 ⟨99, 7⟩ (by decide) hmin hloop⟩

theorem loadUINT_congr (mem mem2 : List Byte) (len i : Nat) (h : i + 4 ≤ len)
    (hm : mem2.take len = mem.take len) : loadUINT mem2 i = loadUINT mem i := by
  simp only [loadUINT]
  rw [loadByte_congr mem mem2 len i (by omega) hm,
    loadByte_congr mem mem2 len (i + 1) (by omega) hm,
    loadByte_congr mem mem2 len (i + 2) (by omega) hm,
    loadByte_congr mem mem2 len (i + 3) (by omega) hm]

theorem loadUSHORT_congr (mem mem2 : List Byte) (len i : Nat) (h : i + 2 ≤ len)
    (hm : mem2.take len = mem.take len) : loadUSHORT mem2 i = loadUSHORT mem i := by
  simp only [loadUSHORT]
  rw [loadByte_congr mem mem2 len i (by omega) hm,
    loadByte_congr mem mem2 len (i + 1) (by omega) hm]

theorem ProcessRequest_iff (mem : List Byte) (len : Nat) (sender : ClientHandle)
    (hlen : len < 4294967296) :
    (len < 2 + 4 + 8 * ntohl (loadUINT mem 2) + 1 →
      ProcessRequest ⟨some mem, len⟩ sender = ⟨false, true, []⟩)
    ∧ (2 + 4 + 8 * ntohl (loadUINT mem 2) + 1 ≤ len →
      ∃ clienthandles,
        collectHandles ⟨some mem, len⟩ sender.m_ServerIPv4Address
            (ntohl (loadUINT mem 2)) ([], 2 + 4)
          = some (clienthandles, 2 + 4 + 8 * ntohl (loadUINT mem 2))
        ∧ ProcessRequest ⟨some mem, len⟩ sender
          = ⟨true, true,
            [⟨clienthandles,
                ⟨some (mem.drop (2 + 4 + 8 * ntohl (loadUINT mem 2))),
                  len - (2 + 4 + 8 * ntohl (loadUINT mem 2))⟩,
                ntohs (loadUSHORT mem 0)⟩,
              ⟨insertClientHandle sender [],
                ⟨some [byteOf RESPONSE_ACKNOWLEDGEMENT_OF_FORWARDED_RESP], 1⟩,
                SPECIAL_COMMUNICATION⟩]⟩) := by
  have hN := ntohl_lt (loadUINT mem 2)
  have hle : (VERSION_BYTES + HANDLE_BYTES + ntohl (loadUINT mem 2) * 8 + 1) % 4294967296
      ≤ 2 + 4 + 8 * ntohl (loadUINT mem 2) + 1 := by
    simp only [VERSION_BYTES, HANDLE_BYTES]
    have := Nat.mod_le (2 + 4 + ntohl (loadUINT mem 2) * 8 + 1) 4294967296
    omega
  constructor
  · intro h
    by_cases h6 : len < 2 + 4
    · exact ProcessRequest_short mem len sender h6
    · by_cases hmin : len < (VERSION_BYTES + HANDLE_BYTES + ntohl (loadUINT mem 2) * 8 + 1)
          % 4294967296
      · exact ProcessRequest_below_minimum mem len sender h6 hmin
      · have h1 : 1 ≤ ntohl (loadUINT mem 2) := by
          by_contra h0
          have hz : ntohl (loadUINT mem 2) = 0 := by omega
          rw [hz] at hmin h
          simp only [VERSION_BYTES, HANDLE_BYTES] at hmin
          omega
        exact ProcessRequest_rejected_in_loop mem len sender h6 hmin
          (collectHandles_none mem len _ hlen _ [] (2 + 4) h1 (by decide) (by omega))
  · intro h
    have h6 : ¬ len < 2 + 4 := by omega
    have hmin : ¬ len < (VERSION_BYTES + HANDLE_BYTES + ntohl (loadUINT mem 2) * 8 + 1)
        % 4294967296 := by omega
    obtain ⟨hs, hhs⟩ := collectHandles_some mem len sender.m_ServerIPv4Address hlen
      (ntohl (loadUINT mem 2)) [] (2 + 4) (by omega)
    refine ⟨hs, hhs, ?_⟩
    rw [ProcessRequest_accepted mem len sender hs _ h6 hmin hhs]
    have hl : (len + 4294967296 - (2 + 4 + 8 * ntohl (loadUINT mem 2))) % 4294967296
        = len - (2 + 4 + 8 * ntohl (loadUINT mem 2)) := by omega
    rw [hl]

/-- Claim C27, amended. For a forwarded request of `len` bytes (an `ULONG`) that declares
`N` handles, `ProcessRequest` returns FALSE and sends nothing when `len < 2 + 4 + 8 N + 1`,
also when `8 N` does not fit in 32 bits; otherwise it returns TRUE and forwards the
`len - (6 + 8 N) ≥ 1` bytes after the handles. When `2 + 4 + 8 N + 1` fits in 32 bits,
the check inside the loop rejects no buffer that has passed the minimum-length check. The
function reads below `len` only: two memories with the same first `len` bytes give the
same return value and the same calls of `SendResponse`. -/
theorem C27_forwarded_request_decoded_within_bounds (mem : List Byte) (len : Nat)
    (sender : ClientHandle) (hlen : len < 4294967296) :
    (len < 2 + 4 + 8 * ntohl (loadUINT mem 2) + 1 →
      (ProcessRequest ⟨some mem, len⟩ sender).returned = false
      ∧ (ProcessRequest ⟨some mem, len⟩ sender).sent = [])
    ∧ (2 + 4 + 8 * ntohl (loadUINT mem 2) + 1 ≤ len →
      (ProcessRequest ⟨some mem, len⟩ sender).returned = true
      ∧ 1 ≤ len - (2 + 4 + 8 * ntohl (loadUINT mem 2))
      ∧ ∃ clienthandles,
          (ProcessRequest ⟨some mem, len⟩ sender).sent
            = [⟨clienthandles,
                ⟨some (mem.drop (2 + 4 + 8 * ntohl (loadUINT mem 2))),
                  len - (2 + 4 + 8 * ntohl (loadUINT mem 2))⟩,
                ntohs (loadUSHORT mem 0)⟩,
              ⟨insertClientHandle sender [],
                ⟨some [byteOf RESPONSE_ACKNOWLEDGEMENT_OF_FORWARDED_RESP], 1⟩,
                SPECIAL_COMMUNICATION⟩])
    ∧ (2 + 4 + 8 * ntohl (loadUINT mem 2) + 1 < 4294967296 → ¬ len < 2 + 4 →
        ¬ len < (VERSION_BYTES + HANDLE_BYTES + ntohl (loadUINT mem 2) * 8 + 1) % 4294967296 →
        collectHandles ⟨some mem, len⟩ sender.m_ServerIPv4Address
          (ntohl (loadUINT mem 2)) ([], 2 + 4) ≠ none)
    ∧ (∀ mem2 : List Byte, mem2.take len = mem.take len →
        (ProcessRequest ⟨some mem2, len⟩ sender).returned
          = (ProcessRequest ⟨some mem, len⟩ sender).returned
        ∧ (ProcessRequest ⟨some mem2, len⟩ sender).sent.map SendResponseCall.content
          = (ProcessRequest ⟨some mem, len⟩ sender).sent.map SendResponseCall.content) := by
  obtain ⟨hno, hyes⟩ := ProcessRequest_iff mem len sender hlen
  refine ⟨?_, ?_, ?_, ?_⟩
  · intro h
    rw [hno h]
    exact ⟨rfl, rfl⟩
  · intro h
    obtain ⟨hs, -, hrun⟩ := hyes h
    rw [hrun]
    exact ⟨rfl, by omega, hs, rfl⟩
  · intro hfit _ hmin
    have hge : 2 + 4 + 8 * ntohl (loadUINT mem 2) + 1 ≤ len := by
      simp only [VERSION_BYTES, HANDLE_BYTES] at hmin
      omega
    obtain ⟨hs, hloop, -⟩ := hyes hge
    rw [hloop]
    exact fun h => by cases h
  · intro mem2 hm
    obtain ⟨hno2, hyes2⟩ := ProcessRequest_iff mem2 len sender hlen
    by_cases h6 : len < 2 + 4
    · rw [ProcessRequest_short mem len sender h6, ProcessRequest_short mem2 len sender h6]
      exact ⟨rfl, rfl⟩
    · have hN : loadUINT mem2 2 = loadUINT mem 2 := loadUINT_congr mem mem2 len 2 (by omega) hm
      have hV : loadUSHORT mem2 0 = loadUSHORT mem 0 :=
        loadUSHORT_congr mem mem2 len 0 (by omega) hm
      rw [hN] at hno2 hyes2
      by_cases h : len < 2 + 4 + 8 * ntohl (loadUINT mem 2) + 1
      · rw [hno h, hno2 h]
        exact ⟨rfl, rfl⟩
      · obtain ⟨hs, hloop, hrun⟩ := hyes (by omega)
        obtain ⟨hs2, hloop2, hrun2⟩ := hyes2 (by omega)
        rw [collectHandles_congr mem mem2 len _ hm _ _ _ (by decide), hloop] at hloop2
        have hhs : hs2 = hs := by
          have := Option.some.inj hloop2
          exact (Prod.mk.inj this).1.symm
        rw [hrun, hrun2, hhs, hV]
        refine ⟨rfl, ?_⟩
        simp only [List.map_cons, List.map_nil, SendResponseCall.content, Buffer.bytes]
        rw [← List.drop_take, ← List.drop_take, hm]

/-- Instance of C27: a well-formed request with one handle and the payload `"hello"`. -/
theorem C27_forwarded_request_decoded_within_bounds_witness :
    (forwardedBody 1 [5] helloPayload).length < 4294967296
    ∧ (2 + 4 + 8 * ntohl (loadUINT (forwardedBody 1 [5] helloPayload) 2) + 1
        ≤ (forwardedBody 1 [5] helloPayload).length →
      (ProcessRequest ⟨some (forwardedBody 1 [5] helloPayload),
          (forwardedBody 1 [5] helloPayload).length⟩ samplePeer).returned = true
      ∧ 1 ≤ (forwardedBody 1 [5] helloPayload).length
          - (2 + 4 + 8 * ntohl (loadUINT (forwardedBody 1 [5] helloPayload) 2))
      ∧ ∃ clienthandles,
          (ProcessRequest ⟨some (forwardedBody 1 [5] helloPayload),
              (forwardedBody 1 [5] helloPayload).length⟩ samplePeer).sent
            = [⟨clienthandles,
                ⟨some ((forwardedBody 1 [5] helloPayload).drop
                    (2 + 4 + 8 * ntohl (loadUINT (forwardedBody 1 [5] helloPayload) 2))),
                  (forwardedBody 1 [5] helloPayload).length
                    - (2 + 4 + 8 * ntohl (loadUINT (forwardedBody 1 [5] helloPayload) 2))⟩,
                ntohs (loadUSHORT (forwardedBody 1 [5] helloPayload) 0)⟩,
              ⟨insertClientHandle samplePeer [],
                ⟨some [byteOf RESPONSE_ACKNOWLEDGEMENT_OF_FORWARDED_RESP], 1⟩,
                SPECIAL_COMMUNICATION⟩]) :=
  ⟨by decide,
    (C27_forwarded_request_decoded_within_bounds (forwardedBody 1 [5] helloPayload)
      (forwardedBody 1 [5] helloPayload).length samplePeer (by decide)).2.1⟩

theorem ProcessRequest_sample :
    ProcessRequest ⟨some (forwardedBody 1 [5] helloPayload), 19⟩ samplePeer
      = ⟨true, true,
          [⟨[⟨5, 7⟩], ⟨some helloPayload, 5⟩, 1⟩,
            ⟨[samplePeer], ⟨some [2], 1⟩, SPECIAL_COMMUNICATION⟩]⟩ := by
  decide

/-! ## The response queue of a session -/

theorem UINT_of_int_half (M : Int) (h0 : 0 ≤ M) (h1 : M < 2147483648) :
    UINT_of_int (Int.tdiv M 2) = (Int.tdiv M 2).toNat := by
  unfold UINT_of_int
  have h2 : 0 ≤ Int.tdiv M 2 := Int.tdiv_nonneg h0 (by decide)
  have h3 : Int.tdiv M 2 ≤ M := by
    rw [Int.tdiv_eq_ediv h0 (by decide)]
    omega
  rw [Int.emod_eq_of_lt h2 (by omega)]

theorem AddResponseToQueue_step (M : Int) (pResponse pClient : Nat) (s : Server)
    (h0 : 0 ≤ M) (h1 : M < 2147483648)
    (hq : (activeQueue s pClient).length ≤ (Int.tdiv M 2).toNat) :
    (LocalClientsManager.AddResponseToQueue M pResponse pClient s).2.m_bResponseDirectionFlag
        = s.m_bResponseDirectionFlag
    ∧ ((activeQueue s pClient).length < (Int.tdiv M 2).toNat →
        (LocalClientsManager.AddResponseToQueue M pResponse pClient s).1 = true
        ∧ activeQueue (LocalClientsManager.AddResponseToQueue M pResponse pClient s).2 pClient
            = pResponse :: activeQueue s pClient
        ∧ ((LocalClientsManager.AddResponseToQueue M pResponse pClient s).2.clients
            pClient).m_bResponseQueueFull = false
        ∧ (LocalClientsManager.AddResponseToQueue M pResponse pClient s).2.errors = s.errors)
    ∧ (¬ (activeQueue s pClient).length < (Int.tdiv M 2).toNat →
        (LocalClientsManager.AddResponseToQueue M pResponse pClient s).1 = false
        ∧ activeQueue (LocalClientsManager.AddResponseToQueue M pResponse pClient s).2 pClient
            = activeQueue s pClient
        ∧ ((LocalClientsManager.AddResponseToQueue M pResponse pClient s).2.clients
            pClient).m_bResponseQueueFull = true
        ∧ (LocalClientsManager.AddResponseToQueue M pResponse pClient s).2.errors
            = s.errors + (if (s.clients pClient).m_bResponseQueueFull then 0 else 1)) := by
  have hU := UINT_of_int_half M h0 h1
  have hL : (Int.tdiv M 2).toNat < 4294967296 := by
    have h3 : Int.tdiv M 2 ≤ M := by
      rw [Int.tdiv_eq_ediv h0 (by decide)]
      omega
    omega
  have hmod : (activeQueue s pClient).length % 4294967296 = (activeQueue s pClient).length :=
    Nat.mod_eq_of_lt (by omega)
  unfold activeQueue at hq hmod ⊢
  unfold LocalClientsManager.AddResponseToQueue AddToClientSet
  simp only [hU]
  cases hflag : s.m_bResponseDirectionFlag
  · simp only [hflag, Bool.false_eq_true, if_false] at hq hmod ⊢
    rw [hmod]
    by_cases hlt : (s.clients pClient).m_ResponsesQueue2.length < (Int.tdiv M 2).toNat
    · simp only [hlt, if_true]
      refine ⟨?_, fun _ => ⟨?_, ?_, ?_, ?_⟩, fun h => absurd trivial h⟩
      · split <;> simp [Server.setClient]
      · split <;> simp
      · split <;> simp [Server.setClient]
      · split <;> simp [Server.setClient]
      · split <;> simp [Server.setClient]
    · simp only [hlt, if_false]
      refine ⟨?_, fun h => absurd h (by simp), fun _ => ⟨trivial, ?_, ?_, ?_⟩⟩
      · split <;> simp [Server.setClient, hflag]
      · split <;> simp [Server.setClient, hflag]
      · split <;> simp [Server.setClient]
      · cases hfull : (s.clients pClient).m_bResponseQueueFull <;> simp [Server.setClient]
  · simp only [hflag, if_true] at hq hmod ⊢
    rw [hmod]
    by_cases hlt : (s.clients pClient).m_ResponsesQueue1.length < (Int.tdiv M 2).toNat
    · simp only [hlt, if_true]
      refine ⟨?_, fun _ => ⟨?_, ?_, ?_, ?_⟩, fun h => absurd trivial h⟩
      · split <;> simp [Server.setClient]
      · split <;> simp
      · split <;> simp [Server.setClient]
      · split <;> simp [Server.setClient]
      · split <;> simp [Server.setClient]
    · simp only [hlt, if_false]
      refine ⟨?_, fun h => absurd h (by simp), fun _ => ⟨trivial, ?_, ?_, ?_⟩⟩
      · split <;> simp [Server.setClient, hflag]
      · split <;> simp [Server.setClient, hflag]
      · split <;> simp [Server.setClient]
      · cases hfull : (s.clients pClient).m_bResponseQueueFull <;> simp [Server.setClient]



theorem enqueueAll_spec (M : Int) (pClient : Nat) (h0 : 0 ≤ M) (h1 : M < 2147483648) :
    ∀ (rs : List Nat) (s : Server),
      (activeQueue s pClient).length ≤ (Int.tdiv M 2).toNat →
      (enqueueAll M pClient rs s).1
          = (List.range rs.length).map
              (fun i => decide ((activeQueue s pClient).length + i < (Int.tdiv M 2).toNat))
      ∧ activeQueue (enqueueAll M pClient rs s).2 pClient
          = (rs.take ((Int.tdiv M 2).toNat - (activeQueue s pClient).length)).reverse
              ++ activeQueue s pClient
      ∧ (enqueueAll M pClient rs s).2.errors
          = s.errors
            + (if (Int.tdiv M 2).toNat < (activeQueue s pClient).length + rs.length then
                (if (activeQueue s pClient).length < (Int.tdiv M 2).toNat then 1
                 else if (s.clients pClient).m_bResponseQueueFull then 0 else 1)
               else 0)
      ∧ ((enqueueAll M pClient rs s).2.clients pClient).m_bResponseQueueFull
          = (if rs = [] then (s.clients pClient).m_bResponseQueueFull
             else decide ((Int.tdiv M 2).toNat < (activeQueue s pClient).length + rs.length))
      ∧ (enqueueAll M pClient rs s).2.m_bResponseDirectionFlag
          = s.m_bResponseDirectionFlag := by
  have hstep := fun r s => AddResponseToQueue_step M r pClient s h0 h1
  generalize (Int.tdiv M 2).toNat = L at hstep ⊢
  intro rs
  induction rs with
  | nil =>
    intro s hq
    simp only [enqueueAll, List.length_nil, List.range_zero, List.map_nil, List.take_nil,
      List.reverse_nil, List.nil_append, Nat.add_zero, if_true, true_and, and_true]
    rw [if_neg (by omega)]
    rfl
  | cons r rest ih =>
    intro s hq
    obtain ⟨hflag, hyes, hno⟩ := hstep r s hq
    unfold enqueueAll
    simp only
    by_cases hlt : (activeQueue s pClient).length < L
    · obtain ⟨hret, hqueue, hlatch, herr⟩ := hyes hlt
      have hq1 : (activeQueue (LocalClientsManager.AddResponseToQueue M r pClient s).2
          pClient).length ≤ L := by
        rw [hqueue, List.length_cons]; omega
      obtain ⟨i1, i2, i3, i4, i5⟩ :=
        ih (LocalClientsManager.AddResponseToQueue M r pClient s).2 hq1
      rw [hqueue, List.length_cons] at i1 i2 i3 i4
      refine ⟨?_, ?_, ?_, ?_, ?_⟩
      · rw [hret, i1, List.length_cons, List.range_succ_eq_map, List.map_cons, List.map_map]
        simp only [Nat.add_zero, hlt, decide_True, List.cons.injEq, true_and]
        apply List.map_congr_left
        intro i _
        simp only [Function.comp, Nat.succ_eq_add_one]
        congr 1
        apply propext
        constructor <;> intro h <;> omega
      · rw [i2]
        have hk : L - (activeQueue s pClient).length
            = (L - ((activeQueue s pClient).length + 1)) + 1 := by omega
        rw [hk, List.take_succ_cons, List.reverse_cons, List.append_assoc]
        rfl
      · rw [i3, herr, hlatch, List.length_cons]
        simp only [hlt, if_true, Bool.false_eq_true, if_false]
        by_cases hover : L < (activeQueue s pClient).length + (rest.length + 1)
        · have hover2 : L
              < (activeQueue s pClient).length + 1 + rest.length := by omega
          simp only [hover, hover2, if_true]
          split <;> rfl
        · have hover2 : ¬ L
              < (activeQueue s pClient).length + 1 + rest.length := by omega
          simp only [hover, hover2, if_false]
      · rw [i4, hlatch, List.length_cons]
        simp only [List.cons_ne_nil, if_false]
        by_cases hrest : rest = []
        · subst hrest
          simp only [if_true, List.length_nil, Nat.zero_add]
          symm
          simp only [decide_eq_false_iff_not]
          omega
        · simp only [hrest, if_false]
          congr 1
          apply propext
          constructor <;> intro h <;> omega
      · rw [i5, hflag]
    · obtain ⟨hret, hqueue, hlatch, herr⟩ := hno hlt
      have hq1 : (activeQueue (LocalClientsManager.AddResponseToQueue M r pClient s).2
          pClient).length ≤ L := by
        rw [hqueue]; exact hq
      obtain ⟨i1, i2, i3, i4, i5⟩ :=
        ih (LocalClientsManager.AddResponseToQueue M r pClient s).2 hq1
      rw [hqueue] at i1 i2 i3 i4
      have hfull : (activeQueue s pClient).length = L := by omega
      refine ⟨?_, ?_, ?_, ?_, ?_⟩
      · rw [hret, i1, List.length_cons, List.range_succ_eq_map, List.map_cons, List.map_map]
        simp only [Nat.add_zero, hlt, decide_False, List.cons.injEq, true_and]
        apply List.map_congr_left
        intro i _
        simp only [Function.comp, Nat.succ_eq_add_one]
        congr 1
        apply propext
        constructor <;> intro h <;> omega
      · rw [i2, hfull]
        simp
      · rw [i3, herr, hlatch, List.length_cons]
        have hover : L < (activeQueue s pClient).length + (rest.length + 1) := by
          omega
        simp only [hover, hlt, if_true, if_false]
        split <;> simp
      · rw [i4, hlatch, List.length_cons]
        simp only [List.cons_ne_nil, if_false]
        by_cases hrest : rest = []
        · subst hrest
          simp only [if_true, List.length_nil]
          symm
          simp only [decide_eq_true_eq]
          omega
        · have hpos : 0 < rest.length := List.length_pos.mpr hrest
          simp only [hrest, if_false]
          congr 1
          apply propext
          constructor <;> intro h <;> omega
      · rw [i5, hflag]


/-- Claim C14. Let `MaxPendingResponses` be a non-negative `int` and let the active queue
of a session hold at most `MaxPendingResponses/2` responses, as it does when empty. A call
of `LocalClientsManager::AddResponseToQueue` succeeds exactly when the active queue holds
fewer than `MaxPendingResponses/2` responses (integer division); on success the response
is at the front of the queue, the latch `m_bResponseQueueFull` is cleared and nothing is
logged; on failure the queue is unchanged, the latch is set, and the error is logged only
if the latch was not set before. Over any sequence of such calls with no send cycle in
between the queue never holds more than `MaxPendingResponses/2` responses; starting from
an empty queue with the latch clear, exactly the first `MaxPendingResponses/2` calls
succeed, the queue keeps their responses, and the error is logged once if a call was
rejected. With `MaxPendingResponses` = 16 the half is 8. -/
theorem C14_enqueue_succeeds_iff_below_half (MaxPendingResponses : Int) (pClient : Nat)
    (s : Server) (h0 : 0 ≤ MaxPendingResponses) (h1 : MaxPendingResponses < 2147483648)
    (hq : (activeQueue s pClient).length ≤ (Int.tdiv MaxPendingResponses 2).toNat) :
    (∀ pResponse,
      (LocalClientsManager.AddResponseToQueue MaxPendingResponses pResponse pClient s).1 = true
        ↔ ((activeQueue s pClient).length : Int) < Int.tdiv MaxPendingResponses 2)
    ∧ (∀ pResponse,
      (LocalClientsManager.AddResponseToQueue MaxPendingResponses pResponse pClient s).1 = true →
        activeQueue (LocalClientsManager.AddResponseToQueue MaxPendingResponses pResponse
            pClient s).2 pClient = pResponse :: activeQueue s pClient
        ∧ ((LocalClientsManager.AddResponseToQueue MaxPendingResponses pResponse pClient
            s).2.clients pClient).m_bResponseQueueFull = false
        ∧ (LocalClientsManager.AddResponseToQueue MaxPendingResponses pResponse pClient
            s).2.errors = s.errors)
    ∧ (∀ pResponse,
      (LocalClientsManager.AddResponseToQueue MaxPendingResponses pResponse pClient s).1 = false →
        activeQueue (LocalClientsManager.AddResponseToQueue MaxPendingResponses pResponse
            pClient s).2 pClient = activeQueue s pClient
        ∧ ((LocalClientsManager.AddResponseToQueue MaxPendingResponses pResponse pClient
            s).2.clients pClient).m_bResponseQueueFull = true
        ∧ (LocalClientsManager.AddResponseToQueue MaxPendingResponses pResponse pClient
            s).2.errors
          = s.errors + (if (s.clients pClient).m_bResponseQueueFull then 0 else 1))
    ∧ (∀ rs : List Nat,
        ((activeQueue (enqueueAll MaxPendingResponses pClient rs s).2 pClient).length : Int)
          ≤ Int.tdiv MaxPendingResponses 2)
    ∧ (∀ rs : List Nat, activeQueue s pClient = [] →
        (s.clients pClient).m_bResponseQueueFull = false →
        (enqueueAll MaxPendingResponses pClient rs s).1
            = (List.range rs.length).map
                (fun (i : Nat) => decide ((i : Int) < Int.tdiv MaxPendingResponses 2))
        ∧ activeQueue (enqueueAll MaxPendingResponses pClient rs s).2 pClient
            = (rs.take (Int.tdiv MaxPendingResponses 2).toNat).reverse
        ∧ (enqueueAll MaxPendingResponses pClient rs s).2.errors
            = s.errors + (if (Int.tdiv MaxPendingResponses 2).toNat < rs.length then 1 else 0)
        ∧ ((enqueueAll MaxPendingResponses pClient rs s).2.clients
            pClient).m_bResponseQueueFull
            = decide ((Int.tdiv MaxPendingResponses 2).toNat < rs.length)) := by
  have hnn : 0 ≤ Int.tdiv MaxPendingResponses 2 := Int.tdiv_nonneg h0 (by decide)
  have hcast : ((Int.tdiv MaxPendingResponses 2).toNat : Int) = Int.tdiv MaxPendingResponses 2 :=
    Int.toNat_of_nonneg hnn
  have hstep := fun r => AddResponseToQueue_step MaxPendingResponses r pClient s h0 h1 hq
  have hall := fun rs => enqueueAll_spec MaxPendingResponses pClient h0 h1 rs s hq
  generalize (Int.tdiv MaxPendingResponses 2).toNat = L at hstep hall hcast hq ⊢
  refine ⟨?_, ?_, ?_, ?_, ?_⟩
  · intro r
    obtain ⟨-, hyes, hno⟩ := hstep r
    constructor
    · intro h
      by_contra hge
      have := (hno (by omega)).1
      rw [h] at this
      cases this
    · intro h
      exact (hyes (by omega)).1
  · intro r h
    obtain ⟨-, hyes, hno⟩ := hstep r
    by_cases hlt : (activeQueue s pClient).length < L
    · exact (hyes hlt).2
    · have := (hno hlt).1
      rw [h] at this
      cases this
  · intro r h
    obtain ⟨-, hyes, hno⟩ := hstep r
    by_cases hlt : (activeQueue s pClient).length < L
    · have := (hyes hlt).1
      rw [h] at this
      cases this
    · exact (hno hlt).2
  · intro rs
    obtain ⟨-, hqueue, -⟩ := hall rs
    rw [hqueue, List.length_append, List.length_reverse, List.length_take, ← hcast]
    have := Nat.min_le_left (L - (activeQueue s pClient).length) rs.length
    omega
  · intro rs hempty hlatch
    obtain ⟨hres, hqueue, herr, hfull, -⟩ := hall rs
    rw [hempty] at hres hqueue herr hfull
    simp only [List.length_nil, Nat.zero_add, Nat.sub_zero, List.append_nil] at hres hqueue herr hfull
    refine ⟨?_, hqueue, ?_, ?_⟩
    · rw [hres]
      apply List.map_congr_left
      intro i _
      congr 1
      apply propext
      constructor <;> intro h <;> omega
    · rw [herr]
      by_cases hover : L < rs.length
      · simp only [hover, if_true]
        have : 0 < L ∨ L = 0 := by omega
        rcases this with hL | hL
        · simp only [hL, if_true]
        · have hn : ¬ 0 < L := by omega
          simp only [hn, if_false, hlatch, Bool.false_eq_true]
      · simp only [hover, if_false]
    · rw [hfull]
      by_cases hrs : rs = []
      · subst hrs
        simp only [if_true, hlatch, List.length_nil]
        symm
        simp only [decide_eq_false_iff_not]
        omega
      · simp only [hrs, if_false]


/-- Instance of C14: `MaxPendingResponses` = 16 and the session A of two sessions, whose
queues are empty. -/
theorem C14_enqueue_succeeds_iff_below_half_witness :
    ((0 : Int) ≤ 16 ∧ (16 : Int) < 2147483648
      ∧ (activeQueue twoSessions 100).length ≤ (Int.tdiv 16 2).toNat)
    ∧ ∀ pResponse,
      (LocalClientsManager.AddResponseToQueue 16 pResponse 100 twoSessions).1 = true
        ↔ ((activeQueue twoSessions 100).length : Int) < Int.tdiv 16 2 :=
  ⟨⟨by decide, by decide, by decide⟩,
    (C14_enqueue_succeeds_iff_below_half 16 100 twoSessions (by decide) (by decide)
      (by decide)).1⟩

theorem enqueueAll_sample :
    (enqueueAll 16 100 [1001, 1002, 1003, 1004, 1005, 1006, 1007, 1008, 1009, 1010]
        twoSessions).1
      = [true, true, true, true, true, true, true, true, false, false]
    ∧ activeQueue (enqueueAll 16 100
        [1001, 1002, 1003, 1004, 1005, 1006, 1007, 1008, 1009, 1010] twoSessions).2 100
      = [1008, 1007, 1006, 1005, 1004, 1003, 1002, 1001]
    ∧ (enqueueAll 16 100 [1001, 1002, 1003, 1004, 1005, 1006, 1007, 1008, 1009]
        twoSessions).2.errors = 1
    ∧ (enqueueAll 16 100 [1001, 1002, 1003, 1004, 1005, 1006, 1007, 1008, 1009, 1010]
        twoSessions).2.errors = 1
    ∧ ((enqueueAll 16 100 [1001, 1002, 1003, 1004, 1005, 1006, 1007, 1008, 1009, 1010]
        twoSessions).2.clients 100).m_bResponseQueueFull = true
    ∧ (enqueueAll 16 100 [1001, 1002, 1003, 1004, 1005, 1006, 1007, 1008, 1009, 1010]
        twoSessions).2.m_RecevingClientsSet2 = [100] := by
  decide

/-! ## The reference count of a queued response -/

theorem AddResponseToQueue_frame (M : Int) (pResponse pClient : Nat) (s : Server) :
    (LocalClientsManager.AddResponseToQueue M pResponse pClient s).2.m_ClientsMap
        = s.m_ClientsMap
    ∧ (LocalClientsManager.AddResponseToQueue M pResponse pClient s).2.responses = s.responses
    ∧ (∀ q, q ≠ pClient →
        (LocalClientsManager.AddResponseToQueue M pResponse pClient s).2.clients q
          = s.clients q)
    ∧ ((LocalClientsManager.AddResponseToQueue M pResponse pClient s).2.clients
        pClient).m_ClientHandle = (s.clients pClient).m_ClientHandle
    ∧ ((LocalClientsManager.AddResponseToQueue M pResponse pClient s).2.clients
        pClient).m_bToBeDisconnected = (s.clients pClient).m_bToBeDisconnected
    ∧ ((LocalClientsManager.AddResponseToQueue M pResponse pClient s).2.clients
        pClient).m_LockRequestsResponses = (s.clients pClient).m_LockRequestsResponses
    ∧ inactiveQueue (LocalClientsManager.AddResponseToQueue M pResponse pClient s).2 pClient
        = inactiveQueue s pClient := by
  unfold LocalClientsManager.AddResponseToQueue AddToClientSet inactiveQueue
  simp only
  cases hflag : s.m_bResponseDirectionFlag <;>
  · simp only [Bool.false_eq_true, if_false, if_true]
    split
    · refine ⟨?_, ?_, ?_, ?_, ?_, ?_, ?_⟩
      · split <;> simp [Server.setClient]
      · split <;> simp [Server.setClient]
      · intro q hq
        split <;> simp [Server.setClient, Function.update, hq]
      · split <;> simp [Server.setClient]
      · split <;> simp [Server.setClient]
      · split <;> simp [Server.setClient]
      · split <;> simp [Server.setClient, hflag]
    · refine ⟨?_, ?_, ?_, ?_, ?_, ?_, ?_⟩
      · split <;> simp [Server.setClient]
      · split <;> simp [Server.setClient]
      · intro q hq
        split <;> simp [Server.setClient, Function.update, hq]
      · split <;> simp [Server.setClient]
      · split <;> simp [Server.setClient]
      · split <;> simp [Server.setClient]
      · split <;> simp [Server.setClient, hflag]

theorem AddResponseToQueue_result (M : Int) (pResponse pClient : Nat) (s : Server) :
    ((LocalClientsManager.AddResponseToQueue M pResponse pClient s).1 = true →
      activeQueue (LocalClientsManager.AddResponseToQueue M pResponse pClient s).2 pClient
        = pResponse :: activeQueue s pClient)
    ∧ ((LocalClientsManager.AddResponseToQueue M pResponse pClient s).1 = false →
      activeQueue (LocalClientsManager.AddResponseToQueue M pResponse pClient s).2 pClient
        = activeQueue s pClient)
    ∧ (LocalClientsManager.AddResponseToQueue M pResponse pClient s).2.m_bResponseDirectionFlag
        = s.m_bResponseDirectionFlag := by
  unfold LocalClientsManager.AddResponseToQueue AddToClientSet activeQueue
  simp only
  cases hflag : s.m_bResponseDirectionFlag <;>
  · simp only [Bool.false_eq_true, if_false, if_true]
    split
    · refine ⟨?_, ?_, ?_⟩
      · intro _
        split <;> simp [Server.setClient, hflag]
      · intro h
        exfalso
        revert h
        split <;> simp
      · split <;> simp [Server.setClient, hflag]
    · refine ⟨?_, ?_, ?_⟩
      · intro h
        cases h
      · intro _
        split <;> simp [Server.setClient, hflag]
      · split <;> simp [Server.setClient, hflag]

theorem IncreaseCountForClient_cases (it : ClientHandle) (now : Int) (s : Server)
    (hpool : PoolConsistent s) :
    (∀ p, mapFind s.m_ClientsMap it.m_ClientRegistrationNumber = some p →
        (s.clients p).m_bToBeDisconnected = false →
        IncreaseCountForClient (some it) none RESPONSECOUNT now s
          = (true, some p, s.setClient p { s.clients p with
              m_LockRequestsResponses :=
                { Requests := (s.clients p).m_LockRequestsResponses.Requests,
                  Responses := (s.clients p).m_LockRequestsResponses.Responses + 1,
                  LastActivityTime := now } }))
    ∧ (∀ p, mapFind s.m_ClientsMap it.m_ClientRegistrationNumber = some p →
        (s.clients p).m_bToBeDisconnected = true →
        IncreaseCountForClient (some it) none RESPONSECOUNT now s = (false, some p, s))
    ∧ (mapFind s.m_ClientsMap it.m_ClientRegistrationNumber = none →
        IncreaseCountForClient (some it) none RESPONSECOUNT now s = (false, none, s)) := by
  refine ⟨?_, ?_, ?_⟩
  · intro p hfind hmark
    have hcond : (s.clients p).m_ClientHandle.m_ClientRegistrationNumber
        = it.m_ClientRegistrationNumber
        ∧ (s.clients p).m_bToBeDisconnected = false := ⟨hpool _ _ hfind, hmark⟩
    unfold IncreaseCountForClient
    simp only [hfind]
    rw [if_pos hcond, if_neg (by decide)]
  · intro p hfind hmark
    have hcond : ¬ ((s.clients p).m_ClientHandle.m_ClientRegistrationNumber
        = it.m_ClientRegistrationNumber
        ∧ (s.clients p).m_bToBeDisconnected = false) := by
      intro hc; rw [hmark] at hc; cases hc.2
    unfold IncreaseCountForClient
    simp only [hfind]
    rw [if_neg hcond]
  · intro hfind
    unfold IncreaseCountForClient
    simp only [hfind]

theorem DecreaseCountForClient_queues (p : Nat) (now : Int) (s : Server) (q : Nat) :
    activeQueue (DecreaseCountForClient p RESPONSECOUNT now s).2 q = activeQueue s q
    ∧ inactiveQueue (DecreaseCountForClient p RESPONSECOUNT now s).2 q = inactiveQueue s q := by
  unfold DecreaseCountForClient activeQueue inactiveQueue
  by_cases hq : q = p
  · subst hq
    simp [Server.setClient]
  · simp [Server.setClient, Function.update, hq]

theorem AddResponseToClientsQueues_cons (M : Int) (r : Nat) (now : Int) (it : ClientHandle)
    (rest : ClientHandlesPtrs) (c : Int) (s : Server) (hpool : PoolConsistent s) :
    ∃ s1, AddResponseToClientsQueues M r now (it :: rest) (c, s)
        = AddResponseToClientsQueues M r now rest
            (c + (if recipientAccepts M r now s it then 1 else 0), s1)
      ∧ s1.m_ClientsMap = s.m_ClientsMap ∧ s1.responses = s.responses
      ∧ s1.m_bResponseDirectionFlag = s.m_bResponseDirectionFlag
      ∧ (∀ p, (s1.clients p).m_ClientHandle = (s.clients p).m_ClientHandle
          ∧ (s1.clients p).m_bToBeDisconnected = (s.clients p).m_bToBeDisconnected
          ∧ (s1.clients p).m_LockRequestsResponses.Requests
              = (s.clients p).m_LockRequestsResponses.Requests
          ∧ inactiveQueue s1 p = inactiveQueue s p)
      ∧ (∀ q, mapFind s.m_ClientsMap it.m_ClientRegistrationNumber ≠ some q →
          s1.clients q = s.clients q)
      ∧ (∀ p, mapFind s.m_ClientsMap it.m_ClientRegistrationNumber = some p →
          (recipientAccepts M r now s it = true → (s.clients p).m_bToBeDisconnected = false)
          ∧ (s1.clients p).m_LockRequestsResponses.Responses
              = (s.clients p).m_LockRequestsResponses.Responses
                + (if recipientAccepts M r now s it then 1 else 0)
          ∧ activeQueue s1 p
              = (if recipientAccepts M r now s it then [r] else []) ++ activeQueue s p) := by
  obtain ⟨hlive, hmarked, hnone⟩ := IncreaseCountForClient_cases it now s hpool
  cases hfind : mapFind s.m_ClientsMap it.m_ClientRegistrationNumber with
  | none =>
    have hinc := hnone hfind
    have hacc : recipientAccepts M r now s it = false := by
      unfold recipientAccepts; rw [hinc]
    refine ⟨s, ?_, rfl, rfl, rfl, fun p => ⟨rfl, rfl, rfl, rfl⟩, fun _ _ => rfl, ?_⟩
    · rw [AddResponseToClientsQueues, hinc, hacc]; simp
    · intro p hp; cases hp
  | some p =>
    cases hmark : (s.clients p).m_bToBeDisconnected with
    | true =>
      have hinc := hmarked p hfind hmark
      have hacc : recipientAccepts M r now s it = false := by
        unfold recipientAccepts; rw [hinc]
      refine ⟨s, ?_, rfl, rfl, rfl, fun p => ⟨rfl, rfl, rfl, rfl⟩, fun _ _ => rfl, ?_⟩
      · rw [AddResponseToClientsQueues, hinc, hacc]; simp
      · intro p' hp'
        rw [hacc]
        simp
    | false =>
      have hinc := hlive p hfind hmark
      obtain ⟨fmap, fresp, fother, fhandle, fmark, fcounts, finactive⟩ :=
        AddResponseToQueue_frame M r p (s.setClient p { s.clients p with
              m_LockRequestsResponses :=
                { Requests := (s.clients p).m_LockRequestsResponses.Requests,
                  Responses := (s.clients p).m_LockRequestsResponses.Responses + 1,
                  LastActivityTime := now } })
      obtain ⟨rtrue, rfalse, rflag⟩ :=
        AddResponseToQueue_result M r p (s.setClient p { s.clients p with
              m_LockRequestsResponses :=
                { Requests := (s.clients p).m_LockRequestsResponses.Requests,
                  Responses := (s.clients p).m_LockRequestsResponses.Responses + 1,
                  LastActivityTime := now } })
      generalize hsI : (s.setClient p { s.clients p with
              m_LockRequestsResponses :=
                { Requests := (s.clients p).m_LockRequestsResponses.Requests,
                  Responses := (s.clients p).m_LockRequestsResponses.Responses + 1,
                  LastActivityTime := now } }) = sI at *
      have hsIp : sI.clients p = { s.clients p with
              m_LockRequestsResponses :=
                { Requests := (s.clients p).m_LockRequestsResponses.Requests,
                  Responses := (s.clients p).m_LockRequestsResponses.Responses + 1,
                  LastActivityTime := now } } := by
        rw [← hsI]; exact setClient_clients_self _ _ _
      have hsIq : ∀ q, q ≠ p → sI.clients q = s.clients q := by
        intro q hq; rw [← hsI]; exact setClient_clients_other _ _ _ _ hq
      have hsImap : sI.m_ClientsMap = s.m_ClientsMap := by rw [← hsI]; rfl
      have hsIresp : sI.responses = s.responses := by rw [← hsI]; rfl
      have hsIflag : sI.m_bResponseDirectionFlag = s.m_bResponseDirectionFlag := by
        rw [← hsI]; rfl
      have hactI : activeQueue sI p = activeQueue s p := by
        unfold activeQueue; rw [hsIflag, hsIp]
      have hinactI : inactiveQueue sI p = inactiveQueue s p := by
        unfold inactiveQueue; rw [hsIflag, hsIp]
      cases hadd : LocalClientsManager.AddResponseToQueue M r p sI with
      | mk b s2 =>
        rw [hadd] at fmap fresp fother fhandle fmark fcounts finactive rtrue rfalse rflag
        simp only at fmap fresp fother fhandle fmark fcounts finactive rtrue rfalse rflag
        have hacc : recipientAccepts M r now s it = b := by
          unfold recipientAccepts; rw [hinc]; simp only; rw [hadd]
        cases b with
        | true =>
          refine ⟨s2, ?_, fmap.trans hsImap, fresp.trans hsIresp, rflag.trans hsIflag, ?_, ?_, ?_⟩
          · rw [AddResponseToClientsQueues, hinc]; simp only; rw [hadd, hacc]; simp
          · intro q
            by_cases hq : q = p
            · subst hq
              rw [fhandle, fmark, fcounts, hsIp]
              refine ⟨rfl, rfl, rfl, ?_⟩
              rw [finactive, hinactI]
            · rw [fother q hq, hsIq q hq]
              refine ⟨rfl, rfl, rfl, ?_⟩
              simp only [inactiveQueue, rflag, hsIflag, fother q hq, hsIq q hq]
          · intro q hq
            have hqp : q ≠ p := fun h => hq (by rw [h])
            rw [fother q hqp, hsIq q hqp]
          · intro p' hp'
            cases hp'
            rw [hacc]
            refine ⟨fun _ => hmark, ?_, ?_⟩
            · rw [fcounts, hsIp]; simp
            · rw [rtrue rfl, hactI]; simp
        | false =>
          refine ⟨(DecreaseCountForClient p RESPONSECOUNT now s2).2, ?_, fmap.trans hsImap,
            fresp.trans hsIresp, rflag.trans hsIflag, ?_, ?_, ?_⟩
          · rw [AddResponseToClientsQueues, hinc]; simp only; rw [hadd, hacc]; simp
          · intro q
            by_cases hq : q = p
            · subst hq
              rw [(DecreaseCountForClient_queues q now s2 q).2, finactive, hinactI]
              unfold DecreaseCountForClient
              simp only [setClient_clients_self]
              rw [fhandle, fmark, fcounts, hsIp]
              refine ⟨rfl, rfl, ?_, trivial⟩
              simp [RESPONSECOUNT, REQUESTCOUNT]
            · rw [(DecreaseCountForClient_queues p now s2 q).2]
              unfold DecreaseCountForClient
              simp only [setClient_clients_other _ _ _ _ hq]
              rw [fother q hq, hsIq q hq]
              refine ⟨rfl, rfl, rfl, ?_⟩
              simp only [inactiveQueue, rflag, hsIflag, fother q hq, hsIq q hq]
          · intro q hq
            have hqp : q ≠ p := fun h => hq (by rw [h])
            unfold DecreaseCountForClient
            simp only [setClient_clients_other _ _ _ _ hqp]
            rw [fother q hqp, hsIq q hqp]
          · intro p' hp'
            cases hp'
            rw [hacc]
            refine ⟨fun h => (by cases h), ?_, ?_⟩
            · unfold DecreaseCountForClient
              simp only [setClient_clients_self]
              rw [fcounts, hsIp]
              simp [RESPONSECOUNT, REQUESTCOUNT]
            · rw [(DecreaseCountForClient_queues p now s2 p).1, rfalse rfl, hactI]; simp

theorem AddResponseToQueue_fst (M : Int) (pResponse pClient : Nat) (s : Server) :
    (LocalClientsManager.AddResponseToQueue M pResponse pClient s).1
      = decide ((activeQueue s pClient).length % 4294967296 < UINT_of_int (Int.tdiv M 2)) := by
  unfold LocalClientsManager.AddResponseToQueue AddToClientSet activeQueue
  simp only
  cases hflag : s.m_bResponseDirectionFlag <;>
  · simp only [Bool.false_eq_true, if_false, if_true]
    split
    · rename_i h
      rw [decide_eq_true h]
      split <;> simp
    · rename_i h
      rw [decide_eq_false h]

theorem recipientAccepts_found (M : Int) (r : Nat) (now : Int) (s : Server)
    (it : ClientHandle) (hpool : PoolConsistent s)
    (hacc : recipientAccepts M r now s it = true) :
    ∃ p, mapFind s.m_ClientsMap it.m_ClientRegistrationNumber = some p := by
  cases hfind : mapFind s.m_ClientsMap it.m_ClientRegistrationNumber with
  | none =>
    have hinc := (IncreaseCountForClient_cases it now s hpool).2.2 hfind
    unfold recipientAccepts at hacc
    rw [hinc] at hacc
    cases hacc
  | some p => exact ⟨p, rfl⟩

theorem recipientAccepts_congr (M : Int) (r : Nat) (now : Int) (s s1 : Server)
    (h : ClientHandle) (hpool : PoolConsistent s) (hpool1 : PoolConsistent s1)
    (hmap : s1.m_ClientsMap = s.m_ClientsMap)
    (hflag : s1.m_bResponseDirectionFlag = s.m_bResponseDirectionFlag)
    (hcl : ∀ p, mapFind s.m_ClientsMap h.m_ClientRegistrationNumber = some p →
      s1.clients p = s.clients p) :
    recipientAccepts M r now s1 h = recipientAccepts M r now s h := by
  obtain ⟨hlive, hmarked, hnone⟩ := IncreaseCountForClient_cases h now s hpool
  obtain ⟨hlive1, hmarked1, hnone1⟩ := IncreaseCountForClient_cases h now s1 hpool1
  rw [hmap] at hlive1 hmarked1 hnone1
  cases hfind : mapFind s.m_ClientsMap h.m_ClientRegistrationNumber with
  | none =>
    unfold recipientAccepts
    rw [hnone hfind, hnone1 hfind]
  | some p =>
    have hp := hcl p hfind
    cases hmark : (s.clients p).m_bToBeDisconnected with
    | true =>
      unfold recipientAccepts
      rw [hmarked p hfind hmark, hmarked1 p hfind (by rw [hp]; exact hmark)]
    | false =>
      unfold recipientAccepts
      rw [hlive p hfind hmark, hlive1 p hfind (by rw [hp]; exact hmark)]
      simp only
      rw [AddResponseToQueue_fst, AddResponseToQueue_fst]
      have e : ∀ (t : Server) (c : stClient),
          activeQueue (t.setClient p c) p
            = if t.m_bResponseDirectionFlag then c.m_ResponsesQueue1
              else c.m_ResponsesQueue2 := by
        intro t c
        unfold activeQueue
        simp [Server.setClient]
      rw [e, e, hflag, hp]

theorem recipients_cons (M : Int) (r : Nat) (now : Int) (s : Server) (it : ClientHandle)
    (rest : ClientHandlesPtrs) :
    recipients M r now s (it :: rest)
      = (if recipientAccepts M r now s it then
          (mapFind s.m_ClientsMap it.m_ClientRegistrationNumber).toList else [])
        ++ recipients M r now s rest := by
  unfold recipients
  by_cases hacc : recipientAccepts M r now s it = true
  · rw [List.filter_cons_of_pos hacc, if_pos hacc, List.filterMap_cons]
    cases mapFind s.m_ClientsMap it.m_ClientRegistrationNumber <;> simp
  · rw [List.filter_cons_of_neg hacc, if_neg hacc]
    simp

theorem recipients_mem (M : Int) (r : Nat) (now : Int) (s : Server)
    (hs : ClientHandlesPtrs) (p : Nat) (hp : p ∈ recipients M r now s hs) :
    ∃ h, h ∈ hs ∧ recipientAccepts M r now s h = true
      ∧ mapFind s.m_ClientsMap h.m_ClientRegistrationNumber = some p := by
  unfold recipients at hp
  rw [List.mem_filterMap] at hp
  obtain ⟨h, hmem, hfind⟩ := hp
  rw [List.mem_filter] at hmem
  exact ⟨h, hmem.1, hmem.2, hfind⟩

theorem AddResponseToClientsQueues_spec (M : Int) (r : Nat) (now : Int) :
    ∀ (hs : ClientHandlesPtrs) (c : Int) (s : Server), PoolConsistent s →
      (hs.map (fun h => h.m_ClientRegistrationNumber)).Nodup →
      (AddResponseToClientsQueues M r now hs (c, s)).1
          = c + ((hs.filter (recipientAccepts M r now s)).length : Int)
      ∧ (AddResponseToClientsQueues M r now hs (c, s)).2.m_ClientsMap = s.m_ClientsMap
      ∧ (AddResponseToClientsQueues M r now hs (c, s)).2.responses = s.responses
      ∧ (AddResponseToClientsQueues M r now hs (c, s)).2.m_bResponseDirectionFlag
          = s.m_bResponseDirectionFlag
      ∧ (∀ p,
          ((AddResponseToClientsQueues M r now hs (c, s)).2.clients p).m_ClientHandle
            = (s.clients p).m_ClientHandle
          ∧ ((AddResponseToClientsQueues M r now hs (c, s)).2.clients p).m_bToBeDisconnected
            = (s.clients p).m_bToBeDisconnected
          ∧ ((AddResponseToClientsQueues M r now hs (c, s)).2.clients
              p).m_LockRequestsResponses.Requests
            = (s.clients p).m_LockRequestsResponses.Requests
          ∧ inactiveQueue (AddResponseToClientsQueues M r now hs (c, s)).2 p
            = inactiveQueue s p)
      ∧ (∀ p,
          ((AddResponseToClientsQueues M r now hs (c, s)).2.clients
              p).m_LockRequestsResponses.Responses
            = (s.clients p).m_LockRequestsResponses.Responses
              + (if p ∈ recipients M r now s hs then 1 else 0)
          ∧ activeQueue (AddResponseToClientsQueues M r now hs (c, s)).2 p
            = (if p ∈ recipients M r now s hs then [r] else []) ++ activeQueue s p)
      ∧ (recipients M r now s hs).Nodup
      ∧ (recipients M r now s hs).length
          = (hs.filter (recipientAccepts M r now s)).length := by
  intro hs
  induction hs with
  | nil =>
    intro c s _ _
    simp [AddResponseToClientsQueues, recipients]
  | cons it rest ih =>
    intro c s hpool hnd
    obtain ⟨s1, hstep, hmap1, hresp1, hflag1, hframe1, hother1, hsess1⟩ :=
      AddResponseToClientsQueues_cons M r now it rest c s hpool
    have hpool1 : PoolConsistent s1 := by
      intro key p h
      rw [hmap1] at h
      rw [(hframe1 p).1]
      exact hpool key p h
    rw [List.map_cons, List.nodup_cons] at hnd
    obtain ⟨hnotin, hnd'⟩ := hnd
    have hdistinct : ∀ h, h ∈ rest → ∀ p,
        mapFind s.m_ClientsMap h.m_ClientRegistrationNumber = some p →
        mapFind s.m_ClientsMap it.m_ClientRegistrationNumber ≠ some p := by
      intro h hh p hp hit
      apply hnotin
      rw [List.mem_map]
      exact ⟨h, hh, (hpool _ _ hp).symm.trans (hpool _ _ hit) |>.symm.symm⟩
    have hacc_eq : ∀ h, h ∈ rest →
        recipientAccepts M r now s1 h = recipientAccepts M r now s h := by
      intro h hh
      apply recipientAccepts_congr M r now s s1 h hpool hpool1 hmap1 hflag1
      intro p hp
      exact hother1 p (hdistinct h hh p hp)
    have hfilter_eq : rest.filter (recipientAccepts M r now s1)
        = rest.filter (recipientAccepts M r now s) := List.filter_congr hacc_eq
    have hrec_eq : recipients M r now s1 rest = recipients M r now s rest := by
      unfold recipients
      rw [hmap1, hfilter_eq]
    obtain ⟨ih1, ih2, ih3, ih4, ih5, ih6, ih7, ih8⟩ :=
      ih (c + (if recipientAccepts M r now s it then 1 else 0)) s1 hpool1 hnd'
    rw [hrec_eq] at ih6 ih7 ih8
    rw [hfilter_eq] at ih1 ih8
    have hexcl : ∀ p, mapFind s.m_ClientsMap it.m_ClientRegistrationNumber = some p →
        p ∉ recipients M r now s rest := by
      intro p hit hp
      obtain ⟨h, hh, _, hfind⟩ := recipients_mem M r now s rest p hp
      exact hdistinct h hh p hfind hit
    have hs1 : ∀ p,
        (s1.clients p).m_LockRequestsResponses.Responses
          = (s.clients p).m_LockRequestsResponses.Responses
            + (if recipientAccepts M r now s it = true
                ∧ mapFind s.m_ClientsMap it.m_ClientRegistrationNumber = some p
              then 1 else 0)
        ∧ activeQueue s1 p
          = (if recipientAccepts M r now s it = true
                ∧ mapFind s.m_ClientsMap it.m_ClientRegistrationNumber = some p
              then [r] else []) ++ activeQueue s p := by
      intro p
      by_cases hit : mapFind s.m_ClientsMap it.m_ClientRegistrationNumber = some p
      · obtain ⟨_, h1, h2⟩ := hsess1 p hit
        rw [h1, h2]
        by_cases hacc : recipientAccepts M r now s it = true
        · simp [hacc, hit]
        · simp [hacc]
      · have hcl := hother1 p hit
        have hne : ¬ (recipientAccepts M r now s it = true
            ∧ mapFind s.m_ClientsMap it.m_ClientRegistrationNumber = some p) :=
          fun h => hit h.2
        rw [if_neg hne, if_neg hne]
        unfold activeQueue
        rw [hcl, hflag1]
        simp
    have hmem : ∀ p, p ∈ recipients M r now s (it :: rest) ↔
        (recipientAccepts M r now s it = true
          ∧ mapFind s.m_ClientsMap it.m_ClientRegistrationNumber = some p)
        ∨ p ∈ recipients M r now s rest := by
      intro p
      rw [recipients_cons, List.mem_append]
      by_cases hacc : recipientAccepts M r now s it = true
      · rw [if_pos hacc]
        simp [hacc, Option.mem_toList, eq_comm]
      · simp [hacc]
    rw [hstep]
    refine ⟨?_, ih2.trans hmap1, ih3.trans hresp1, ih4.trans hflag1, ?_, ?_, ?_, ?_⟩
    · rw [ih1]
      by_cases hacc : recipientAccepts M r now s it = true
      · rw [List.filter_cons_of_pos hacc, if_pos hacc, List.length_cons]
        push_cast
        ring
      · rw [List.filter_cons_of_neg hacc, if_neg hacc]
        ring
    · intro p
      obtain ⟨a1, a2, a3, a4⟩ := ih5 p
      obtain ⟨b1, b2, b3, b4⟩ := hframe1 p
      exact ⟨a1.trans b1, a2.trans b2, a3.trans b3, a4.trans b4⟩
    · intro p
      obtain ⟨a1, a2⟩ := ih6 p
      obtain ⟨b1, b2⟩ := hs1 p
      rw [a1, a2, b1, b2]
      by_cases hin : p ∈ recipients M r now s rest
      · have hno : ¬ (recipientAccepts M r now s it = true
            ∧ mapFind s.m_ClientsMap it.m_ClientRegistrationNumber = some p) :=
          fun h => hexcl p h.2 hin
        have hyes : p ∈ recipients M r now s (it :: rest) := (hmem p).mpr (Or.inr hin)
        rw [if_pos hin, if_pos hin, if_neg hno, if_neg hno, if_pos hyes, if_pos hyes]
        simp
      · by_cases hnow : recipientAccepts M r now s it = true
            ∧ mapFind s.m_ClientsMap it.m_ClientRegistrationNumber = some p
        · have hyes : p ∈ recipients M r now s (it :: rest) := (hmem p).mpr (Or.inl hnow)
          rw [if_neg hin, if_neg hin, if_pos hnow, if_pos hnow, if_pos hyes, if_pos hyes]
          simp
        · have hno : p ∉ recipients M r now s (it :: rest) := by
            rw [hmem p]
            exact fun h => h.elim hnow hin
          rw [if_neg hin, if_neg hin, if_neg hnow, if_neg hnow, if_neg hno, if_neg hno]
          simp
    · rw [recipients_cons]
      by_cases hacc : recipientAccepts M r now s it = true
      · obtain ⟨p, hp⟩ := recipientAccepts_found M r now s it hpool hacc
        rw [if_pos hacc, hp]
        simp only [Option.toList, List.singleton_append, List.nodup_cons]
        exact ⟨hexcl p hp, ih7⟩
      · rw [if_neg hacc]
        simpa using ih7
    · rw [recipients_cons]
      by_cases hacc : recipientAccepts M r now s it = true
      · obtain ⟨p, hp⟩ := recipientAccepts_found M r now s it hpool hacc
        rw [if_pos hacc, hp, List.filter_cons_of_pos hacc]
        simp [Option.toList, ih8]
      · rw [if_neg hacc, List.filter_cons_of_neg hacc]
        simpa using ih8

theorem AddResponseToQueues_local (M : Int) (sizeofResponse newPeer : Nat) (now : Int)
    (r : Nat) (hs : ClientHandlesPtrs) (s : Server)
    (hlocal : (s.responses r).members.m_bIsForward = false) :
    (ConnectionsManager.AddResponseToQueues M sizeofResponse newPeer now r hs s).1
        = (AddResponseToClientsQueues M r now hs (0, s)).1
    ∧ (ConnectionsManager.AddResponseToQueues M sizeofResponse newPeer now r hs s).2.clients
        = (AddResponseToClientsQueues M r now hs (0, s)).2.clients
    ∧ ((ConnectionsManager.AddResponseToQueues M sizeofResponse newPeer now r hs s).2.responses
        r).m_ReferenceCount = (AddResponseToClientsQueues M r now hs (0, s)).1
    ∧ ((AddResponseToClientsQueues M r now hs (0, s)).1 = 0 →
      ((ConnectionsManager.AddResponseToQueues M sizeofResponse newPeer now r hs s).2.responses
        r).deleted = true)
    ∧ ((AddResponseToClientsQueues M r now hs (0, s)).1 ≠ 0 →
      ((ConnectionsManager.AddResponseToQueues M sizeofResponse newPeer now r hs s).2.responses
        r).deleted = ((AddResponseToClientsQueues M r now hs (0, s)).2.responses r).deleted) := by
  unfold ConnectionsManager.AddResponseToQueues AddResponseDetailsToServerStat
  simp only [hlocal, Bool.false_eq_true, if_false]
  generalize AddResponseToClientsQueues M r now hs (0, s) = out
  by_cases h0 : out.1 = 0
  · simp [h0, Server.setResponse]
  · simp [h0, Server.setResponse]

/-- Claim C20. For a local response at the address `r` that no queue holds yet, a pool whose
map leads every registration number to the session of that number, and a set of handles
with distinct registration numbers, `ConnectionsManager::AddResponseToQueues` returns the
number of handles for which the increase of the response count and the enqueue both
succeed, and stores it as the reference count of the response; the sessions of these
handles are pairwise distinct, as many as the count, and exactly the sessions with the
response in a queue; the response count of each of them is one greater than before and
that of every other session is unchanged; and with the count 0 the response is deleted. -/
theorem C20_reference_count_counts_holding_sessions (M : Int) (sizeofResponse newPeer : Nat)
    (now : Int) (r : Nat) (hs : ClientHandlesPtrs) (s : Server)
    (hlocal : (s.responses r).members.m_bIsForward = false)
    (hpool : PoolConsistent s)
    (hnd : (hs.map (fun h => h.m_ClientRegistrationNumber)).Nodup)
    (hfresh : ∀ p, r ∉ (s.clients p).m_ResponsesQueue1 ∧ r ∉ (s.clients p).m_ResponsesQueue2) :
    (ConnectionsManager.AddResponseToQueues M sizeofResponse newPeer now r hs s).1
        = ((hs.filter (recipientAccepts M r now s)).length : Int)
    ∧ ((ConnectionsManager.AddResponseToQueues M sizeofResponse newPeer now r hs s).2.responses
        r).m_ReferenceCount
        = (ConnectionsManager.AddResponseToQueues M sizeofResponse newPeer now r hs s).1
    ∧ (recipients M r now s hs).Nodup
    ∧ ((recipients M r now s hs).length : Int)
        = (ConnectionsManager.AddResponseToQueues M sizeofResponse newPeer now r hs s).1
    ∧ (∀ p,
        (r ∈ ((ConnectionsManager.AddResponseToQueues M sizeofResponse newPeer now r hs
                s).2.clients p).m_ResponsesQueue1
          ∨ r ∈ ((ConnectionsManager.AddResponseToQueues M sizeofResponse newPeer now r hs
                s).2.clients p).m_ResponsesQueue2)
        ↔ p ∈ recipients M r now s hs)
    ∧ (∀ p,
        ((ConnectionsManager.AddResponseToQueues M sizeofResponse newPeer now r hs
            s).2.clients p).m_LockRequestsResponses.Responses
          = (s.clients p).m_LockRequestsResponses.Responses
            + (if p ∈ recipients M r now s hs then 1 else 0))
    ∧ ((ConnectionsManager.AddResponseToQueues M sizeofResponse newPeer now r hs s).1 = 0 →
        ((ConnectionsManager.AddResponseToQueues M sizeofResponse newPeer now r hs
            s).2.responses r).deleted = true) := by
  obtain ⟨l1, l2, l3, l4, _⟩ := AddResponseToQueues_local M sizeofResponse newPeer now r hs s hlocal
  obtain ⟨a1, _, _, a4, a5, a6, a7, a8⟩ := AddResponseToClientsQueues_spec M r now hs 0 s hpool hnd
  rw [l1, l2, l3]
  refine ⟨?_, rfl, a7, ?_, ?_, ?_, l4⟩
  · rw [a1]; ring
  · rw [a1, a8]; ring
  · intro p
    obtain ⟨_, b2⟩ := a6 p
    obtain ⟨_, _, _, b4⟩ := a5 p
    obtain ⟨f1, f2⟩ := hfresh p
    unfold activeQueue at b2
    unfold inactiveQueue at b4
    rw [a4] at b2 b4
    cases hflag : s.m_bResponseDirectionFlag
    · rw [hflag] at b2 b4
      simp only [Bool.false_eq_true, if_false] at b2 b4
      rw [b2, b4]
      by_cases hin : p ∈ recipients M r now s hs
      · simp [hin]
      · simp [hin, f1, f2]
    · rw [hflag] at b2 b4
      simp only [if_true] at b2 b4
      rw [b2, b4]
      by_cases hin : p ∈ recipients M r now s hs
      · simp [hin]
      · simp [hin, f1, f2]
  · intro p
    exact (a6 p).1

theorem twoSessions_queues_empty (p : Nat) :
    (twoSessions.clients p).m_ResponsesQueue1 = []
    ∧ (twoSessions.clients p).m_ResponsesQueue2 = [] := by
  have h : twoSessions.clients p
      = if p = 100 then liveSession 1 else if p = 200 then liveSession 2 else blankClient := rfl
  rw [h]
  split
  · exact ⟨rfl, rfl⟩
  · split
    · exact ⟨rfl, rfl⟩
    · exact ⟨rfl, rfl⟩

/-- Instance of C20: a response for the two live sessions A and B has the reference
count 2. -/
theorem C20_reference_count_counts_holding_sessions_witness :
    ((twoSessions.responses 5000).members.m_bIsForward = false
      ∧ PoolConsistent twoSessions
      ∧ (([⟨1, 7⟩, ⟨2, 7⟩] : ClientHandlesPtrs).map
          (fun h => h.m_ClientRegistrationNumber)).Nodup
      ∧ ∀ p, 5000 ∉ (twoSessions.clients p).m_ResponsesQueue1
          ∧ 5000 ∉ (twoSessions.clients p).m_ResponsesQueue2)
    ∧ (ConnectionsManager.AddResponseToQueues 16 64 900 50 5000 [⟨1, 7⟩, ⟨2, 7⟩]
        twoSessions).1 = 2 :=
  ⟨⟨rfl, PoolConsistent_twoSessions, by decide,
      fun p => by
        rw [(twoSessions_queues_empty p).1, (twoSessions_queues_empty p).2]
        exact ⟨List.not_mem_nil _, List.not_mem_nil _⟩⟩,
    (C20_reference_count_counts_holding_sessions 16 64 900 50 5000 [⟨1, 7⟩, ⟨2, 7⟩] twoSessions
      rfl PoolConsistent_twoSessions (by decide)
      (fun p => by
        rw [(twoSessions_queues_empty p).1, (twoSessions_queues_empty p).2]
        exact ⟨List.not_mem_nil _, List.not_mem_nil _⟩)).1.trans (by decide)⟩

theorem AddResponseToQueues_sample :
    (ConnectionsManager.AddResponseToQueues 16 64 900 50 5000 [⟨1, 7⟩, ⟨2, 7⟩]
        twoSessions).1 = 2
    ∧ ((ConnectionsManager.AddResponseToQueues 16 64 900 50 5000 [⟨1, 7⟩, ⟨2, 7⟩]
        twoSessions).2.responses 5000).m_ReferenceCount = 2
    ∧ ((ConnectionsManager.AddResponseToQueues 16 64 900 50 5000 [⟨1, 7⟩, ⟨2, 7⟩]
        twoSessions).2.clients 100).m_ResponsesQueue2 = [5000]
    ∧ ((ConnectionsManager.AddResponseToQueues 16 64 900 50 5000 [⟨1, 7⟩, ⟨2, 7⟩]
        twoSessions).2.clients 200).m_ResponsesQueue2 = [5000]
    ∧ (ConnectionsManager.AddResponseToQueues 16 64 900 50 5000 [⟨3, 7⟩]
        twoSessions).1 = 0
    ∧ ((ConnectionsManager.AddResponseToQueues 16 64 900 50 5000 [⟨3, 7⟩]
        twoSessions).2.responses 5000).deleted = true := by
  decide

/-! ## What the functions on one session or peer leave unchanged -/

theorem NodeFrame_refl (s : Server) : NodeFrame s s :=
  ⟨rfl, rfl, rfl, rfl, rfl, rfl, rfl, rfl, fun _ => ⟨rfl, rfl, rfl, rfl, fun h => h⟩,
    fun _ => ⟨rfl, rfl, rfl, rfl⟩⟩

theorem NodeFrame_trans {s t u : Server} (h1 : NodeFrame s t) (h2 : NodeFrame t u) :
    NodeFrame s u := by
  obtain ⟨a1, a2, a3, a4, a5, a6, a7, a8, a9, a10⟩ := h1
  obtain ⟨b1, b2, b3, b4, b5, b6, b7, b8, b9, b10⟩ := h2
  refine ⟨b1.trans a1, b2.trans a2, b3.trans a3, b4.trans a4, b5.trans a5, b6.trans a6,
    b7.trans a7, b8.trans a8, ?_, ?_⟩
  · intro p
    obtain ⟨c1, c2, c3, c4, c5⟩ := a9 p
    obtain ⟨d1, d2, d3, d4, d5⟩ := b9 p
    exact ⟨d1.trans c1, d2.trans c2, d3.trans c3, d4.trans c4, fun h => d5 (c5 h)⟩
  · intro p
    obtain ⟨c1, c2, c3, c4⟩ := a10 p
    obtain ⟨d1, d2, d3, d4⟩ := b10 p
    exact ⟨d1.trans c1, d2.trans c2, d3.trans c3, d4.trans c4⟩

theorem NodeFrame_of_eq {s t : Server} (h1 : t.writes = s.writes) (h2 : t.stores = s.stores)
    (h3 : t.m_bResponseDirectionFlag = s.m_bResponseDirectionFlag)
    (h4 : t.after_send_response_called_by_send_response
      = s.after_send_response_called_by_send_response)
    (h5 : t.responses = s.responses)
    (h6 : t.m_stServerStat.ResponsesInPeerServersQueues
      = s.m_stServerStat.ResponsesInPeerServersQueues)
    (h7 : t.m_stServerStat.ResponsesInLocalClientsQueues
      = s.m_stServerStat.ResponsesInLocalClientsQueues)
    (h8 : t.m_stServerStat.MemoryConsumptionByResponsesInQueue
      = s.m_stServerStat.MemoryConsumptionByResponsesInQueue)
    (h9 : t.clients = s.clients) (h10 : t.peers = s.peers) : NodeFrame s t := by
  refine ⟨h1, h2, h3, h4, h5, h6, h7, h8, ?_, ?_⟩
  · intro p; rw [h9]; exact ⟨rfl, rfl, rfl, rfl, fun h => h⟩
  · intro p; rw [h10]; exact ⟨rfl, rfl, rfl, rfl⟩

theorem NodeFrame_setClient (s : Server) (q : Nat) (c : stClient)
    (h1 : c.m_ResponsesQueue1 = (s.clients q).m_ResponsesQueue1)
    (h2 : c.m_ResponsesQueue2 = (s.clients q).m_ResponsesQueue2)
    (h3 : c.m_pResponsesBuffersBeingSent = (s.clients q).m_pResponsesBuffersBeingSent)
    (h4 : c.m_pResponsesBeingSent = (s.clients q).m_pResponsesBeingSent)
    (h5 : (s.clients q).m_bToBeDisconnected = true → c.m_bToBeDisconnected = true) :
    NodeFrame s (s.setClient q c) := by
  refine ⟨rfl, rfl, rfl, rfl, rfl, rfl, rfl, rfl, ?_, fun _ => ⟨rfl, rfl, rfl, rfl⟩⟩
  intro p
  by_cases hp : p = q
  · subst hp
    rw [setClient_clients_self]
    exact ⟨h1, h2, h3, h4, h5⟩
  · rw [setClient_clients_other _ _ _ _ hp]
    exact ⟨rfl, rfl, rfl, rfl, fun h => h⟩

theorem setPeer_peers_self (s : Server) (p : Nat) (c : stPeerServer) :
    (s.setPeer p c).peers p = c := by
  simp [Server.setPeer]

theorem setPeer_peers_other (s : Server) (p q : Nat) (c : stPeerServer) (h : q ≠ p) :
    (s.setPeer p c).peers q = s.peers q := by
  simp [Server.setPeer, Function.update, h]

theorem NodeFrame_setPeer (s : Server) (q : Nat) (c : stPeerServer)
    (h1 : c.m_ResponsesQueue1 = (s.peers q).m_ResponsesQueue1)
    (h2 : c.m_ResponsesQueue2 = (s.peers q).m_ResponsesQueue2)
    (h3 : c.m_pResponsesBeingSent = (s.peers q).m_pResponsesBeingSent)
    (h4 : c.m_pResponsesBuffersBeingForwarded = (s.peers q).m_pResponsesBuffersBeingForwarded) :
    NodeFrame s (s.setPeer q c) := by
  refine ⟨rfl, rfl, rfl, rfl, rfl, rfl, rfl, rfl, fun _ => ⟨rfl, rfl, rfl, rfl, fun h => h⟩, ?_⟩
  intro p
  by_cases hp : p = q
  · subst hp
    rw [setPeer_peers_self]
    exact ⟨h1, h2, h3, h4⟩
  · rw [setPeer_peers_other _ _ _ _ hp]
    exact ⟨rfl, rfl, rfl, rfl⟩

theorem MarkToDisconnect_frame (p : Nat) (b : Bool) (s : Server) :
    NodeFrame s (MarkToDisconnect p b s) := by
  unfold MarkToDisconnect
  simp only
  split
  · exact NodeFrame_refl s
  · have h := NodeFrame_setClient s p { s.clients p with m_bToBeDisconnected := true }
      rfl rfl rfl rfl (fun _ => rfl)
    split <;> exact NodeFrame_trans h (NodeFrame_of_eq rfl rfl rfl rfl rfl rfl rfl rfl rfl rfl)

theorem StopReading_frame (p : Nat) (s : Server) : NodeFrame s (StopReading p s) := by
  unfold StopReading
  simp only
  split
  · exact NodeFrame_setClient s p _ rfl rfl rfl rfl (fun h => h)
  · exact NodeFrame_refl s

theorem DecreaseCountForClient_frame (p k : Nat) (now : Int) (s : Server) :
    NodeFrame s (DecreaseCountForClient p k now s).2 := by
  unfold DecreaseCountForClient
  exact NodeFrame_setClient s p _ rfl rfl rfl rfl (fun h => h)

theorem RemoveClient_frame (p : Nat) (s : Server) : NodeFrame s (RemoveClient p s).2 := by
  unfold RemoveClient
  simp only
  split
  · split
    · exact NodeFrame_of_eq rfl rfl rfl rfl rfl rfl rfl rfl rfl rfl
    · exact NodeFrame_refl s
  · exact NodeFrame_refl s

theorem NodeFrame_ite {c : Prop} [Decidable c] {s a b : Server} (h1 : c → NodeFrame s a)
    (h2 : ¬ c → NodeFrame s b) : NodeFrame s (if c then a else b) := by
  split
  · exact h1 (by assumption)
  · exact h2 (by assumption)

theorem NodeFrame_ite2 {α : Type} {c : Prop} [Decidable c] {s : Server} {a b : α × Server}
    (h1 : c → NodeFrame s a.2) (h2 : ¬ c → NodeFrame s b.2) :
    NodeFrame s (if c then a else b).2 := by
  split
  · exact h1 (by assumption)
  · exact h2 (by assumption)

theorem DisconnectAndDelete_tail_frame (p : Nat) (s3 : Server) :
    NodeFrame s3
      (let s := s3.setClient p { s3.clients p with m_bIsAddedToPool := false }
       let s := { s with disconnections := s.disconnections ++ [p],
                         QueuedDisconnections := s.QueuedDisconnections + 1 }
       s.setClient p { s.clients p with m_bDisconnectInitiated := true }) := by
  let s4 : Server := s3.setClient p { s3.clients p with m_bIsAddedToPool := false }
  let s5 : Server := { s4 with disconnections := s4.disconnections ++ [p], QueuedDisconnections := s4.QueuedDisconnections + 1 }
  have e1 : NodeFrame s3 s4 :=
    NodeFrame_setClient s3 p { s3.clients p with m_bIsAddedToPool := false }
      rfl rfl rfl rfl (fun h => h)
  have e2 : NodeFrame s4 s5 := NodeFrame_of_eq rfl rfl rfl rfl rfl rfl rfl rfl rfl rfl
  have e3 : NodeFrame s5 (s5.setClient p { s5.clients p with m_bDisconnectInitiated := true }) :=
    NodeFrame_setClient s5 p { s5.clients p with m_bDisconnectInitiated := true }
      rfl rfl rfl rfl (fun h => h)
  exact NodeFrame_trans e1 (NodeFrame_trans e2 e3)

theorem DisconnectAndDelete_frame (p : Nat) (b : Bool) (s : Server) :
    NodeFrame s (DisconnectAndDelete p b s).2 := by
  unfold DisconnectAndDelete
  refine NodeFrame_ite2 (fun _ => NodeFrame_refl s) (fun _ => ?_)
  have h12 : NodeFrame s (StopReading p (MarkToDisconnect p b s)) :=
    NodeFrame_trans (MarkToDisconnect_frame p b s) (StopReading_frame p _)
  refine NodeFrame_ite2 (fun _ => h12) (fun _ => ?_)
  have h3 : NodeFrame (StopReading p (MarkToDisconnect p b s))
      (if ((StopReading p (MarkToDisconnect p b s)).clients p).m_bIsAddedToPool = false then
        (true, StopReading p (MarkToDisconnect p b s))
        else RemoveClient p (StopReading p (MarkToDisconnect p b s))).2 :=
    NodeFrame_ite2 (fun _ => NodeFrame_refl _) (fun _ => RemoveClient_frame _ _)
  have h123 := NodeFrame_trans h12 h3
  refine NodeFrame_ite2 (fun _ => ?_) (fun _ => h123)
  refine NodeFrame_ite2
    (fun _ => NodeFrame_trans h123 (NodeFrame_of_eq rfl rfl rfl rfl rfl rfl rfl rfl rfl rfl))
    (fun _ => ?_)
  exact NodeFrame_trans h123 (DisconnectAndDelete_tail_frame p _)

theorem apply_ite_eq {α β : Type} (f : α → β) {c : Prop} [Decidable c] {a b : α} {v : β}
    (h1 : c → f a = v) (h2 : ¬ c → f b = v) : f (if c then a else b) = v := by
  split
  · exact h1 (by assumption)
  · exact h2 (by assumption)

theorem countSentResponse_counters (r : Response) (stat : ServerStat) :
    (countSentResponse r stat).ResponsesInPeerServersQueues = stat.ResponsesInPeerServersQueues
    ∧ (countSentResponse r stat).ResponsesInLocalClientsQueues
        = stat.ResponsesInLocalClientsQueues
    ∧ (countSentResponse r stat).MemoryConsumptionByResponsesInQueue
        = stat.MemoryConsumptionByResponsesInQueue := by
  let f : ServerStat → Int × Int × Int := fun st =>
    (st.ResponsesInPeerServersQueues, st.ResponsesInLocalClientsQueues,
      st.MemoryConsumptionByResponsesInQueue)
  have key : f (countSentResponse r stat) = f stat := by
    unfold countSentResponse
    lift_lets
    intro s1 s2 s3 s4
    have e1 : f s1 = f stat :=
      apply_ite_eq f (fun _ => rfl) (fun _ => apply_ite_eq f (fun _ => rfl)
        (fun _ => apply_ite_eq f (fun _ => rfl) (fun _ => apply_ite_eq f (fun _ => rfl)
          (fun _ => apply_ite_eq f (fun _ => rfl) (fun _ => rfl)))))
    have e2 : f s2 = f stat := apply_ite_eq f (fun _ => e1) (fun _ => e1)
    have e3 : f s3 = f stat := apply_ite_eq f (fun _ => e2) (fun _ => e2)
    have e4 : f s4 = f stat := apply_ite_eq f (fun _ => e3) (fun _ => e3)
    exact e4
  exact ⟨congrArg Prod.fst key, congrArg (fun x => x.2.1) key,
    congrArg (fun x => x.2.2) key⟩

theorem AfterSendingLocalClientsResponses_frame (p r : Nat) (status now : Int) (s : Server) :
    NodeFrame s (AfterSendingLocalClientsResponses p r status now s) := by
  unfold AfterSendingLocalClientsResponses
  lift_lets
  intro rr src t1 s1 s2 ql qu us s3 ls s4
  have f1 : NodeFrame s t1 := NodeFrame_of_eq rfl rfl rfl rfl rfl rfl rfl rfl rfl rfl
  have e1 : NodeFrame s s1 := by
    refine NodeFrame_ite (fun _ => NodeFrame_of_eq rfl rfl rfl rfl rfl
        (countSentResponse_counters _ _).1 (countSentResponse_counters _ _).2.1
        (countSentResponse_counters _ _).2.2 rfl rfl)
      (fun _ => ?_)
    refine NodeFrame_ite (fun _ => ?_) (fun _ => f1)
    exact NodeFrame_trans f1 (NodeFrame_trans
      (NodeFrame_of_eq (t := { t1 with errors := t1.errors + 1 })
        rfl rfl rfl rfl rfl rfl rfl rfl rfl rfl)
      (MarkToDisconnect_frame p true _))
  have e2 : NodeFrame s1 s2 := DecreaseCountForClient_frame p RESPONSECOUNT now s1
  have e3 : NodeFrame s2 s3 := by
    refine NodeFrame_ite (fun _ => ?_) (fun _ => NodeFrame_refl _)
    exact NodeFrame_ite (fun _ => NodeFrame_of_eq rfl rfl rfl rfl rfl rfl rfl rfl rfl rfl)
      (fun _ => NodeFrame_of_eq rfl rfl rfl rfl rfl rfl rfl rfl rfl rfl)
  have e4 : NodeFrame s3 s4 := by
    refine NodeFrame_ite (fun _ => ?_) (fun _ => NodeFrame_refl _)
    exact NodeFrame_ite (fun _ => NodeFrame_of_eq rfl rfl rfl rfl rfl rfl rfl rfl rfl rfl)
      (fun _ => NodeFrame_of_eq rfl rfl rfl rfl rfl rfl rfl rfl rfl rfl)
  have e : NodeFrame s s4 := NodeFrame_trans e1 (NodeFrame_trans e2 (NodeFrame_trans e3 e4))
  refine NodeFrame_ite (fun _ => ?_) (fun _ => e)
  exact NodeFrame_ite (fun _ => NodeFrame_trans e (DisconnectAndDelete_frame p true s4))
    (fun _ => e)

theorem DisconnectServer_frame (p : Nat) (b : Bool) (s : Server) :
    NodeFrame s (DisconnectServer p b s) := by
  unfold DisconnectServer
  lift_lets
  intro peer s1 s2
  refine NodeFrame_ite (fun _ => NodeFrame_refl s) (fun _ => ?_)
  refine NodeFrame_ite (fun _ => NodeFrame_refl s) (fun _ => ?_)
  have e1 : NodeFrame s s1 :=
    NodeFrame_ite (fun _ => NodeFrame_of_eq rfl rfl rfl rfl rfl rfl rfl rfl rfl rfl)
      (fun _ => NodeFrame_refl s)
  have hp : s1.peers = s.peers :=
    apply_ite_eq (fun (t : Server) => t.peers) (fun _ => rfl) (fun _ => rfl)
  have e2 : NodeFrame s1 s2 :=
    NodeFrame_setPeer s1 p { peer with Status := CONNECTION_DISCONNECTING }
      (by rw [hp]) (by rw [hp]) (by rw [hp]) (by rw [hp])
  exact NodeFrame_trans e1 (NodeFrame_trans e2
    (NodeFrame_of_eq rfl rfl rfl rfl rfl rfl rfl rfl rfl rfl))

theorem IncreaseForwardedResponsesCount_frame (now : Int) (p : Nat) (s : Server) :
    NodeFrame s (IncreaseForwardedResponsesCount now p s) := by
  unfold IncreaseForwardedResponsesCount
  lift_lets
  intro peer peer1 peer2
  refine NodeFrame_ite (fun _ => NodeFrame_refl s) (fun _ => ?_)
  have h : peer2.m_ResponsesQueue1 = peer.m_ResponsesQueue1
      ∧ peer2.m_ResponsesQueue2 = peer.m_ResponsesQueue2
      ∧ peer2.m_pResponsesBeingSent = peer.m_pResponsesBeingSent
      ∧ peer2.m_pResponsesBuffersBeingForwarded = peer.m_pResponsesBuffersBeingForwarded := by
    show (if _ then _ else _ : stPeerServer).m_ResponsesQueue1 = _
      ∧ (if _ then _ else _ : stPeerServer).m_ResponsesQueue2 = _
      ∧ (if _ then _ else _ : stPeerServer).m_pResponsesBeingSent = _
      ∧ (if _ then _ else _ : stPeerServer).m_pResponsesBuffersBeingForwarded = _
    split <;> exact ⟨rfl, rfl, rfl, rfl⟩
  exact NodeFrame_setPeer s p peer2 h.1 h.2.1 h.2.2.1 h.2.2.2

theorem InitiateConnection_frame (g : Nat → Int) (now : Int) (p : Nat) (s : Server) :
    NodeFrame s (InitiateConnection g now p s) := by
  unfold InitiateConnection
  lift_lets
  intro src1 s1 s2 src2
  have e1 : NodeFrame s s1 := NodeFrame_setPeer s p _ rfl rfl rfl rfl
  have e2 : NodeFrame s1 s2 := NodeFrame_of_eq rfl rfl rfl rfl rfl rfl rfl rfl rfl rfl
  have e12 := NodeFrame_trans e1 e2
  refine NodeFrame_ite (fun _ => ?_) (fun _ => e12)
  exact NodeFrame_trans e12 (NodeFrame_setPeer s2 p _ rfl rfl rfl rfl)

theorem GetServerConnection_frame (g : Nat → Int) (now : Int) (p : Nat) (s : Server) :
    NodeFrame s (GetServerConnection g now p s).2 := by
  unfold GetServerConnection
  lift_lets
  intros
  refine NodeFrame_ite2 (fun _ => InitiateConnection_frame g now p s) (fun _ => ?_)
  refine NodeFrame_ite2 (fun _ => NodeFrame_ite2 (fun _ => NodeFrame_refl s)
    (fun _ => NodeFrame_refl s)) (fun _ => ?_)
  refine NodeFrame_ite2 (fun _ => NodeFrame_refl s) (fun _ => ?_)
  refine NodeFrame_ite2 (fun _ => NodeFrame_ite2 (fun _ => DisconnectServer_frame p true s)
    (fun _ => NodeFrame_refl s)) (fun _ => ?_)
  refine NodeFrame_ite2 (fun _ => NodeFrame_refl s) (fun _ => ?_)
  refine NodeFrame_ite2 (fun _ => NodeFrame_ite2 (fun _ => InitiateConnection_frame g now p s)
    (fun _ => NodeFrame_refl s)) (fun _ => NodeFrame_refl s)

theorem AfterSendingPeerServersResponses_frame (p r : Nat) (status now : Int) (s : Server) :
    NodeFrame s (AfterSendingPeerServersResponses p r status now s) := by
  unfold AfterSendingPeerServersResponses
  lift_lets
  intro rr sA srcA srcB sB sC stat0 stat1 s1 peer ql qu s2
  let f : ServerStat → Int × Int × Int := fun st =>
    (st.ResponsesInPeerServersQueues, st.ResponsesInLocalClientsQueues,
      st.MemoryConsumptionByResponsesInQueue)
  have hstat : f stat1 = f stat0 :=
    apply_ite_eq f (fun _ => rfl) (fun _ => apply_ite_eq f (fun _ => rfl)
      (fun _ => apply_ite_eq f (fun _ => rfl) (fun _ => apply_ite_eq f (fun _ => rfl)
        (fun _ => rfl))))
  have eA : NodeFrame s sA := IncreaseForwardedResponsesCount_frame now p s
  have eB : NodeFrame s sB := NodeFrame_of_eq rfl rfl rfl rfl rfl rfl rfl rfl rfl rfl
  have eC : NodeFrame sB sC := DisconnectServer_frame p true sB
  have e1 : NodeFrame s s1 := by
    refine NodeFrame_ite
      (fun _ => NodeFrame_trans eA (NodeFrame_of_eq rfl rfl rfl rfl rfl rfl rfl rfl rfl rfl))
      (fun _ => NodeFrame_trans (NodeFrame_trans eB eC) ?_)
    exact NodeFrame_of_eq rfl rfl rfl rfl rfl (congrArg Prod.fst hstat)
      (congrArg (fun x => x.2.1) hstat) (congrArg (fun x => x.2.2) hstat) rfl rfl
  have e2 : NodeFrame s1 s2 :=
    NodeFrame_ite
      (fun _ => NodeFrame_ite (fun _ => NodeFrame_of_eq rfl rfl rfl rfl rfl rfl rfl rfl rfl rfl)
        (fun _ => NodeFrame_of_eq rfl rfl rfl rfl rfl rfl rfl rfl rfl rfl))
      (fun _ => NodeFrame_refl s1)
  have e12 := NodeFrame_trans e1 e2
  exact NodeFrame_ite
    (fun _ => NodeFrame_ite
      (fun _ => NodeFrame_trans e12 (NodeFrame_of_eq rfl rfl rfl rfl rfl rfl rfl rfl rfl rfl))
      (fun _ => NodeFrame_trans e12 (NodeFrame_of_eq rfl rfl rfl rfl rfl rfl rfl rfl rfl rfl)))
    (fun _ => e12)

theorem CompletionFrame_refl (s : Server) : CompletionFrame s s :=
  ⟨rfl, rfl, rfl, rfl, fun _ => rfl, fun _ => ⟨rfl, rfl, rfl, fun h => h⟩, fun _ => ⟨rfl, rfl⟩⟩

theorem CompletionFrame_trans {s t u : Server} (h1 : CompletionFrame s t)
    (h2 : CompletionFrame t u) : CompletionFrame s u := by
  obtain ⟨a1, a2, a3, a4, a5, a6, a7⟩ := h1
  obtain ⟨b1, b2, b3, b4, b5, b6, b7⟩ := h2
  refine ⟨b1.trans a1, b2.trans a2, b3.trans a3, b4.trans a4, fun r => (b5 r).trans (a5 r),
    ?_, ?_⟩
  · intro p
    obtain ⟨c1, c2, c3, c4⟩ := a6 p
    obtain ⟨d1, d2, d3, d4⟩ := b6 p
    exact ⟨d1.trans c1, d2.trans c2, d3.trans c3, fun h => d4 (c4 h)⟩
  · intro p
    obtain ⟨c1, c2⟩ := a7 p
    obtain ⟨d1, d2⟩ := b7 p
    exact ⟨d1.trans c1, d2.trans c2⟩

theorem CompletionFrame_of_NodeFrame {s t : Server} (h : NodeFrame s t) :
    CompletionFrame s t := by
  obtain ⟨a1, a2, a3, a4, a5, _, _, _, a9, a10⟩ := h
  refine ⟨a1, a2, a3, a4, fun r => by rw [a5], ?_, ?_⟩
  · intro p
    obtain ⟨c1, c2, c3, _, c5⟩ := a9 p
    exact ⟨c1, c2, c3, c5⟩
  · intro p
    obtain ⟨c1, c2, _, _⟩ := a10 p
    exact ⟨c1, c2⟩

theorem AfterSendingNode_frame (r : Nat) (pNode : Node) (status now : Int) (s : Server) :
    NodeFrame s
      (match pNode with
        | Node.client pClient => AfterSendingLocalClientsResponses pClient r status now s
        | Node.server pPeerServerInfo =>
          AfterSendingPeerServersResponses pPeerServerInfo r status now s) := by
  cases pNode with
  | client p => exact AfterSendingLocalClientsResponses_frame p r status now s
  | server p => exact AfterSendingPeerServersResponses_frame p r status now s

theorem setResponse_responses_self (s : Server) (p : Nat) (c : ResponseObject) :
    (s.setResponse p c).responses p = c := by
  simp [Server.setResponse]

theorem setResponse_responses_other (s : Server) (p q : Nat) (c : ResponseObject)
    (h : q ≠ p) : (s.setResponse p c).responses q = s.responses q := by
  simp [Server.setResponse, Function.update, h]

theorem AfterSendingResponse_spec (sz r : Nat) (pNode : Node) (status now : Int)
    (s : Server) :
    CompletionFrame s (AfterSendingResponse sz r pNode status now s)
    ∧ (∀ p, ((AfterSendingResponse sz r pNode status now s).clients p).m_pResponsesBeingSent
        = (s.clients p).m_pResponsesBeingSent)
    ∧ (∀ p, ((AfterSendingResponse sz r pNode status now s).peers p).m_pResponsesBeingSent
        = (s.peers p).m_pResponsesBeingSent)
    ∧ (∀ q, q ≠ r → (AfterSendingResponse sz r pNode status now s).responses q = s.responses q)
    ∧ ((AfterSendingResponse sz r pNode status now s).responses r).m_ReferenceCount
        = (s.responses r).m_ReferenceCount
    ∧ ((AfterSendingResponse sz r pNode status now s).responses r).ResponseSentCount
        = (s.responses r).ResponseSentCount + 1
    ∧ ((s.responses r).ResponseSentCount + 1 = (s.responses r).m_ReferenceCount →
        ((AfterSendingResponse sz r pNode status now s).responses r).deleted = true
        ∧ (AfterSendingResponse sz r pNode status now s).m_stServerStat.ResponsesInPeerServersQueues
          = s.m_stServerStat.ResponsesInPeerServersQueues
            - (if (s.responses r).members.m_bIsForward = true then 1 else 0)
        ∧ (AfterSendingResponse sz r pNode status now
              s).m_stServerStat.ResponsesInLocalClientsQueues
          = s.m_stServerStat.ResponsesInLocalClientsQueues
            - (if (s.responses r).members.m_bIsForward = true then 0 else 1)
        ∧ (AfterSendingResponse sz r pNode status now
              s).m_stServerStat.MemoryConsumptionByResponsesInQueue
          = s.m_stServerStat.MemoryConsumptionByResponsesInQueue
            - (int_of_ULONG (s.responses r).members.m_Response.len + (sz : Int)))
    ∧ ((s.responses r).ResponseSentCount + 1 ≠ (s.responses r).m_ReferenceCount →
        ((AfterSendingResponse sz r pNode status now s).responses r).deleted
          = (s.responses r).deleted
        ∧ (AfterSendingResponse sz r pNode status now s).m_stServerStat.ResponsesInPeerServersQueues
          = s.m_stServerStat.ResponsesInPeerServersQueues
        ∧ (AfterSendingResponse sz r pNode status now
              s).m_stServerStat.ResponsesInLocalClientsQueues
          = s.m_stServerStat.ResponsesInLocalClientsQueues
        ∧ (AfterSendingResponse sz r pNode status now
              s).m_stServerStat.MemoryConsumptionByResponsesInQueue
          = s.m_stServerStat.MemoryConsumptionByResponsesInQueue) := by
  have hN := AfterSendingNode_frame r pNode status now s
  unfold AfterSendingResponse
  lift_lets
  intro len s1 r0 r1 s2 refc stat0 stat1 stat2
  obtain ⟨a1, a2, a3, a4, a5, a6, a7, a8, a9, a10⟩ : NodeFrame s s1 := hN
  have hr0 : r0 = s.responses r := by show s1.responses r = _; rw [a5]
  have hcond : (r1.ResponseSentCount = refc)
      ↔ ((s.responses r).ResponseSentCount + 1 = (s.responses r).m_ReferenceCount) := by
    show (r0.ResponseSentCount + 1 = r0.m_ReferenceCount) ↔ _
    rw [hr0]
  have hs2 : CompletionFrame s s2 := by
    refine ⟨a1, a2, a3, a4, ?_, fun p => ⟨(a9 p).1, (a9 p).2.1, (a9 p).2.2.1, (a9 p).2.2.2.2⟩,
      fun p => ⟨(a10 p).1, (a10 p).2.1⟩⟩
    intro q
    by_cases hq : q = r
    · subst hq
      show ((s1.setResponse q r1).responses q).members = _
      rw [setResponse_responses_self]
      show r0.members = _
      rw [hr0]
    · show ((s1.setResponse r r1).responses q).members = _
      rw [setResponse_responses_other _ _ _ _ hq, a5]
  have hother2 : ∀ q, q ≠ r → s2.responses q = s.responses q := by
    intro q hq
    show (s1.setResponse r r1).responses q = _
    rw [setResponse_responses_other _ _ _ _ hq, a5]
  have hself2 : s2.responses r = r1 := setResponse_responses_self _ _ _
  by_cases hc : (s.responses r).ResponseSentCount + 1 = (s.responses r).m_ReferenceCount
  · rw [if_pos (hcond.mpr hc)]
    refine ⟨?_, fun p => (a9 p).2.2.2.1, fun p => (a10 p).2.2.1, ?_, ?_, ?_, ?_, ?_⟩
    · obtain ⟨b1, b2, b3, b4, b5, b6, b7⟩ := hs2
      refine ⟨b1, b2, b3, b4, ?_, b6, b7⟩
      intro q
      by_cases hq : q = r
      · subst hq
        rw [setResponse_responses_self]
        show r0.members = _
        rw [hr0]
      · rw [setResponse_responses_other _ _ _ _ hq]
        exact b5 q
    · intro q hq
      rw [setResponse_responses_other _ _ _ _ hq]
      exact hother2 q hq
    · rw [setResponse_responses_self]
      show r0.m_ReferenceCount = _
      rw [hr0]
    · rw [setResponse_responses_self]
      show r0.ResponseSentCount + 1 = _
      rw [hr0]
    · intro _
      refine ⟨by rw [setResponse_responses_self], ?_, ?_, ?_⟩
      · show stat1.ResponsesInPeerServersQueues = _
        show (if r0.members.m_bIsForward = true then _ else _ : ServerStat).ResponsesInPeerServersQueues = _
        rw [hr0]
        split
        · show s1.m_stServerStat.ResponsesInPeerServersQueues - 1 = _
          rw [a6]
        · show s1.m_stServerStat.ResponsesInPeerServersQueues = _
          rw [a6]; simp
      · show stat1.ResponsesInLocalClientsQueues = _
        show (if r0.members.m_bIsForward = true then _ else _ : ServerStat).ResponsesInLocalClientsQueues = _
        rw [hr0]
        split
        · show s1.m_stServerStat.ResponsesInLocalClientsQueues = _
          rw [a7]; simp
        · show s1.m_stServerStat.ResponsesInLocalClientsQueues - 1 = _
          rw [a7]
      · show stat1.MemoryConsumptionByResponsesInQueue - (len + (sz : Int)) = _
        have : stat1.MemoryConsumptionByResponsesInQueue
            = s1.m_stServerStat.MemoryConsumptionByResponsesInQueue := by
          show (if r0.members.m_bIsForward = true then _ else _ : ServerStat).MemoryConsumptionByResponsesInQueue = _
          split <;> rfl
        rw [this, a8]
    · intro h
      exact absurd hc h
  · rw [if_neg (fun h => hc (hcond.mp h))]
    refine ⟨hs2, fun p => (a9 p).2.2.2.1, fun p => (a10 p).2.2.1, hother2, ?_, ?_, ?_, ?_⟩
    · rw [hself2]
      show r0.m_ReferenceCount = _
      rw [hr0]
    · rw [hself2]
      show r0.ResponseSentCount + 1 = _
      rw [hr0]
    · intro h
      exact absurd h hc
    · intro _
      refine ⟨?_, a6, a7, a8⟩
      rw [hself2]
      show r0.deleted = _
      rw [hr0]

/-! ## The completions of a response -/

theorem afterCompletions_spec (sz r : Nat) (k : Int) :
    ∀ (completions : List (Node × Int × Int)) (s : Server) (n : Int) (c1 c2 c3 : Int),
      (s.responses r).m_ReferenceCount = k →
      (s.responses r).ResponseSentCount = n →
      n + completions.length ≤ k →
      ((s.responses r).deleted = true ↔ n = k) →
      s.m_stServerStat.ResponsesInPeerServersQueues
        = c1 - (if n = k ∧ (s.responses r).members.m_bIsForward = true then 1 else 0) →
      s.m_stServerStat.ResponsesInLocalClientsQueues
        = c2 - (if n = k ∧ (s.responses r).members.m_bIsForward = false then 1 else 0) →
      s.m_stServerStat.MemoryConsumptionByResponsesInQueue
        = c3 - (if n = k then
            int_of_ULONG (s.responses r).members.m_Response.len + (sz : Int) else 0) →
      ((afterCompletions sz r completions s).responses r).m_ReferenceCount = k
      ∧ ((afterCompletions sz r completions s).responses r).ResponseSentCount
          = n + completions.length
      ∧ (((afterCompletions sz r completions s).responses r).deleted = true
          ↔ n + completions.length = k)
      ∧ (afterCompletions sz r completions s).m_stServerStat.ResponsesInPeerServersQueues
          = c1 - (if n + completions.length = k
                ∧ (s.responses r).members.m_bIsForward = true then 1 else 0)
      ∧ (afterCompletions sz r completions s).m_stServerStat.ResponsesInLocalClientsQueues
          = c2 - (if n + completions.length = k
                ∧ (s.responses r).members.m_bIsForward = false then 1 else 0)
      ∧ (afterCompletions sz r completions s).m_stServerStat.MemoryConsumptionByResponsesInQueue
          = c3 - (if n + completions.length = k then
              int_of_ULONG (s.responses r).members.m_Response.len + (sz : Int) else 0) := by
  intro completions
  induction completions with
  | nil =>
    intro s n c1 c2 c3 h1 h2 _ h4 h5 h6 h7
    simp only [afterCompletions, List.length_nil, Nat.cast_zero, add_zero]
    exact ⟨h1, h2, h4, h5, h6, h7⟩
  | cons c rest ih =>
    intro s n c1 c2 c3 h1 h2 h3 h4 h5 h6 h7
    obtain ⟨pNode, status, now⟩ := c
    simp only [afterCompletions]
    simp only [List.length_cons, Nat.cast_add, Nat.cast_one] at h3 ⊢
    have hn : n ≠ k := by omega
    obtain ⟨⟨_, _, _, _, hmem, _, _⟩, _, _, _, hr, hc, hhit, hmiss⟩ :=
      AfterSendingResponse_spec sz r pNode status now s
    rw [h1, h2] at hhit hmiss
    rw [if_neg (fun h => hn h.1)] at h5 h6
    rw [if_neg hn] at h7
    simp only [sub_zero] at h5 h6 h7
    have hdel : (s.responses r).deleted = false := by
      cases hd : (s.responses r).deleted
      · rfl
      · exact absurd (h4.mp hd) hn
    have key := ih (AfterSendingResponse sz r pNode status now s) (n + 1) c1 c2 c3
      (hr.trans h1) (hc.trans (by rw [h2])) (by omega)
      (by
        by_cases hk : n + 1 = k
        · exact ⟨fun _ => hk, fun _ => (hhit hk).1⟩
        · constructor
          · intro h
            rw [(hmiss hk).1, hdel] at h
            cases h
          · intro h
            exact absurd h hk)
      (by
        rw [hmem r]
        by_cases hk : n + 1 = k
        · rw [(hhit hk).2.1, h5]
          by_cases hf : (s.responses r).members.m_bIsForward = true
          · simp [hk, hf]
          · simp [hk, hf]
        · rw [(hmiss hk).2.1, h5]
          simp [hk])
      (by
        rw [hmem r]
        by_cases hk : n + 1 = k
        · rw [(hhit hk).2.2.1, h6]
          by_cases hf : (s.responses r).members.m_bIsForward = true
          · simp [hk, hf]
          · simp [hk, hf]
        · rw [(hmiss hk).2.2.1, h6]
          simp [hk])
      (by
        rw [hmem r]
        by_cases hk : n + 1 = k
        · rw [(hhit hk).2.2.2, h7]
          simp [hk]
        · rw [(hmiss hk).2.2.2, h7]
          simp [hk])
    rw [hmem r] at key
    have e : n + 1 + (rest.length : Int) = n + ((rest.length : Int) + 1) := by ring
    rw [e] at key
    exact key

/-- Claim C21. For a response with the reference count `k` >= 1, the sent count 0 and not
deleted, after any `n` <= `k` calls of `ConnectionsManager::AfterSendingResponse`, for any
nodes and any statuses of the writes, the sent count is `n`, between 0 and `k`; the
response is deleted exactly when `n` = `k`; and the counter of the responses in the queues
of its kind and the counter of the memory are those of the start when `n` < `k`, and are
decremented once, by 1 and by the length of the response plus `sizeof (Response)`, when
`n` = `k`. -/
theorem C21_response_freed_at_last_completion (sz r : Nat) (k : Int)
    (completions : List (Node × Int × Int)) (s : Server)
    (hk : 1 ≤ k) (href : (s.responses r).m_ReferenceCount = k)
    (hsent : (s.responses r).ResponseSentCount = 0)
    (hlive : (s.responses r).deleted = false)
    (hn : (completions.length : Int) ≤ k) :
    ((afterCompletions sz r completions s).responses r).ResponseSentCount = completions.length
    ∧ 0 ≤ ((afterCompletions sz r completions s).responses r).ResponseSentCount
    ∧ ((afterCompletions sz r completions s).responses r).ResponseSentCount
        ≤ ((afterCompletions sz r completions s).responses r).m_ReferenceCount
    ∧ (((afterCompletions sz r completions s).responses r).deleted = true
        ↔ (completions.length : Int) = k)
    ∧ (afterCompletions sz r completions s).m_stServerStat.ResponsesInPeerServersQueues
        = s.m_stServerStat.ResponsesInPeerServersQueues
          - (if (completions.length : Int) = k
              ∧ (s.responses r).members.m_bIsForward = true then 1 else 0)
    ∧ (afterCompletions sz r completions s).m_stServerStat.ResponsesInLocalClientsQueues
        = s.m_stServerStat.ResponsesInLocalClientsQueues
          - (if (completions.length : Int) = k
              ∧ (s.responses r).members.m_bIsForward = false then 1 else 0)
    ∧ (afterCompletions sz r completions s).m_stServerStat.MemoryConsumptionByResponsesInQueue
        = s.m_stServerStat.MemoryConsumptionByResponsesInQueue
          - (if (completions.length : Int) = k then
              int_of_ULONG (s.responses r).members.m_Response.len + (sz : Int) else 0) := by
  have h0 : (0 : Int) ≠ k := by omega
  obtain ⟨a1, a2, a3, a4, a5, a6⟩ := afterCompletions_spec sz r k completions s 0
    s.m_stServerStat.ResponsesInPeerServersQueues
    s.m_stServerStat.ResponsesInLocalClientsQueues
    s.m_stServerStat.MemoryConsumptionByResponsesInQueue href hsent (by omega)
    (by rw [hlive]; exact ⟨fun h => (by cases h), fun h => absurd h h0⟩)
    (by rw [if_neg (fun h => h0 h.1)]; simp)
    (by rw [if_neg (fun h => h0 h.1)]; simp)
    (by rw [if_neg h0]; simp)
  simp only [zero_add] at a2 a3 a4 a5 a6
  refine ⟨a2, ?_, ?_, a3, a4, a5, a6⟩
  · rw [a2]; exact Int.natCast_nonneg _
  · rw [a2, a1]; exact hn

/-- Instance of C21: the response queued for the sessions A and B, completed by a write
that succeeded for A and a write that failed for B. -/
theorem C21_response_freed_at_last_completion_witness :
    ((1 : Int) ≤ 2 ∧ (queuedForBoth.responses 5000).m_ReferenceCount = 2
      ∧ (queuedForBoth.responses 5000).ResponseSentCount = 0
      ∧ (queuedForBoth.responses 5000).deleted = false
      ∧ (([(Node.client 100, WRITE_OK, 51), (Node.client 200, UV_ECONNRESET, 52)] :
          List (Node × Int × Int)).length : Int) ≤ 2)
    ∧ ((afterCompletions 64 5000
          [(Node.client 100, WRITE_OK, 51), (Node.client 200, UV_ECONNRESET, 52)]
          queuedForBoth).responses 5000).deleted = true :=
  ⟨⟨by decide, by decide, by decide, by decide, by decide⟩,
    (C21_response_freed_at_last_completion 64 5000 2
      [(Node.client 100, WRITE_OK, 51), (Node.client 200, UV_ECONNRESET, 52)] queuedForBoth
      (by decide) (by decide) (by decide) (by decide) (by decide)).2.2.2.1.mpr (by decide)⟩

theorem afterCompletions_sample :
    ((afterCompletions 64 5000 [(Node.client 100, WRITE_OK, 51)]
        queuedForBoth).responses 5000).ResponseSentCount = 1
    ∧ ((afterCompletions 64 5000 [(Node.client 100, WRITE_OK, 51)]
        queuedForBoth).responses 5000).deleted = false
    ∧ (afterCompletions 64 5000 [(Node.client 100, WRITE_OK, 51)]
        queuedForBoth).m_stServerStat.ResponsesInLocalClientsQueues = 1
    ∧ (afterCompletions 64 5000 [(Node.client 100, WRITE_OK, 51)]
        queuedForBoth).m_stServerStat.MemoryConsumptionByResponsesInQueue = 67
    ∧ ((afterCompletions 64 5000
        [(Node.client 100, WRITE_OK, 51), (Node.client 200, UV_ECONNRESET, 52)]
        queuedForBoth).responses 5000).ResponseSentCount = 2
    ∧ (afterCompletions 64 5000
        [(Node.client 100, WRITE_OK, 51), (Node.client 200, UV_ECONNRESET, 52)]
        queuedForBoth).m_stServerStat.ResponsesInLocalClientsQueues = 0
    ∧ (afterCompletions 64 5000
        [(Node.client 100, WRITE_OK, 51), (Node.client 200, UV_ECONNRESET, 52)]
        queuedForBoth).m_stServerStat.MemoryConsumptionByResponsesInQueue = 0 := by
  decide

/-! ## The drain loop of the send cycle -/

theorem MarkToDisconnect_marked (p : Nat) (b : Bool) (s : Server) :
    ((MarkToDisconnect p b s).clients p).m_bToBeDisconnected = true := by
  unfold MarkToDisconnect
  lift_lets
  intros
  exact apply_ite_eq (fun (t : Server) => (t.clients p).m_bToBeDisconnected) (fun h => h)
    (fun _ => congrArg stClient.m_bToBeDisconnected (setClient_clients_self _ _ _))

theorem MarkToDisconnect_other (p : Nat) (b : Bool) (s : Server) (q : Nat) (hq : q ≠ p) :
    (MarkToDisconnect p b s).clients q = s.clients q := by
  unfold MarkToDisconnect
  lift_lets
  intros
  exact apply_ite_eq (fun (t : Server) => t.clients q) (fun _ => rfl)
    (fun _ => setClient_clients_other _ _ _ _ hq)

theorem MarkToDisconnect_peers (p : Nat) (b : Bool) (s : Server) :
    (MarkToDisconnect p b s).peers = s.peers := by
  unfold MarkToDisconnect
  lift_lets
  intros
  exact apply_ite_eq (fun (t : Server) => t.peers) (fun _ => rfl) (fun _ => rfl)

theorem drainResponsesQueue_cons (p i r : Nat) (rest : List Nat) (s : Server) :
    drainResponsesQueue p i (r :: rest) s
      = (let fatal := IsFatalErrorForLocallyConnectedClient (s.responses r).members
         let s1 :=
           if fatal = true ∧ i = 0 then
             MarkToDisconnect p true { s with errors := s.errors + 1 }
           else s
         if fatal = true ∧ i ≠ 0 ∧ (s1.clients p).m_bToBeDisconnected = false then
           (r :: rest, s1)
         else
           let c := s1.clients p
           let c1 :=
             { c with
               m_pResponsesBeingSent := c.m_pResponsesBeingSent ++ [r],
               m_pResponsesBuffersBeingSent :=
                 c.m_pResponsesBuffersBeingSent.set i (s1.responses r).members.m_Response }
           drainResponsesQueue p (i + 1) rest
             { (s1.setClient p c1) with stores := s1.stores ++ [(p, i)] }) := by
  rw [drainResponsesQueue]

theorem drainResponsesQueue_spec (p : Nat) :
    ∀ (q : List Nat) (i : Nat) (s : Server),
      ∃ taken : List Nat,
        q = taken ++ (drainResponsesQueue p i q s).1
        ∧ ((drainResponsesQueue p i q s).2.clients p).m_pResponsesBeingSent
            = (s.clients p).m_pResponsesBeingSent ++ taken
        ∧ (drainResponsesQueue p i q s).2.stores
            = s.stores ++ (List.range' i taken.length).map (fun j => (p, j))
        ∧ ((drainResponsesQueue p i q s).2.writes = s.writes
          ∧ (drainResponsesQueue p i q s).2.responses = s.responses
          ∧ (drainResponsesQueue p i q s).2.m_bResponseDirectionFlag
              = s.m_bResponseDirectionFlag
          ∧ (drainResponsesQueue p i q s).2.after_send_response_called_by_send_response
              = s.after_send_response_called_by_send_response
          ∧ (drainResponsesQueue p i q s).2.peers = s.peers)
        ∧ (∀ c, ((drainResponsesQueue p i q s).2.clients c).m_ResponsesQueue1
              = (s.clients c).m_ResponsesQueue1
            ∧ ((drainResponsesQueue p i q s).2.clients c).m_ResponsesQueue2
              = (s.clients c).m_ResponsesQueue2
            ∧ ((drainResponsesQueue p i q s).2.clients c).m_pResponsesBuffersBeingSent.length
              = (s.clients c).m_pResponsesBuffersBeingSent.length
            ∧ ((s.clients c).m_bToBeDisconnected = true →
                ((drainResponsesQueue p i q s).2.clients c).m_bToBeDisconnected = true))
        ∧ (∀ c, c ≠ p → (drainResponsesQueue p i q s).2.clients c = s.clients c)
        ∧ ((s.clients p).m_bToBeDisconnected = true → (drainResponsesQueue p i q s).1 = [])
        ∧ (((drainResponsesQueue p i q s).2.clients p).m_bToBeDisconnected = false →
            (s.clients p).m_bToBeDisconnected = false
            ∧ ∀ r ∈ taken,
                IsFatalErrorForLocallyConnectedClient (s.responses r).members = false)
        ∧ ((drainResponsesQueue p i q s).1 ≠ [] →
            ((drainResponsesQueue p i q s).2.clients p).m_bToBeDisconnected = false
            ∧ 0 < i + taken.length
            ∧ ∃ f post, (drainResponsesQueue p i q s).1 = f :: post
                ∧ IsFatalErrorForLocallyConnectedClient (s.responses f).members = true)
        ∧ (i = 0 → ∀ f rest, q = f :: rest →
            IsFatalErrorForLocallyConnectedClient (s.responses f).members = true →
            ((drainResponsesQueue p i q s).2.clients p).m_bToBeDisconnected = true)
        ∧ (((drainResponsesQueue p i q s).2.clients p).m_bToBeDisconnected = true →
            (s.clients p).m_bToBeDisconnected = true
            ∨ (i = 0 ∧ ∃ f rest, q = f :: rest
                ∧ IsFatalErrorForLocallyConnectedClient (s.responses f).members = true)) := by
  intro q
  induction q with
  | nil =>
    intro i s
    refine ⟨[], ?_⟩
    simp [drainResponsesQueue]
  | cons r rest ih =>
    intro i s
    rw [drainResponsesQueue_cons]
    lift_lets
    intro fatal s1 c c1 src
    have hN : NodeFrame s s1 :=
      NodeFrame_ite
        (fun _ => NodeFrame_trans
          (NodeFrame_of_eq (t := { s with errors := s.errors + 1 })
            rfl rfl rfl rfl rfl rfl rfl rfl rfl rfl)
          (MarkToDisconnect_frame p true _))
        (fun _ => NodeFrame_refl s)
    obtain ⟨n1, n2, n3, n4, n5, _, _, _, n9, _⟩ := hN
    have hpeers : s1.peers = s.peers :=
      apply_ite_eq (fun (t : Server) => t.peers)
        (fun _ => MarkToDisconnect_peers p true _) (fun _ => rfl)
    have hother : ∀ q, q ≠ p → s1.clients q = s.clients q := by
      intro q hq
      exact apply_ite_eq (fun (t : Server) => t.clients q)
        (fun _ => MarkToDisconnect_other p true _ q hq) (fun _ => rfl)
    have hmark1 : (s1.clients p).m_bToBeDisconnected = true →
        (s.clients p).m_bToBeDisconnected = true ∨ (fatal = true ∧ i = 0) := by
      intro h
      by_cases hc : fatal = true ∧ i = 0
      · exact Or.inr hc
      · left
        have : s1 = s := if_neg hc
        rw [this] at h
        exact h
    have hmark0 : fatal = true ∧ i = 0 → (s1.clients p).m_bToBeDisconnected = true := by
      intro hc
      have : s1 = MarkToDisconnect p true { s with errors := s.errors + 1 } := if_pos hc
      rw [this]
      exact MarkToDisconnect_marked p true _
    by_cases hbreak : fatal = true ∧ i ≠ 0 ∧ (s1.clients p).m_bToBeDisconnected = false
    · rw [if_pos hbreak]
      have hs1 : s1 = s := if_neg (fun h => hbreak.2.1 h.2)
      refine ⟨[], by simp, by simp [hs1], by simp [hs1], ⟨n1, n5, n3, n4, hpeers⟩, ?_, hother,
        ?_, ?_, ?_, ?_, ?_⟩
      · intro c
        obtain ⟨a, b, cc, _, e⟩ := n9 c
        exact ⟨a, b, by rw [cc], e⟩
      · intro h
        rw [hs1] at hbreak
        rw [h] at hbreak
        exact absurd hbreak.2.2 (by decide)
      · intro _
        rw [hs1] at hbreak
        exact ⟨hbreak.2.2, fun _ h => (by cases h)⟩
      · intro _
        refine ⟨hbreak.2.2, ?_, r, rest, rfl, hbreak.1⟩
        simp only [List.length_nil, add_zero]
        exact Nat.pos_of_ne_zero hbreak.2.1
      · intro h0
        exact absurd h0 hbreak.2.1
      · intro h
        rw [hbreak.2.2] at h
        cases h
    · rw [if_neg hbreak]
      obtain ⟨taken, t1, t2, t3, ⟨t4a, t4b, t4c, t4d, t4e⟩, t5, t6, t7, t8, t9, _, t11⟩ :=
        ih (i + 1) ({ (s1.setClient p c1) with stores := s1.stores ++ [(p, i)] })
      have hcp : ({ (s1.setClient p c1) with stores := s1.stores ++ [(p, i)] } : Server).clients p
          = c1 := setClient_clients_self _ _ _
      have hco : ∀ q, q ≠ p →
          ({ (s1.setClient p c1) with stores := s1.stores ++ [(p, i)] } : Server).clients q
            = s1.clients q := fun q hq => setClient_clients_other _ _ _ _ hq
      rw [hcp] at t2 t7 t8 t11
      have hmarkc1 : c1.m_bToBeDisconnected = (s1.clients p).m_bToBeDisconnected := rfl
      refine ⟨r :: taken, ?_, ?_, ?_, ⟨t4a.trans n1, ?_, t4c.trans n3, t4d.trans n4,
        t4e.trans hpeers⟩, ?_, ?_, ?_, ?_, ?_, ?_, ?_⟩
      · rw [List.cons_append, ← t1]
      · rw [t2]
        show (s1.clients p).m_pResponsesBeingSent ++ [r] ++ taken = _
        rw [(n9 p).2.2.2.1]
        simp
      · rw [t3]
        show s1.stores ++ [(p, i)] ++ _ = _
        rw [n2]
        simp [List.range'_succ, List.append_assoc]
      · rw [t4b]
        exact n5
      · intro q
        obtain ⟨a, b, cc, e⟩ := t5 q
        obtain ⟨a', b', cc', _, e'⟩ := n9 q
        by_cases hq : q = p
        · subst hq
          rw [hcp] at a b cc e
          refine ⟨a.trans ?_, b.trans ?_, cc.trans ?_, fun h => e ?_⟩
          · exact a'
          · exact b'
          · show (List.set _ _ _).length = _
            rw [List.length_set, cc']
          · exact e' h
        · rw [hco q hq] at a b cc e
          exact ⟨a.trans a', b.trans b', cc.trans (by rw [cc']), fun h => e (e' h)⟩
      · intro q hq
        rw [t6 q hq, hco q hq, hother q hq]
      · intro h
        exact t7 ((n9 p).2.2.2.2 h)
      · intro h
        obtain ⟨u1, u2⟩ := t8 h
        have hs1m : (s1.clients p).m_bToBeDisconnected = false := u1
        have hnot0 : ¬ (fatal = true ∧ i = 0) := by
          intro hc
          rw [hmark0 hc] at hs1m
          cases hs1m
        have hs1 : s1 = s := if_neg hnot0
        have hfatal : fatal = false := by
          cases hf : fatal
          · rfl
          · exfalso
            apply hbreak
            refine ⟨hf, ?_, hs1m⟩
            intro h0
            exact hnot0 ⟨hf, h0⟩
        refine ⟨by rw [← hs1]; exact hs1m, ?_⟩
        intro x hx
        rcases List.mem_cons.mp hx with hx | hx
        · rw [hx]; exact hfatal
        · have := u2 x hx
          show IsFatalErrorForLocallyConnectedClient (s.responses x).members = false
          rw [← n5]
          exact this
      · intro h
        obtain ⟨u1, u2, f, post, u3, u4⟩ := t9 h
        refine ⟨u1, by simp only [List.length_cons]; omega, f, post, u3, ?_⟩
        have : ({ (s1.setClient p c1) with stores := s1.stores ++ [(p, i)] } : Server).responses
            = s.responses := n5
        rw [this] at u4
        exact u4
      · intro h0 f rest' hq hf
        have hfr : f = r := (List.cons.inj hq).1.symm
        have hfat : fatal = true := by rw [hfr] at hf; exact hf
        have hm := hmark0 ⟨hfat, h0⟩
        exact (t5 p).2.2.2 (by rw [hcp]; exact hm)
      · intro h
        rcases t11 h with h1 | h1
        · rcases hmark1 h1 with h2 | h2
          · exact Or.inl h2
          · exact Or.inr ⟨h2.2, r, rest, rfl, h2.1⟩
        · exact absurd h1.1 (Nat.succ_ne_zero i)

theorem append_first_fatal (P : Nat → Bool) :
    ∀ (a pre : List Nat) (f1 f2 : Nat) (b post : List Nat),
      (∀ x ∈ a, P x = false) → (∀ x ∈ pre, P x = false) → P f1 = true → P f2 = true →
      a ++ f1 :: b = pre ++ f2 :: post → a = pre ∧ f1 = f2 ∧ b = post := by
  intro a
  induction a with
  | nil =>
    intro pre f1 f2 b post _ hpre h1 _ h
    cases pre with
    | nil =>
      simp only [List.nil_append, List.cons.injEq] at h
      exact ⟨rfl, h.1, h.2⟩
    | cons x xs =>
      simp only [List.nil_append, List.cons_append, List.cons.injEq] at h
      have := hpre x (List.mem_cons_self _ _)
      rw [← h.1, h1] at this
      cases this
  | cons y ys ih =>
    intro pre f1 f2 b post ha hpre h1 h2 h
    cases pre with
    | nil =>
      simp only [List.nil_append, List.cons_append, List.cons.injEq] at h
      have := ha y (List.mem_cons_self _ _)
      rw [h.1, h2] at this
      cases this
    | cons x xs =>
      simp only [List.cons_append, List.cons.injEq] at h
      obtain ⟨e1, e2, e3⟩ := ih xs f1 f2 b post
        (fun z hz => ha z (List.mem_cons_of_mem _ hz))
        (fun z hz => hpre z (List.mem_cons_of_mem _ hz)) h1 h2 h.2
      exact ⟨by rw [h.1, e1], e2, e3⟩

/-! ## A fatal error in the drain loop -/

/-- Claim C22, refuted as stated: with the response 5001 of the type `RESPONSE_FATAL_ERROR`
first in the queue of the session A and the ordinary response 5002 behind it, the drain
loop marks the session and goes on: it moves 5002 into the batch too and leaves the queue
empty. -/
theorem C22_counterexample :
    IsFatalErrorForLocallyConnectedClient (withFatalResponse.responses 5001).members = true
    ∧ IsFatalErrorForLocallyConnectedClient (withFatalResponse.responses 5002).members = false
    ∧ (drainResponsesQueue 100 0 [5001, 5002] withFatalResponse).1 = []
    ∧ ((drainResponsesQueue 100 0 [5001, 5002] withFatalResponse).2.clients
        100).m_pResponsesBeingSent = [5001, 5002]
    ∧ ((drainResponsesQueue 100 0 [5001, 5002] withFatalResponse).2.clients
        100).m_bToBeDisconnected = true := by
  decide

/-- Claim C22, amended. In the drain loop of `SendLocalClientsResponses`, started at the
index 0 on a queue given from its back: if the first response is of the type
`RESPONSE_FATAL_ERROR`, the session is marked to disconnect and every response of the
queue, later ones included, is moved into the batch, so that the queue is left empty; if
the session is not marked, the responses before the first one of that type are not of
that type and are at least one, the batch stops before it: these responses are moved into
the batch, the response of that type and all later ones stay in the queue, and the
session stays unmarked. -/
theorem C22_fatal_error_in_drain_loop (p : Nat) (s : Server) :
    (∀ f rest,
      IsFatalErrorForLocallyConnectedClient (s.responses f).members = true →
      (drainResponsesQueue p 0 (f :: rest) s).1 = []
      ∧ ((drainResponsesQueue p 0 (f :: rest) s).2.clients p).m_pResponsesBeingSent
          = (s.clients p).m_pResponsesBeingSent ++ f :: rest
      ∧ ((drainResponsesQueue p 0 (f :: rest) s).2.clients p).m_bToBeDisconnected = true)
    ∧ (∀ pre f post,
      pre ≠ [] → (s.clients p).m_bToBeDisconnected = false →
      (∀ x ∈ pre, IsFatalErrorForLocallyConnectedClient (s.responses x).members = false) →
      IsFatalErrorForLocallyConnectedClient (s.responses f).members = true →
      (drainResponsesQueue p 0 (pre ++ f :: post) s).1 = f :: post
      ∧ ((drainResponsesQueue p 0 (pre ++ f :: post) s).2.clients p).m_pResponsesBeingSent
          = (s.clients p).m_pResponsesBeingSent ++ pre
      ∧ ((drainResponsesQueue p 0 (pre ++ f :: post) s).2.clients p).m_bToBeDisconnected
          = false) := by
  constructor
  · intro f rest hf
    obtain ⟨taken, d1, d2, _, _, _, _, _, _, d9, d10, _⟩ :=
      drainResponsesQueue_spec p (f :: rest) 0 s
    have hm := d10 rfl f rest rfl hf
    have hrem : (drainResponsesQueue p 0 (f :: rest) s).1 = [] := by
      by_contra hne
      have := (d9 hne).1
      rw [hm] at this
      cases this
    rw [hrem, List.append_nil] at d1
    rw [d2, ← d1]
    exact ⟨hrem, rfl, hm⟩
  · intro pre f post hpre hun hnf hf
    obtain ⟨taken, d1, d2, _, _, _, _, _, d8, d9, _, d11⟩ :=
      drainResponsesQueue_spec p (pre ++ f :: post) 0 s
    have hm : ((drainResponsesQueue p 0 (pre ++ f :: post) s).2.clients p).m_bToBeDisconnected
        = false := by
      cases hmm : ((drainResponsesQueue p 0 (pre ++ f :: post) s).2.clients
          p).m_bToBeDisconnected
      · rfl
      · exfalso
        rcases d11 hmm with h | ⟨_, g, rest, hq, hg⟩
        · rw [hun] at h
          cases h
        · cases pre with
          | nil => exact hpre rfl
          | cons x xs =>
            simp only [List.cons_append, List.cons.injEq] at hq
            have := hnf x (List.mem_cons_self _ _)
            rw [hq.1, hg] at this
            cases this
    obtain ⟨_, htaken⟩ := d8 hm
    have hne : (drainResponsesQueue p 0 (pre ++ f :: post) s).1 ≠ [] := by
      intro h
      rw [h, List.append_nil] at d1
      have hfm : f ∈ taken := by rw [← d1]; simp
      have := htaken f hfm
      rw [hf] at this
      cases this
    obtain ⟨_, _, g, post2, hrem, hg⟩ := d9 hne
    rw [hrem] at d1
    obtain ⟨e1, e2, e3⟩ := append_first_fatal
      (fun x => IsFatalErrorForLocallyConnectedClient (s.responses x).members)
      taken pre g f post2 post htaken hnf hg hf d1.symm
    rw [hrem, d2, e1, e2, e3]
    exact ⟨rfl, rfl, hm⟩

/-- Instance of C22 on the session A: the queue with the fatal response 5001 first, and
the queue with the ordinary response 5002 before it. -/
theorem C22_fatal_error_in_drain_loop_witness :
    (IsFatalErrorForLocallyConnectedClient (withFatalResponse.responses 5001).members = true
      ∧ ([5002] : List Nat) ≠ []
      ∧ (withFatalResponse.clients 100).m_bToBeDisconnected = false
      ∧ (∀ x ∈ ([5002] : List Nat),
          IsFatalErrorForLocallyConnectedClient (withFatalResponse.responses x).members
            = false))
    ∧ ((drainResponsesQueue 100 0 [5001, 5003] withFatalResponse).1 = []
      ∧ (drainResponsesQueue 100 0 ([5002] ++ 5001 :: [5003]) withFatalResponse).1
          = [5001, 5003]) :=
  ⟨⟨by decide, by decide, by decide, by decide⟩,
    ((C22_fatal_error_in_drain_loop 100 withFatalResponse).1 5001 [5003] (by decide)).1,
    ((C22_fatal_error_in_drain_loop 100 withFatalResponse).2 [5002] 5001 [5003] (by decide)
      (by decide) (by decide) (by decide)).1⟩

/-! ## One session in the send cycle -/

theorem clearBuffers_length : ∀ (n : Nat) (bufs : List Buffer),
    (clearBuffers n bufs).length = bufs.length := by
  intro n
  induction n with
  | zero => intro bufs; rfl
  | succ n ih =>
    intro bufs
    cases bufs with
    | nil => rfl
    | cons b rest =>
      rw [clearBuffers]
      split
      · simp [ih rest]
      · rfl

theorem foldl_AfterSendingResponse_frame (sz : Nat) (pNode : Node) (status now : Int) :
    ∀ (rs : List Nat) (s : Server),
      CompletionFrame s
        (rs.foldl (fun s pResponse => AfterSendingResponse sz pResponse pNode status now s) s)
      ∧ (∀ p, ((rs.foldl (fun s pResponse =>
            AfterSendingResponse sz pResponse pNode status now s) s).clients
            p).m_pResponsesBeingSent = (s.clients p).m_pResponsesBeingSent)
      ∧ (∀ p, ((rs.foldl (fun s pResponse =>
            AfterSendingResponse sz pResponse pNode status now s) s).peers
            p).m_pResponsesBeingSent = (s.peers p).m_pResponsesBeingSent) := by
  intro rs
  induction rs with
  | nil => intro s; exact ⟨CompletionFrame_refl s, fun _ => rfl, fun _ => rfl⟩
  | cons r rest ih =>
    intro s
    rw [List.foldl_cons]
    obtain ⟨a1, a2, a3, _⟩ := AfterSendingResponse_spec sz r pNode status now s
    obtain ⟨b1, b2, b3⟩ := ih (AfterSendingResponse sz r pNode status now s)
    exact ⟨CompletionFrame_trans a1 b1, fun p => (b2 p).trans (a2 p),
      fun p => (b3 p).trans (a3 p)⟩

theorem after_send_responses_spec (DPA : Server → Server) (sz : Nat) (pNode : Node)
    (status now : Int) (s : Server) :
    ∃ t0 : Server,
      after_send_responses DPA sz pNode status now s
        = (if s.after_send_response_called_by_send_response = false then DPA t0 else t0)
      ∧ CompletionFrame s t0
      ∧ (∀ p, (t0.clients p).m_pResponsesBeingSent
          = if pNode = Node.client p then [] else (s.clients p).m_pResponsesBeingSent)
      ∧ (∀ p, (t0.peers p).m_pResponsesBeingSent
          = if pNode = Node.server p then [] else (s.peers p).m_pResponsesBeingSent) := by
  unfold after_send_responses
  lift_lets
  intro sent count s1 s2 src
  obtain ⟨f1, f2, f3⟩ := foldl_AfterSendingResponse_frame sz pNode status now sent s
  have hs2 : CompletionFrame s1 s2
      ∧ (∀ p, (s2.clients p).m_pResponsesBeingSent
          = if pNode = Node.client p then [] else (s1.clients p).m_pResponsesBeingSent)
      ∧ (∀ p, (s2.peers p).m_pResponsesBeingSent
          = if pNode = Node.server p then [] else (s1.peers p).m_pResponsesBeingSent) := by
    cases pNode with
    | client c =>
      refine ⟨?_, ?_, ?_⟩
      · refine ⟨rfl, rfl, rfl, rfl, fun _ => rfl, ?_, fun _ => ⟨rfl, rfl⟩⟩
        intro p
        by_cases hp : p = c
        · subst hp
          show ((s1.setClient p _).clients p).m_ResponsesQueue1 = _ ∧ _
          rw [setClient_clients_self]
          exact ⟨rfl, rfl, rfl, fun h => h⟩
        · show ((s1.setClient c _).clients p).m_ResponsesQueue1 = _ ∧ _
          rw [setClient_clients_other _ _ _ _ hp]
          exact ⟨rfl, rfl, rfl, fun h => h⟩
      · intro p
        by_cases hp : p = c
        · subst hp
          show ((s1.setClient p _).clients p).m_pResponsesBeingSent = _
          rw [setClient_clients_self, if_pos rfl]
        · show ((s1.setClient c _).clients p).m_pResponsesBeingSent = _
          rw [setClient_clients_other _ _ _ _ hp, if_neg (fun h => hp (Node.client.inj h).symm)]
      · intro p
        rw [if_neg (fun h => (by cases h))]
        rfl
    | server c =>
      refine ⟨?_, ?_, ?_⟩
      · refine ⟨rfl, rfl, rfl, rfl, fun _ => rfl, fun _ => ⟨rfl, rfl, rfl, fun h => h⟩, ?_⟩
        intro p
        by_cases hp : p = c
        · subst hp
          show ((s1.setPeer p _).peers p).m_ResponsesQueue1 = _ ∧ _
          rw [setPeer_peers_self]
          exact ⟨rfl, rfl⟩
        · show ((s1.setPeer c _).peers p).m_ResponsesQueue1 = _ ∧ _
          rw [setPeer_peers_other _ _ _ _ hp]
          exact ⟨rfl, rfl⟩
      · intro p
        rw [if_neg (fun h => (by cases h))]
        rfl
      · intro p
        by_cases hp : p = c
        · subst hp
          show ((s1.setPeer p _).peers p).m_pResponsesBeingSent = _
          rw [setPeer_peers_self, if_pos rfl]
        · show ((s1.setPeer c _).peers p).m_pResponsesBeingSent = _
          rw [setPeer_peers_other _ _ _ _ hp, if_neg (fun h => hp (Node.server.inj h).symm)]
  obtain ⟨g1, g2, g3⟩ := hs2
  have hcalled : s2.after_send_response_called_by_send_response
      = s.after_send_response_called_by_send_response := g1.2.2.2.1.trans f1.2.2.2.1
  by_cases hc : s.after_send_response_called_by_send_response = false
  · refine ⟨{ s2 with m_stServerStat := { src with ResponsesBeingSent := src.ResponsesBeingSent - count } }, ?_, ?_, ?_, ?_⟩
    · rw [if_pos hc, if_pos (hcalled.trans hc)]
    · exact CompletionFrame_trans f1 (CompletionFrame_trans g1
        ⟨rfl, rfl, rfl, rfl, fun _ => rfl, fun _ => ⟨rfl, rfl, rfl, fun h => h⟩,
          fun _ => ⟨rfl, rfl⟩⟩)
    · intro p
      show (s2.clients p).m_pResponsesBeingSent = _
      rw [g2 p, f2 p]
    · intro p
      show (s2.peers p).m_pResponsesBeingSent = _
      rw [g3 p, f3 p]
  · refine ⟨s2, ?_, CompletionFrame_trans f1 g1, ?_, ?_⟩
    · rw [if_neg hc, if_neg (fun h => hc (hcalled.symm.trans h))]
    · intro p
      rw [g2 p, f2 p]
    · intro p
      rw [g3 p, f3 p]

theorem SendFrame_refl (s : Server) : SendFrame s s :=
  ⟨rfl, fun h => h, fun _ => rfl,
    fun _ => ⟨rfl, List.prefix_refl _, rfl, fun h => h, Or.inl (Nat.le_refl _)⟩,
    fun _ => ⟨rfl, List.prefix_refl _⟩,
    ⟨[], by simp, fun _ h => (by cases h)⟩, ⟨[], by simp, fun _ h => (by cases h)⟩⟩

theorem SendFrame_trans {s t u : Server} (h1 : SendFrame s t) (h2 : SendFrame t u) :
    SendFrame s u := by
  obtain ⟨a1, a2, a3, a4, a5, ⟨w1, a6, a6'⟩, ⟨x1, a7, a7'⟩⟩ := h1
  obtain ⟨b1, b2, b3, b4, b5, ⟨w2, b6, b6'⟩, ⟨x2, b7, b7'⟩⟩ := h2
  refine ⟨b1.trans a1, fun h => b2 (a2 h), fun r => (b3 r).trans (a3 r), ?_, ?_,
    ⟨w1 ++ w2, by rw [b6, a6, List.append_assoc], ?_⟩,
    ⟨x1 ++ x2, by rw [b7, a7, List.append_assoc], ?_⟩⟩
  · intro c
    obtain ⟨c1, c2, c3, c4, c5⟩ := a4 c
    obtain ⟨d1, d2, d3, d4, d5⟩ := b4 c
    refine ⟨d1.trans c1, d2.trans c2, d3.trans c3, fun h => d4 (c4 h), ?_⟩
    have hlen := c2.length_le
    rcases d5 with d5 | d5
    · rcases c5 with c5 | c5
      · exact Or.inl (Nat.le_trans d5 c5)
      · exact Or.inr (Nat.le_trans d5 c5)
    · exact Or.inr (Nat.le_trans d5 hlen)
  · intro c
    obtain ⟨c1, c2⟩ := a5 c
    obtain ⟨d1, d2⟩ := b5 c
    exact ⟨d1.trans c1, d2.trans c2⟩
  · intro call hcall
    rcases List.mem_append.mp hcall with h | h
    · exact a6' call h
    · obtain ⟨e1, e2⟩ := b6' call h
      refine ⟨?_, ?_⟩
      · intro c hc r hr
        obtain ⟨f1, f2⟩ := e1 c hc r hr
        refine ⟨(a4 c).2.1.subset f1, ?_⟩
        rw [← a3 r]
        exact f2
      · intro c hc r hr
        exact (a5 c).2.subset (e2 c hc r hr)
  · intro x hx
    rcases List.mem_append.mp hx with h | h
    · exact a7' x h
    · exact Nat.lt_of_lt_of_le (b7' x h) (a4 x.1).2.1.length_le

theorem SendFrame_of_CompletionFrame {s t : Server} (h : CompletionFrame s t)
    (hb : ∀ c, (t.clients c).m_pResponsesBeingSent.length
      ≤ (s.clients c).m_pResponsesBeingSent.length) : SendFrame s t := by
  obtain ⟨a1, a2, a3, a4, a5, a6, a7⟩ := h
  refine ⟨a3, fun h => a4.trans h, a5, ?_, ?_, ⟨[], by rw [a1]; simp, fun _ h => (by cases h)⟩,
    ⟨[], by rw [a2]; simp, fun _ h => (by cases h)⟩⟩
  · intro c
    obtain ⟨c1, c2, c3, c4⟩ := a6 c
    refine ⟨?_, ?_, by rw [c3], c4, Or.inl (hb c)⟩
    · unfold activeQueue; rw [a3, c1, c2]
    · unfold inactiveQueue; rw [a3, c1, c2]
  · intro c
    obtain ⟨c1, c2⟩ := a7 c
    refine ⟨?_, ?_⟩
    · unfold activePeerQueue; rw [a3, c1, c2]
    · unfold inactivePeerQueue; rw [a3, c1, c2]

theorem SendFrame_of_NodeFrame {s t : Server} (h : NodeFrame s t) : SendFrame s t :=
  SendFrame_of_CompletionFrame (CompletionFrame_of_NodeFrame h)
    (fun c => by rw [(h.2.2.2.2.2.2.2.2.1 c).2.2.2.1])

theorem SendFrame_write {s x : Server} (h : SendFrame s x) (hw : x.writes = s.writes)
    (call : uv_write_call)
    (h1 : ∀ c, call.pNode = Node.client c →
      ∀ r ∈ call.responses, r ∈ inactiveQueue s c
        ∧ IsFatalErrorForLocallyConnectedClient (s.responses r).members = false)
    (h2 : ∀ c, call.pNode = Node.server c → ∀ r ∈ call.responses, r ∈ inactivePeerQueue s c) :
    SendFrame s { x with writes := x.writes ++ [call] } := by
  obtain ⟨a1, a2, a3, a4, a5, _, a7⟩ := h
  refine ⟨a1, a2, a3, a4, a5, ⟨[call], by rw [hw], ?_⟩, a7⟩
  intro y hy
  rw [List.mem_singleton] at hy
  subst hy
  exact ⟨h1, h2⟩

theorem SendFrame_of_nested {x t0 : Server}
    (h : CompletionFrame { x with after_send_response_called_by_send_response := true } t0)
    (hb : ∀ c, (t0.clients c).m_pResponsesBeingSent.length
      ≤ (x.clients c).m_pResponsesBeingSent.length) :
    SendFrame x { t0 with after_send_response_called_by_send_response := false } := by
  obtain ⟨a1, a2, a3, a4, a5, a6, a7⟩ := h
  have hflag : t0.m_bResponseDirectionFlag = x.m_bResponseDirectionFlag := a3
  refine ⟨hflag, fun _ => rfl, a5, ?_, ?_,
    ⟨[], by show t0.writes = _; rw [a1]; simp, fun _ h => (by cases h)⟩,
    ⟨[], by show t0.stores = _; rw [a2]; simp, fun _ h => (by cases h)⟩⟩
  · intro c
    obtain ⟨c1, c2, c3, c4⟩ := a6 c
    have e1 : (t0.clients c).m_ResponsesQueue1 = (x.clients c).m_ResponsesQueue1 := c1
    have e2 : (t0.clients c).m_ResponsesQueue2 = (x.clients c).m_ResponsesQueue2 := c2
    refine ⟨?_, ?_, congrArg List.length c3, c4, Or.inl (hb c)⟩
    · show (if t0.m_bResponseDirectionFlag = true then (t0.clients c).m_ResponsesQueue1
        else (t0.clients c).m_ResponsesQueue2) = activeQueue x c
      unfold activeQueue
      rw [hflag, e1, e2]
    · show (if t0.m_bResponseDirectionFlag = true then (t0.clients c).m_ResponsesQueue2
        else (t0.clients c).m_ResponsesQueue1) <+: inactiveQueue x c
      unfold inactiveQueue
      rw [hflag, e1, e2]
  · intro c
    obtain ⟨c1, c2⟩ := a7 c
    have e1 : (t0.peers c).m_ResponsesQueue1 = (x.peers c).m_ResponsesQueue1 := c1
    have e2 : (t0.peers c).m_ResponsesQueue2 = (x.peers c).m_ResponsesQueue2 := c2
    refine ⟨?_, ?_⟩
    · show (if t0.m_bResponseDirectionFlag = true then (t0.peers c).m_ResponsesQueue1
        else (t0.peers c).m_ResponsesQueue2) = activePeerQueue x c
      unfold activePeerQueue
      rw [hflag, e1, e2]
    · show (if t0.m_bResponseDirectionFlag = true then (t0.peers c).m_ResponsesQueue2
        else (t0.peers c).m_ResponsesQueue1) <+: inactivePeerQueue x c
      unfold inactivePeerQueue
      rw [hflag, e1, e2]

theorem SendLocalClientResponses_frame (M : Int) (uvw : uv_write_call → Int)
    (DPA : Server → Server) (sz : Nat) (now : Int) (b : Bool) (p : Nat) (s : Server) :
    SendFrame s (SendLocalClientResponses M uvw DPA sz now b p s)
    ∧ ((s.clients p).m_pResponsesBeingSent = [] →
        ∀ f rest, (inactiveQueue s p).reverse = f :: rest →
          IsFatalErrorForLocallyConnectedClient (s.responses f).members = true →
          ((SendLocalClientResponses M uvw DPA sz now b p s).clients p).m_bToBeDisconnected
            = true) := by
  unfold SendLocalClientResponses
  lift_lets
  intro eraseCurrent c sA bQueue2 queue drained sB srcB sC n call written RetVal sD srcD sD1 sE1 sE
  have herase : ∀ x : Server, SendFrame x (eraseCurrent x) := by
    intro x
    exact SendFrame_of_NodeFrame
      (NodeFrame_ite (fun _ => NodeFrame_of_eq rfl rfl rfl rfl rfl rfl rfl rfl rfl rfl)
        (fun _ => NodeFrame_of_eq rfl rfl rfl rfl rfl rfl rfl rfl rfl rfl))
  have herasem : ∀ x : Server, ((eraseCurrent x).clients p).m_bToBeDisconnected
      = (x.clients p).m_bToBeDisconnected := by
    intro x
    exact apply_ite_eq (fun (t : Server) => (t.clients p).m_bToBeDisconnected)
      (fun _ => rfl) (fun _ => rfl)
  by_cases hskip : (s.clients p).m_pResponsesBeingSent.length ≠ 0
  · rw [if_pos hskip]
    refine ⟨herase s, ?_⟩
    intro hbs
    rw [hbs] at hskip
    exact absurd rfl hskip
  · rw [if_neg hskip]
    have hbs : (s.clients p).m_pResponsesBeingSent = [] :=
      List.length_eq_zero.mp (Classical.not_not.mp hskip)
    -- the state before the drain loop
    have hAp : sA.clients p = ({ c with m_pResponsesBuffersBeingSent := clearBuffers M.toNat c.m_pResponsesBuffersBeingSent } : stClient) :=
      setClient_clients_self _ _ _
    have hAo : ∀ q, q ≠ p → sA.clients q = s.clients q :=
      fun q hq => setClient_clients_other _ _ _ _ hq
    have hqueue : queue = inactiveQueue s p := by
      show (if sA.m_bResponseDirectionFlag = true then (sA.clients p).m_ResponsesQueue2
        else (sA.clients p).m_ResponsesQueue1) = _
      rw [hAp]
      rfl
    -- the drain loop
    obtain ⟨taken, d1, d2, d3, ⟨d4a, d4b, d4c, d4d, d4e⟩, d5, d6, _, d8, _, d10, _⟩ :=
      drainResponsesQueue_spec p queue.reverse 0 sA
    have hBbs : (sB.clients p).m_pResponsesBeingSent = taken := by
      show ((drainResponsesQueue p 0 queue.reverse sA).2.clients p).m_pResponsesBeingSent = _
      rw [d2, hAp]
      show (s.clients p).m_pResponsesBeingSent ++ taken = _
      rw [hbs, List.nil_append]
    have hq : inactiveQueue s p = drained.1.reverse ++ taken.reverse := by
      rw [← hqueue]
      have := congrArg List.reverse d1
      rw [List.reverse_reverse, List.reverse_append] at this
      exact this
    have htl : taken.length ≤ (inactiveQueue s p).length := by
      rw [hq, List.length_append, List.length_reverse, List.length_reverse]
      omega
    -- the state with the queue written back
    have hCp : sC.clients p
        = (if bQueue2 = true then { srcB with m_ResponsesQueue2 := drained.1.reverse }
           else { srcB with m_ResponsesQueue1 := drained.1.reverse }) :=
      setClient_clients_self _ _ _
    have hCo : ∀ q, q ≠ p → sC.clients q = s.clients q := by
      intro q hq
      show (sB.setClient p _).clients q = _
      rw [setClient_clients_other _ _ _ _ hq]
      exact (d6 q hq).trans (hAo q hq)
    have hCbs : (sC.clients p).m_pResponsesBeingSent = taken := by
      rw [hCp]
      have e : (if bQueue2 = true then { srcB with m_ResponsesQueue2 := drained.1.reverse }
           else { srcB with m_ResponsesQueue1 := drained.1.reverse }).m_pResponsesBeingSent
          = srcB.m_pResponsesBeingSent :=
        apply_ite_eq (fun (x : stClient) => x.m_pResponsesBeingSent)
          (fun _ => rfl) (fun _ => rfl)
      exact e.trans hBbs
    have hCm : (sC.clients p).m_bToBeDisconnected = (sB.clients p).m_bToBeDisconnected := by
      rw [hCp]
      exact apply_ite_eq (fun (x : stClient) => x.m_bToBeDisconnected)
        (fun _ => rfl) (fun _ => rfl)
    have hCbuf : (sC.clients p).m_pResponsesBuffersBeingSent.length
        = (s.clients p).m_pResponsesBuffersBeingSent.length := by
      rw [hCp]
      have e : (if bQueue2 = true then { srcB with m_ResponsesQueue2 := drained.1.reverse }
           else { srcB with m_ResponsesQueue1 := drained.1.reverse }
            ).m_pResponsesBuffersBeingSent.length
          = srcB.m_pResponsesBuffersBeingSent.length :=
        apply_ite_eq (fun (x : stClient) => x.m_pResponsesBuffersBeingSent.length)
          (fun _ => rfl) (fun _ => rfl)
      refine e.trans ?_
      refine ((d5 p).2.2.1).trans ?_
      rw [hAp]
      exact clearBuffers_length _ _
    have hflagC : sC.m_bResponseDirectionFlag = s.m_bResponseDirectionFlag := d4c
    have hCact : activeQueue sC p = activeQueue s p := by
      unfold activeQueue
      rw [hflagC, hCp]
      have e1 : srcB.m_ResponsesQueue1 = (s.clients p).m_ResponsesQueue1 := by
        refine ((d5 p).1).trans ?_
        rw [hAp]
      have e2 : srcB.m_ResponsesQueue2 = (s.clients p).m_ResponsesQueue2 := by
        refine ((d5 p).2.1).trans ?_
        rw [hAp]
      have hb2 : bQueue2 = s.m_bResponseDirectionFlag := rfl
      rw [hb2]
      cases s.m_bResponseDirectionFlag
      · simp only [Bool.false_eq_true, if_false]
        exact e2
      · simp only [if_true]
        exact e1
    have hCinact : inactiveQueue sC p = drained.1.reverse := by
      unfold inactiveQueue
      rw [hflagC, hCp]
      have hb2 : bQueue2 = s.m_bResponseDirectionFlag := rfl
      rw [hb2]
      cases s.m_bResponseDirectionFlag
      · simp only [Bool.false_eq_true, if_false]
      · simp only [if_true]
    -- what the frame says of the state with the queue written back
    have hC : SendFrame s sC ∧ sC.writes = s.writes
        ∧ sC.after_send_response_called_by_send_response
            = s.after_send_response_called_by_send_response := by
      refine ⟨⟨hflagC, fun h => (d4d.trans (show sA.after_send_response_called_by_send_response
          = s.after_send_response_called_by_send_response from rfl)).trans h,
        fun r => by
          show (sB.responses r).members = _
          rw [show sB.responses = sA.responses from d4b]
          rfl, ?_, ?_,
        ⟨[], by
          show sB.writes = _
          rw [show sB.writes = sA.writes from d4a]
          simp
          rfl, fun _ h => (by cases h)⟩,
        ⟨(List.range' 0 taken.length).map (fun j => (p, j)), d3, ?_⟩⟩, d4a, d4d⟩
      · intro q
        by_cases hqp : q = p
        · subst hqp
          refine ⟨hCact, ?_, hCbuf, ?_, Or.inr ?_⟩
          · rw [hCinact, hq]
            exact List.prefix_append _ _
          · intro h
            rw [hCm]
            exact (d5 q).2.2.2 (by rw [hAp]; exact h)
          · rw [hCbs]
            exact htl
        · have := hCo q hqp
          refine ⟨?_, ?_, by rw [this], fun h => by rw [this]; exact h,
            Or.inl (by rw [this])⟩
          · unfold activeQueue; rw [hflagC, this]
          · unfold inactiveQueue; rw [hflagC, this]
      · intro q
        have hp : sC.peers = s.peers := d4e
        refine ⟨?_, ?_⟩
        · unfold activePeerQueue; rw [hflagC, hp]
        · unfold inactivePeerQueue; rw [hflagC, hp]
      · intro x hx
        obtain ⟨j, hj, rfl⟩ := List.mem_map.mp hx
        have := (List.mem_range'_1.mp hj).2
        show j < (inactiveQueue s p).length
        omega
    obtain ⟨hCf, hCw, hCc⟩ := hC
    -- the call of uv_write
    have hnonfatal : (sC.clients p).m_bToBeDisconnected = false →
        ∀ r ∈ taken, r ∈ inactiveQueue s p
          ∧ IsFatalErrorForLocallyConnectedClient (s.responses r).members = false := by
      intro h r hr
      refine ⟨?_, ?_⟩
      · rw [hq]
        exact List.mem_append_right _ (List.mem_reverse.mpr hr)
      · exact (d8 (hCm ▸ h)).2 r hr
    have hD : SendFrame s sD
        ∧ (sD.clients p).m_pResponsesBeingSent = taken
        ∧ (sD.clients p).m_bToBeDisconnected = (sC.clients p).m_bToBeDisconnected := by
      by_cases hm : (sC.clients p).m_bToBeDisconnected = false
      · have hsD : sD = { sC with writes := sC.writes ++ [call] } :=
          congrArg Prod.snd (if_pos hm)
        rw [hsD]
        refine ⟨SendFrame_write hCf hCw call ?_ (fun c hc => (by cases hc)), hCbs, rfl⟩
        intro c hc r hr
        have hcp : p = c := Node.client.inj hc
        subst hcp
        have hr' : r ∈ taken := by
          have : call.responses = (sC.clients p).m_pResponsesBeingSent := rfl
          rw [this, hCbs] at hr
          exact hr
        exact hnonfatal hm r hr'
      · have hsD : sD = sC := congrArg Prod.snd (if_neg hm)
        rw [hsD]
        exact ⟨hCf, hCbs, rfl⟩
    obtain ⟨hDf, hDbs, hDm⟩ := hD
    -- the completion of a write that failed at once
    have hE : SendFrame sD sE := by
      by_cases hr : RetVal ≥ 0
      · have : sE = { sD with m_stServerStat := { srcD with ResponsesBeingSent := srcD.ResponsesBeingSent + int_of_ULONG n } } :=
          if_pos hr
        rw [this]
        exact SendFrame_of_NodeFrame (NodeFrame_of_eq rfl rfl rfl rfl rfl rfl rfl rfl rfl rfl)
      · have : sE = { sE1 with after_send_response_called_by_send_response := false } :=
          if_neg hr
        rw [this]
        obtain ⟨t0, e0, e1, e2, _⟩ :=
          after_send_responses_spec DPA sz (Node.client p) RetVal now sD1
        have ht0 : sE1 = t0 := by
          show after_send_responses DPA sz (Node.client p) RetVal now sD1 = t0
          rw [e0]
          exact if_neg (by show ¬ (true = false); decide)
        rw [ht0]
        refine SendFrame_of_nested e1 ?_
        intro q
        rw [e2 q]
        split
        · exact Nat.zero_le _
        · exact Nat.le_refl _
    refine ⟨SendFrame_trans hDf (SendFrame_trans hE (herase sE)), ?_⟩
    intro _ f rest hf hfatal
    rw [herasem]
    refine (hE.2.2.2.1 p).2.2.2.1 ?_
    rw [hDm, hCm]
    refine d10 rfl f rest ?_ hfatal
    rw [hqueue]
    exact hf

theorem foldl_SendFrame (f : Server → Nat → Server) (h : ∀ s p, SendFrame s (f s p)) :
    ∀ (l : List Nat) (s : Server), SendFrame s (l.foldl f s) := by
  intro l
  induction l with
  | nil => intro s; exact SendFrame_refl s
  | cons x rest ih =>
    intro s
    rw [List.foldl_cons]
    exact SendFrame_trans (h s x) (ih (f s x))

theorem SendLocalClientsResponses_frame (M : Int) (uvw : uv_write_call → Int)
    (DPA : Server → Server) (sz : Nat) (now : Int) (s : Server) :
    SendFrame s (SendLocalClientsResponses M uvw DPA sz now s) := by
  unfold SendLocalClientsResponses
  exact foldl_SendFrame _
    (fun x p => (SendLocalClientResponses_frame M uvw DPA sz now _ p x).1) _ s

theorem peerPush_spec (ConnStatus : Int) (p : Nat) :
    ∀ (l : List Nat) (s : Server),
      (l.foldl (fun s pResponse =>
          let s :=
            if ConnStatus ≠ CONNECTION_CONNECTED then
              s.setResponse pResponse { s.responses pResponse with ForwardError := ConnStatus }
            else s
          let peer := s.peers p
          s.setPeer p
            { peer with
              m_pResponsesBeingSent := peer.m_pResponsesBeingSent ++ [pResponse],
              m_pResponsesBuffersBeingForwarded :=
                peer.m_pResponsesBuffersBeingForwarded
                  ++ [(s.responses pResponse).members.m_Response] }) s).clients = s.clients
      ∧ CompletionFrame s (l.foldl (fun s pResponse =>
          let s :=
            if ConnStatus ≠ CONNECTION_CONNECTED then
              s.setResponse pResponse { s.responses pResponse with ForwardError := ConnStatus }
            else s
          let peer := s.peers p
          s.setPeer p
            { peer with
              m_pResponsesBeingSent := peer.m_pResponsesBeingSent ++ [pResponse],
              m_pResponsesBuffersBeingForwarded :=
                peer.m_pResponsesBuffersBeingForwarded
                  ++ [(s.responses pResponse).members.m_Response] }) s)
      ∧ ((l.foldl (fun s pResponse =>
          let s :=
            if ConnStatus ≠ CONNECTION_CONNECTED then
              s.setResponse pResponse { s.responses pResponse with ForwardError := ConnStatus }
            else s
          let peer := s.peers p
          s.setPeer p
            { peer with
              m_pResponsesBeingSent := peer.m_pResponsesBeingSent ++ [pResponse],
              m_pResponsesBuffersBeingForwarded :=
                peer.m_pResponsesBuffersBeingForwarded
                  ++ [(s.responses pResponse).members.m_Response] }) s).peers
            p).m_pResponsesBeingSent = (s.peers p).m_pResponsesBeingSent ++ l := by
  intro l
  induction l with
  | nil =>
    intro s
    exact ⟨rfl, CompletionFrame_refl s, by simp⟩
  | cons r rest ih =>
    intro s
    rw [List.foldl_cons]
    lift_lets
    intro src s1 peer
    let c1 : stPeerServer := { peer with m_pResponsesBeingSent := peer.m_pResponsesBeingSent ++ [r], m_pResponsesBuffersBeingForwarded := peer.m_pResponsesBuffersBeingForwarded ++ [(s1.responses r).members.m_Response] }
    obtain ⟨a1, a2, a3⟩ := ih (s1.setPeer p c1)
    have hs1 : CompletionFrame s s1 ∧ s1.clients = s.clients ∧ s1.peers = s.peers := by
      by_cases hc : ConnStatus ≠ CONNECTION_CONNECTED
      · have : s1 = s.setResponse r { s.responses r with ForwardError := ConnStatus } :=
          if_pos hc
        rw [this]
        refine ⟨⟨rfl, rfl, rfl, rfl, ?_, fun _ => ⟨rfl, rfl, rfl, fun h => h⟩,
          fun _ => ⟨rfl, rfl⟩⟩, rfl, rfl⟩
        intro q
        by_cases hq : q = r
        · subst hq
          rw [setResponse_responses_self]
        · rw [setResponse_responses_other _ _ _ _ hq]
      · have : s1 = s := if_neg hc
        rw [this]
        exact ⟨CompletionFrame_refl s, rfl, rfl⟩
    obtain ⟨b1, b2, b3⟩ := hs1
    have hs2 : CompletionFrame s1 (s1.setPeer p c1) := by
      refine ⟨rfl, rfl, rfl, rfl, fun _ => rfl, fun _ => ⟨rfl, rfl, rfl, fun h => h⟩, ?_⟩
      intro q
      by_cases hq : q = p
      · subst hq
        rw [setPeer_peers_self]
        exact ⟨rfl, rfl⟩
      · rw [setPeer_peers_other _ _ _ _ hq]
        exact ⟨rfl, rfl⟩
    refine ⟨a1.trans b2, CompletionFrame_trans b1 (CompletionFrame_trans hs2 a2),
      a3.trans ?_⟩
    rw [setPeer_peers_self]
    show (s1.peers p).m_pResponsesBeingSent ++ [r] ++ rest = _
    rw [b3]
    simp

theorem SendPeerServerResponses_frame (uvw : uv_write_call → Int) (g : Nat → Int)
    (DPA : Server → Server) (sz : Nat) (now : Int) (b : Bool) (p : Nat) (s : Server) :
    SendFrame s (SendPeerServerResponses uvw g DPA sz now b p s) := by
  unfold SendPeerServerResponses
  lift_lets
  intro eraseCurrent conn ConnStatus sG bQueue2 queue sP srcP sQ n call written RetVal sD srcD
    sD1 sE1 sE
  have herase : ∀ x : Server, SendFrame x (eraseCurrent x) := by
    intro x
    exact SendFrame_of_NodeFrame
      (NodeFrame_ite (fun _ => NodeFrame_of_eq rfl rfl rfl rfl rfl rfl rfl rfl rfl rfl)
        (fun _ => NodeFrame_of_eq rfl rfl rfl rfl rfl rfl rfl rfl rfl rfl))
  have hG : SendFrame s sG := SendFrame_of_NodeFrame (GetServerConnection_frame g now p s)
  by_cases h1 : ConnStatus = CONNECTION_CONNECTING ∨ ConnStatus = CONNECTION_OVERFLOWED
  · rw [if_pos h1]
    exact hG
  · rw [if_neg h1]
    by_cases hskip : (sG.peers p).m_pResponsesBeingSent.length ≠ 0
    · rw [if_pos hskip]
      exact SendFrame_trans hG (herase sG)
    · rw [if_neg hskip]
      have hbs : (sG.peers p).m_pResponsesBeingSent = [] :=
        List.length_eq_zero.mp (Classical.not_not.mp hskip)
      have hqueue : queue = inactivePeerQueue sG p := rfl
      obtain ⟨p1, p2, p3⟩ := peerPush_spec ConnStatus p queue.reverse sG
      have hPc : sP.clients = sG.clients := p1
      have hPf : CompletionFrame sG sP := p2
      have hPbs : (sP.peers p).m_pResponsesBeingSent = queue.reverse := by
        show _ = _
        refine p3.trans ?_
        rw [hbs, List.nil_append]
      obtain ⟨a1, a2, a3, a4, a5, _, a7⟩ := hPf
      have hQp : sQ.peers p
          = (if bQueue2 = true then { srcP with m_ResponsesQueue2 := [] }
             else { srcP with m_ResponsesQueue1 := [] }) := setPeer_peers_self _ _ _
      have hQo : ∀ q, q ≠ p → sQ.peers q = sP.peers q :=
        fun q hq => setPeer_peers_other _ _ _ _ hq
      have hQbs : (sQ.peers p).m_pResponsesBeingSent = queue.reverse := by
        rw [hQp]
        have e : (if bQueue2 = true then { srcP with m_ResponsesQueue2 := [] }
             else { srcP with m_ResponsesQueue1 := [] }).m_pResponsesBeingSent
            = srcP.m_pResponsesBeingSent :=
          apply_ite_eq (fun (x : stPeerServer) => x.m_pResponsesBeingSent)
            (fun _ => rfl) (fun _ => rfl)
        exact e.trans hPbs
      have hflagQ : sQ.m_bResponseDirectionFlag = sG.m_bResponseDirectionFlag := a3
      have hQ : SendFrame sG sQ := by
        refine ⟨hflagQ, fun h => (show sQ.after_send_response_called_by_send_response
            = sG.after_send_response_called_by_send_response from a4).trans h, a5, ?_, ?_,
          ⟨[], by show sP.writes = _; rw [a1]; simp, fun _ h => (by cases h)⟩,
          ⟨[], by show sP.stores = _; rw [a2]; simp, fun _ h => (by cases h)⟩⟩
        · intro c
          have hc : sQ.clients c = sG.clients c := by
            show sP.clients c = _
            rw [hPc]
          refine ⟨?_, ?_, by rw [hc], fun h => by rw [hc]; exact h, Or.inl (by rw [hc])⟩
          · unfold activeQueue; rw [hflagQ, hc]
          · unfold inactiveQueue; rw [hflagQ, hc]
        · intro c
          by_cases hcp : c = p
          · subst hcp
            have hb2 : bQueue2 = sG.m_bResponseDirectionFlag := rfl
            have e1 : srcP.m_ResponsesQueue1 = (sG.peers c).m_ResponsesQueue1 := (a7 c).1
            have e2 : srcP.m_ResponsesQueue2 = (sG.peers c).m_ResponsesQueue2 := (a7 c).2
            refine ⟨?_, ?_⟩
            · unfold activePeerQueue
              rw [hflagQ, hQp, hb2]
              cases sG.m_bResponseDirectionFlag
              · simp only [Bool.false_eq_true, if_false]
                exact e2
              · simp only [if_true]
                exact e1
            · unfold inactivePeerQueue
              rw [hflagQ, hQp, hb2]
              cases sG.m_bResponseDirectionFlag
              · simp only [Bool.false_eq_true, if_false]
                exact List.nil_prefix
              · simp only [if_true]
                exact List.nil_prefix
          · have hc : (sQ.peers c).m_ResponsesQueue1 = (sG.peers c).m_ResponsesQueue1
                ∧ (sQ.peers c).m_ResponsesQueue2 = (sG.peers c).m_ResponsesQueue2 := by
              rw [hQo c hcp]
              exact a7 c
            refine ⟨?_, ?_⟩
            · unfold activePeerQueue; rw [hflagQ, hc.1, hc.2]
            · unfold inactivePeerQueue; rw [hflagQ, hc.1, hc.2]
      have hQw : sQ.writes = sG.writes := a1
      have hD : SendFrame sG sD := by
        by_cases hm : ConnStatus = CONNECTION_CONNECTED
        · have hsD : sD = { sQ with writes := sQ.writes ++ [call] } :=
            congrArg Prod.snd (if_pos hm)
          rw [hsD]
          refine SendFrame_write hQ hQw call (fun c hc => (by cases hc)) ?_
          intro c hc r hr
          have hcp : p = c := Node.server.inj hc
          subst hcp
          have : call.responses = (sQ.peers p).m_pResponsesBeingSent := rfl
          rw [this, hQbs] at hr
          rw [← hqueue]
          exact List.mem_reverse.mp hr
        · have hsD : sD = sQ := congrArg Prod.snd (if_neg hm)
          rw [hsD]
          exact hQ
      have hE : SendFrame sD sE := by
        by_cases hr : RetVal ≥ 0
        · have : sE = { sD with m_stServerStat := { srcD with ResponsesBeingSent := srcD.ResponsesBeingSent + int_of_ULONG n } } :=
            if_pos hr
          rw [this]
          exact SendFrame_of_NodeFrame (NodeFrame_of_eq rfl rfl rfl rfl rfl rfl rfl rfl rfl rfl)
        · have : sE = { sE1 with after_send_response_called_by_send_response := false } :=
            if_neg hr
          rw [this]
          obtain ⟨t0, e0, e1, e2, _⟩ :=
            after_send_responses_spec DPA sz (Node.server p) RetVal now sD1
          have ht0 : sE1 = t0 := by
            show after_send_responses DPA sz (Node.server p) RetVal now sD1 = t0
            rw [e0]
            exact if_neg (by show ¬ (true = false); decide)
          rw [ht0]
          refine SendFrame_of_nested e1 ?_
          intro q
          rw [e2 q, if_neg (fun h => (by cases h))]
      exact SendFrame_trans hG (SendFrame_trans hD (SendFrame_trans hE (herase sE)))

theorem SendPeerServersResponses_frame (uvw : uv_write_call → Int) (g : Nat → Int)
    (DPA : Server → Server) (sz : Nat) (now : Int) (s : Server) :
    SendFrame s (SendPeerServersResponses uvw g DPA sz now s) := by
  unfold SendPeerServersResponses
  exact foldl_SendFrame _
    (fun x p => SendPeerServerResponses_frame uvw g DPA sz now _ p x) _ s

/-! ## No fatal error is written -/

theorem SendLocalClientResponses_calls (M : Int) (uvw : uv_write_call → Int)
    (DPA : Server → Server) (sz : Nat) (now : Int) (b : Bool) (p : Nat) (s : Server) :
    (∃ calls, (SendLocalClientResponses M uvw DPA sz now b p s).writes = s.writes ++ calls
      ∧ ∀ call ∈ calls, call.pNode = Node.client p)
    ∧ (∀ c, c ≠ p →
        ((SendLocalClientResponses M uvw DPA sz now b p s).clients c).m_ResponsesQueue1
          = (s.clients c).m_ResponsesQueue1
        ∧ ((SendLocalClientResponses M uvw DPA sz now b p s).clients c).m_ResponsesQueue2
          = (s.clients c).m_ResponsesQueue2) := by
  unfold SendLocalClientResponses
  lift_lets
  intro eraseCurrent c sA bQueue2 queue drained sB srcB sC n call written RetVal sD srcD sD1 sE1 sE
  have herase : ∀ x : Server, (eraseCurrent x).writes = x.writes
      ∧ (eraseCurrent x).clients = x.clients := by
    intro x
    exact ⟨apply_ite_eq (fun (t : Server) => t.writes) (fun _ => rfl) (fun _ => rfl),
      apply_ite_eq (fun (t : Server) => t.clients) (fun _ => rfl) (fun _ => rfl)⟩
  by_cases hskip : (s.clients p).m_pResponsesBeingSent.length ≠ 0
  · rw [if_pos hskip, (herase s).1, (herase s).2]
    exact ⟨⟨[], by simp, fun _ h => (by cases h)⟩, fun _ _ => ⟨rfl, rfl⟩⟩
  · rw [if_neg hskip, (herase sE).1, (herase sE).2]
    obtain ⟨_, _, _, _, ⟨d4a, _, _, _, _⟩, _, d6, _⟩ :=
      drainResponsesQueue_spec p queue.reverse 0 sA
    have hCw : sC.writes = s.writes := d4a
    have hCo : ∀ q, q ≠ p → sC.clients q = s.clients q := by
      intro q hq
      show (sB.setClient p _).clients q = _
      rw [setClient_clients_other _ _ _ _ hq]
      exact (d6 q hq).trans (setClient_clients_other _ _ _ _ hq)
    have hD : (∃ calls, sD.writes = s.writes ++ calls
        ∧ ∀ call ∈ calls, call.pNode = Node.client p) ∧ sD.clients = sC.clients := by
      by_cases hm : (sC.clients p).m_bToBeDisconnected = false
      · have hsD : sD = { sC with writes := sC.writes ++ [call] } :=
          congrArg Prod.snd (if_pos hm)
        rw [hsD]
        refine ⟨⟨[call], by show sC.writes ++ [call] = _; rw [hCw], ?_⟩, rfl⟩
        intro x hx
        rw [List.mem_singleton] at hx
        rw [hx]
      · have hsD : sD = sC := congrArg Prod.snd (if_neg hm)
        rw [hsD]
        exact ⟨⟨[], by rw [hCw]; simp, fun _ h => (by cases h)⟩, rfl⟩
    obtain ⟨hDw, hDc⟩ := hD
    have hE : sE.writes = sD.writes
        ∧ ∀ q, (sE.clients q).m_ResponsesQueue1 = (sD.clients q).m_ResponsesQueue1
          ∧ (sE.clients q).m_ResponsesQueue2 = (sD.clients q).m_ResponsesQueue2 := by
      by_cases hr : RetVal ≥ 0
      · have : sE = { sD with m_stServerStat := { srcD with ResponsesBeingSent := srcD.ResponsesBeingSent + int_of_ULONG n } } :=
          if_pos hr
        rw [this]
        exact ⟨rfl, fun _ => ⟨rfl, rfl⟩⟩
      · have : sE = { sE1 with after_send_response_called_by_send_response := false } :=
          if_neg hr
        rw [this]
        obtain ⟨t0, e0, e1, _, _⟩ :=
          after_send_responses_spec DPA sz (Node.client p) RetVal now sD1
        have ht0 : sE1 = t0 := by
          show after_send_responses DPA sz (Node.client p) RetVal now sD1 = t0
          rw [e0]
          exact if_neg (by show ¬ (true = false); decide)
        rw [ht0]
        exact ⟨e1.1, fun q => ⟨(e1.2.2.2.2.2.1 q).1, (e1.2.2.2.2.2.1 q).2.1⟩⟩
    obtain ⟨hEw, hEc⟩ := hE
    refine ⟨?_, ?_⟩
    · rw [hEw]
      exact hDw
    · intro q hq
      rw [(hEc q).1, (hEc q).2, hDc, hCo q hq]
      exact ⟨rfl, rfl⟩

theorem foldl_client_calls (f : Server → Nat → Server)
    (h : ∀ s p, ∃ calls, (f s p).writes = s.writes ++ calls
      ∧ ∀ call ∈ calls, call.pNode = Node.client p) :
    ∀ (l : List Nat) (s : Server), ∃ calls, (l.foldl f s).writes = s.writes ++ calls
      ∧ ∀ call ∈ calls, ∃ c, call.pNode = Node.client c := by
  intro l
  induction l with
  | nil => intro s; exact ⟨[], by simp, fun _ h => (by cases h)⟩
  | cons x rest ih =>
    intro s
    rw [List.foldl_cons]
    obtain ⟨c1, a1, a2⟩ := h s x
    obtain ⟨c2, b1, b2⟩ := ih (f s x)
    refine ⟨c1 ++ c2, by rw [b1, a1, List.append_assoc], ?_⟩
    intro call hcall
    rcases List.mem_append.mp hcall with hc | hc
    · exact ⟨x, a2 call hc⟩
    · exact b2 call hc

/-- Claim C16. In a send cycle of `SendLocalClientsResponses`, from any state and for any
outcome of the writes, no batch given to `uv_write` holds a response of the type
`RESPONSE_FATAL_ERROR` that is not a forward; and when the loop body takes up a session
with no write in flight whose drained queue has such a response at its back, the session
is marked to disconnect afterwards. -/
theorem C16_no_fatal_error_is_written (M : Int) (uvw : uv_write_call → Int)
    (DPA : Server → Server) (sz : Nat) (now : Int) (s : Server) :
    (∃ calls, (SendLocalClientsResponses M uvw DPA sz now s).writes = s.writes ++ calls
      ∧ ∀ call ∈ calls, ∀ r ∈ call.responses,
          IsFatalErrorForLocallyConnectedClient (s.responses r).members = false)
    ∧ (∀ ( bSet2 : Bool) (p f : Nat) (rest : List Nat),
        (s.clients p).m_pResponsesBeingSent = [] →
        (inactiveQueue s p).reverse = f :: rest →
        IsFatalErrorForLocallyConnectedClient (s.responses f).members = true →
        ((SendLocalClientResponses M uvw DPA sz now bSet2 p s).clients p).m_bToBeDisconnected
          = true) := by
  constructor
  · obtain ⟨_, _, _, _, _, ⟨calls, w1, w2⟩, _⟩ :=
      SendLocalClientsResponses_frame M uvw DPA sz now s
    have hc : ∃ calls2, (SendLocalClientsResponses M uvw DPA sz now s).writes
        = s.writes ++ calls2 ∧ ∀ call ∈ calls2, ∃ c, call.pNode = Node.client c := by
      unfold SendLocalClientsResponses
      exact foldl_client_calls _
        (fun x p => (SendLocalClientResponses_calls M uvw DPA sz now _ p x).1) _ s
    obtain ⟨calls2, v1, v2⟩ := hc
    have heq : calls = calls2 := List.append_cancel_left (w1.symm.trans v1)
    refine ⟨calls, w1, ?_⟩
    intro call hcall r hr
    obtain ⟨c, hc⟩ := v2 call (heq ▸ hcall)
    exact ((w2 call hcall).1 c hc r hr).2
  · intro b p f rest hbs hq hf
    exact (SendLocalClientResponses_frame M uvw DPA sz now b p s).2 hbs f rest hq hf

/-- Instance of C16: the cycle on the session A whose drained queue has the fatal response
5001 at its back writes nothing, and the session is marked. -/
theorem C16_no_fatal_error_is_written_witness :
    ((fatalAtHead.clients 100).m_pResponsesBeingSent = []
      ∧ (inactiveQueue fatalAtHead 100).reverse = 5001 :: [5002]
      ∧ IsFatalErrorForLocallyConnectedClient (fatalAtHead.responses 5001).members = true)
    ∧ ((SendLocalClientResponses 16 (fun _ => 0) (fun x => x) 64 50 false 100
        fatalAtHead).clients 100).m_bToBeDisconnected = true :=
  ⟨⟨by decide, by decide, by decide⟩,
    (C16_no_fatal_error_is_written 16 (fun _ => 0) (fun x => x) 64 50 fatalAtHead).2
      false 100 5001 [5002] (by decide) (by decide) (by decide)⟩

theorem SendLocalClientsResponses_sample :
    (SendLocalClientsResponses 16 (fun _ => 0) (fun x => x) 64 50 fatalAtHead).writes = []
    ∧ ((SendLocalClientsResponses 16 (fun _ => 0) (fun x => x) 64 50 fatalAtHead).clients
        100).m_bToBeDisconnected = true
    ∧ ((SendLocalClientsResponses 16 (fun _ => 0) (fun x => x) 64 50 fatalAtHead).responses
        5001).deleted = true
    ∧ ((SendLocalClientsResponses 16 (fun _ => 0) (fun x => x) 64 50 fatalAtHead).responses
        5002).deleted = true
    ∧ (SendLocalClientsResponses 16 (fun _ => 0) (fun x => x) 64 50
        fatalAtHead).m_RecevingClientsSet1 = [] := by
  decide

/-! ## The capacity of the batch of a session -/

theorem WithinCapacity_refl (M : Int) (s : Server) (h : QueuesWithinHalf M s) :
    WithinCapacity M s s :=
  ⟨h, fun _ => rfl, [], by simp, fun _ hx => (by cases hx)⟩

theorem WithinCapacity_trans {M : Int} {s t u : Server} (h1 : WithinCapacity M s t)
    (h2 : WithinCapacity M t u) : WithinCapacity M s u := by
  obtain ⟨_, a2, x1, a3, a4⟩ := h1
  obtain ⟨b1, b2, x2, b3, b4⟩ := h2
  refine ⟨b1, fun c => (b2 c).trans (a2 c), x1 ++ x2, by rw [b3, a3, List.append_assoc], ?_⟩
  intro x hx
  rcases List.mem_append.mp hx with h | h
  · exact a4 x h
  · exact b4 x h

theorem WithinCapacity_of_SendFrame {M : Int} {s t : Server} (hs : QueuesWithinHalf M s)
    (h : SendFrame s t) : WithinCapacity M s t := by
  obtain ⟨hcalled, hq⟩ := hs
  obtain ⟨a1, a2, _, a4, _, _, ⟨indices, a7, a8⟩⟩ := h
  have hside : ∀ c, (activeQueue s c).length ≤ (Int.tdiv M 2).toNat
      ∧ (inactiveQueue s c).length ≤ (Int.tdiv M 2).toNat := by
    intro c
    obtain ⟨q1, q2, _⟩ := hq c
    unfold activeQueue inactiveQueue
    cases s.m_bResponseDirectionFlag
    · exact ⟨q2, q1⟩
    · exact ⟨q1, q2⟩
  refine ⟨⟨a2 hcalled, ?_⟩, fun c => (a4 c).2.2.1, indices, a7, ?_⟩
  · intro c
    obtain ⟨c1, c2, _, _, c5⟩ := a4 c
    obtain ⟨s1, s2⟩ := hside c
    have e1 : (activeQueue t c).length ≤ (Int.tdiv M 2).toNat := by rw [c1]; exact s1
    have e2 : (inactiveQueue t c).length ≤ (Int.tdiv M 2).toNat :=
      Nat.le_trans c2.length_le s2
    have e3 : (t.clients c).m_pResponsesBeingSent.length ≤ (Int.tdiv M 2).toNat := by
      rcases c5 with c5 | c5
      · exact Nat.le_trans c5 (hq c).2.2
      · exact Nat.le_trans c5 s2
    unfold activeQueue at e1
    unfold inactiveQueue at e2
    rw [a1] at e1 e2
    cases hflag : s.m_bResponseDirectionFlag
    · rw [hflag] at e1 e2
      exact ⟨e2, e1, e3⟩
    · rw [hflag] at e1 e2
      exact ⟨e1, e2, e3⟩
  · intro x hx
    exact Nat.lt_of_lt_of_le (a8 x hx) (hside x.1).2

theorem SendResponses_frame (M : Int) (uvw : uv_write_call → Int) (g : Nat → Int)
    (DPA : Server → Server) (sz : Nat) (now : Int) (s : Server) :
    SendFrame
      { s with m_bResponseDirectionFlag := if s.m_bResponseDirectionFlag then false else true }
      (SendResponses M uvw g DPA sz now s) := by
  unfold SendResponses
  lift_lets
  intro s1 s2
  exact SendFrame_trans (SendLocalClientsResponses_frame M uvw DPA sz now s1)
    (SendPeerServersResponses_frame uvw g DPA sz now s2)

theorem SendResponses_capacity (M : Int) (uvw : uv_write_call → Int) (g : Nat → Int)
    (DPA : Server → Server) (sz : Nat) (now : Int) (s : Server) (hs : QueuesWithinHalf M s) :
    WithinCapacity M s (SendResponses M uvw g DPA sz now s) := by
  have h := WithinCapacity_of_SendFrame (M := M) (s := { s with m_bResponseDirectionFlag :=
      if s.m_bResponseDirectionFlag then false else true }) hs
    (SendResponses_frame M uvw g DPA sz now s)
  exact h

theorem DoPeriodicActivities_capacity (M : Int) (uvw : uv_write_call → Int) (g : Nat → Int)
    (sz : Nat) (now : Int) (depth : Nat) (s : Server) (hs : QueuesWithinHalf M s) :
    WithinCapacity M s (DoPeriodicActivities M uvw g sz now depth s) := by
  cases depth with
  | zero => exact WithinCapacity_refl M s hs
  | succ d =>
    rw [DoPeriodicActivities]
    split
    · exact SendResponses_capacity M uvw g _ sz now s hs
    · exact WithinCapacity_refl M s hs

theorem after_send_responses_capacity (M : Int) (uvw : uv_write_call → Int) (g : Nat → Int)
    (sz : Nat) (now : Int) (depth : Nat) (pNode : Node) (status now2 : Int) (s : Server)
    (hs : QueuesWithinHalf M s) :
    WithinCapacity M s
      (after_send_responses (DoPeriodicActivities M uvw g sz now depth) sz pNode status now2
        s) := by
  obtain ⟨t0, e0, e1, e2, _⟩ :=
    after_send_responses_spec (DoPeriodicActivities M uvw g sz now depth) sz pNode status
      now2 s
  rw [e0, if_pos hs.1]
  have h0 : WithinCapacity M s t0 :=
    WithinCapacity_of_SendFrame hs (SendFrame_of_CompletionFrame e1 (fun c => by
      rw [e2 c]
      split
      · exact Nat.zero_le _
      · exact Nat.le_refl _))
  exact WithinCapacity_trans h0 (DoPeriodicActivities_capacity M uvw g sz now depth t0 h0.1)

theorem AddResponseToQueue_rest (M : Int) (pResponse pClient : Nat) (s : Server) :
    (LocalClientsManager.AddResponseToQueue M pResponse pClient s).2.stores = s.stores
    ∧ (LocalClientsManager.AddResponseToQueue M pResponse pClient
        s).2.after_send_response_called_by_send_response
        = s.after_send_response_called_by_send_response
    ∧ ((LocalClientsManager.AddResponseToQueue M pResponse pClient s).2.clients
        pClient).m_pResponsesBuffersBeingSent = (s.clients pClient).m_pResponsesBuffersBeingSent
    ∧ ((LocalClientsManager.AddResponseToQueue M pResponse pClient s).2.clients
        pClient).m_pResponsesBeingSent = (s.clients pClient).m_pResponsesBeingSent := by
  unfold LocalClientsManager.AddResponseToQueue AddToClientSet
  simp only
  cases hflag : s.m_bResponseDirectionFlag <;>
  · simp only [Bool.false_eq_true, if_false, if_true]
    split
    · refine ⟨?_, ?_, ?_, ?_⟩ <;> (split <;> simp [Server.setClient])
    · refine ⟨?_, ?_, ?_, ?_⟩ <;> (split <;> simp [Server.setClient])

theorem AddResponseToQueue_capacity (M : Int) (pResponse pClient : Nat) (s : Server)
    (h0 : 0 ≤ M) (h1 : M < 2147483648) (hs : QueuesWithinHalf M s) :
    WithinCapacity M s (LocalClientsManager.AddResponseToQueue M pResponse pClient s).2 := by
  obtain ⟨hcalled, hq⟩ := hs
  obtain ⟨r1, r2, r3, r4⟩ := AddResponseToQueue_rest M pResponse pClient s
  obtain ⟨_, _, fother, _, _, _, finactive⟩ := AddResponseToQueue_frame M pResponse pClient s
  have hact : (activeQueue s pClient).length ≤ (Int.tdiv M 2).toNat := by
    obtain ⟨q1, q2, _⟩ := hq pClient
    unfold activeQueue
    cases s.m_bResponseDirectionFlag
    · exact q2
    · exact q1
  obtain ⟨sflag, shit, smiss⟩ := AddResponseToQueue_step M pResponse pClient s h0 h1 hact
  have hact2 : (activeQueue (LocalClientsManager.AddResponseToQueue M pResponse pClient s).2
      pClient).length ≤ (Int.tdiv M 2).toNat := by
    by_cases hlt : (activeQueue s pClient).length < (Int.tdiv M 2).toNat
    · rw [(shit hlt).2.1, List.length_cons]
      omega
    · rw [(smiss hlt).2.1]
      exact hact
  refine ⟨⟨r2.trans hcalled, ?_⟩, ?_, [], by rw [r1]; simp, fun _ hx => (by cases hx)⟩
  · intro c
    by_cases hc : c = pClient
    · subst hc
      obtain ⟨q1, q2, q3⟩ := hq c
      unfold activeQueue at hact2
      unfold inactiveQueue at finactive
      rw [sflag] at hact2 finactive
      rw [r4]
      cases hflag : s.m_bResponseDirectionFlag
      · rw [hflag] at hact2 finactive
        simp only [Bool.false_eq_true, if_false] at hact2 finactive
        rw [finactive]
        exact ⟨q1, hact2, q3⟩
      · rw [hflag] at hact2 finactive
        simp only [if_true] at hact2 finactive
        rw [finactive]
        exact ⟨hact2, q2, q3⟩
    · rw [fother c hc]
      exact hq c
  · intro c
    by_cases hc : c = pClient
    · subst hc
      rw [r3]
    · rw [fother c hc]

theorem runCycleEvents_capacity (M : Int) (sz depth : Nat) (h0 : 0 ≤ M)
    (h1 : M < 2147483648) :
    ∀ (events : List CycleEvent) (s : Server), QueuesWithinHalf M s →
      WithinCapacity M s (runCycleEvents M sz depth events s) := by
  intro events
  induction events with
  | nil => intro s hs; exact WithinCapacity_refl M s hs
  | cons e rest ih =>
    intro s hs
    cases e with
    | enqueue r p =>
      rw [runCycleEvents]
      have h := AddResponseToQueue_capacity M r p s h0 h1 hs
      exact WithinCapacity_trans h (ih _ h.1)
    | sendCycle uvw g now =>
      rw [runCycleEvents]
      have h := SendResponses_capacity M uvw g
        (DoPeriodicActivities M uvw g sz now depth) sz now s hs
      exact WithinCapacity_trans h (ih _ h.1)
    | completion uvw g pNode status now =>
      rw [runCycleEvents]
      have h := after_send_responses_capacity M uvw g sz now depth pNode status now s hs
      exact WithinCapacity_trans h (ih _ h.1)

theorem twoSessions_no_batch (p : Nat) :
    (twoSessions.clients p).m_pResponsesBeingSent = [] := by
  have h : twoSessions.clients p
      = if p = 100 then liveSession 1 else if p = 200 then liveSession 2 else blankClient := rfl
  rw [h]
  split
  · rfl
  · split
    · rfl
    · rfl

theorem QueuesWithinHalf_twoSessions : QueuesWithinHalf 16 twoSessions := by
  refine ⟨rfl, fun c => ?_⟩
  rw [(twoSessions_queues_empty c).1, (twoSessions_queues_empty c).2, twoSessions_no_batch c]
  exact ⟨Nat.zero_le _, Nat.zero_le _, Nat.zero_le _⟩

/-- Claim C29. With `MaxPendingResponses` an `int` that is not negative, from a state in
which no queue and no batch of a session is longer than half of it, as the constructor
`stClient::stClient` leaves every session, and after any run of calls of
`AddResponseToQueue`, send cycles and write completions: the state of the queues is the
same kind of state; every index at which the drain loop has stored into an array
`m_pResponsesBuffersBeingSent` is below `MaxPendingResponses`, and below the length of the
array when that length was `MaxPendingResponses` at the start, as the constructor makes
it; and no batch and no queue of a session is longer than `MaxPendingResponses`. -/
theorem C29_buffer_indices_within_capacity (M : Int) (sz depth : Nat)
    (events : List CycleEvent) (s : Server) (h0 : 0 ≤ M) (h1 : M < 2147483648)
    (hs : QueuesWithinHalf M s) :
    QueuesWithinHalf M (runCycleEvents M sz depth events s)
    ∧ (∃ indices, (runCycleEvents M sz depth events s).stores = s.stores ++ indices
        ∧ ∀ x ∈ indices, (x.2 : Int) < M
          ∧ ((s.clients x.1).m_pResponsesBuffersBeingSent.length = M.toNat →
              x.2 < ((runCycleEvents M sz depth events s).clients
                x.1).m_pResponsesBuffersBeingSent.length))
    ∧ (∀ c, ((runCycleEvents M sz depth events s).clients c).m_pResponsesBeingSent.length
          ≤ M.toNat
        ∧ ((runCycleEvents M sz depth events s).clients c).m_ResponsesQueue1.length
          ≤ M.toNat
        ∧ ((runCycleEvents M sz depth events s).clients c).m_ResponsesQueue2.length
          ≤ M.toNat)
    ∧ (∀ lockInit1 lockInit2 now stat address c,
        (new_stClient lockInit1 lockInit2 M now stat address).1 = some c →
        c.m_pResponsesBuffersBeingSent.length = M.toNat
        ∧ c.m_ResponsesQueue1 = [] ∧ c.m_ResponsesQueue2 = []
        ∧ c.m_pResponsesBeingSent = []) := by
  obtain ⟨a1, a2, indices, a3, a4⟩ := runCycleEvents_capacity M sz depth h0 h1 events s hs
  have hH : (Int.tdiv M 2).toNat ≤ M.toNat := by
    have h3 : Int.tdiv M 2 ≤ M := by
      rw [Int.tdiv_eq_ediv h0 (by decide)]
      omega
    exact Int.toNat_le_toNat h3
  refine ⟨a1, ⟨indices, a3, ?_⟩, ?_, ?_⟩
  · intro x hx
    have hx2 := Nat.lt_of_lt_of_le (a4 x hx) hH
    refine ⟨by omega, fun hlen => ?_⟩
    rw [a2 x.1, hlen]
    exact hx2
  · intro c
    obtain ⟨q1, q2, q3⟩ := a1.2 c
    exact ⟨Nat.le_trans q3 hH, Nat.le_trans q1 hH, Nat.le_trans q2 hH⟩
  · intro l1 l2 now stat address c hc
    unfold new_stClient at hc
    split at hc
    · cases hc
    · split at hc
      · cases hc
      · simp only [Option.some.injEq] at hc
        subst hc
        simp

/-- Instance of C29: the sample run on the two sessions with `MaxPendingResponses` = 16. -/
theorem C29_buffer_indices_within_capacity_witness :
    ((0 : Int) ≤ 16 ∧ (16 : Int) < 2147483648 ∧ QueuesWithinHalf 16 twoSessions)
    ∧ QueuesWithinHalf 16 (runCycleEvents 16 64 2 sampleCycleEvents twoSessions) :=
  ⟨⟨by decide, by decide, QueuesWithinHalf_twoSessions⟩,
    (C29_buffer_indices_within_capacity 16 64 2 sampleCycleEvents twoSessions (by decide)
      (by decide) QueuesWithinHalf_twoSessions).1⟩

theorem runCycleEvents_sample :
    (runCycleEvents 16 64 2 sampleCycleEvents twoSessions).stores
      = [(100, 0), (100, 1), (100, 2), (100, 0), (100, 1)]
    ∧ (runCycleEvents 16 64 2 sampleCycleEvents twoSessions).writes.map
        (fun call => call.responses) = [[5001, 5002, 5003], [5004, 5005]]
    ∧ ((runCycleEvents 16 64 2 sampleCycleEvents twoSessions).clients
        100).m_pResponsesBuffersBeingSent.length = 16 := by
  decide

/-! ## The order of the responses of a session on the socket -/

/-- Claim C15, refuted on the code. One worker queues the responses 5001, 5002 and 5003
for the session A in this order. The first timer tick hands 5001 to `uv_write`; the second
finds that write in flight and skips the session, leaving 5002 in the first queue; 5003
goes into the second queue; and the completion of the first write starts a cycle that
drains the second queue: 5003 is handed to `uv_write` while 5002 is still queued. 5002
follows only after the write of 5003 has completed and a later tick has passed. -/
theorem C15_skipped_cycle_reorders_responses :
    skippedCycleRun.writes.map (fun call => call.responses) = [[5001], [5003]]
    ∧ (skippedCycleRun.clients 100).m_ResponsesQueue1 = [5002]
    ∧ (skippedCycleRun.clients 100).m_pResponsesBeingSent = [5003]
    ∧ (timerTick (writeCompletedForA (timerTick skippedCycleRun))).writes.map
        (fun call => call.responses) = [[5001], [5003], [5002]] := by
  decide

/-! ## The two sides of the queues -/

theorem mem_insertAddress (p : Nat) : ∀ (l : List Nat), p ∈ insertAddress p l := by
  intro l
  induction l with
  | nil => simp [insertAddress]
  | cons x rest ih =>
    rw [insertAddress]
    split
    · exact List.mem_cons_self _ _
    · split
      · exact List.mem_cons_of_mem _ ih
      · have : p = x := by omega
        rw [this]
        exact List.mem_cons_self _ _

theorem mem_AddToClientSet (l : List Nat) (p : Nat) : p ∈ (AddToClientSet l p).2 := by
  unfold AddToClientSet
  simp only
  split
  · rename_i h
    exact of_decide_eq_true h
  · exact mem_insertAddress p l

theorem mem_AddToServerSet (l : List Nat) (p : Nat) : p ∈ (AddToServerSet l p).2 := by
  unfold AddToServerSet
  simp only
  split
  · rename_i h
    exact of_decide_eq_true h
  · exact mem_insertAddress p l

theorem AddResponseToQueue_sets (M : Int) (pResponse pClient : Nat) (s : Server) :
    inactiveClientsSet (LocalClientsManager.AddResponseToQueue M pResponse pClient s).2
        = inactiveClientsSet s
    ∧ (LocalClientsManager.AddResponseToQueue M pResponse pClient s).2.peers = s.peers
    ∧ ((LocalClientsManager.AddResponseToQueue M pResponse pClient s).1 = true →
        pClient ∈ activeClientsSet
          (LocalClientsManager.AddResponseToQueue M pResponse pClient s).2) := by
  have hmem1 := mem_AddToClientSet s.m_RecevingClientsSet1 pClient
  have hmem2 := mem_AddToClientSet s.m_RecevingClientsSet2 pClient
  unfold LocalClientsManager.AddResponseToQueue inactiveClientsSet activeClientsSet
  simp only
  cases hflag : s.m_bResponseDirectionFlag <;>
  · simp only [Bool.false_eq_true, if_false, if_true]
    split
    · refine ⟨?_, ?_, ?_⟩
      · simp [Server.setClient, hflag]
      · simp [Server.setClient]
      · intro _
        simp only [Server.setClient, hflag, Bool.false_eq_true, if_false, if_true]
        first | exact hmem1 | exact hmem2
    · refine ⟨?_, ?_, ?_⟩
      · split <;> simp [Server.setClient, hflag]
      · split <;> simp [Server.setClient]
      · intro h
        cases h

theorem PeerAddResponseToQueue_sides (M : Int) (newPeer r : Nat) (s : Server) :
    (PeerServersManager.AddResponseToQueue M newPeer r s).2.m_bResponseDirectionFlag
        = s.m_bResponseDirectionFlag
    ∧ (PeerServersManager.AddResponseToQueue M newPeer r s).2.clients = s.clients
    ∧ inactiveServersSet (PeerServersManager.AddResponseToQueue M newPeer r s).2
        = inactiveServersSet s
    ∧ (∀ c, c ≠ targetPeer newPeer r s →
        (PeerServersManager.AddResponseToQueue M newPeer r s).2.peers c = s.peers c)
    ∧ (mapFind s.m_ServersInfo (s.responses r).members.m_ServerIPv4Address ≠ none →
        inactivePeerQueue (PeerServersManager.AddResponseToQueue M newPeer r s).2
            (targetPeer newPeer r s)
          = inactivePeerQueue s (targetPeer newPeer r s))
    ∧ ((PeerServersManager.AddResponseToQueue M newPeer r s).1 = true →
        activePeerQueue (PeerServersManager.AddResponseToQueue M newPeer r s).2
            (targetPeer newPeer r s)
          = r :: (if mapFind s.m_ServersInfo (s.responses r).members.m_ServerIPv4Address
                = none then [] else activePeerQueue s (targetPeer newPeer r s))
        ∧ targetPeer newPeer r s
            ∈ activeServersSet (PeerServersManager.AddResponseToQueue M newPeer r s).2) := by
  have hmem1 := mem_AddToServerSet s.m_RecevingServersSet1 (targetPeer newPeer r s)
  have hmem2 := mem_AddToServerSet s.m_RecevingServersSet2 (targetPeer newPeer r s)
  unfold targetPeer at hmem1 hmem2 ⊢
  unfold PeerServersManager.AddResponseToQueue inactiveServersSet activeServersSet
    inactivePeerQueue activePeerQueue
  simp only
  cases hfound : mapFind s.m_ServersInfo (s.responses r).members.m_ServerIPv4Address with
  | none =>
    rw [hfound] at hmem1 hmem2
    simp only [Option.getD_none] at hmem1 hmem2 ⊢
    cases hflag : s.m_bResponseDirectionFlag
    · by_cases hM : M = 0
      · simp [hM, hflag, Server.setPeer]
        intro c hc
        simp [Function.update, hc]
      · cases hadd : (AddToServerSet s.m_RecevingServersSet2 newPeer).1
        · simp [hM, hflag, Server.setPeer, hadd]
          intro c hc
          simp [Function.update, hc]
        · simp [hM, hflag, Server.setPeer, hadd, new_stPeerServer]
          refine ⟨?_, hmem2⟩
          intro c hc
          simp [Function.update, hc]
    · by_cases hM : M = 0
      · simp [hM, hflag, Server.setPeer]
        intro c hc
        simp [Function.update, hc]
      · cases hadd : (AddToServerSet s.m_RecevingServersSet1 newPeer).1
        · simp [hM, hflag, Server.setPeer, hadd]
          intro c hc
          simp [Function.update, hc]
        · simp [hM, hflag, Server.setPeer, hadd, new_stPeerServer]
          refine ⟨?_, hmem1⟩
          intro c hc
          simp [Function.update, hc]
  | some found =>
    rw [hfound] at hmem1 hmem2
    simp only [Option.getD_some] at hmem1 hmem2 ⊢
    cases hflag : s.m_bResponseDirectionFlag
    · by_cases hM : M = 0
      · simp [hM, hflag, Server.setPeer]
      · cases hadd : (AddToServerSet s.m_RecevingServersSet2 found).1
        · simp [hM, hflag, Server.setPeer, hadd]
        · simp [hM, hflag, Server.setPeer, hadd]
          refine ⟨?_, hmem2⟩
          intro c hc
          simp [Function.update, hc]
    · by_cases hM : M = 0
      · simp [hM, hflag, Server.setPeer]
      · cases hadd : (AddToServerSet s.m_RecevingServersSet1 found).1
        · simp [hM, hflag, Server.setPeer, hadd]
        · simp [hM, hflag, Server.setPeer, hadd]
          refine ⟨?_, hmem1⟩
          intro c hc
          simp [Function.update, hc]

theorem SendPeerServerResponses_others (uvw : uv_write_call → Int) (g : Nat → Int)
    (DPA : Server → Server) (sz : Nat) (now : Int) (b : Bool) (p : Nat) (s : Server) :
    ∀ c, c ≠ p →
      ((SendPeerServerResponses uvw g DPA sz now b p s).peers c).m_ResponsesQueue1
        = (s.peers c).m_ResponsesQueue1
      ∧ ((SendPeerServerResponses uvw g DPA sz now b p s).peers c).m_ResponsesQueue2
        = (s.peers c).m_ResponsesQueue2 := by
  unfold SendPeerServerResponses
  lift_lets
  intro eraseCurrent conn ConnStatus sG bQueue2 queue sP srcP sQ n call written RetVal sD srcD
    sD1 sE1 sE
  have herase : ∀ x : Server, (eraseCurrent x).peers = x.peers := by
    intro x
    exact apply_ite_eq (fun (t : Server) => t.peers) (fun _ => rfl) (fun _ => rfl)
  have hG : ∀ q, (sG.peers q).m_ResponsesQueue1 = (s.peers q).m_ResponsesQueue1
      ∧ (sG.peers q).m_ResponsesQueue2 = (s.peers q).m_ResponsesQueue2 := by
    intro q
    have h := (GetServerConnection_frame g now p s).2.2.2.2.2.2.2.2.2 q
    exact ⟨h.1, h.2.1⟩
  intro c hc
  by_cases h1 : ConnStatus = CONNECTION_CONNECTING ∨ ConnStatus = CONNECTION_OVERFLOWED
  · rw [if_pos h1]
    exact hG c
  · rw [if_neg h1]
    by_cases hskip : (sG.peers p).m_pResponsesBeingSent.length ≠ 0
    · rw [if_pos hskip, herase sG]
      exact hG c
    · rw [if_neg hskip, herase sE]
      obtain ⟨_, p2, _⟩ := peerPush_spec ConnStatus p queue.reverse sG
      have hPf : CompletionFrame sG sP := p2
      have a7 := hPf.2.2.2.2.2.2
      have hQo : sQ.peers c = sP.peers c := setPeer_peers_other _ _ _ _ hc
      have hD : sD.peers = sQ.peers := by
        by_cases hm : ConnStatus = CONNECTION_CONNECTED
        · have hsD : sD = { sQ with writes := sQ.writes ++ [call] } :=
            congrArg Prod.snd (if_pos hm)
          rw [hsD]
        · have hsD : sD = sQ := congrArg Prod.snd (if_neg hm)
          rw [hsD]
      have hE : ∀ q, (sE.peers q).m_ResponsesQueue1 = (sD.peers q).m_ResponsesQueue1
          ∧ (sE.peers q).m_ResponsesQueue2 = (sD.peers q).m_ResponsesQueue2 := by
        by_cases hr : RetVal ≥ 0
        · have : sE = { sD with m_stServerStat := { srcD with ResponsesBeingSent := srcD.ResponsesBeingSent + int_of_ULONG n } } :=
            if_pos hr
          rw [this]
          exact fun _ => ⟨rfl, rfl⟩
        · have : sE = { sE1 with after_send_response_called_by_send_response := false } :=
            if_neg hr
          rw [this]
          obtain ⟨t0, e0, e1, _, _⟩ :=
            after_send_responses_spec DPA sz (Node.server p) RetVal now sD1
          have ht0 : sE1 = t0 := by
            show after_send_responses DPA sz (Node.server p) RetVal now sD1 = t0
            rw [e0]
            exact if_neg (by show ¬ (true = false); decide)
          rw [ht0]
          exact fun q => e1.2.2.2.2.2.2 q
      rw [(hE c).1, (hE c).2, hD, hQo, (a7 c).1, (a7 c).2]
      exact hG c

theorem foldl_keeps_queues {α : Type} (proj : Server → Nat → α) (f : Server → Nat → Server)
    (h : ∀ s p c, c ≠ p → proj (f s p) c = proj s c) :
    ∀ (l : List Nat) (s : Server) (c : Nat), c ∉ l → proj (l.foldl f s) c = proj s c := by
  intro l
  induction l with
  | nil => intro s c _; rfl
  | cons x rest ih =>
    intro s c hc
    rw [List.foldl_cons, ih (f s x) c (fun h1 => hc (List.mem_cons_of_mem _ h1))]
    exact h s x c (fun h1 => hc (h1 ▸ List.mem_cons_self _ _))

theorem SendLocalClientsResponses_others (M : Int) (uvw : uv_write_call → Int)
    (DPA : Server → Server) (sz : Nat) (now : Int) (s : Server) (c : Nat)
    (hc : c ∉ inactiveClientsSet s) :
    inactiveQueue (SendLocalClientsResponses M uvw DPA sz now s) c = inactiveQueue s c := by
  have hflag := (SendLocalClientsResponses_frame M uvw DPA sz now s).1
  have h := foldl_keeps_queues
    (fun (t : Server) (q : Nat) => ((t.clients q).m_ResponsesQueue1, (t.clients q).m_ResponsesQueue2))
    (fun (t : Server) (p : Nat) =>
      SendLocalClientResponses M uvw DPA sz now s.m_bResponseDirectionFlag p t)
    (fun t p q hq => by
      have := (SendLocalClientResponses_calls M uvw DPA sz now s.m_bResponseDirectionFlag p t).2 q hq
      exact Prod.ext this.1 this.2)
    (inactiveClientsSet s) s c hc
  have h' : ((SendLocalClientsResponses M uvw DPA sz now s).clients c).m_ResponsesQueue1
        = (s.clients c).m_ResponsesQueue1
      ∧ ((SendLocalClientsResponses M uvw DPA sz now s).clients c).m_ResponsesQueue2
        = (s.clients c).m_ResponsesQueue2 :=
    ⟨congrArg Prod.fst h, congrArg Prod.snd h⟩
  unfold inactiveQueue
  rw [hflag, h'.1, h'.2]

theorem SendPeerServersResponses_others (uvw : uv_write_call → Int) (g : Nat → Int)
    (DPA : Server → Server) (sz : Nat) (now : Int) (s : Server) (c : Nat)
    (hc : c ∉ inactiveServersSet s) :
    inactivePeerQueue (SendPeerServersResponses uvw g DPA sz now s) c
      = inactivePeerQueue s c := by
  have hflag := (SendPeerServersResponses_frame uvw g DPA sz now s).1
  have h := foldl_keeps_queues
    (fun (t : Server) (q : Nat) => ((t.peers q).m_ResponsesQueue1, (t.peers q).m_ResponsesQueue2))
    (fun (t : Server) (p : Nat) =>
      SendPeerServerResponses uvw g DPA sz now s.m_bResponseDirectionFlag p t)
    (fun t p q hq => by
      have := SendPeerServerResponses_others uvw g DPA sz now s.m_bResponseDirectionFlag p t q hq
      exact Prod.ext this.1 this.2)
    (inactiveServersSet s) s c hc
  have h' : ((SendPeerServersResponses uvw g DPA sz now s).peers c).m_ResponsesQueue1
        = (s.peers c).m_ResponsesQueue1
      ∧ ((SendPeerServersResponses uvw g DPA sz now s).peers c).m_ResponsesQueue2
        = (s.peers c).m_ResponsesQueue2 :=
    ⟨congrArg Prod.fst h, congrArg Prod.snd h⟩
  unfold inactivePeerQueue
  rw [hflag, h'.1, h'.2]

theorem toggled_sides (s : Server) :
    (∀ c, activeQueue
        { s with m_bResponseDirectionFlag := if s.m_bResponseDirectionFlag then false else true } c
          = inactiveQueue s c
      ∧ inactiveQueue
        { s with m_bResponseDirectionFlag := if s.m_bResponseDirectionFlag then false else true } c
          = activeQueue s c)
    ∧ (∀ c, activePeerQueue
        { s with m_bResponseDirectionFlag := if s.m_bResponseDirectionFlag then false else true } c
          = inactivePeerQueue s c
      ∧ inactivePeerQueue
        { s with m_bResponseDirectionFlag := if s.m_bResponseDirectionFlag then false else true } c
          = activePeerQueue s c) := by
  unfold activeQueue inactiveQueue activePeerQueue inactivePeerQueue
  cases h : s.m_bResponseDirectionFlag <;> simp [h]

/-- Claim C23. The enqueue of a response for a session
(`LocalClientsManager::AddResponseToQueue`) and for a peer
(`PeerServersManager::AddResponseToQueue`) leaves the queue and the receivers set of the
other side (queue 2 and set 2 when the flag is true, queue 1 and set 1 when it is false)
as they were, and on success puts the response at the front of the queue of the flag and
the session or peer in the same-numbered set. The drains `SendLocalClientsResponses` and
`SendPeerServersResponses` leave every queue of the flag as it was, only shorten queues
of the other side, and keep the queue of every session or peer that is not in the set of
the other side. `ConnectionsManager::SendResponses` returns with the flag negated, so
the queue it has drained is the one that was the enqueue target before the call: every
response it hands to `uv_write` was in that queue. -/
theorem C23_enqueue_and_drain_use_opposite_sides (M : Int) (uvw : uv_write_call → Int)
    (g : Nat → Int) (DPA : Server → Server) (sz : Nat) (now : Int) (newPeer r p : Nat)
    (s : Server) :
    ((∀ c, inactiveQueue (LocalClientsManager.AddResponseToQueue M r p s).2 c
          = inactiveQueue s c)
      ∧ inactiveClientsSet (LocalClientsManager.AddResponseToQueue M r p s).2
          = inactiveClientsSet s
      ∧ ((LocalClientsManager.AddResponseToQueue M r p s).1 = true →
          activeQueue (LocalClientsManager.AddResponseToQueue M r p s).2 p
            = r :: activeQueue s p
          ∧ p ∈ activeClientsSet (LocalClientsManager.AddResponseToQueue M r p s).2))
    ∧ (inactiveServersSet (PeerServersManager.AddResponseToQueue M newPeer r s).2
          = inactiveServersSet s
      ∧ (∀ c, c ≠ targetPeer newPeer r s →
          (PeerServersManager.AddResponseToQueue M newPeer r s).2.peers c = s.peers c)
      ∧ (mapFind s.m_ServersInfo (s.responses r).members.m_ServerIPv4Address ≠ none →
          inactivePeerQueue (PeerServersManager.AddResponseToQueue M newPeer r s).2
              (targetPeer newPeer r s)
            = inactivePeerQueue s (targetPeer newPeer r s))
      ∧ ((PeerServersManager.AddResponseToQueue M newPeer r s).1 = true →
          activePeerQueue (PeerServersManager.AddResponseToQueue M newPeer r s).2
              (targetPeer newPeer r s)
            = r :: (if mapFind s.m_ServersInfo (s.responses r).members.m_ServerIPv4Address
                  = none then [] else activePeerQueue s (targetPeer newPeer r s))
          ∧ targetPeer newPeer r s
              ∈ activeServersSet (PeerServersManager.AddResponseToQueue M newPeer r s).2))
    ∧ (∀ c, activeQueue (SendLocalClientsResponses M uvw DPA sz now s) c = activeQueue s c
        ∧ inactiveQueue (SendLocalClientsResponses M uvw DPA sz now s) c <+: inactiveQueue s c
        ∧ (c ∉ inactiveClientsSet s →
            inactiveQueue (SendLocalClientsResponses M uvw DPA sz now s) c
              = inactiveQueue s c))
    ∧ (∀ c, activePeerQueue (SendPeerServersResponses uvw g DPA sz now s) c
          = activePeerQueue s c
        ∧ inactivePeerQueue (SendPeerServersResponses uvw g DPA sz now s) c
            <+: inactivePeerQueue s c
        ∧ (c ∉ inactiveServersSet s →
            inactivePeerQueue (SendPeerServersResponses uvw g DPA sz now s) c
              = inactivePeerQueue s c))
    ∧ ((SendResponses M uvw g DPA sz now s).m_bResponseDirectionFlag
          = (!s.m_bResponseDirectionFlag)
      ∧ (∀ c, activeQueue (SendResponses M uvw g DPA sz now s) c = inactiveQueue s c
          ∧ inactiveQueue (SendResponses M uvw g DPA sz now s) c <+: activeQueue s c)
      ∧ (∀ c, activePeerQueue (SendResponses M uvw g DPA sz now s) c = inactivePeerQueue s c
          ∧ inactivePeerQueue (SendResponses M uvw g DPA sz now s) c <+: activePeerQueue s c)
      ∧ ∃ calls, (SendResponses M uvw g DPA sz now s).writes = s.writes ++ calls
          ∧ ∀ call ∈ calls,
              (∀ c, call.pNode = Node.client c →
                ∀ x ∈ call.responses, x ∈ activeQueue s c)
              ∧ (∀ c, call.pNode = Node.server c →
                ∀ x ∈ call.responses, x ∈ activePeerQueue s c)) := by
  refine ⟨⟨?_, (AddResponseToQueue_sets M r p s).1, ?_⟩, ?_, ?_, ?_, ?_⟩
  · intro c
    by_cases hc : c = p
    · rw [hc]
      exact (AddResponseToQueue_frame M r p s).2.2.2.2.2.2
    · unfold inactiveQueue
      rw [(AddResponseToQueue_result M r p s).2.2,
        (AddResponseToQueue_frame M r p s).2.2.1 c hc]
  · intro h
    exact ⟨(AddResponseToQueue_result M r p s).1 h, (AddResponseToQueue_sets M r p s).2.2 h⟩
  · exact (PeerAddResponseToQueue_sides M newPeer r s).2.2
  · intro c
    obtain ⟨_, _, _, h4, _⟩ := SendLocalClientsResponses_frame M uvw DPA sz now s
    exact ⟨(h4 c).1, (h4 c).2.1, SendLocalClientsResponses_others M uvw DPA sz now s c⟩
  · intro c
    obtain ⟨_, _, _, _, h5, _⟩ := SendPeerServersResponses_frame uvw g DPA sz now s
    exact ⟨(h5 c).1, (h5 c).2, SendPeerServersResponses_others uvw g DPA sz now s c⟩
  · obtain ⟨h1, _, _, h4, h5, ⟨calls, h6, h7⟩, _⟩ := SendResponses_frame M uvw g DPA sz now s
    obtain ⟨t1, t2⟩ := toggled_sides s
    refine ⟨?_, ?_, ?_, calls, h6, ?_⟩
    · rw [h1]
      cases s.m_bResponseDirectionFlag <;> rfl
    · intro c
      refine ⟨(h4 c).1.trans (t1 c).1, ?_⟩
      rw [← (t1 c).2]
      exact (h4 c).2.1
    · intro c
      refine ⟨(h5 c).1.trans (t2 c).1, ?_⟩
      rw [← (t2 c).2]
      exact (h5 c).2
    · intro call hcall
      refine ⟨?_, ?_⟩
      · intro c hc x hx
        rw [← (t1 c).2]
        exact ((h7 call hcall).1 c hc x hx).1
      · intro c hc x hx
        rw [← (t2 c).2]
        exact (h7 call hcall).2 c hc x hx

theorem C23_enqueue_and_drain_use_opposite_sides_witness :
    ((LocalClientsManager.AddResponseToQueue 16 5000 100
        (twoSessions.setResponse 5000 ordinaryResponse)).1 = true
      ∧ 200 ∉ inactiveClientsSet (twoSessions.setResponse 5000 ordinaryResponse))
    ∧ (activeQueue (LocalClientsManager.AddResponseToQueue 16 5000 100
          (twoSessions.setResponse 5000 ordinaryResponse)).2 100
        = 5000 :: activeQueue (twoSessions.setResponse 5000 ordinaryResponse) 100
      ∧ 100 ∈ activeClientsSet (LocalClientsManager.AddResponseToQueue 16 5000 100
          (twoSessions.setResponse 5000 ordinaryResponse)).2)
    ∧ inactiveQueue (SendLocalClientsResponses 16 (fun _ => 0) (fun x => x) 64 50
          (twoSessions.setResponse 5000 ordinaryResponse)) 200
        = inactiveQueue (twoSessions.setResponse 5000 ordinaryResponse) 200 :=
  ⟨⟨by decide, by decide⟩,
    (C23_enqueue_and_drain_use_opposite_sides 16 (fun _ => 0) (fun _ => 0) (fun x => x) 64 50
      300 5000 100 (twoSessions.setResponse 5000 ordinaryResponse)).1.2.2 (by decide),
    ((C23_enqueue_and_drain_use_opposite_sides 16 (fun _ => 0) (fun _ => 0) (fun x => x) 64 50
      300 5000 100 (twoSessions.setResponse 5000 ordinaryResponse)).2.2.1 200).2.2
      (by decide)⟩

theorem SendResponses_sample :
    (SendResponses 16 (fun _ => 0) (fun _ => 0) (fun x => x) 64 50
        (enqueueForA 5001 twoSessions)).writes.map (fun call => call.responses) = [[5001]]
    ∧ (SendResponses 16 (fun _ => 0) (fun _ => 0) (fun x => x) 64 50
        (enqueueForA 5001 twoSessions)).m_bResponseDirectionFlag
        = !(enqueueForA 5001 twoSessions).m_bResponseDirectionFlag
    ∧ activeQueue (enqueueForA 5001 twoSessions) 100 = [5001] := by
  decide

/-! ## The retry window of a peer connection -/

theorem InitiateConnection_DisconnectedTime (g : Nat → Int) (now : Int) (p : Nat)
    (s : Server) :
    ((InitiateConnection g now p s).peers p).DisconnectedTime
        = (s.peers p).DisconnectedTime
    ∧ (InitiateConnection g now p s).connectionsInitiated = s.connectionsInitiated ++ [p]
    ∧ ((InitiateConnection g now p s).peers p).Status
        = (if g p = -1 then CONNECTION_DISCONNECTED else CONNECTION_CONNECTING) := by
  unfold InitiateConnection
  by_cases h : g p = -1 <;> simp [h, Server.setPeer]

theorem GetServerConnection_disconnected (g : Nat → Int) (now : Int) (p : Nat) (s : Server)
    (h : (s.peers p).Status = CONNECTION_DISCONNECTED) :
    GetServerConnection g now p s
      = (if now - (s.peers p).DisconnectedTime > RETRY_CONNECTION_AFTER then
          (((InitiateConnection g now p s).peers p).Status, InitiateConnection g now p s)
        else (CONNECTION_DISCONNECTED, s)) := by
  unfold GetServerConnection
  simp [h]

/-- Claim C18, refuted on the code. A first call of `GetServerConnection` at the time
1000 for a fresh peer, with `uv_getaddrinfo` failing synchronously, initiates a connection
and returns `CONNECTION_DISCONNECTED`, and leaves `DisconnectedTime` at the 0 of the
constructor. The next call, one second later, initiates a connection again: with the
same failure the peer has two initiations within a second, and when `uv_getaddrinfo`
succeeds the call returns `CONNECTION_CONNECTING`. -/
theorem C18_synchronous_failure_is_retried_at_once :
    synchronousFailure.1 = CONNECTION_DISCONNECTED
    ∧ (synchronousFailure.2.peers 300).Status = CONNECTION_DISCONNECTED
    ∧ synchronousFailure.2.connectionsInitiated = [300]
    ∧ (synchronousFailure.2.peers 300).DisconnectedTime = 0
    ∧ (GetServerConnection (fun _ => -1) 1001 300
        synchronousFailure.2).2.connectionsInitiated = [300, 300]
    ∧ (GetServerConnection (fun _ => 0) 1001 300 synchronousFailure.2).1
        = CONNECTION_CONNECTING
    ∧ (GetServerConnection (fun _ => 0) 1001 300
        synchronousFailure.2).2.connectionsInitiated = [300, 300] := by
  decide

/-- After the close callback `on_server_closed` at the time 1000 the window is kept: a
call at the time 1030 returns `CONNECTION_DISCONNECTED` and initiates nothing, a call at
the time 1031 initiates a connection. -/
theorem on_server_closed_sample :
    GetServerConnection (fun _ => 0) 1030 300
        (on_server_closed (fun x => x) 1000 300 initialServer)
      = (CONNECTION_DISCONNECTED, on_server_closed (fun x => x) 1000 300 initialServer)
    ∧ (GetServerConnection (fun _ => 0) 1031 300
        (on_server_closed (fun x => x) 1000 300 initialServer)).1 = CONNECTION_CONNECTING
    ∧ (GetServerConnection (fun _ => 0) 1031 300
        (on_server_closed (fun x => x) 1000 300 initialServer)).2.connectionsInitiated
        = [300] := by
  refine ⟨?_, by decide, by decide⟩
  rw [GetServerConnection_disconnected _ _ _ _ (by decide)]
  exact if_neg (by decide)

/-! ## The inbound buffer of a peer connection -/

theorem parse_cases (params : Nat → Option VersionParameters) (buf : List Byte)
    (n e : Nat) (out0 : Buffer) :
    ((ValidateProtocolAndExtractRequest params buf n e out0).code = REQUEST_FOUND
      ∧ (ValidateProtocolAndExtractRequest params buf n e out0).request_out.base ≠ none
      ∧ (ValidateProtocolAndExtractRequest params buf n e out0).request_out.len + 10 ≤ n + 1
      ∧ 1 ≤ (ValidateProtocolAndExtractRequest params buf n e out0).request_out.len
      ∧ (ValidateProtocolAndExtractRequest params buf n e out0).request_out.len < 4294967296)
    ∨ ((ValidateProtocolAndExtractRequest params buf n e out0).code = INVALID_HEADER
      ∨ (ValidateProtocolAndExtractRequest params buf n e out0).code = INVALID_VERSION
      ∨ (ValidateProtocolAndExtractRequest params buf n e out0).code = INVALID_SIZE)
    ∨ (ValidateProtocolAndExtractRequest params buf n e out0).code = WAIT_FOR_MORE_BYTES := by
  unfold ValidateProtocolAndExtractRequest
  have hlt := ntohl_lt (loadUINT buf (PREAMBLE_BYTES + VERSION_BYTES))
  simp only
  generalize params (ntohs (loadUSHORT buf PREAMBLE_BYTES)) = pv
  cases pv with
  | none =>
    simp only
    split_ifs
    · exact Or.inr (Or.inr rfl)
    · exact Or.inr (Or.inl (Or.inl rfl))
    · exact Or.inr (Or.inl (Or.inr (Or.inl rfl)))
    · exact Or.inr (Or.inl (Or.inr (Or.inr rfl)))
    · exact Or.inr (Or.inl (Or.inr (Or.inl rfl)))
  | some vp =>
    simp only
    split_ifs with h1 h2 h3 h4 h5 h6
    · exact Or.inr (Or.inr rfl)
    · exact Or.inr (Or.inl (Or.inl rfl))
    · exact Or.inr (Or.inl (Or.inr (Or.inl rfl)))
    · exact Or.inr (Or.inl (Or.inr (Or.inr rfl)))
    · exact Or.inr (Or.inl (Or.inr (Or.inr rfl)))
    · exact Or.inr (Or.inr rfl)
    · refine Or.inl ⟨rfl, by simp, ?_, ?_, hlt⟩
      · simp only [HEADER_SIZE, PREAMBLE_BYTES, VERSION_BYTES, SIZE_BYTES] at h6 hlt ⊢
        omega
      · simp only [PREAMBLE_BYTES, VERSION_BYTES] at h4 ⊢
        omega

theorem extractResponses_succ (params : Nat → Option VersionParameters)
    (DPA : Server → Server) (PeerSvr fuel : Nat) (s : Server) :
    extractResponses params DPA PeerSvr (fuel + 1) s =
      (let peer := s.peers PeerSvr
      let result := ValidateProtocolAndExtractRequest params
        peer.m_response_buffer peer.m_ResponseBufferIndex peer.m_Version ⟨none, 0⟩
      let response := result.request_out
      let s := s.setPeer PeerSvr { peer with m_Version := result.ExistingVersion }
      if result.code = REQUEST_FOUND ∧ response.base ≠ none then
        let s := PeerServersManager.ProcessResponse DPA response PeerSvr s
        let peer := s.peers PeerSvr
        let s := s.setPeer PeerSvr
          { peer with
            m_response_buffer :=
              peer.m_response_buffer.drop ((response.len + HEADER_SIZE) % 4294967296),
            m_ResponseBufferIndex :=
              subUINT peer.m_ResponseBufferIndex (response.len + HEADER_SIZE) }
        extractResponses params DPA PeerSvr fuel s
      else if result.code = INVALID_HEADER ∨ result.code = INVALID_VERSION
          ∨ result.code = INVALID_SIZE then
        let s := s.setPeer PeerSvr
          { s.peers PeerSvr with m_ResponseBufferIndex := 0, m_response_buffer := [] }
        extractResponses params DPA PeerSvr fuel { s with errors := s.errors + 1 }
      else if result.code = WAIT_FOR_MORE_BYTES then some s
      else extractResponses params DPA PeerSvr fuel { s with errors := s.errors + 1 }) := by
  rw [extractResponses]

theorem extractResponses_wait (params : Nat → Option VersionParameters)
    (DPA : Server → Server) (p fuel : Nat) (s : Server)
    (h : (ValidateProtocolAndExtractRequest params (s.peers p).m_response_buffer
      (s.peers p).m_ResponseBufferIndex (s.peers p).m_Version ⟨none, 0⟩).code
        = WAIT_FOR_MORE_BYTES) :
    extractResponses params DPA p (fuel + 1) s
      = some (s.setPeer p
          { s.peers p with
            m_Version := (ValidateProtocolAndExtractRequest params
              (s.peers p).m_response_buffer (s.peers p).m_ResponseBufferIndex
              (s.peers p).m_Version ⟨none, 0⟩).ExistingVersion }) := by
  rw [extractResponses_succ]
  lift_lets
  intro peer result response s1 sP peerP sQ src s2
  have hc : result.code = WAIT_FOR_MORE_BYTES := h
  rw [if_neg (fun hx => absurd (hc.symm.trans hx.1) (by decide)),
    if_neg (by rw [hc]; decide), if_pos hc]

theorem extractResponses_empty (params : Nat → Option VersionParameters)
    (DPA : Server → Server) (p fuel : Nat) (s : Server)
    (h : (s.peers p).m_ResponseBufferIndex = 0) :
    extractResponses params DPA p (fuel + 1) s
      = some (s.setPeer p { s.peers p with m_Version := (s.peers p).m_Version }) := by
  have hr : ValidateProtocolAndExtractRequest params (s.peers p).m_response_buffer
      (s.peers p).m_ResponseBufferIndex (s.peers p).m_Version ⟨none, 0⟩
      = ⟨WAIT_FOR_MORE_BYTES, (s.peers p).m_Version, ⟨none, 0⟩⟩ := by
    unfold ValidateProtocolAndExtractRequest
    rw [h]
    exact if_pos (by decide)
  rw [extractResponses_wait params DPA p fuel s (by rw [hr]), hr]

theorem extractResponses_invalid (params : Nat → Option VersionParameters)
    (DPA : Server → Server) (p fuel : Nat) (s : Server)
    (h : (ValidateProtocolAndExtractRequest params (s.peers p).m_response_buffer
        (s.peers p).m_ResponseBufferIndex (s.peers p).m_Version ⟨none, 0⟩).code
          = INVALID_HEADER
      ∨ (ValidateProtocolAndExtractRequest params (s.peers p).m_response_buffer
        (s.peers p).m_ResponseBufferIndex (s.peers p).m_Version ⟨none, 0⟩).code
          = INVALID_VERSION
      ∨ (ValidateProtocolAndExtractRequest params (s.peers p).m_response_buffer
        (s.peers p).m_ResponseBufferIndex (s.peers p).m_Version ⟨none, 0⟩).code
          = INVALID_SIZE) :
    ∃ t, extractResponses params DPA p (fuel + 2) s = some t
      ∧ (t.peers p).Status = (s.peers p).Status
      ∧ (t.peers p).m_connection = (s.peers p).m_connection
      ∧ (t.peers p).m_ResponseBufferIndex = 0
      ∧ (t.peers p).m_response_buffer = []
      ∧ t.closes = s.closes
      ∧ t.m_ServersClosing = s.m_ServersClosing
      ∧ t.m_ServersConnected = s.m_ServersConnected
      ∧ t.errors = s.errors + 1 := by
  rw [extractResponses_succ]
  lift_lets
  intro peer result response s1 sP peerP sQ src s2
  have hc : result.code = INVALID_HEADER ∨ result.code = INVALID_VERSION
      ∨ result.code = INVALID_SIZE := h
  have hn : ¬ (result.code = REQUEST_FOUND ∧ response.base ≠ none) := by
    intro hx
    rcases hc with h1 | h1 | h1 <;> rw [hx.1] at h1 <;> exact absurd h1 (by decide)
  rw [if_neg hn, if_pos hc]
  have h0 : ({ s2 with errors := s2.errors + 1 }.peers p).m_ResponseBufferIndex = 0 := by
    show ((s1.setPeer p _).peers p).m_ResponseBufferIndex = 0
    rw [setPeer_peers_self]
  rw [extractResponses_empty params DPA p fuel _ h0]
  refine ⟨_, rfl, ?_, ?_, ?_, ?_, rfl, rfl, rfl, rfl⟩
  · rw [setPeer_peers_self]
    show ((s1.setPeer p _).peers p).Status = _
    rw [setPeer_peers_self]
    show ((s.setPeer p _).peers p).Status = _
    rw [setPeer_peers_self]
  · rw [setPeer_peers_self]
    show ((s1.setPeer p _).peers p).m_connection = _
    rw [setPeer_peers_self]
    show ((s.setPeer p _).peers p).m_connection = _
    rw [setPeer_peers_self]
  · rw [setPeer_peers_self]
    exact h0
  · rw [setPeer_peers_self]
    show ((s1.setPeer p _).peers p).m_response_buffer = _
    rw [setPeer_peers_self]

theorem ProcessResponse_index (DPA : Server → Server) (p : Nat)
    (hDPA : ∀ x, ((DPA x).peers p).m_ResponseBufferIndex = (x.peers p).m_ResponseBufferIndex)
    (response : Buffer) (s : Server) :
    ((PeerServersManager.ProcessResponse DPA response p s).peers p).m_ResponseBufferIndex
      = (s.peers p).m_ResponseBufferIndex := by
  unfold PeerServersManager.ProcessResponse
  simp only
  split_ifs <;> simp [Server.setPeer, hDPA]

theorem subUINT_of_le (a b : Nat) (ha : a < 4294967296) (hb : b ≤ a) :
    subUINT a b = a - b := by
  unfold subUINT
  omega

theorem extractResponses_terminates (params : Nat → Option VersionParameters)
    (DPA : Server → Server) (p : Nat)
    (hDPA : ∀ x, ((DPA x).peers p).m_ResponseBufferIndex = (x.peers p).m_ResponseBufferIndex) :
    ∀ (fuel : Nat) (s : Server), (s.peers p).m_ResponseBufferIndex < 4294967296 →
      (s.peers p).m_ResponseBufferIndex / 10 + 2 ≤ fuel →
      ∃ t, extractResponses params DPA p fuel s = some t
        ∧ (t.peers p).m_ResponseBufferIndex ≤ (s.peers p).m_ResponseBufferIndex := by
  intro fuel
  induction fuel with
  | zero => intro s _ h; omega
  | succ fuel ih =>
    intro s hlt hfuel
    rcases parse_cases params (s.peers p).m_response_buffer (s.peers p).m_ResponseBufferIndex
      (s.peers p).m_Version ⟨none, 0⟩ with ⟨h1, h2, h3, h4, h5⟩ | hinv | hwait
    · rw [extractResponses_succ]
      lift_lets
      intro peer result response s1 sP peerP sQ src s2
      rw [if_pos ⟨h1, h2⟩]
      have e1 : (s1.peers p).m_ResponseBufferIndex = (s.peers p).m_ResponseBufferIndex := by
        show ((s.setPeer p _).peers p).m_ResponseBufferIndex = _
        rw [setPeer_peers_self]
      have e2 : peerP.m_ResponseBufferIndex = (s.peers p).m_ResponseBufferIndex :=
        (ProcessResponse_index DPA p hDPA response s1).trans e1
      have hlen : response.len + HEADER_SIZE ≤ (s.peers p).m_ResponseBufferIndex := by
        have : response.len + 10 ≤ (s.peers p).m_ResponseBufferIndex + 1 := h3
        simp only [HEADER_SIZE, PREAMBLE_BYTES, VERSION_BYTES, SIZE_BYTES]
        omega
      have hlen1 : 1 ≤ response.len := h4
      have e3 : (sQ.peers p).m_ResponseBufferIndex
          = (s.peers p).m_ResponseBufferIndex - (response.len + HEADER_SIZE) := by
        show ((sP.setPeer p _).peers p).m_ResponseBufferIndex = _
        rw [setPeer_peers_self]
        show subUINT peerP.m_ResponseBufferIndex (response.len + HEADER_SIZE) = _
        rw [e2]
        exact subUINT_of_le _ _ hlt hlen
      have hH : HEADER_SIZE = 9 := rfl
      obtain ⟨t, a1, a2⟩ := ih sQ (by rw [e3]; omega) (by rw [e3]; omega)
      exact ⟨t, a1, by rw [e3] at a2; omega⟩
    · obtain ⟨f, hf⟩ : ∃ f, fuel = f + 1 := ⟨fuel - 1, by omega⟩
      rw [hf]
      obtain ⟨t, a1, _, _, a4, _⟩ := extractResponses_invalid params DPA p f s hinv
      exact ⟨t, a1, by rw [a4]; exact Nat.zero_le _⟩
    · rw [extractResponses_wait params DPA p fuel s hwait]
      refine ⟨_, rfl, ?_⟩
      rw [setPeer_peers_self]

theorem on_read_returns (params : Nat → Option VersionParameters)
    (DPA : Server → Server) (p : Nat)
    (hDPA : ∀ x, ((DPA x).peers p).m_ResponseBufferIndex = (x.peers p).m_ResponseBufferIndex)
    (nread : Int) (read_bytes : List Byte) (fuel : Nat) (s : Server) (hn : 0 ≤ nread)
    (hfuel : ((s.peers p).m_ResponseBufferIndex + UINT_of_int nread) % 4294967296 / 10 + 2
      ≤ fuel) :
    ∃ t, PeerServersManager.on_read params DPA p nread read_bytes fuel s = some t
      ∧ (t.peers p).m_ResponseBufferIndex
          ≤ ((s.peers p).m_ResponseBufferIndex + UINT_of_int nread) % 4294967296 := by
  unfold PeerServersManager.on_read
  rw [if_neg (by omega)]
  lift_lets
  intro peer s1
  have e1 : (s1.peers p).m_ResponseBufferIndex
      = ((s.peers p).m_ResponseBufferIndex + UINT_of_int nread) % 4294967296 := by
    show ((s.setPeer p _).peers p).m_ResponseBufferIndex = _
    rw [setPeer_peers_self]
  obtain ⟨t, a1, a2⟩ := extractResponses_terminates params DPA p hDPA fuel s1
    (by rw [e1]; exact Nat.mod_lt _ (by decide)) (by rw [e1]; exact hfuel)
  exact ⟨t, a1, by rw [e1] at a2; exact a2⟩

theorem on_read_returns_sample :
    (PeerServersManager.on_read sampleParams (fun x => x) 300 20
        (frame SPECIAL_COMMUNICATION [RESPONSE_ACKNOWLEDGEMENT_OF_FORWARDED_RESP]
          ++ frame SPECIAL_COMMUNICATION [RESPONSE_KEEP_ALIVE]) 4 connectedPeer).map
      (fun t => ((t.peers 300).m_ResponseBufferIndex, (t.peers 300).ResponsesForwarded,
        (t.peers 300).m_Version, t.errors))
      = some (0, -1, SPECIAL_COMMUNICATION, 0) := by
  decide

/-- Claim C24, refuted on the code. The peer 300 is connected and libuv delivers ten bytes
that do not start with the preamble: the parser returns `INVALID_HEADER`, and `on_read`
returns with the peer still `CONNECTION_CONNECTED`, no handle closed and no peer closing;
it has dropped the bytes and logged one error. A call of `DisconnectServer` on the same
peer would have set the status `CONNECTION_DISCONNECTING` and closed the handle. -/
theorem C24_counterexample :
    (ValidateProtocolAndExtractRequest sampleParams malformedBytes 10 DEFAULT_VERSION
        ⟨none, 0⟩).code = INVALID_HEADER
    ∧ (PeerServersManager.on_read sampleParams (fun x => x) 300 10 malformedBytes 3
        connectedPeer).map
      (fun t => ((t.peers 300).Status, (t.peers 300).m_ResponseBufferIndex, t.closes,
        t.m_ServersClosing, t.errors))
      = some (CONNECTION_CONNECTED, 0, [], 0, 1)
    ∧ ((DisconnectServer 300 true connectedPeer).peers 300).Status = CONNECTION_DISCONNECTING
    ∧ (DisconnectServer 300 true connectedPeer).closes = [300] := by
  decide

/-- Claim C24, amended. Whenever the frame parser returns `INVALID_HEADER`,
`INVALID_VERSION` or `INVALID_SIZE` at the head of the loop of
`PeerServersManager::on_read`, the loop returns after one more iteration, with the
buffered bytes dropped (`m_ResponseBufferIndex` is 0) and one error logged; the status and
the connection of the peer are as they were, no handle is closed and the counts of
connected and closing peers are unchanged, so `DisconnectServer` has not been invoked.
`on_read` invokes `DisconnectServer` when libuv reports a read error (`nread < 0`). -/
theorem C24_parse_error_drops_buffer_and_keeps_peer (params : Nat → Option VersionParameters)
    (DPA : Server → Server) (p fuel : Nat) (s : Server) :
    ((ValidateProtocolAndExtractRequest params (s.peers p).m_response_buffer
          (s.peers p).m_ResponseBufferIndex (s.peers p).m_Version ⟨none, 0⟩).code
            = INVALID_HEADER
        ∨ (ValidateProtocolAndExtractRequest params (s.peers p).m_response_buffer
          (s.peers p).m_ResponseBufferIndex (s.peers p).m_Version ⟨none, 0⟩).code
            = INVALID_VERSION
        ∨ (ValidateProtocolAndExtractRequest params (s.peers p).m_response_buffer
          (s.peers p).m_ResponseBufferIndex (s.peers p).m_Version ⟨none, 0⟩).code
            = INVALID_SIZE →
      ∃ t, extractResponses params DPA p (fuel + 2) s = some t
        ∧ (t.peers p).Status = (s.peers p).Status
        ∧ (t.peers p).m_connection = (s.peers p).m_connection
        ∧ (t.peers p).m_ResponseBufferIndex = 0
        ∧ (t.peers p).m_response_buffer = []
        ∧ t.closes = s.closes
        ∧ t.m_ServersClosing = s.m_ServersClosing
        ∧ t.m_ServersConnected = s.m_ServersConnected
        ∧ t.errors = s.errors + 1)
    ∧ (∀ (nread : Int) (read_bytes : List Byte), nread < 0 →
        PeerServersManager.on_read params DPA p nread read_bytes fuel s
          = some (DisconnectServer p true { s with errors := s.errors + 1 })) :=
  ⟨extractResponses_invalid params DPA p fuel s,
    fun _ _ h => if_pos h⟩

theorem C24_parse_error_drops_buffer_and_keeps_peer_witness :
    ((ValidateProtocolAndExtractRequest sampleParams (malformedBuffered.peers 300).m_response_buffer
        (malformedBuffered.peers 300).m_ResponseBufferIndex
        (malformedBuffered.peers 300).m_Version ⟨none, 0⟩).code = INVALID_HEADER
      ∧ (-4095 : Int) < 0)
    ∧ (∃ t, extractResponses sampleParams (fun x => x) 300 (0 + 2) malformedBuffered = some t
        ∧ (t.peers 300).Status = (malformedBuffered.peers 300).Status
        ∧ (t.peers 300).m_connection = (malformedBuffered.peers 300).m_connection
        ∧ (t.peers 300).m_ResponseBufferIndex = 0
        ∧ (t.peers 300).m_response_buffer = []
        ∧ t.closes = malformedBuffered.closes
        ∧ t.m_ServersClosing = malformedBuffered.m_ServersClosing
        ∧ t.m_ServersConnected = malformedBuffered.m_ServersConnected
        ∧ t.errors = malformedBuffered.errors + 1)
    ∧ PeerServersManager.on_read sampleParams (fun x => x) 300 (-4095) [] 0 malformedBuffered
        = some (DisconnectServer 300 true
            { malformedBuffered with errors := malformedBuffered.errors + 1 }) :=
  ⟨⟨by decide, by decide⟩,
    (C24_parse_error_drops_buffer_and_keeps_peer sampleParams (fun x => x) 300 0
      malformedBuffered).1 (Or.inl (by decide)),
    (C24_parse_error_drops_buffer_and_keeps_peer sampleParams (fun x => x) 300 0
      malformedBuffered).2 (-4095) [] (by decide)⟩

/-- Claim C28, refuted on the code. With an empty inbound buffer `alloc_buffer` offers all
10240 bytes. libuv fills them with the start of a frame of the version
`SPECIAL_COMMUNICATION` that declares a payload of 20000 bytes, which the parser accepts
(the limit of that version is 1179654 bytes): the parser asks for more bytes, the loop of
`on_read` ends, and `on_read` returns with `m_ResponseBufferIndex` 10240, the size of the
buffer. The condition of its closing assertion is false, and the next `alloc_buffer`
fails its assertion as well. -/
theorem C28_full_buffer_fails_the_assertions :
    PeerServersManager.alloc_buffer (connectedPeer.peers 300) = some RESPONSE_BUFFER_SIZE
    ∧ oversizedFrameStart.length = 10240
    ∧ (ValidateProtocolAndExtractRequest sampleParams oversizedFrameStart 10240
        DEFAULT_VERSION ⟨none, 0⟩).code = WAIT_FOR_MORE_BYTES
    ∧ (PeerServersManager.on_read sampleParams (fun x => x) 300 10240 oversizedFrameStart 3
        connectedPeer).map (fun t => (t.peers 300).m_ResponseBufferIndex)
        = some RESPONSE_BUFFER_SIZE
    ∧ (PeerServersManager.on_read sampleParams (fun x => x) 300 10240 oversizedFrameStart 3
        connectedPeer).map (fun t => on_read_assertion (t.peers 300)) = some false
    ∧ (PeerServersManager.on_read sampleParams (fun x => x) 300 10240 oversizedFrameStart 3
        connectedPeer).map (fun t => PeerServersManager.alloc_buffer (t.peers 300))
        = some none := by
  refine ⟨by decide, by unfold oversizedFrameStart; rw [List.length_append, List.length_replicate]; rfl,
    by decide, by decide, by decide, by decide⟩

theorem on_read_returns_witness :
    ∃ t, PeerServersManager.on_read sampleParams (fun x => x) 300 10240 oversizedFrameStart
        1026 connectedPeer = some t
      ∧ (t.peers 300).m_ResponseBufferIndex
          ≤ ((connectedPeer.peers 300).m_ResponseBufferIndex + UINT_of_int 10240)
              % 4294967296 :=
  on_read_returns sampleParams (fun x => x) 300 (fun _ => rfl) 10240 oversizedFrameStart
    1026 connectedPeer (by decide) (by decide)

/-! ## The shutdown sequence -/

theorem shutdownStep_spec (g : ShutdownGates) (st : ShutdownFlags) :
    (ShutdownAction.DeleteRequestProcessors ∈ (shutdownStep g st).2 →
      (g.HasAllClientsDisconnectedForShutdown = true ∧ g.GetResponsesInQueue = 0
        ∧ g.IsServerStopped = true ∧ g.AreClientsClosing = 0)
      ∧ st.bRequestProcessorsDeleted = false)
    ∧ (ShutdownAction.DisconnectAndCloseAllConnections ∈ (shutdownStep g st).2 →
      (g.HasAllClientsDisconnectedForShutdown = true ∧ g.GetResponsesInQueue = 0
        ∧ g.IsServerStopped = true ∧ g.AreClientsClosing = 0)
      ∧ g.GetActiveProcessors = 0
      ∧ st.bRequestProcessorsDeleted = true ∧ st.bConnectionsDisconnectedAndClosed = false)
    ∧ (ShutdownAction.LoggerStop ∈ (shutdownStep g st).2 →
      (g.HasAllClientsDisconnectedForShutdown = true ∧ g.GetResponsesInQueue = 0
        ∧ g.IsServerStopped = true ∧ g.AreClientsClosing = 0)
      ∧ g.GetActiveProcessors = 0
      ∧ (g.AreServersClosing = 0 ∧ g.AreServersConnecting = 0)
      ∧ st.bRequestProcessorsDeleted = true ∧ st.bConnectionsDisconnectedAndClosed = true)
    ∧ (ShutdownAction.WriteToFileStop ∈ (shutdownStep g st).2 →
      ShutdownAction.LoggerStop ∈ (shutdownStep g st).2)
    ∧ (shutdownStep g st).2.count ShutdownAction.DeleteRequestProcessors
        ≤ (if st.bRequestProcessorsDeleted then 0 else 1)
    ∧ (shutdownStep g st).2.count ShutdownAction.DisconnectAndCloseAllConnections
        ≤ (if st.bConnectionsDisconnectedAndClosed then 0 else 1)
    ∧ ((shutdownStep g st).1.bRequestProcessorsDeleted = true ↔
        st.bRequestProcessorsDeleted = true
          ∨ ShutdownAction.DeleteRequestProcessors ∈ (shutdownStep g st).2)
    ∧ ((shutdownStep g st).1.bConnectionsDisconnectedAndClosed = true ↔
        st.bConnectionsDisconnectedAndClosed = true
          ∨ ShutdownAction.DisconnectAndCloseAllConnections ∈ (shutdownStep g st).2) := by
  unfold shutdownStep
  simp only
  split_ifs <;> simp_all

theorem shutdownTicks_spec : ∀ (gs : List ShutdownGates) (st : ShutdownFlags),
    (shutdownTicks gs st).length = gs.length
    ∧ (shutdownTicks gs st).flatten.count ShutdownAction.DeleteRequestProcessors
        ≤ (if st.bRequestProcessorsDeleted then 0 else 1)
    ∧ (shutdownTicks gs st).flatten.count ShutdownAction.DisconnectAndCloseAllConnections
        ≤ (if st.bConnectionsDisconnectedAndClosed then 0 else 1)
    ∧ ∀ (i : Nat) (g : ShutdownGates) (a : List ShutdownAction),
        gs[i]? = some g → (shutdownTicks gs st)[i]? = some a →
        (ShutdownAction.DeleteRequestProcessors ∈ a →
          g.HasAllClientsDisconnectedForShutdown = true ∧ g.GetResponsesInQueue = 0
            ∧ g.IsServerStopped = true ∧ g.AreClientsClosing = 0)
        ∧ (ShutdownAction.DisconnectAndCloseAllConnections ∈ a →
          (g.HasAllClientsDisconnectedForShutdown = true ∧ g.GetResponsesInQueue = 0
            ∧ g.IsServerStopped = true ∧ g.AreClientsClosing = 0)
          ∧ g.GetActiveProcessors = 0
          ∧ (st.bRequestProcessorsDeleted = true
            ∨ ∃ j b, j < i ∧ (shutdownTicks gs st)[j]? = some b
                ∧ ShutdownAction.DeleteRequestProcessors ∈ b))
        ∧ (ShutdownAction.LoggerStop ∈ a →
          (g.HasAllClientsDisconnectedForShutdown = true ∧ g.GetResponsesInQueue = 0
            ∧ g.IsServerStopped = true ∧ g.AreClientsClosing = 0)
          ∧ g.GetActiveProcessors = 0
          ∧ (g.AreServersClosing = 0 ∧ g.AreServersConnecting = 0)
          ∧ (st.bConnectionsDisconnectedAndClosed = true
            ∨ ∃ j b, j < i ∧ (shutdownTicks gs st)[j]? = some b
                ∧ ShutdownAction.DisconnectAndCloseAllConnections ∈ b))
        ∧ (ShutdownAction.WriteToFileStop ∈ a → ShutdownAction.LoggerStop ∈ a) := by
  intro gs
  induction gs with
  | nil =>
    intro st
    refine ⟨rfl, ?_, ?_, ?_⟩
    · simp [shutdownTicks]
    · simp [shutdownTicks]
    · intro i g a h
      simp at h
  | cons g0 gs ih =>
    intro st
    obtain ⟨s1, s2, s3, s4, s5, s6, s7, s8⟩ := shutdownStep_spec g0 st
    obtain ⟨i1, i2, i3, i4⟩ := ih (shutdownStep g0 st).1
    have hticks : shutdownTicks (g0 :: gs) st
        = (shutdownStep g0 st).2 :: shutdownTicks gs (shutdownStep g0 st).1 := rfl
    rw [hticks]
    refine ⟨by simp [i1], ?_, ?_, ?_⟩
    · rw [List.flatten_cons, List.count_append]
      by_cases hd : ShutdownAction.DeleteRequestProcessors ∈ (shutdownStep g0 st).2
      · have h1 : (shutdownStep g0 st).1.bRequestProcessorsDeleted = true := s7.mpr (Or.inr hd)
        rw [h1] at i2
        simp only [if_true] at i2
        have := (s1 hd).2
        rw [this] at s5 ⊢
        simp only [Bool.false_eq_true, if_false] at s5 ⊢
        omega
      · have h0 : (shutdownStep g0 st).2.count ShutdownAction.DeleteRequestProcessors = 0 :=
          List.count_eq_zero.mpr hd
        rw [h0, Nat.zero_add]
        by_cases hb : st.bRequestProcessorsDeleted = true
        · rw [s7.mpr (Or.inl hb)] at i2
          rw [hb]
          exact i2
        · have hb0 : st.bRequestProcessorsDeleted = false := by
            cases h : st.bRequestProcessorsDeleted
            · rfl
            · exact absurd h hb
          rw [hb0]
          simp only [Bool.false_eq_true, if_false]
          refine le_trans i2 ?_
          split <;> omega
    · rw [List.flatten_cons, List.count_append]
      by_cases hd : ShutdownAction.DisconnectAndCloseAllConnections ∈ (shutdownStep g0 st).2
      · have h1 : (shutdownStep g0 st).1.bConnectionsDisconnectedAndClosed = true :=
          s8.mpr (Or.inr hd)
        rw [h1] at i3
        simp only [if_true] at i3
        have := (s2 hd).2.2.2
        rw [this] at s6 ⊢
        simp only [Bool.false_eq_true, if_false] at s6 ⊢
        omega
      · have h0 : (shutdownStep g0 st).2.count
            ShutdownAction.DisconnectAndCloseAllConnections = 0 :=
          List.count_eq_zero.mpr hd
        rw [h0, Nat.zero_add]
        by_cases hb : st.bConnectionsDisconnectedAndClosed = true
        · rw [s8.mpr (Or.inl hb)] at i3
          rw [hb]
          exact i3
        · have hb0 : st.bConnectionsDisconnectedAndClosed = false := by
            cases h : st.bConnectionsDisconnectedAndClosed
            · rfl
            · exact absurd h hb
          rw [hb0]
          simp only [Bool.false_eq_true, if_false]
          refine le_trans i3 ?_
          split <;> omega
    · intro i g a hg ha
      cases i with
      | zero =>
        simp only [List.getElem?_cons_zero, Option.some.injEq] at hg ha
        subst hg
        subst ha
        refine ⟨fun h => (s1 h).1, ?_, ?_, s4⟩
        · intro h
          exact ⟨(s2 h).1, (s2 h).2.1, Or.inl (s2 h).2.2.1⟩
        · intro h
          exact ⟨(s3 h).1, (s3 h).2.1, (s3 h).2.2.1, Or.inl (s3 h).2.2.2.2⟩
      | succ k =>
        simp only [List.getElem?_cons_succ] at hg ha
        obtain ⟨k1, k2, k3, k4⟩ := i4 k g a hg ha
        refine ⟨k1, ?_, ?_, k4⟩
        · intro h
          obtain ⟨m1, m2, m3⟩ := k2 h
          refine ⟨m1, m2, ?_⟩
          rcases m3 with m3 | ⟨j, b, hj, hb, hmem⟩
          · rcases s7.mp m3 with m4 | m4
            · exact Or.inl m4
            · exact Or.inr ⟨0, _, Nat.succ_pos _, List.getElem?_cons_zero, m4⟩
          · exact Or.inr ⟨j + 1, b, Nat.succ_lt_succ hj, by
              rw [List.getElem?_cons_succ]; exact hb, hmem⟩
        · intro h
          obtain ⟨m1, m2, m3, m4⟩ := k3 h
          refine ⟨m1, m2, m3, ?_⟩
          rcases m4 with m4 | ⟨j, b, hj, hb, hmem⟩
          · rcases s8.mp m4 with m5 | m5
            · exact Or.inl m5
            · exact Or.inr ⟨0, _, Nat.succ_pos _, List.getElem?_cons_zero, m5⟩
          · exact Or.inr ⟨j + 1, b, Nat.succ_lt_succ hj, by
              rw [List.getElem?_cons_succ]; exact hb, hmem⟩

theorem shutdownTicks_sample :
    shutdownTicks sampleShutdown {}
      = [[], [ShutdownAction.DeleteRequestProcessors], [],
          [ShutdownAction.DisconnectAndCloseAllConnections], [],
          [ShutdownAction.LoggerStop, ShutdownAction.WriteToFileStop,
            ShutdownAction.uv_close_tty],
          [ShutdownAction.LoggerStop, ShutdownAction.WriteToFileStop],
          [ShutdownAction.LoggerStop, ShutdownAction.WriteToFileStop]] := by
  decide

/-- Claim C25. Over every sequence of calls of `ConnectionsManager::DoPeriodicActivities`,
whatever the gates return in each call: `DeleteRequestProcessors` is called at most once,
and only in a call where `HasAllClientsDisconnectedForShutdown` is true, no response is
queued, `IsServerStopped` is true and no client is closing;
`DisconnectAndCloseAllConnections` is called at most once, only in a later call than the
deletion of the processors, in which the same gates hold and no processor is active; the
logger and the file writer are stopped only in a call later than that one, in which the
same gates hold and no peer is closing or connecting, and the file writer only after the
logger in the same call. -/
theorem C25_shutdown_steps_wait_for_their_gates (gs : List ShutdownGates) :
    (shutdownTicks gs {}).flatten.count ShutdownAction.DeleteRequestProcessors ≤ 1
    ∧ (shutdownTicks gs {}).flatten.count ShutdownAction.DisconnectAndCloseAllConnections ≤ 1
    ∧ ∀ (i : Nat) (g : ShutdownGates) (a : List ShutdownAction),
        gs[i]? = some g → (shutdownTicks gs {})[i]? = some a →
        (ShutdownAction.DeleteRequestProcessors ∈ a →
          g.HasAllClientsDisconnectedForShutdown = true ∧ g.GetResponsesInQueue = 0
            ∧ g.IsServerStopped = true ∧ g.AreClientsClosing = 0)
        ∧ (ShutdownAction.DisconnectAndCloseAllConnections ∈ a →
          (g.HasAllClientsDisconnectedForShutdown = true ∧ g.GetResponsesInQueue = 0
            ∧ g.IsServerStopped = true ∧ g.AreClientsClosing = 0)
          ∧ g.GetActiveProcessors = 0
          ∧ ∃ j b, j < i ∧ (shutdownTicks gs {})[j]? = some b
              ∧ ShutdownAction.DeleteRequestProcessors ∈ b)
        ∧ (ShutdownAction.LoggerStop ∈ a →
          (g.HasAllClientsDisconnectedForShutdown = true ∧ g.GetResponsesInQueue = 0
            ∧ g.IsServerStopped = true ∧ g.AreClientsClosing = 0)
          ∧ g.GetActiveProcessors = 0
          ∧ (g.AreServersClosing = 0 ∧ g.AreServersConnecting = 0)
          ∧ ∃ j b, j < i ∧ (shutdownTicks gs {})[j]? = some b
              ∧ ShutdownAction.DisconnectAndCloseAllConnections ∈ b)
        ∧ (ShutdownAction.WriteToFileStop ∈ a → ShutdownAction.LoggerStop ∈ a) := by
  obtain ⟨_, h2, h3, h4⟩ := shutdownTicks_spec gs {}
  refine ⟨h2, h3, ?_⟩
  intro i g a hg ha
  obtain ⟨k1, k2, k3, k4⟩ := h4 i g a hg ha
  refine ⟨k1, ?_, ?_, k4⟩
  · intro h
    obtain ⟨m1, m2, m3⟩ := k2 h
    refine ⟨m1, m2, ?_⟩
    rcases m3 with m3 | m3
    · exact absurd m3 (by decide)
    · exact m3
  · intro h
    obtain ⟨m1, m2, m3, m4⟩ := k3 h
    refine ⟨m1, m2, m3, ?_⟩
    rcases m4 with m4 | m4
    · exact absurd m4 (by decide)
    · exact m4

theorem C25_shutdown_steps_wait_for_their_gates_witness :
    (sampleShutdown[3]? = some openGates
      ∧ (shutdownTicks sampleShutdown {})[3]?
          = some [ShutdownAction.DisconnectAndCloseAllConnections]
      ∧ ShutdownAction.DisconnectAndCloseAllConnections
          ∈ [ShutdownAction.DisconnectAndCloseAllConnections])
    ∧ ((openGates.HasAllClientsDisconnectedForShutdown = true
          ∧ openGates.GetResponsesInQueue = 0
          ∧ openGates.IsServerStopped = true ∧ openGates.AreClientsClosing = 0)
        ∧ openGates.GetActiveProcessors = 0
        ∧ ∃ j b, j < 3 ∧ (shutdownTicks sampleShutdown {})[j]? = some b
            ∧ ShutdownAction.DeleteRequestProcessors ∈ b) :=
  ⟨⟨by decide, by decide, by decide⟩,
    ((C25_shutdown_steps_wait_for_their_gates sampleShutdown).2.2 3 openGates
      [ShutdownAction.DisconnectAndCloseAllConnections] (by decide) (by decide)).2.1
      (by decide)⟩

/-! ## The inbound side of a session -/

theorem runInbound_sample :
    (runInbound sampleParams (fun x => x) 100 sampleInboundEvents twoSessions).map
      (fun t => ((t.clients 100).request.parsed, (t.clients 100).request.m_Request_Index,
        (t.clients 100).request.m_Request_len, (t.clients 100).m_bRequestIsBeingProcessed,
        (t.clients 100).m_LockRequestsResponses.Requests))
      = some ([(WAIT_FOR_MORE_BYTES, 4, 10), (WAIT_FOR_MORE_BYTES, 10, 10),
          (REQUEST_FOUND, 14, 14), (WAIT_FOR_MORE_BYTES, 10, 10)], 10, 10, false, 0) := by
  decide

/-! ## The invariant of the inbound side -/

theorem storeBytes_length (mem : List Byte) (i : Nat) (b : List Byte)
    (h : 10 ≤ mem.length) : 10 ≤ (storeBytes mem i b).length := by
  simp only [storeBytes, List.length_append, List.length_take, List.length_drop]
  omega

theorem sizeField_congr (mem mem2 : List Byte) (h : mem2.take 9 = mem.take 9) :
    sizeField mem2 = sizeField mem := by
  unfold sizeField
  rw [loadUINT_congr mem mem2 9 (PREAMBLE_BYTES + VERSION_BYTES) (by decide) h]

theorem sizeField_storeBytes (mem : List Byte) (i : Nat) (b : List Byte)
    (hi : 9 ≤ i) (h : 9 ≤ mem.length) : sizeField (storeBytes mem i b) = sizeField mem := by
  apply sizeField_congr
  unfold storeBytes
  rw [List.append_assoc, List.take_append_of_le_length (by rw [List.length_take]; omega),
    List.take_take, Nat.min_eq_left hi]

theorem sizeField_memcpy_s (k len : Nat) (hdr : List Byte) (hlen : 10 ≤ len)
    (h : 10 ≤ hdr.length) :
    sizeField (memcpy_s (newArray k) 0 len hdr 10) = sizeField hdr
    ∧ 10 ≤ (memcpy_s (newArray k) 0 len hdr 10).length := by
  unfold memcpy_s
  rw [if_pos hlen]
  refine ⟨?_, ?_⟩
  · apply sizeField_congr
    rw [List.take_zero, List.nil_append,
      List.take_append_of_le_length (by rw [List.length_take]; omega),
      List.take_take]
    rfl
  · simp only [List.take_zero, List.nil_append, List.length_append, List.length_take]
    omega

theorem parse_len (params : Nat → Option VersionParameters) (buf : List Byte)
    (n e : Nat) (out0 : Buffer) :
    ((ValidateProtocolAndExtractRequest params buf n e out0).code = REQUEST_FOUND →
      (ValidateProtocolAndExtractRequest params buf n e out0).request_out.len = sizeField buf
      ∧ sizeField buf + 9 ≤ n ∧ 10 ≤ n)
    ∧ ((ValidateProtocolAndExtractRequest params buf n e out0).code = WAIT_FOR_MORE_BYTES →
      10 ≤ n →
      (ValidateProtocolAndExtractRequest params buf n e out0).request_out.len
        = sizeField buf) := by
  unfold ValidateProtocolAndExtractRequest sizeField
  have hlt := ntohl_lt (loadUINT buf (PREAMBLE_BYTES + VERSION_BYTES))
  simp only
  generalize params (ntohs (loadUSHORT buf PREAMBLE_BYTES)) = pv
  have hH : HEADER_SIZE = 9 := rfl
  cases pv with
  | none =>
    simp only
    split_ifs <;> simp_all
  | some vp =>
    simp only
    split_ifs with h1 h2 h3 h4 h5 h6
    · simp_all
    · simp
    · simp
    · simp
    · simp
    · simp
    · refine ⟨fun _ => ⟨rfl, ?_, ?_⟩, fun h => absurd h (by decide)⟩
      · rw [hH] at h6 h1; omega
      · rw [hH] at h1; omega

theorem subUINT_self (a : Nat) : subUINT a a = 0 := by
  unfold subUINT
  omega

theorem int_of_ULONG_pos (x : Nat) (hx : x < 4294967296) (h : int_of_ULONG x > 0) :
    int_of_ULONG x = (x : Int) ∧ int_of_ULONG x < 2147483648 := by
  unfold int_of_ULONG at h ⊢
  rw [Nat.mod_eq_of_lt hx] at h ⊢
  split_ifs at h ⊢ with h1
  · exact ⟨rfl, by omega⟩
  · omega

theorem GetRequestBuffer_kept (params : Nat → Option VersionParameters) (c : stClient) :
    (GetRequestBuffer params c).2
        = { c with request := (GetRequestBuffer params c).2.request }
    ∧ (GetRequestBuffer params c).2.request.m_Header = c.request.m_Header
    ∧ (GetRequestBuffer params c).2.request.parsed = c.request.parsed
    ∧ (GetRequestBuffer params c).2.request.m_Request_Index = c.request.m_Request_Index
    ∧ (GetRequestBuffer params c).2.request.m_bRejectedPreviousRequestBytes
        = c.request.m_bRejectedPreviousRequestBytes := by
  unfold GetRequestBuffer
  simp only
  split_ifs <;> exact ⟨rfl, rfl, rfl, rfl, rfl⟩

theorem GetRequestBuffer_processing (params : Nat → Option VersionParameters) (c : stClient)
    (h : c.request.m_Request_Index = c.request.m_Request_len
      ∧ c.request.m_RequestSizeFound ≤ 0) :
    GetRequestBuffer params c = (0, c) := by
  unfold GetRequestBuffer
  simp only
  rw [h.1, subUINT_self, if_neg (fun hx => absurd hx.2 (by omega))]

theorem GetRequestBuffer_core (params : Nat → Option VersionParameters) (c : stClient)
    (h0 : 10 ≤ c.request.m_Header.length) (h : CoreInv c.request) :
    CoreInv (GetRequestBuffer params c).2.request
    ∧ (GetRequestBuffer params c).2.request.m_RequestSizeFound ≤ 0
    ∧ (GetRequestBuffer params c).1
        = (GetRequestBuffer params c).2.request.m_Request_len
          - (GetRequestBuffer params c).2.request.m_Request_Index := by
  obtain ⟨c1, c2, c3, c4, c5, c6⟩ := h
  unfold GetRequestBuffer
  simp only
  by_cases hcond : subUINT c.request.m_Request_len c.request.m_Request_Index = 0
      ∧ c.request.m_RequestSizeFound > 0
  · rw [if_pos hcond]
    obtain ⟨d1, d2, d3, d4⟩ := c6 hcond.2
    have hpos := hcond.2
    have hlen : UINT_of_int (c.request.m_RequestSizeFound + HEADER_SIZE)
        = 9 + sizeField c.request.base := by
      have := UINT_of_int_of_nonneg (c.request.m_RequestSizeFound + HEADER_SIZE)
        (by simp only [HEADER_SIZE, PREAMBLE_BYTES, VERSION_BYTES, SIZE_BYTES]; omega)
        (by simp only [HEADER_SIZE, PREAMBLE_BYTES, VERSION_BYTES, SIZE_BYTES]; omega)
      simp only [HEADER_SIZE, PREAMBLE_BYTES, VERSION_BYTES, SIZE_BYTES] at this ⊢
      omega
    have hsz : 1 ≤ sizeField c.request.base := by omega
    cases hal : c.request.allocated with
    | none =>
      have hbase : c.request.base = c.request.m_Header := by
        unfold RequestSide.base; rw [hal]; rfl
      simp only [if_true]
      rw [hlen]
      obtain ⟨m1, m2⟩ := sizeField_memcpy_s
        (if c.request.m_bStreaming = true then
            (Option.map (fun p => p.m_MaxRequestSize) (params c.m_Version)).getD 0
              + (HEADER_SIZE : Int)
          else c.request.m_RequestSizeFound + (HEADER_SIZE : Int)).toNat
        (9 + sizeField c.request.base) c.request.m_Header (by omega) h0
      refine ⟨⟨c1, ?_, ?_, ?_, Or.inr ⟨by rw [d1], ?_⟩, fun hx => (lt_irrefl (0 : Int) hx).elim⟩,
        Int.le_refl 0, ?_⟩
      · intro mem hmem
        have : mem = _ := (Option.some.inj hmem).symm
        rw [this]
        exact m2
      · show c.request.m_Request_Index ≤ 9 + sizeField c.request.base
        omega
      · show 9 + sizeField c.request.base < 4294967296
        omega
      · show _ = 9 + sizeField (memcpy_s _ _ _ _ _)
        rw [m1, hbase]
      · show subUINT (9 + sizeField c.request.base) c.request.m_Request_Index = _
        exact subUINT_of_le _ _ (by omega) (by omega)
    | some mem =>
      have hbase : c.request.base = mem := by
        unfold RequestSide.base; rw [hal]; rfl
      simp only [reduceCtorEq, if_false]
      rw [hlen]
      refine ⟨⟨c1, ?_, ?_, ?_, Or.inr ⟨by rw [d1], ?_⟩, fun hx => (lt_irrefl (0 : Int) hx).elim⟩,
        Int.le_refl 0, ?_⟩
      · intro mem2 hmem
        exact c2 mem2 (hal ▸ hmem)
      · show c.request.m_Request_Index ≤ 9 + sizeField c.request.base
        omega
      · show 9 + sizeField c.request.base < 4294967296
        omega
      · show _ = 9 + sizeField mem
        rw [hbase]
      · show subUINT (9 + sizeField c.request.base) c.request.m_Request_Index = _
        exact subUINT_of_le _ _ (by omega) (by omega)
  · rw [if_neg hcond]
    refine ⟨⟨c1, c2, c3, c4, c5, c6⟩, ?_, subUINT_of_le _ _ c4 c3⟩
    show c.request.m_RequestSizeFound ≤ 0
    by_contra hpos
    have hpos2 : c.request.m_RequestSizeFound > 0 := by omega
    obtain ⟨d1, d2, _, _⟩ := c6 hpos2
    exact hcond ⟨by rw [d1, d2]; exact subUINT_self 10, hpos2⟩

theorem storeBytes_nil (mem : List Byte) (i : Nat) : storeBytes mem i [] = mem := by
  simp [storeBytes]

theorem store_kept (r : RequestSide) (b : List Byte) :
    (r.store b).m_Request_len = r.m_Request_len
    ∧ (r.store b).m_Request_Index = r.m_Request_Index
    ∧ (r.store b).m_RequestSizeFound = r.m_RequestSizeFound
    ∧ (r.store b).m_bRejectedPreviousRequestBytes = r.m_bRejectedPreviousRequestBytes
    ∧ (r.store b).parsed = r.parsed
    ∧ (10 ≤ r.m_Header.length → 10 ≤ (r.store b).m_Header.length) := by
  unfold RequestSide.store
  cases r.allocated with
  | none => exact ⟨rfl, rfl, rfl, rfl, rfl, fun h => storeBytes_length _ _ _ h⟩
  | some mem => exact ⟨rfl, rfl, rfl, rfl, rfl, fun h => h⟩

theorem store_buffer (r : RequestSide) (b : List Byte) (bp : Bool) (h : BufferInv r bp) :
    BufferInv (r.store b) bp := by
  obtain ⟨h1, h2, h3⟩ := h
  obtain ⟨k1, k2, k3, _, k5, k6⟩ := store_kept r b
  refine ⟨k6 h1, by rw [k5]; exact h2, ?_⟩
  intro hb
  rw [k1, k2, k3]
  exact h3 hb

theorem store_core (r : RequestSide) (b : List Byte) (h0 : 10 ≤ r.m_Header.length)
    (hs : r.m_RequestSizeFound ≤ 0) (h : CoreInv r) : CoreInv (r.store b) := by
  obtain ⟨c1, c2, c3, c4, c5, c6⟩ := h
  obtain ⟨k1, k2, k3, k4, _, _⟩ := store_kept r b
  have hbase : 10 ≤ r.m_Request_Index → sizeField (r.store b).base = sizeField r.base := by
    intro hi
    unfold RequestSide.store RequestSide.base
    cases hal : r.allocated with
    | none =>
      exact sizeField_storeBytes _ _ _ (by omega) (by omega)
    | some mem =>
      have := c2 mem hal
      exact sizeField_storeBytes _ _ _ (by omega) (by omega)
  have hall : ∀ mem, (r.store b).allocated = some mem → 10 ≤ mem.length := by
    unfold RequestSide.store
    cases hal : r.allocated with
    | none =>
      intro mem hmem
      exact Option.noConfusion (hmem : (none : Option (List Byte)) = some mem)
    | some mem0 =>
      intro mem hmem
      have e : mem = storeBytes mem0 r.m_Request_Index b := (Option.some.inj hmem).symm
      rw [e]
      exact storeBytes_length _ _ _ (c2 mem0 hal)
  refine ⟨by rw [k4]; exact c1, hall, by rw [k1, k2]; exact c3, by rw [k1]; exact c4, ?_, ?_⟩
  · rw [k1, k2]
    rcases c5 with c5 | ⟨c5, c5b⟩
    · exact Or.inl c5
    · exact Or.inr ⟨c5, by rw [hbase c5]; exact c5b⟩
  · rw [k3]
    intro hx
    omega

theorem SessionKept_refl (p : Nat) (s : Server) : SessionKept p s s :=
  ⟨rfl, rfl, fun h => h, fun h => h, fun _ => ⟨rfl, rfl, rfl⟩⟩

theorem SessionKept_trans {p : Nat} {x y z : Server} (h1 : SessionKept p x y)
    (h2 : SessionKept p y z) : SessionKept p x z := by
  obtain ⟨a1, a2, a3, a4, a5⟩ := h1
  obtain ⟨b1, b2, b3, b4, b5⟩ := h2
  refine ⟨b1.trans a1, b2.trans a2, fun h => b3 (a3 h), fun h => b4 (a4 h), ?_⟩
  intro hz
  have hy : (y.clients p).m_bToBeDisconnected = false := by
    cases hm : (y.clients p).m_bToBeDisconnected
    · rfl
    · rw [b4 hm] at hz
      cases hz
  obtain ⟨e1, e2, e3⟩ := a5 hy
  obtain ⟨f1, f2, f3⟩ := b5 hz
  refine ⟨f1.trans e1, ?_, f3.trans e3⟩
  rw [← e1, f2, e1, e2]

theorem InboundInv_of_SessionKept {p : Nat} {x y : Server} (h : InboundInv x p)
    (hk : SessionKept p x y) : InboundInv y p := by
  obtain ⟨a1, a2, a3, a4, a5⟩ := hk
  obtain ⟨hb, hc⟩ := h
  refine ⟨by rw [a1, a2]; exact hb, ?_⟩
  rcases hc with hc | hc | ⟨hp, hd, hcore⟩
  · exact Or.inl (a4 hc)
  · exact Or.inr (Or.inl (a3 hc))
  · cases hm : (y.clients p).m_bToBeDisconnected
    · obtain ⟨e1, e2, e3⟩ := a5 hm
      refine Or.inr (Or.inr ⟨?_, by rw [e3]; exact hd, by rw [a1]; exact hcore⟩)
      unfold InPool at hp ⊢
      rw [e1, e2]
      exact hp
    · exact Or.inl rfl

theorem SessionKept_setClient (p : Nat) (s : Server) (c : stClient)
    (h1 : c.request = (s.clients p).request)
    (h2 : c.m_bRequestIsBeingProcessed = (s.clients p).m_bRequestIsBeingProcessed)
    (h3 : c.m_bToBeDisconnected = (s.clients p).m_bToBeDisconnected)
    (h4 : c.m_ClientHandle = (s.clients p).m_ClientHandle)
    (h5 : c.m_bDisconnectInitiated = (s.clients p).m_bDisconnectInitiated) :
    SessionKept p s (s.setClient p c) := by
  unfold SessionKept
  rw [setClient_clients_self]
  exact ⟨h1, h2, fun h => h, fun h => by rw [h3]; exact h, fun _ => ⟨h4, rfl, h5⟩⟩

theorem MarkToDisconnect_kept (p : Nat) (b : Bool) (s : Server) :
    SessionKept p s (MarkToDisconnect p b s)
    ∧ ((MarkToDisconnect p b s).clients p).m_bToBeDisconnected = true
    ∧ ((MarkToDisconnect p b s).clients p).m_bDisconnectInitiated
        = (s.clients p).m_bDisconnectInitiated
    ∧ (MarkToDisconnect p b s).m_bIsServerShuttingDown = s.m_bIsServerShuttingDown := by
  unfold MarkToDisconnect
  simp only
  by_cases h : (s.clients p).m_bToBeDisconnected = true
  · rw [if_pos h]
    exact ⟨SessionKept_refl p s, h, rfl, rfl⟩
  · rw [if_neg h]
    refine ⟨⟨?_, ?_, fun hx => hx, fun _ => ?_, fun hx => ?_⟩, ?_, ?_, rfl⟩
    · show ((s.setClient p _).clients p).request = _
      rw [setClient_clients_self]
    · show ((s.setClient p _).clients p).m_bRequestIsBeingProcessed = _
      rw [setClient_clients_self]
    · show ((s.setClient p _).clients p).m_bToBeDisconnected = _
      rw [setClient_clients_self]
    · have : ((s.setClient p { s.clients p with m_bToBeDisconnected := true }).clients
          p).m_bToBeDisconnected = false := hx
      rw [setClient_clients_self] at this
      cases this
    · show ((s.setClient p _).clients p).m_bToBeDisconnected = _
      rw [setClient_clients_self]
    · show ((s.setClient p _).clients p).m_bDisconnectInitiated = _
      rw [setClient_clients_self]

theorem SessionKept_of_marked {p : Nat} {x y : Server}
    (h1 : (y.clients p).request = (x.clients p).request)
    (h2 : (y.clients p).m_bRequestIsBeingProcessed = (x.clients p).m_bRequestIsBeingProcessed)
    (h3 : y.m_bIsServerShuttingDown = x.m_bIsServerShuttingDown)
    (h4 : (y.clients p).m_bToBeDisconnected = true) : SessionKept p x y :=
  ⟨h1, h2, fun h => by rw [h3]; exact h, fun _ => h4,
    fun h => by rw [h4] at h; cases h⟩

theorem SessionSame_refl (p : Nat) (s : Server) : SessionSame p s s := ⟨rfl, rfl, rfl, rfl⟩

theorem SessionSame_trans {p : Nat} {x y z : Server} (h1 : SessionSame p x y)
    (h2 : SessionSame p y z) : SessionSame p x z :=
  ⟨h2.1.trans h1.1, h2.2.1.trans h1.2.1, h2.2.2.1.trans h1.2.2.1, h2.2.2.2.trans h1.2.2.2⟩

theorem SessionSame_ite2 {α : Type} {p : Nat} {c : Prop} [Decidable c] {s : Server}
    {a b : α × Server} (h1 : c → SessionSame p s a.2) (h2 : ¬ c → SessionSame p s b.2) :
    SessionSame p s (if c then a else b).2 := by
  split
  · exact h1 (by assumption)
  · exact h2 (by assumption)

theorem SessionSame_setClient (p : Nat) (s : Server) (c : stClient)
    (h1 : c.request = (s.clients p).request)
    (h2 : c.m_bRequestIsBeingProcessed = (s.clients p).m_bRequestIsBeingProcessed)
    (h3 : c.m_bToBeDisconnected = (s.clients p).m_bToBeDisconnected) :
    SessionSame p s (s.setClient p c) := by
  unfold SessionSame
  rw [setClient_clients_self]
  exact ⟨h1, h2, rfl, h3⟩

theorem StopReading_same (p : Nat) (s : Server) : SessionSame p s (StopReading p s) := by
  unfold StopReading
  simp only
  split
  · exact SessionSame_setClient p s _ rfl rfl rfl
  · exact SessionSame_refl p s

theorem RemoveClient_same (p : Nat) (s : Server) : SessionSame p s (RemoveClient p s).2 := by
  unfold RemoveClient
  simp only
  split_ifs <;> exact ⟨rfl, rfl, rfl, rfl⟩

theorem DisconnectAndDelete_tail_same (p : Nat) (s3 : Server) :
    SessionSame p s3
      (let s := s3.setClient p { s3.clients p with m_bIsAddedToPool := false }
       let s := { s with disconnections := s.disconnections ++ [p],
                         QueuedDisconnections := s.QueuedDisconnections + 1 }
       s.setClient p { s.clients p with m_bDisconnectInitiated := true }) := by
  let s4 : Server := s3.setClient p { s3.clients p with m_bIsAddedToPool := false }
  let s5 : Server := { s4 with disconnections := s4.disconnections ++ [p], QueuedDisconnections := s4.QueuedDisconnections + 1 }
  have e1 : SessionSame p s3 s4 :=
    SessionSame_setClient p s3 { s3.clients p with m_bIsAddedToPool := false } rfl rfl rfl
  have e2 : SessionSame p s4 s5 := ⟨rfl, rfl, rfl, rfl⟩
  have e3 : SessionSame p s5
      (s5.setClient p { s5.clients p with m_bDisconnectInitiated := true }) :=
    SessionSame_setClient p s5 { s5.clients p with m_bDisconnectInitiated := true } rfl rfl rfl
  exact SessionSame_trans e1 (SessionSame_trans e2 e3)

theorem DisconnectAndDelete_kept (p : Nat) (b : Bool) (s : Server) :
    SessionKept p s (DisconnectAndDelete p b s).2
    ∧ ((s.clients p).m_bDisconnectInitiated = false →
        ((DisconnectAndDelete p b s).2.clients p).m_bToBeDisconnected = true) := by
  obtain ⟨⟨m1, m2, _, _, _⟩, m3, _, m4⟩ := MarkToDisconnect_kept p b s
  have key : (s.clients p).m_bDisconnectInitiated = false →
      SessionSame p (MarkToDisconnect p b s) (DisconnectAndDelete p b s).2 := by
    intro hd
    unfold DisconnectAndDelete
    rw [if_neg (by rw [hd]; decide)]
    have h2 : SessionSame p (MarkToDisconnect p b s) (StopReading p (MarkToDisconnect p b s)) :=
      StopReading_same p _
    refine SessionSame_ite2 (fun _ => h2) (fun _ => ?_)
    have h3 : SessionSame p (StopReading p (MarkToDisconnect p b s))
        (if ((StopReading p (MarkToDisconnect p b s)).clients p).m_bIsAddedToPool = false then
          (true, StopReading p (MarkToDisconnect p b s))
          else RemoveClient p (StopReading p (MarkToDisconnect p b s))).2 :=
      SessionSame_ite2 (fun _ => SessionSame_refl _ _) (fun _ => RemoveClient_same _ _)
    have h23 := SessionSame_trans h2 h3
    refine SessionSame_ite2 (fun _ => ?_) (fun _ => h23)
    refine SessionSame_ite2
      (fun _ => SessionSame_trans h23 ⟨rfl, rfl, rfl, rfl⟩)
      (fun _ => ?_)
    exact SessionSame_trans h23 (DisconnectAndDelete_tail_same p _)
  cases hd : (s.clients p).m_bDisconnectInitiated
  · obtain ⟨a1, a2, a3, a4⟩ := key hd
    have hm : ((DisconnectAndDelete p b s).2.clients p).m_bToBeDisconnected = true :=
      a4.trans m3
    exact ⟨SessionKept_of_marked (a1.trans m1) (a2.trans m2) (a3.trans m4) hm, fun _ => hm⟩
  · have : (DisconnectAndDelete p b s).2 = s := by
      unfold DisconnectAndDelete
      rw [if_pos hd]
    rw [this]
    exact ⟨SessionKept_refl p s, fun h => by cases h⟩

theorem IncreaseCountForClient_inpool (p : Nat) (now : Int) (s : Server) (hpool : InPool s p)
    (hm : (s.clients p).m_bToBeDisconnected = false) :
    (IncreaseCountForClient (some (s.clients p).m_ClientHandle) none REQUESTCOUNT now s).1
        = true
    ∧ SessionKept p s
        (IncreaseCountForClient (some (s.clients p).m_ClientHandle) none REQUESTCOUNT now
          s).2.2 := by
  unfold InPool at hpool
  unfold IncreaseCountForClient
  simp only [hpool]
  rw [if_pos ⟨trivial, hm⟩]
  exact ⟨rfl, SessionKept_setClient p s _ rfl rfl rfl rfl rfl⟩

theorem DecreaseCountForClient_kept (p k : Nat) (now : Int) (s : Server) :
    SessionKept p s (DecreaseCountForClient p k now s).2 := by
  unfold DecreaseCountForClient
  exact SessionKept_setClient p s _ rfl rfl rfl rfl rfl

theorem InboundInv_setClient (p : Nat) (s : Server) (c : stClient)
    (hb : BufferInv c.request c.m_bRequestIsBeingProcessed)
    (hstate : c.m_bToBeDisconnected = true ∨ s.m_bIsServerShuttingDown = true
      ∨ (mapFind s.m_ClientsMap c.m_ClientHandle.m_ClientRegistrationNumber = some p
        ∧ c.m_bDisconnectInitiated = false ∧ CoreInv c.request)) :
    InboundInv (s.setClient p c) p := by
  unfold InboundInv InPool
  rw [setClient_clients_self]
  exact ⟨hb, hstate⟩

theorem InboundInv_state {p : Nat} {s : Server} (h : InboundInv s p)
    (hm : (s.clients p).m_bToBeDisconnected = false)
    (hs : s.m_bIsServerShuttingDown = false) :
    InPool s p ∧ (s.clients p).m_bDisconnectInitiated = false
      ∧ CoreInv (s.clients p).request := by
  rcases h.2 with h1 | h1 | h1
  · rw [hm] at h1; cases h1
  · rw [hs] at h1; cases h1
  · exact h1

theorem SessionKept_errors (p : Nat) (s : Server) (n : Nat) :
    SessionKept p s { s with errors := n } :=
  ⟨rfl, rfl, fun h => h, fun h => h, fun _ => ⟨rfl, rfl, rfl⟩⟩

theorem BufferInv_parsed (r : RequestSide) (x : Nat × Nat × Nat) (i : Nat) (bp : Bool)
    (h : BufferInv r false) (hx : x.1 = REQUEST_FOUND → x.2.1 = x.2.2)
    (hbp : bp = true → i = r.m_Request_len ∧ r.m_RequestSizeFound ≤ 0) :
    BufferInv { r with m_Request_Index := i, parsed := r.parsed ++ [x] } bp := by
  obtain ⟨h1, h2, _⟩ := h
  refine ⟨h1, ?_, hbp⟩
  intro y hy
  rcases List.mem_append.mp hy with hy | hy
  · exact h2 y hy
  · rw [List.mem_singleton] at hy
    rw [hy]
    exact hx

theorem InboundInv_setProcessing (p : Nat) (s : Server) (b fin : Bool)
    (h : InboundInv s p)
    (hD : b = true → (s.clients p).request.m_Request_Index
        = (s.clients p).request.m_Request_len
      ∧ (s.clients p).request.m_RequestSizeFound ≤ 0) :
    InboundInv (s.setClient p
      { s.clients p with
        m_bRequestIsBeingProcessed := b, m_bRequestProcessingFinished := fin }) p := by
  obtain ⟨⟨h1, h2, _⟩, hc⟩ := h
  exact InboundInv_setClient p s _ ⟨h1, h2, hD⟩ hc

theorem CreateRequestAndQueue_spec (DPA : Server → Server) (now : Int) (p : Nat)
    (s : Server) (hpool : InPool s p) (hm : (s.clients p).m_bToBeDisconnected = false)
    (hbp : (s.clients p).m_bRequestIsBeingProcessed = false) :
    ∃ s4, SessionKept p s s4
      ∧ CreateRequestAndQueue DPA now p s
        = some (true, DPA (s4.setClient p
            { s4.clients p with
              m_bRequestIsBeingProcessed := true, m_bRequestProcessingFinished := false })) := by
  obtain ⟨a1, a2⟩ := IncreaseCountForClient_inpool p now s hpool hm
  unfold CreateRequestAndQueue
  lift_lets
  intro created s1 src s2
  have e1 : created.1 = true := a1
  have e2 : SessionKept p s s1 := a2
  refine ⟨s1, e2, ?_⟩
  rw [if_neg (by rw [e1]; decide)]
  have e3 : (s1.clients p).m_bRequestIsBeingProcessed = false := e2.2.1.trans hbp
  rw [if_neg (by rw [e3]; decide)]

theorem UINT_of_int_natCast (n : Nat) (h : n < 4294967296) : UINT_of_int (n : Int) = n := by
  have := UINT_of_int_of_nonneg (n : Int) (by omega) (by omega)
  omega

theorem ExtractRequestOffTheBuffer_spec (params : Nat → Option VersionParameters)
    (DPA : Server → Server) (p : Nat) (hDPA : ∀ x, SessionKept p x (DPA x)) (now : Int)
    (n : Nat) (s : Server) (h : InboundInv s p)
    (hm : (s.clients p).m_bToBeDisconnected = false)
    (hs : s.m_bIsServerShuttingDown = false)
    (hbp : (s.clients p).m_bRequestIsBeingProcessed = false)
    (hsz : (s.clients p).request.m_RequestSizeFound ≤ 0)
    (hn1 : 1 ≤ n)
    (hn2 : (s.clients p).request.m_Request_Index + n ≤ (s.clients p).request.m_Request_len) :
    ∃ t, ExtractRequestOffTheBuffer params DPA now p (n : Int) s = some t
      ∧ InboundInv t p := by
  obtain ⟨hpool, hdi, hcore⟩ := InboundInv_state h hm hs
  obtain ⟨c1, c2, c3, c4, c5, c6⟩ := hcore
  obtain ⟨b1, b2, b3⟩ := h.1
  have hbuf : BufferInv (s.clients p).request false :=
    ⟨b1, b2, fun hx => by cases hx⟩
  unfold ExtractRequestOffTheBuffer
  lift_lets
  intro c r index result request r2 cc sF sI
  have hidx : index = r.m_Request_Index + n := by
    show (r.m_Request_Index + UINT_of_int (n : Int)) % 4294967296 = _
    have hr : r.m_Request_Index + n ≤ r.m_Request_len := hn2
    have hl : r.m_Request_len < 4294967296 := c4
    rw [UINT_of_int_natCast n (by omega)]
    exact Nat.mod_eq_of_lt (by omega)
  have hle : index ≤ r.m_Request_len := by rw [hidx]; exact hn2
  have hpl := parse_len params r.base index c.m_Version ⟨none, 0⟩
  have hI3 : r.m_Request_len = 10 ∨ (10 ≤ index ∧ r.m_Request_len = 9 + sizeField r.base) := by
    rcases c5 with c5 | ⟨c5, c5b⟩
    · exact Or.inl c5
    · refine Or.inr ⟨?_, c5b⟩
      have : 10 ≤ r.m_Request_Index := c5
      omega
  have hrsz : r.m_RequestSizeFound ≤ 0 := hsz
  have hmap : mapFind s.m_ClientsMap c.m_ClientHandle.m_ClientRegistrationNumber = some p :=
    hpool
  rcases parse_cases params r.base index c.m_Version ⟨none, 0⟩ with
    ⟨k1, _, _, _, _⟩ | hinv | hwait
  · -- REQUEST_FOUND
    have hcode : result.code = REQUEST_FOUND := k1
    rw [if_pos hcode]
    obtain ⟨f1, f2, f3⟩ := hpl.1 k1
    have hfull : index = r.m_Request_len := by
      rcases hI3 with h3 | ⟨_, h3⟩ <;> omega
    have hcoreF : CoreInv { r2 with m_bRejectedPreviousRequestBytes := false } :=
      ⟨rfl, c2, hle, c4, hI3, fun hx => absurd hx (by
        show ¬ (r.m_RequestSizeFound > 0); omega)⟩
    have hbufF : BufferInv { r2 with m_bRejectedPreviousRequestBytes := false } false :=
      BufferInv_parsed r (result.code, index, r.m_Request_len) index false hbuf
        (fun _ => hfull) (fun hx => by cases hx)
    have hF : InboundInv sF p := by
      refine InboundInv_setClient p s _ ?_ (Or.inr (Or.inr ⟨hmap, hdi, hcoreF⟩))
      show BufferInv { r2 with m_bRejectedPreviousRequestBytes := false }
        c.m_bRequestIsBeingProcessed
      rw [show c.m_bRequestIsBeingProcessed = false from hbp]
      exact hbufF
    have hFc : sF.clients p = { cc with request := { r2 with m_bRejectedPreviousRequestBytes := false } } :=
      setClient_clients_self _ _ _
    have hFpool : InPool sF p := by
      unfold InPool
      rw [hFc]
      exact hmap
    obtain ⟨s4, g1, g2⟩ := CreateRequestAndQueue_spec DPA now p sF hFpool
      (by rw [hFc]; exact hm) (by rw [hFc]; exact hbp)
    rw [g2]
    simp only [Bool.true_eq_false, if_false]
    refine ⟨_, rfl, InboundInv_of_SessionKept ?_ (hDPA _)⟩
    have h4 : InboundInv s4 p := InboundInv_of_SessionKept hF g1
    refine InboundInv_setProcessing p s4 true false h4 (fun _ => ?_)
    rw [g1.1, hFc]
    exact ⟨hfull, hrsz⟩
  · -- a header error
    have hcode : result.code = INVALID_HEADER ∨ result.code = INVALID_VERSION
        ∨ result.code = INVALID_SIZE := hinv
    have hnf : ¬ result.code = REQUEST_FOUND := by
      intro hx
      rcases hcode with h1 | h1 | h1 <;> rw [hx] at h1 <;> exact absurd h1 (by decide)
    rw [if_neg hnf, if_pos hcode]
    have hrej : r2.m_bRejectedPreviousRequestBytes = false := c1
    rw [if_pos (by rw [hrej]; decide)]
    refine ⟨_, rfl, ?_⟩
    unfold ProcessHeaderError
    obtain ⟨d1, d2⟩ := DisconnectAndDelete_kept p true { sI with errors := sI.errors + 1 }
    have hIc : sI.clients p = { cc with request := { r2 with m_Request_Index := 0 } } :=
      setClient_clients_self _ _ _
    have hmarked := d2 (by
      show (sI.clients p).m_bDisconnectInitiated = false
      rw [hIc]; exact hdi)
    refine ⟨?_, Or.inl hmarked⟩
    rw [d1.1, d1.2.1]
    show BufferInv (sI.clients p).request (sI.clients p).m_bRequestIsBeingProcessed
    rw [hIc]
    show BufferInv { r2 with m_Request_Index := 0 } c.m_bRequestIsBeingProcessed
    rw [show c.m_bRequestIsBeingProcessed = false from hbp]
    exact BufferInv_parsed r (result.code, index, r.m_Request_len) 0 false hbuf
      (fun hx => absurd hx hnf) (fun hx => by cases hx)
  · -- WAIT_FOR_MORE_BYTES
    have hcode : result.code = WAIT_FOR_MORE_BYTES := hwait
    have hnf : ¬ result.code = REQUEST_FOUND := by rw [hcode]; decide
    rw [if_neg hnf, if_neg (by rw [hcode]; decide), if_pos hcode]
    by_cases h10 : index = 10
    · rw [if_pos h10]
      refine ⟨_, rfl, ?_⟩
      have hlen10 : r.m_Request_len = 10 := by
        rcases hI3 with h3 | ⟨_, _⟩
        · exact h3
        · rcases c5 with c5 | ⟨c5, _⟩
          · exact c5
          · have : 10 ≤ r.m_Request_Index := c5
            omega
      have hreq : request.len = sizeField r.base := hpl.2 hwait (by omega)
      have hlt : sizeField r.base < 4294967296 := ntohl_lt _
      refine InboundInv_setClient p s _ ?_ (Or.inr (Or.inr ⟨hmap, hdi, ?_⟩))
      · show BufferInv { r2 with m_RequestSizeFound := int_of_ULONG request.len }
          c.m_bRequestIsBeingProcessed
        rw [show c.m_bRequestIsBeingProcessed = false from hbp]
        obtain ⟨q1, q2, _⟩ := BufferInv_parsed r (result.code, index, r.m_Request_len) index
          false hbuf (fun hx => absurd hx hnf) (fun hx => by cases hx)
        exact ⟨q1, q2, fun hx => by cases hx⟩
      · refine ⟨c1, c2, hle, c4, Or.inl hlen10, ?_⟩
        intro hx
        have hx2 : int_of_ULONG request.len > 0 := hx
        rw [hreq] at hx2
        obtain ⟨i1, i2⟩ := int_of_ULONG_pos _ hlt hx2
        refine ⟨h10, hlen10, ?_, ?_⟩
        · show int_of_ULONG request.len = _
          rw [hreq]
          exact i1
        · show int_of_ULONG request.len < _
          rw [hreq]
          exact i2
    · rw [if_neg h10]
      refine ⟨_, rfl, ?_⟩
      refine InboundInv_setClient p s _ ?_ (Or.inr (Or.inr ⟨hmap, hdi, ?_⟩))
      · show BufferInv r2 c.m_bRequestIsBeingProcessed
        rw [show c.m_bRequestIsBeingProcessed = false from hbp]
        exact BufferInv_parsed r (result.code, index, r.m_Request_len) index
          false hbuf (fun hx => absurd hx hnf) (fun hx => by cases hx)
      · exact ⟨c1, c2, hle, c4, hI3, fun hx => absurd hx (by
          show ¬ (r.m_RequestSizeFound > 0); omega)⟩

theorem alloc_buffer_spec (params : Nat → Option VersionParameters) (p : Nat) (s : Server)
    (h : InboundInv s p) :
    ∃ s1, LocalClientsManager.alloc_buffer params p s
        = some ((GetRequestBuffer params (s.clients p)).1, s1)
      ∧ InboundInv s1 p
      ∧ (s1.clients p).m_bToBeDisconnected = (s.clients p).m_bToBeDisconnected
      ∧ s1.m_bIsServerShuttingDown = s.m_bIsServerShuttingDown
      ∧ (s1.clients p).m_bRequestIsBeingProcessed = (s.clients p).m_bRequestIsBeingProcessed
      ∧ ((s.clients p).m_bRequestIsBeingProcessed = true →
          (GetRequestBuffer params (s.clients p)).1 = 0)
      ∧ ((s.clients p).m_bToBeDisconnected = false → s.m_bIsServerShuttingDown = false →
          (s1.clients p).request.m_RequestSizeFound ≤ 0
          ∧ (GetRequestBuffer params (s.clients p)).1
              = (s1.clients p).request.m_Request_len
                - (s1.clients p).request.m_Request_Index
          ∧ (s1.clients p).request.m_Request_Index ≤ (s1.clients p).request.m_Request_len) := by
  obtain ⟨k1, k2, k3, k4, k5⟩ := GetRequestBuffer_kept params (s.clients p)
  obtain ⟨⟨b1, b2, b3⟩, hc⟩ := h
  have hproc : (s.clients p).m_bRequestIsBeingProcessed = true →
      GetRequestBuffer params (s.clients p) = (0, s.clients p) :=
    fun hb => GetRequestBuffer_processing params _ (b3 hb)
  have hzero : (s.clients p).m_bRequestIsBeingProcessed = true →
      (GetRequestBuffer params (s.clients p)).1 = 0 := fun hb => by rw [hproc hb]
  have hbp : (GetRequestBuffer params (s.clients p)).2.m_bRequestIsBeingProcessed
      = (s.clients p).m_bRequestIsBeingProcessed := by rw [k1]
  have hmk : (GetRequestBuffer params (s.clients p)).2.m_bToBeDisconnected
      = (s.clients p).m_bToBeDisconnected := by rw [k1]
  have hhd : (GetRequestBuffer params (s.clients p)).2.m_ClientHandle
      = (s.clients p).m_ClientHandle := by rw [k1]
  have hdi : (GetRequestBuffer params (s.clients p)).2.m_bDisconnectInitiated
      = (s.clients p).m_bDisconnectInitiated := by rw [k1]
  have hbuf : BufferInv (GetRequestBuffer params (s.clients p)).2.request
      (GetRequestBuffer params (s.clients p)).2.m_bRequestIsBeingProcessed := by
    rw [hbp]
    cases hb : (s.clients p).m_bRequestIsBeingProcessed
    · exact ⟨by rw [k2]; exact b1, by rw [k3]; exact b2, fun hx => by cases hx⟩
    · rw [hproc hb]
      exact ⟨b1, b2, fun _ => b3 hb⟩
  refine ⟨s.setClient p (GetRequestBuffer params (s.clients p)).2, ?_, ?_, ?_, rfl, ?_, hzero,
    ?_⟩
  · unfold LocalClientsManager.alloc_buffer
    lift_lets
    intro buffer s1
    have : ¬ (buffer.1 ≠ 0 ∧ (s1.clients p).m_bRequestIsBeingProcessed = true) := by
      intro hx
      have e : (s1.clients p).m_bRequestIsBeingProcessed
          = (s.clients p).m_bRequestIsBeingProcessed := by
        show ((s.setClient p _).clients p).m_bRequestIsBeingProcessed = _
        rw [setClient_clients_self]
        exact hbp
      exact hx.1 (hzero (e ▸ hx.2))
    rw [if_neg this]
  · refine InboundInv_setClient p s _ hbuf ?_
    rw [hmk, hhd, hdi]
    rcases hc with hc | hc | ⟨hp, hd, hcore⟩
    · exact Or.inl hc
    · exact Or.inr (Or.inl hc)
    · exact Or.inr (Or.inr ⟨hp, hd, (GetRequestBuffer_core params _ b1 hcore).1⟩)
  · rw [setClient_clients_self]
    exact hmk
  · rw [setClient_clients_self]
    exact hbp
  · intro hm hs
    rw [setClient_clients_self]
    rcases hc with hc | hc | ⟨_, _, hcore⟩
    · rw [hm] at hc; cases hc
    · rw [hs] at hc; cases hc
    · obtain ⟨g1, g2, g3⟩ := GetRequestBuffer_core params _ b1 hcore
      exact ⟨g2, g3, g1.2.2.1⟩

theorem on_read_nonpositive (params : Nat → Option VersionParameters)
    (DPA : Server → Server) (p : Nat) (now : Int) (nread : Int) (s : Server)
    (h : InboundInv s p) (hn : nread ≤ 0) :
    ∃ t, LocalClientsManager.on_read params DPA now p nread s = some t ∧ InboundInv t p := by
  unfold LocalClientsManager.on_read
  rw [if_pos hn]
  split
  · exact ⟨_, rfl, InboundInv_of_SessionKept h (DisconnectAndDelete_kept p false s).1⟩
  · exact ⟨_, rfl, h⟩

theorem on_read_positive (params : Nat → Option VersionParameters)
    (DPA : Server → Server) (p : Nat) (hDPA : ∀ x, SessionKept p x (DPA x)) (now : Int)
    (n : Nat) (s : Server) (h : InboundInv s p)
    (hbp : (s.clients p).m_bRequestIsBeingProcessed = false)
    (hsz : (s.clients p).m_bToBeDisconnected = false → s.m_bIsServerShuttingDown = false →
      (s.clients p).request.m_RequestSizeFound ≤ 0
      ∧ (s.clients p).request.m_Request_Index + n ≤ (s.clients p).request.m_Request_len)
    (hn1 : 1 ≤ n) :
    ∃ t, LocalClientsManager.on_read params DPA now p (n : Int) s = some t
      ∧ InboundInv t p := by
  unfold LocalClientsManager.on_read
  rw [if_neg (by omega)]
  by_cases hc : s.m_bIsServerShuttingDown = true ∨ (s.clients p).m_bToBeDisconnected = true
  · rw [if_pos hc]
    refine ⟨_, rfl, InboundInv_setClient p s _ ?_ ?_⟩
    · obtain ⟨b1, b2, _⟩ := h.1
      refine ⟨b1, b2, fun hx => ?_⟩
      have : (s.clients p).m_bRequestIsBeingProcessed = true := hx
      rw [hbp] at this
      cases this
    · rcases hc with hc | hc
      · exact Or.inr (Or.inl hc)
      · exact Or.inl hc
  · rw [if_neg hc]
    have hm : (s.clients p).m_bToBeDisconnected = false := by
      cases hx : (s.clients p).m_bToBeDisconnected
      · rfl
      · exact absurd (Or.inr hx) hc
    have hs : s.m_bIsServerShuttingDown = false := by
      cases hx : s.m_bIsServerShuttingDown
      · rfl
      · exact absurd (Or.inl hx) hc
    obtain ⟨z1, z2⟩ := hsz hm hs
    exact ExtractRequestOffTheBuffer_spec params DPA p hDPA now n s h hm hs hbp z1 hn1 z2

theorem ResetRequestBuffer_kept (c : stClient) :
    ResetRequestBuffer c = { c with request := (ResetRequestBuffer c).request }
    ∧ (ResetRequestBuffer c).request.m_Header = c.request.m_Header
    ∧ (ResetRequestBuffer c).request.parsed = c.request.parsed
    ∧ (ResetRequestBuffer c).request.m_Request_Index = 0
    ∧ (ResetRequestBuffer c).request.m_Request_len = 10
    ∧ (ResetRequestBuffer c).request.m_RequestSizeFound = c.request.m_RequestSizeFound
    ∧ (ResetRequestBuffer c).request.m_bRejectedPreviousRequestBytes
        = c.request.m_bRejectedPreviousRequestBytes
    ∧ (∀ mem, (ResetRequestBuffer c).request.allocated = some mem →
        c.request.allocated = some mem) := by
  unfold ResetRequestBuffer
  lift_lets
  intro r r1
  by_cases hc : r.allocated ≠ none
      ∧ (r.m_bStreaming = false ∨ r.m_bRequestMemoryAllocatedForStreaming = false)
  · have e : r1 = { r with allocated := none, m_bRequestMemoryAllocatedForStreaming := false } :=
      if_pos hc
    rw [e]
    exact ⟨rfl, rfl, rfl, rfl, rfl, rfl, rfl, fun _ hx => Option.noConfusion hx⟩
  · have e : r1 = r := if_neg hc
    rw [e]
    exact ⟨rfl, rfl, rfl, rfl, rfl, rfl, rfl, fun _ hx => hx⟩

theorem after_request_processing_thread_spec (DPA : Server → Server) (p : Nat)
    (hDPA : ∀ x, SessionKept p x (DPA x)) (now status : Int) (bM bD : Bool) (s : Server)
    (h : InboundInv s p) (hbp : (s.clients p).m_bRequestIsBeingProcessed = true) :
    InboundInv (after_request_processing_thread DPA now p status bM bD s) p := by
  unfold after_request_processing_thread
  by_cases hst : status < 0
  · rw [if_pos hst]
    exact InboundInv_of_SessionKept h (SessionKept_errors p s _)
  · rw [if_neg hst]
    lift_lets
    intro s1 sA src sB sC s2
    refine InboundInv_of_SessionKept ?_ (hDPA _)
    have k1 : SessionKept p s s1 := by
      show SessionKept p s (if _ then _ else _)
      split
      · exact (MarkToDisconnect_kept p true s).1
      · exact SessionKept_refl p s
    have h1 : InboundInv s1 p := InboundInv_of_SessionKept h k1
    have hbp1 : (s1.clients p).m_bRequestIsBeingProcessed = true := k1.2.1.trans hbp
    by_cases hd : bD = false
    · have e2 : s2 = (if (sC.clients p).m_bToBeDisconnected = true then
          (DisconnectAndDelete p true sC).2 else sC) := if_pos hd
      rw [e2]
      obtain ⟨r1, r2, r3, r4, r5, r6, r7, r8⟩ := ResetRequestBuffer_kept (s1.clients p)
      obtain ⟨⟨b1, b2, b3⟩, hc⟩ := h1
      obtain ⟨d1, d2⟩ := b3 hbp1
      have hAc : sA.clients p = ResetRequestBuffer (s1.clients p) :=
        setClient_clients_self _ _ _
      have hB : InboundInv sB p := by
        refine InboundInv_setClient p sA _ ?_ ?_
        · show BufferInv (sA.clients p).request false
          rw [hAc]
          exact ⟨by rw [r2]; exact b1, by rw [r3]; exact b2, fun hx => by cases hx⟩
        · show (sA.clients p).m_bToBeDisconnected = true ∨ s1.m_bIsServerShuttingDown = true
            ∨ (mapFind s1.m_ClientsMap (sA.clients p).m_ClientHandle.m_ClientRegistrationNumber
                = some p
              ∧ (sA.clients p).m_bDisconnectInitiated = false
              ∧ CoreInv (sA.clients p).request)
          rw [hAc]
          have e1 : (ResetRequestBuffer (s1.clients p)).m_bToBeDisconnected
              = (s1.clients p).m_bToBeDisconnected := by rw [r1]
          have e2 : (ResetRequestBuffer (s1.clients p)).m_ClientHandle
              = (s1.clients p).m_ClientHandle := by rw [r1]
          have e3 : (ResetRequestBuffer (s1.clients p)).m_bDisconnectInitiated
              = (s1.clients p).m_bDisconnectInitiated := by rw [r1]
          rw [e1, e2, e3]
          rcases hc with hc | hc | ⟨hp, hdi, c1, c2, _, _, _, _⟩
          · exact Or.inl hc
          · exact Or.inr (Or.inl hc)
          · refine Or.inr (Or.inr ⟨hp, hdi, by rw [r7]; exact c1,
              fun mem hmem => c2 mem (r8 mem hmem), by rw [r4]; exact Nat.zero_le _,
              by rw [r5]; decide, Or.inl r5, ?_⟩)
            intro hx
            rw [r6] at hx
            omega
      have kC : SessionKept p sB sC := DecreaseCountForClient_kept p REQUESTCOUNT now sB
      have hC : InboundInv sC p := InboundInv_of_SessionKept hB kC
      split
      · exact InboundInv_of_SessionKept hC (DisconnectAndDelete_kept p true sC).1
      · exact hC
    · have e2 : s2 = s1 := if_neg hd
      rw [e2]
      exact h1

theorem inboundStep_spec (params : Nat → Option VersionParameters)
    (DPA : Server → Server) (p : Nat) (hDPA : ∀ x, SessionKept p x (DPA x))
    (e : InboundEvent) (s : Server) (h : InboundInv s p) :
    ∃ t, inboundStep params DPA p e s = some t ∧ InboundInv t p := by
  cases e with
  | bytes now data =>
    unfold inboundStep
    simp only
    by_cases hr : (s.clients p).m_bIsReadStarted = true
    · rw [if_pos hr]
      obtain ⟨s1, a1, a2, a3, a4, a5, a6, a7⟩ := alloc_buffer_spec params p s h
      rw [a1]
      simp only
      by_cases hz : (GetRequestBuffer params (s.clients p)).1 = 0
      · rw [if_pos hz]
        exact on_read_nonpositive params DPA p now UV_ENOBUFS s1 a2 (by decide)
      · rw [if_neg hz]
        have hbp : (s.clients p).m_bRequestIsBeingProcessed = false := by
          cases hb : (s.clients p).m_bRequestIsBeingProcessed
          · rfl
          · exact absurd (a6 hb) hz
        have hbp1 : (s1.clients p).m_bRequestIsBeingProcessed = false := a5.trans hbp
        obtain ⟨q1, q2, q3, q4, q5, q6⟩ := store_kept (s1.clients p).request
          (data.take (GetRequestBuffer params (s.clients p)).1)
        have h2 : InboundInv
            (s1.setClient p
              { s1.clients p with
                request := (s1.clients p).request.store
                  (data.take (GetRequestBuffer params (s.clients p)).1) }) p := by
          refine InboundInv_setClient p s1 _ (store_buffer _ _ _ a2.1) ?_
          rcases a2.2 with hc | hc | ⟨hp, hd, hcore⟩
          · exact Or.inl hc
          · exact Or.inr (Or.inl hc)
          · by_cases hm : (s.clients p).m_bToBeDisconnected = false
                ∧ s.m_bIsServerShuttingDown = false
            · exact Or.inr (Or.inr ⟨hp, hd,
                store_core _ _ a2.1.1 (a7 hm.1 hm.2).1 hcore⟩)
            · cases hm1 : (s.clients p).m_bToBeDisconnected
              · cases hm2 : s.m_bIsServerShuttingDown
                · exact absurd ⟨hm1, hm2⟩ hm
                · exact Or.inr (Or.inl (a4.trans hm2))
              · exact Or.inl (a3.trans hm1)
        by_cases hlen : (data.take (GetRequestBuffer params (s.clients p)).1).length = 0
        · rw [hlen]
          exact on_read_nonpositive params DPA p now _ _ h2 (by decide)
        · refine on_read_positive params DPA p hDPA now _ _ h2 ?_ ?_ (by omega)
          · rw [setClient_clients_self]
            exact hbp1
          · rw [setClient_clients_self]
            intro hm hs
            have hm0 : (s.clients p).m_bToBeDisconnected = false := a3.symm.trans hm
            have hs0 : s.m_bIsServerShuttingDown = false := a4.symm.trans hs
            obtain ⟨z1, z2, z3⟩ := a7 hm0 hs0
            refine ⟨by show ((s1.clients p).request.store _).m_RequestSizeFound ≤ 0
                       rw [q3]; exact z1, ?_⟩
            show ((s1.clients p).request.store _).m_Request_Index + _
              ≤ ((s1.clients p).request.store _).m_Request_len
            rw [q1, q2]
            have : (data.take (GetRequestBuffer params (s.clients p)).1).length
                ≤ (GetRequestBuffer params (s.clients p)).1 := by
              rw [List.length_take]
              exact Nat.min_le_left _ _
            omega
    · rw [if_neg hr]
      exact ⟨s, rfl, h⟩
  | readError now code =>
    unfold inboundStep
    simp only
    by_cases hr : (s.clients p).m_bIsReadStarted = true ∧ code < 0
    · rw [if_pos hr]
      obtain ⟨s1, a1, a2, _⟩ := alloc_buffer_spec params p s h
      rw [a1]
      simp only
      exact on_read_nonpositive params DPA p now code s1 a2 (by omega)
    · rw [if_neg hr]
      exact ⟨s, rfl, h⟩
  | completed now status bM bD =>
    unfold inboundStep
    simp only
    by_cases hb : (s.clients p).m_bRequestIsBeingProcessed = true
    · rw [if_pos hb]
      exact ⟨_, rfl, after_request_processing_thread_spec DPA p hDPA now status bM bD s h hb⟩
    · rw [if_neg hb]
      exact ⟨s, rfl, h⟩
  | SetStreamingMode bMode =>
    unfold inboundStep
    simp only
    refine ⟨_, rfl, InboundInv_setClient p s _ ?_ ?_⟩
    · exact h.1
    · rcases h.2 with hc | hc | ⟨hp, hd, hcore⟩
      · exact Or.inl hc
      · exact Or.inr (Or.inl hc)
      · exact Or.inr (Or.inr ⟨hp, hd, hcore⟩)

theorem runInbound_spec (params : Nat → Option VersionParameters)
    (DPA : Server → Server) (p : Nat) (hDPA : ∀ x, SessionKept p x (DPA x)) :
    ∀ (events : List InboundEvent) (s : Server), InboundInv s p →
      ∃ t, runInbound params DPA p events s = some t ∧ InboundInv t p := by
  intro events
  induction events with
  | nil => intro s h; exact ⟨s, rfl, h⟩
  | cons e rest ih =>
    intro s h
    obtain ⟨t, a1, a2⟩ := inboundStep_spec params DPA p hDPA e s h
    obtain ⟨u, b1, b2⟩ := ih t a2
    refine ⟨u, ?_, b2⟩
    rw [runInbound, a1]
    exact b1

theorem FreshSession_inv (s : Server) (p : Nat) (h : FreshSession s p) : InboundInv s p := by
  obtain ⟨h1, h2, h3, h4, h5⟩ := h
  unfold InboundInv
  rw [h1, h2]
  have hb : BufferInv ({} : RequestSide) false :=
    ⟨by decide, fun x hx => (by cases hx), fun hx => (by cases hx)⟩
  have hcore : CoreInv ({} : RequestSide) :=
    ⟨rfl, fun mem hx => Option.noConfusion hx, by decide, by decide, Or.inl rfl,
      fun hx => absurd hx (by decide)⟩
  exact ⟨hb, Or.inr (Or.inr ⟨h5, h4, hcore⟩)⟩

theorem bytes_while_processing (params : Nat → Option VersionParameters)
    (DPA : Server → Server) (p : Nat) (now : Int) (data : List Byte) (s : Server)
    (h : InboundInv s p) (hbp : (s.clients p).m_bRequestIsBeingProcessed = true) :
    ∃ u, inboundStep params DPA p (InboundEvent.bytes now data) s = some u
      ∧ (u.clients p).request.parsed = (s.clients p).request.parsed := by
  unfold inboundStep
  simp only
  by_cases hr : (s.clients p).m_bIsReadStarted = true
  · rw [if_pos hr]
    have hg := GetRequestBuffer_processing params (s.clients p) (h.1.2.2 hbp)
    have ha : LocalClientsManager.alloc_buffer params p s
        = some (0, s.setClient p (s.clients p)) := by
      unfold LocalClientsManager.alloc_buffer
      rw [hg]
      exact if_neg (fun hx => hx.1 rfl)
    rw [ha]
    simp only [if_true]
    unfold LocalClientsManager.on_read
    rw [if_pos (by decide), if_neg (fun hx => hx.1 rfl)]
    refine ⟨_, rfl, ?_⟩
    rw [setClient_clients_self]
  · rw [if_neg hr]
    exact ⟨s, rfl, rfl⟩

/-- Claim C17. Take a session as the constructor and `on_new_connection` leave it, and
any sequence of its events: reads of any bytes in pieces of any size, read errors, ends of
the work items of its requests, and calls of `SetStreamingMode`; `DoPeriodicActivities`
may do anything that keeps the inbound members of the session. Then no assertion of
`CreateRequestAndQueue` or `alloc_buffer` fails on the way; every call of the parser that
returned `REQUEST_FOUND` was made with `m_Request_Index == m_Request.len`; and while a
request of the session is being processed, `GetRequestBuffer` offers 0 bytes and a read
ends without a call of the parser. -/
theorem C17_request_found_only_at_end_of_buffer (params : Nat → Option VersionParameters)
    (DPA : Server → Server) (p : Nat) (s0 : Server) (events : List InboundEvent)
    (hDPA : ∀ x, SessionKept p x (DPA x)) (h0 : FreshSession s0 p) :
    ∃ t, runInbound params DPA p events s0 = some t
      ∧ (∀ x ∈ (t.clients p).request.parsed, x.1 = REQUEST_FOUND → x.2.1 = x.2.2)
      ∧ ((t.clients p).m_bRequestIsBeingProcessed = true →
          (GetRequestBuffer params (t.clients p)).1 = 0
          ∧ ∀ (now : Int) (data : List Byte),
              ∃ u, inboundStep params DPA p (InboundEvent.bytes now data) t = some u
                ∧ (u.clients p).request.parsed = (t.clients p).request.parsed) := by
  obtain ⟨t, a1, a2⟩ := runInbound_spec params DPA p hDPA events s0 (FreshSession_inv s0 p h0)
  refine ⟨t, a1, a2.1.2.1, fun hb => ⟨?_, fun now data => ?_⟩⟩
  · rw [GetRequestBuffer_processing params (t.clients p) (a2.1.2.2 hb)]
  · exact bytes_while_processing params DPA p now data t a2 hb

theorem C17_request_found_only_at_end_of_buffer_witness :
    ((∀ x, SessionKept 100 x ((fun (y : Server) => y) x)) ∧ FreshSession twoSessions 100)
    ∧ ∃ t, runInbound sampleParams (fun y => y) 100 sampleInboundEvents twoSessions = some t
      ∧ (∀ x ∈ (t.clients 100).request.parsed, x.1 = REQUEST_FOUND → x.2.1 = x.2.2)
      ∧ ((t.clients 100).m_bRequestIsBeingProcessed = true →
          (GetRequestBuffer sampleParams (t.clients 100)).1 = 0
          ∧ ∀ (now : Int) (data : List Byte),
              ∃ u, inboundStep sampleParams (fun y => y) 100 (InboundEvent.bytes now data) t
                  = some u
                ∧ (u.clients 100).request.parsed = (t.clients 100).request.parsed) :=
  ⟨⟨fun x => SessionKept_refl 100 x, ⟨rfl, rfl, rfl, rfl, by unfold InPool; decide⟩⟩,
    C17_request_found_only_at_end_of_buffer sampleParams (fun y => y) 100 twoSessions
      sampleInboundEvents (fun x => SessionKept_refl 100 x) ⟨rfl, rfl, rfl, rfl, by unfold InPool; decide⟩⟩

end Pulsar
